import Mathlib

/-!
# CAPE-OPEN mixer/splitter unit operation

A shallow embedding of the C++ example unit operation (`CPPMixerSplitterexample`):
the base identification/error object, the material port, the real parameter, the
collection, the unit operation with `Validate`, `Calculate`, `Edit`, `Load`, `Save`
and `GetSizeMax`, the calls of the host as a step function on the state of the unit
operation, and the two wrappers of the host's material objects.

Conventions of the embedding

* A C++ `double` is a `Dbl`: not-a-number or a finite rational value.  Rounding,
  infinities and the sign of zero are outside the model.
* A `wstring` is a `String`; a `BSTR` is an `Option String` (`none` is the NULL BSTR).
* A pointer argument is an `Option` of its pointee (`none` is the NULL pointer).
* The host's material objects are seen through the `Material` facade: every facade
  method is a field giving the host's answer (`Except.error` carries the text the
  facade puts in its `error` argument).
* `Calculate` returns, next to its `HRESULT` and the updated object, the list of the
  requests it made to material objects, in order.
* A stream is the list of its bytes; a string written to or read from a stream holds
  its characters up to the first zero character.
* For the two wrappers a host object is a function from the calls made so far to the
  answer to the last of them, and a method returns the calls it made with their
  answers.
-/

namespace MixerSplitter

/-! ## Numbers and strings -/

/-- A C++ `double`: not-a-number, or a finite value. -/
inductive Dbl where
  | nan
  | fin (q : ℚ)
deriving DecidableEq

namespace Dbl

/-- Predicate `_isnan`. -/
def isnan : Dbl → Bool
  | nan => true
  | fin _ => false

/-- Addition `a+b`; not-a-number is absorbing. -/
def add : Dbl → Dbl → Dbl
  | fin a, fin b => fin (a + b)
  | _, _ => nan

/-- Subtraction `a-b`. -/
def sub : Dbl → Dbl → Dbl
  | fin a, fin b => fin (a - b)
  | _, _ => nan

/-- Multiplication `a*b`. -/
def mul : Dbl → Dbl → Dbl
  | fin a, fin b => fin (a * b)
  | _, _ => nan

/-- Division `a/b`.  The model has no infinities: a division by zero gives `nan`.
The one division of the source that can meet a zero divisor is `1.0/d` in the
zero-flow averaging of `Calculate`, whose quotient is only multiplied by sums that
are zero or not-a-number, which gives not-a-number in IEEE arithmetic as well. -/
def div : Dbl → Dbl → Dbl
  | fin a, fin b => if b = 0 then nan else fin (a / b)
  | _, _ => nan

/-- Comparison `a<b`; false when an operand is not-a-number. -/
def lt : Dbl → Dbl → Bool
  | fin a, fin b => decide (a < b)
  | _, _ => false

/-- Comparison `a>b`. -/
def gt (a b : Dbl) : Bool := lt b a

/-- Comparison `a==b`; false when an operand is not-a-number. -/
def eq : Dbl → Dbl → Bool
  | fin a, fin b => decide (a = b)
  | _, _ => false

/-- Comparison `a!=b`; true when an operand is not-a-number. -/
def ne (a b : Dbl) : Bool := !(eq a b)

instance : Add Dbl := ⟨add⟩
instance : Sub Dbl := ⟨sub⟩
instance : Mul Dbl := ⟨mul⟩
instance : Div Dbl := ⟨div⟩
instance : Zero Dbl := ⟨fin 0⟩
instance : One Dbl := ⟨fin 1⟩

end Dbl

/-- A `BSTR`: NULL or a string. -/
abbrev BSTR := Option String

/-- Lower-case form of a wide string, character by character. -/
def lowerW (s : String) : List Char := s.data.map Char.toLower

/-- The test `lstrcmpiW(str1,str2)==0` of the Win32 API: equality of two strings
without regard to case. -/
def lstrcmpiW_zero (str1 str2 : String) : Bool := lowerW str1 == lowerW str2

/-- `CBSTR::Same`: true if two BSTR or string values are equivalent; a NULL value
denotes the empty string. -/
def CBSTR.Same (str1 str2 : BSTR) : Bool :=
  match str1, str2 with
  | some s1, some s2 => lstrcmpiW_zero s1 s2
  | some s1, none => s1.data.isEmpty
  | none, none => true
  | none, some s2 => s2.data.isEmpty

/-! ## Status codes and enumerations -/

/-- The `HRESULT` values the code returns.  `NOERROR`, `NO_ERROR` and `S_OK` are the
same code. -/
inductive HRESULT where
  | NOERROR
  | S_FALSE
  | E_POINTER
  | E_FAIL
  | ECapeUnknownHR
deriving DecidableEq, Repr

/-- The code `S_OK`, equal to `NOERROR`. -/
abbrev HRESULT.S_OK : HRESULT := HRESULT.NOERROR

/-- Validation status of the unit operation. -/
inductive CapeValidationStatus where
  | CAPE_INVALID
  | CAPE_NOT_VALIDATED
  | CAPE_VALID
deriving DecidableEq, Repr

/-- Direction of a port. -/
inductive CapePortDirection where
  | CAPE_INLET
  | CAPE_OUTLET
  | CAPE_INLET_OUTLET
deriving DecidableEq, Repr

/-! ## CAPEOPENBaseObject -/

/-- Member variables of `CAPEOPENBaseObject`. -/
structure CAPEOPENBaseObject where
  canRename : Bool
  name : String
  description : String
  errDesc : String
  errIface : String
  errScope : String
  dirty : Bool

/-- Constructor `CAPEOPENBaseObject::CAPEOPENBaseObject`: name and description are
optional. -/
def CAPEOPENBaseObject.ctor (canRename : Bool) (name : Option String)
    (description : Option String) : CAPEOPENBaseObject :=
  { canRename := canRename
    name := name.getD ""
    description := description.getD ""
    errDesc := ""
    errIface := ""
    errScope := ""
    dirty := false }

/-- `CAPEOPENBaseObject::SetError`: store description, interface and scope of the
last error. -/
def CAPEOPENBaseObject.SetError (o : CAPEOPENBaseObject) (desc iface scope : String) :
    CAPEOPENBaseObject :=
  { o with errDesc := desc, errScope := scope, errIface := iface }

/-! ## Material facade -/

/-- The methods of the `Material` facade other than `Duplicate`, each as the answer
the host gives through the wrapper.  A `CVariant` that passed `CheckArray` is the
list of its elements; `GetCount` is the length of the list. -/
structure MaterialObjectWrapper where
  GetCompoundIDs : Except String (List BSTR)
  GetSinglePhasePropList : Except String (List BSTR)
  GetOverallProperty : String → Option String → Except String (List Dbl)
  GetListOfPresentPhases : Except String (List BSTR)
  CalcSinglePhaseProperty : String → BSTR → Except String Unit
  GetSinglePhaseProperty : String → BSTR → Option String → Option String →
    Except String (List Dbl)
  GetTemperatureFromPHFlash : List Dbl → Dbl → Dbl → Except String Dbl
  SetFromFlowTPX : List Dbl → Dbl → Dbl → Dbl → Except String Unit

/-- A `Material` obtained from a connected port: the facade methods and `Duplicate`,
which gives a new material on success. -/
structure Material extends MaterialObjectWrapper where
  Duplicate : Except String MaterialObjectWrapper

/-! ## CMaterialPort -/

/-- Member variables of `CMaterialPort`.  `mat10` is the connected version 1.0
material object, `mat11` the connected version 1.1 material object; each is given by
what the facade obtains from it. -/
structure CMaterialPort extends CAPEOPENBaseObject where
  mat10 : Option Material
  mat11 : Option Material
  direction : CapePortDirection

/-- `CMaterialPort::CreateMaterialPort`: a port that cannot be renamed and is not
connected. -/
def CMaterialPort.CreateMaterialPort (name description : String)
    (direction : CapePortDirection) : CMaterialPort :=
  { CAPEOPENBaseObject.ctor false none none with
    name := name
    description := description
    mat10 := none
    mat11 := none
    direction := direction }

/-- `CMaterialPort::IsConnected`. -/
def CMaterialPort.IsConnected (p : CMaterialPort) : Bool :=
  p.mat10.isSome || p.mat11.isSome

/-- `CMaterialPort::GetMaterial`: the version 1.1 material if there is one, else the
version 1.0 material.  Only to be called on a connected port. -/
def CMaterialPort.GetMaterial (p : CMaterialPort) : Option Material :=
  match p.mat11 with
  | some m => some m
  | none => p.mat10

/-! ## CRealParameter -/

/-- Member variables of `CRealParameter`.  The member `valStatus` of the source
points to the validation status of the owning unit operation: the operations that
write through it take the unit operation's status and return the new one. -/
structure CRealParameter extends CAPEOPENBaseObject where
  minVal : Dbl
  maxVal : Dbl
  defVal : Dbl
  value : Dbl
  dimensionality : List Dbl

/-- `CRealParameter::CreateParameter`. -/
def CRealParameter.CreateParameter (name description : String) (minVal maxVal defVal : Dbl)
    (dimensionality : List Dbl) : CRealParameter :=
  { CAPEOPENBaseObject.ctor false none none with
    name := name
    description := description
    minVal := minVal
    maxVal := maxVal
    defVal := defVal
    value := defVal
    dimensionality := dimensionality }

/-! ## CCollection -/

/-- Member variables of `CCollection`. -/
structure CCollection (α : Type) extends CAPEOPENBaseObject where
  items : List α

/-- `CCollection::CreateCollection`: an empty collection. -/
def CCollection.CreateCollection {α : Type} (name description : String) : CCollection α :=
  { CAPEOPENBaseObject.ctor false none none with
    name := name
    description := description
    items := [] }

/-- `CCollection::AddItem`: append an item. -/
def CCollection.AddItem {α : Type} (c : CCollection α) (newItem : α) : CCollection α :=
  { c with items := c.items ++ [newItem] }

/-! ## CCPPMixerSplitterUnitOperation -/

/-- Member variables of `CCPPMixerSplitterUnitOperation`.  The member `nCompounds` is
not set by the constructor of the source; the embedding starts it at zero. -/
structure CCPPMixerSplitterUnitOperation extends CAPEOPENBaseObject where
  valStatus : CapeValidationStatus
  portCollection : CCollection CMaterialPort
  parameterCollection : CCollection CRealParameter
  nCompounds : Nat
  selectedReportIndex : Int

namespace CCPPMixerSplitterUnitOperation

/-- Constructor `CCPPMixerSplitterUnitOperation::CCPPMixerSplitterUnitOperation`:
four ports (two feeds, two products) and two parameters (split factor with bounds
0 and 1 and default 0.5; heat input without bounds and default 0). -/
def ctor : CCPPMixerSplitterUnitOperation :=
  let portCollection : CCollection CMaterialPort :=
    CCollection.CreateCollection "Port collection" "Port collection for CPP Mixer Splitter"
  let portCollection := portCollection.AddItem
    (CMaterialPort.CreateMaterialPort "Feed 1"
      "Feed port for CPP Mixer Splitter Unit Operation example" CapePortDirection.CAPE_INLET)
  let portCollection := portCollection.AddItem
    (CMaterialPort.CreateMaterialPort "Feed 2"
      "Feed port for CPP Mixer Splitter Unit Operation example" CapePortDirection.CAPE_INLET)
  let portCollection := portCollection.AddItem
    (CMaterialPort.CreateMaterialPort "Product 1"
      "Product port for CPP Mixer Splitter Unit Operation example"
      CapePortDirection.CAPE_OUTLET)
  let portCollection := portCollection.AddItem
    (CMaterialPort.CreateMaterialPort "Product 2"
      "Product port for CPP Mixer Splitter Unit Operation example"
      CapePortDirection.CAPE_OUTLET)
  let parameterCollection : CCollection CRealParameter :=
    CCollection.CreateCollection "Parameter collection"
      "Parameter collection for CPP Mixer Splitter"
  let parameterCollection := parameterCollection.AddItem
    (CRealParameter.CreateParameter "Split factor"
      "Split factor: fraction of product that goes to Product 1 stream"
      (Dbl.fin 0) (Dbl.fin 1) (Dbl.fin (1 / 2)) [])
  let parameterCollection := parameterCollection.AddItem
    (CRealParameter.CreateParameter "Heat input"
      "Heat input: energy added to the total product"
      Dbl.nan Dbl.nan (Dbl.fin 0) [Dbl.fin 2, Dbl.fin 1, Dbl.fin (-3)])
  { CAPEOPENBaseObject.ctor true (some "CPP Mixer Splitter Example")
      (some ("Microsoft Visual C++ 2005 Mixer and Splitter Example according to " ++
        "CAPE-OPEN Unit Operation specification")) with
    valStatus := CapeValidationStatus.CAPE_NOT_VALIDATED
    dirty := false
    selectedReportIndex := -1
    portCollection := portCollection
    parameterCollection := parameterCollection
    nCompounds := 0 }

/-! ### Validate -/

/-- First loop of `Validate`: over all ports from index `i` on, record whether a
connected feed (index below 2) and a connected product have been seen. -/
def Validate.scanPorts : List CMaterialPort → Nat → Bool × Bool → Bool × Bool
  | [], _, have_ => have_
  | port :: rest, i, (haveConnectedFeed, haveConnectedProduct) =>
    if port.IsConnected then
      if i < 2 then Validate.scanPorts rest (i + 1) (true, haveConnectedProduct)
      else Validate.scanPorts rest (i + 1) (haveConnectedFeed, true)
    else Validate.scanPorts rest (i + 1) (haveConnectedFeed, haveConnectedProduct)

/-- The flag `same` of `Validate`: equal counts and every pair of compounds at the
same position passes `CBSTR::Same`. -/
def Validate.same (compList1 compList2 : List BSTR) : Bool :=
  if compList1.length ≠ compList2.length then false
  else (compList1.zip compList2).all (fun c => CBSTR.Same c.1 c.2)

/-- Loop `j` of `Validate`: compare the compound list of every further connected
port with the first list; the result is the message of the first failure, if any. -/
def Validate.compareOthers (portName1 : String) (compList1 : List BSTR) :
    List CMaterialPort → Option String
  | [] => none
  | port :: rest =>
    if port.IsConnected then
      match port.GetMaterial with
      | some material =>
        match material.GetCompoundIDs with
        | Except.error error => some error
        | Except.ok compList2 =>
          if !(Validate.same compList1 compList2) then
            some ("Compound list on material connected to port " ++ portName1 ++
              " is not the same as compound list on material connected to port " ++
              port.name ++ ".")
          else Validate.compareOthers portName1 compList1 rest
      | none => Validate.compareOthers portName1 compList1 rest
    else Validate.compareOthers portName1 compList1 rest

/-- Loop `i` of the compound check of `Validate`: find the first connected port, get
its compound list, store its count, and compare the other ports with it.  The result
is the message of the first failure, if any, and the new value of `nCompounds`, if
it was written. -/
def Validate.checkCompounds : List CMaterialPort → Option String × Option Nat
  | [] => (none, none)
  | port :: rest =>
    if port.IsConnected then
      match port.GetMaterial with
      | some material =>
        match material.GetCompoundIDs with
        | Except.error error => (some error, none)
        | Except.ok compList1 =>
          (Validate.compareOthers port.name compList1 rest, some compList1.length)
      | none => Validate.checkCompounds rest
    else Validate.checkCompounds rest

/-- Enthalpy check of `Validate`: on the first connected port, get the list of
single-phase properties and look for enthalpy.  The result is the message of the
failure, if any. -/
def Validate.checkEnthalpy : List CMaterialPort → Option String
  | [] => none
  | port :: rest =>
    if port.IsConnected then
      match port.GetMaterial with
      | some material =>
        match material.GetSinglePhasePropList with
        | Except.error error => some error
        | Except.ok propList =>
          if propList.any (fun prop => CBSTR.Same prop (some "enthalpy")) then none
          else some ("Property Enthalpy is not available. " ++
            "Enthalpy is required by this unit operation.")
      | none => Validate.checkEnthalpy rest
    else Validate.checkEnthalpy rest

/-- Outcome of `Validate`: the returned code, the pointees of `message` and `isValid`
after the call (`none` for a NULL pointer), and the object after the call. -/
structure ValidateResult where
  hr : HRESULT
  message : Option BSTR
  isValid : Option Bool
  self : CCPPMixerSplitterUnitOperation

/-- `ICapeUnit::Validate`. -/
def Validate (u : CCPPMixerSplitterUnitOperation) (message : Option BSTR)
    (isValid : Option Bool) : ValidateResult :=
  match message, isValid with
  | some _, some _ =>
    -- assume innocent, until proven guilty; free what is in message
    let isValid := true
    let message : BSTR := none
    -- we need at least one connected feed and one connected product
    let (haveConnectedFeed, haveConnectedProduct) :=
      Validate.scanPorts u.portCollection.items 0 (false, false)
    let (message, isValid) : BSTR × Bool :=
      if !haveConnectedFeed then
        (some "At least one feed port must be connected.", false)
      else if !haveConnectedProduct then
        (some "At least one product port must be connected.", false)
      else (message, isValid)
    -- the list of compounds on each port must be the same
    let (message, isValid, nCompounds) : BSTR × Bool × Nat :=
      if isValid then
        match Validate.checkCompounds u.portCollection.items with
        | (some error, n) => (some error, false, n.getD u.nCompounds)
        | (none, n) => (message, isValid, n.getD u.nCompounds)
      else (message, isValid, u.nCompounds)
    -- this unit needs enthalpy
    let (message, isValid) : BSTR × Bool :=
      if isValid then
        match Validate.checkEnthalpy u.portCollection.items with
        | some error => (some error, false)
        | none => (message, isValid)
      else (message, isValid)
    -- update the validation status
    { hr := HRESULT.NOERROR
      message := some message
      isValid := some isValid
      self := { u with
        nCompounds := nCompounds
        valStatus := if isValid then CapeValidationStatus.CAPE_VALID
          else CapeValidationStatus.CAPE_INVALID } }
  | _, _ => { hr := HRESULT.E_POINTER, message := message, isValid := isValid, self := u }

end CCPPMixerSplitterUnitOperation

/-! ## Requests to material objects -/

/-- A request of `Calculate` to a material object.  `port` is the index, in the port
collection, of the port the material was obtained from; the requests on a duplicate
material carry the index of the feed port whose material was duplicated. -/
inductive Request where
  | GetOverallProperty (port : Nat) (propName : String) (basis : Option String)
  | Duplicate (port : Nat)
  | GetListOfPresentPhases (port : Nat)
  | GetSinglePhaseProperty (port : Nat) (propName : String) (phaseName : BSTR)
      (calcType basis : Option String)
  | CalcSinglePhaseProperty (port : Nat) (propName : String) (phaseName : BSTR)
  | GetTemperatureFromPHFlash (port : Nat) (composition : List Dbl) (P H : Dbl)
  | SetFromFlowTPX (port : Nat) (composition : List Dbl) (flow T P : Dbl)
deriving DecidableEq

/-- Why a run of `Calculate` stops early: an error that is reported with `SetError`
and `ECapeUnknownHR`, or a step the source does not define (an assertion of the
source is violated). -/
inductive Abort where
  | error (desc : String)
  | undefined
deriving DecidableEq

/-- A computation that makes requests to material objects: the requests made, in
order, and either a value or the reason for stopping. -/
abbrev Traced (α : Type) := List Request × Except Abort α

namespace Traced

/-- Finish with a value, without a request. -/
def ret {α : Type} (a : α) : Traced α := ([], Except.ok a)

/-- Stop with an error description, without a request. -/
def fail {α : Type} (desc : String) : Traced α := ([], Except.error (Abort.error desc))

/-- One request to a material object, with the answer of the host. -/
def call {α : Type} (req : Request) (answer : Except String α) : Traced α :=
  match answer with
  | Except.ok a => ([req], Except.ok a)
  | Except.error desc => ([req], Except.error (Abort.error desc))

/-- Sequencing: the second computation runs only if the first gave a value. -/
def andThen {α β : Type} (x : Traced α) (f : α → Traced β) : Traced β :=
  match x with
  | (reqs, Except.ok a) => ((reqs ++ (f a).1), (f a).2)
  | (reqs, Except.error e) => (reqs, Except.error e)

instance : Monad Traced where
  pure := ret
  bind := andThen

end Traced

/-- `CVariant::GetDoubleAt` on a checked array of reals.  The source asserts that the
index is below the count; every use in `Calculate` follows a check of the count. -/
def GetDoubleAt (value : List Dbl) (index : Nat) : Dbl := value.getD index Dbl.nan

namespace CCPPMixerSplitterUnitOperation

/-! ### Calculate -/

/-- The local variables of `Calculate` that the feed loop accumulates.  The member
`duplicateMaterial` holds the last duplicate obtained, with the index of its feed. -/
structure FeedTotals where
  pressure : Dbl
  totalFlow : Dbl
  componentFlows : List Dbl
  enthalpy : Dbl
  duplicateMaterial : Option (Nat × MaterialObjectWrapper)

/-- Loop `k` of `Calculate`: add the enthalpy contribution of every present phase of
feed `i` with a positive phase fraction. -/
def Calculate.phaseLoop (i : Nat) (duplicateMaterial : MaterialObjectWrapper) (flow : Dbl) :
    List BSTR → Dbl → Traced Dbl
  | [], enthalpy => Traced.ret enthalpy
  | phaseName :: rest, enthalpy => do
    let value ← Traced.call
      (Request.GetSinglePhaseProperty i "phaseFraction" phaseName none (some "mole"))
      (duplicateMaterial.GetSinglePhaseProperty "phaseFraction" phaseName none (some "mole"))
    if value.length ≠ 1 then
      Traced.fail "Invalid values for phase fraction from material object: scalar expected"
    else
      let phaseFraction := GetDoubleAt value 0
      if Dbl.gt phaseFraction (Dbl.fin 0) then do
        Traced.call (Request.CalcSinglePhaseProperty i "enthalpy" phaseName)
          (duplicateMaterial.CalcSinglePhaseProperty "enthalpy" phaseName)
        let value ← Traced.call
          (Request.GetSinglePhaseProperty i "enthalpy" phaseName (some "mixture") (some "mole"))
          (duplicateMaterial.GetSinglePhaseProperty "enthalpy" phaseName (some "mixture")
            (some "mole"))
        if value.length ≠ 1 then
          Traced.fail "Invalid values for enthalpy from material object: scalar expected"
        else
          Calculate.phaseLoop i duplicateMaterial flow rest
            (enthalpy + flow * phaseFraction * GetDoubleAt value 0)
      else Calculate.phaseLoop i duplicateMaterial flow rest enthalpy

/-- The statement `if ((pressure==0)||(d<pressure)) pressure=d;` of `Calculate`: the
new value of `pressure`. -/
def Calculate.selectPressure (pressure d : Dbl) : Dbl :=
  if Dbl.eq pressure (Dbl.fin 0) || Dbl.lt d pressure then d else pressure

/-- Body of the feed loop of `Calculate` for port `i`: minimum pressure, total flow,
component flows and enthalpy flow. -/
def Calculate.feedStep (nCompounds : Nat) (i : Nat) (port : CMaterialPort) (t : FeedTotals) :
    Traced FeedTotals :=
  if port.IsConnected then
    match port.GetMaterial with
    | some material => do
      -- get the pressure
      let value ← Traced.call (Request.GetOverallProperty i "pressure" none)
        (material.GetOverallProperty "pressure" none)
      if value.length ≠ 1 then
        Traced.fail "Invalid values for pressure from material object: scalar expected"
      else
        -- use minimum pressure
        let d := GetDoubleAt value 0
        let pressure := Calculate.selectPressure t.pressure d
        -- get total flow
        let value ← Traced.call (Request.GetOverallProperty i "totalFlow" (some "mole"))
          (material.GetOverallProperty "totalFlow" (some "mole"))
        if value.length ≠ 1 then
          Traced.fail "Invalid values for total flow from material object: scalar expected"
        else
          let flow := GetDoubleAt value 0
          if Dbl.gt flow (Dbl.fin 0) then do
            -- add to total flow
            let totalFlow := t.totalFlow + flow
            -- get the composition
            let value ← Traced.call (Request.GetOverallProperty i "fraction" (some "mole"))
              (material.GetOverallProperty "fraction" (some "mole"))
            if value.length ≠ nCompounds then
              Traced.fail ("Invalid values for overall fraction from material object: " ++
                "unexpected number of values")
            else
              -- add to component flows
              let componentFlows := (List.range nCompounds).map
                (fun j => GetDoubleAt t.componentFlows j + flow * GetDoubleAt value j)
              -- enthalpy contributions of present phases on duplicate material object
              let duplicateMaterial ← Traced.call (Request.Duplicate i) material.Duplicate
              let phaseList ← Traced.call (Request.GetListOfPresentPhases i)
                duplicateMaterial.GetListOfPresentPhases
              let enthalpy ← Calculate.phaseLoop i duplicateMaterial flow phaseList t.enthalpy
              Traced.ret
                { pressure := pressure
                  totalFlow := totalFlow
                  componentFlows := componentFlows
                  enthalpy := enthalpy
                  duplicateMaterial := some (i, duplicateMaterial) }
          else Traced.ret { t with pressure := pressure }
    | none => Traced.ret t
  else Traced.ret t

/-- Initial values of the accumulated variables of `Calculate`. -/
def Calculate.init (nCompounds : Nat) : FeedTotals :=
  { pressure := Dbl.fin 0
    totalFlow := Dbl.fin 0
    componentFlows := (List.range nCompounds).map (fun _ => Dbl.fin 0)
    enthalpy := Dbl.fin 0
    duplicateMaterial := none }

/-- Feed loop of `Calculate` over port items 0 and 1. -/
def Calculate.feedLoop (nCompounds : Nat) (feed1 feed2 : CMaterialPort) : Traced FeedTotals := do
  let t ← Calculate.feedStep nCompounds 0 feed1 (Calculate.init nCompounds)
  Calculate.feedStep nCompounds 1 feed2 t

/-- The local variables of the zero-flow averaging of `Calculate`. -/
structure Average where
  d : Dbl
  temperature : Dbl
  composition : List Dbl

/-- Body of the averaging loop of `Calculate` for port `i`, used when the total flow
is zero: count the connected feed, add its temperature and its composition. -/
def Calculate.averageStep (nCompounds : Nat) (i : Nat) (port : CMaterialPort) (a : Average) :
    Traced Average :=
  if port.IsConnected then
    match port.GetMaterial with
    | some material => do
      -- add to division
      let d := a.d + Dbl.fin 1
      -- get the temperature
      let value ← Traced.call (Request.GetOverallProperty i "temperature" none)
        (material.GetOverallProperty "temperature" none)
      if value.length ≠ 1 then
        Traced.fail "Invalid values for temperature from material object: scalar expected"
      else
        let temperature := a.temperature + GetDoubleAt value 0
        -- get the composition
        let value ← Traced.call (Request.GetOverallProperty i "fraction" (some "mole"))
          (material.GetOverallProperty "fraction" (some "mole"))
        if value.length ≠ nCompounds then
          Traced.fail ("Invalid values for overall fraction from material object: " ++
            "unexpected number of values")
        else
          Traced.ret
            { d := d
              temperature := temperature
              composition := (List.range nCompounds).map
                (fun j => GetDoubleAt a.composition j + GetDoubleAt value j) }
    | none => Traced.ret a
  else Traced.ret a

/-- Product composition and temperature of `Calculate`, from the accumulated feed
values and the heat input. -/
def Calculate.mix (nCompounds : Nat) (feed1 feed2 : CMaterialPort) (t : FeedTotals)
    (heatInput : Dbl) : Traced (List Dbl × Dbl) :=
  if Dbl.eq t.totalFlow (Dbl.fin 0) then
    if Dbl.ne heatInput (Dbl.fin 0) then
      Traced.fail
        "Total flow is zero. Cannot satisfy energy balance with non-zero heat input"
    else do
      -- temperature as average feed temperature, composition as average feed composition
      let a ← Calculate.averageStep nCompounds 0 feed1
        { d := Dbl.fin 0
          temperature := Dbl.fin 0
          composition := (List.range nCompounds).map (fun _ => Dbl.fin 0) }
      let a ← Calculate.averageStep nCompounds 1 feed2 a
      -- divide by d, if not unity
      if Dbl.ne a.d (Dbl.fin 1) then
        let d := Dbl.fin 1 / a.d
        Traced.ret ((List.range nCompounds).map (fun j => GetDoubleAt a.composition j * d),
          a.temperature * d)
      else Traced.ret (a.composition, a.temperature)
  else
    -- non-zero total flow; calculate composition
    let composition := (List.range nCompounds).map
      (fun j => GetDoubleAt t.componentFlows j / t.totalFlow)
    -- add the work to total enthalpy
    let enthalpy := t.enthalpy + heatInput
    let molarEnthalpy := enthalpy / t.totalFlow
    match t.duplicateMaterial with
    | some (i, duplicateMaterial) => do
      let temperature ← Traced.call
        (Request.GetTemperatureFromPHFlash i composition t.pressure molarEnthalpy)
        (duplicateMaterial.GetTemperatureFromPHFlash composition t.pressure molarEnthalpy)
      Traced.ret (composition, temperature)
    | none => ([], Except.error Abort.undefined)

/-- The total flow `Calculate` computes for the product stream of port `i`: with two
connected product ports the split factor for port 2 and one minus the split factor
for port 3, else the whole total flow.  The expressions are those of the source,
`totalFlow*splitFactor` and `totalFlow*(1.0-splitFactor)`; their arithmetic is that of
the type of the flows, so that they can be evaluated in the model `Dbl` and in the
binary64 arithmetic of the machine (`Binary64`). -/
def Calculate.productFlow {α : Type} [Mul α] [Sub α] [One α]
    (numberOfConnectedProductPorts : Nat) (totalFlow splitFactor : α) (i : Nat) : α :=
  if numberOfConnectedProductPorts = 2 then
    if i = 2 then totalFlow * splitFactor
    else totalFlow * (1 - splitFactor)
  else totalFlow

/-- Body of the product loop of `Calculate` for port `i`: flow of this stream, then
set the material from flow, composition, temperature and pressure. -/
def Calculate.productStep (numberOfConnectedProductPorts : Nat) (totalFlow splitFactor : Dbl)
    (composition : List Dbl) (temperature pressure : Dbl) (i : Nat) (port : CMaterialPort) :
    Traced Unit :=
  if port.IsConnected then
    match port.GetMaterial with
    | some material =>
      let flow := Calculate.productFlow numberOfConnectedProductPorts totalFlow splitFactor i
      Traced.call (Request.SetFromFlowTPX i composition flow temperature pressure)
        (material.SetFromFlowTPX composition flow temperature pressure)
    | none => Traced.ret ()
  else Traced.ret ()

/-- The part of `Calculate` that follows the check of the validation status. -/
def Calculate.body (nCompounds : Nat) (feed1 feed2 product1 product2 : CMaterialPort)
    (splitFactor heatInput : Dbl) : Traced Unit := do
  let t ← Calculate.feedLoop nCompounds feed1 feed2
  let (composition, temperature) ← Calculate.mix nCompounds feed1 feed2 t heatInput
  let numberOfConnectedProductPorts :=
    (if product1.IsConnected then 1 else 0) + (if product2.IsConnected then 1 else 0)
  Calculate.productStep numberOfConnectedProductPorts t.totalFlow splitFactor composition
    temperature t.pressure 2 product1
  Calculate.productStep numberOfConnectedProductPorts t.totalFlow splitFactor composition
    temperature t.pressure 3 product2

/-- Outcome of `Calculate`: the returned code, the object after the call, and the
requests made to material objects. -/
structure CalculateResult where
  hr : HRESULT
  self : CCPPMixerSplitterUnitOperation
  requests : List Request

/-- Method `SetError` on the unit operation. -/
def SetError (u : CCPPMixerSplitterUnitOperation) (desc iface scope : String) :
    CCPPMixerSplitterUnitOperation :=
  { u with toCAPEOPENBaseObject := u.toCAPEOPENBaseObject.SetError desc iface scope }

/-- `ICapeUnit::Calculate`.  There is no result (`none`) where the source indexes a
collection outside its items or violates one of its own assertions. -/
def Calculate (u : CCPPMixerSplitterUnitOperation) : Option CalculateResult :=
  if u.valStatus = CapeValidationStatus.CAPE_INVALID then
    some { hr := HRESULT.ECapeUnknownHR
           self := u.SetError "Unit is not valid" "ICapeUnit" "Calculate"
           requests := [] }
  else if u.valStatus = CapeValidationStatus.CAPE_NOT_VALIDATED then
    some { hr := HRESULT.ECapeUnknownHR
           self := u.SetError "Unit has not been validated" "ICapeUnit" "Calculate"
           requests := [] }
  else
    match u.portCollection.items, u.parameterCollection.items with
    | feed1 :: feed2 :: product1 :: product2 :: _, par0 :: par1 :: _ =>
      match Calculate.body u.nCompounds feed1 feed2 product1 product2 par0.value par1.value with
      | (requests, Except.ok _) =>
        some { hr := HRESULT.NOERROR, self := u, requests := requests }
      | (requests, Except.error (Abort.error desc)) =>
        some { hr := HRESULT.ECapeUnknownHR
               self := u.SetError desc "ICapeUnit" "Calculate"
               requests := requests }
      | (_, Except.error Abort.undefined) => none
    | _, _ => none

end CCPPMixerSplitterUnitOperation

/-! ## VARIANT arguments -/

/-- The type tags of a `VARIANT` the code distinguishes. -/
inductive VARTYPE where
  | VT_EMPTY
  | VT_I4
  | VT_R8
  | VT_BSTR
  | VT_DISPATCH
  | VT_OTHER
deriving DecidableEq, Repr

/-- A `VARIANT` argument passed by the host: its type tag, its string when the tag
is `VT_BSTR`, and what the API function `VariantChangeType` makes of it for the
target types `VT_R8` and `VT_I4` (`none` when the conversion fails). -/
structure VARIANT where
  vt : VARTYPE
  bstrVal : BSTR
  changeTypeR8 : Option Dbl
  changeTypeI4 : Option Int

/-! ## CRealParameter operations -/

namespace CRealParameter

/-- Outcome of an operation of a parameter that writes through its `valStatus`
pointer: the returned code, the parameter after the call and the validation status
of the unit operation after the call. -/
structure Result where
  hr : HRESULT
  self : CRealParameter
  valStatus : CapeValidationStatus

/-- Method `SetError` on a parameter. -/
def SetError (p : CRealParameter) (desc iface scope : String) : CRealParameter :=
  { p with toCAPEOPENBaseObject := p.toCAPEOPENBaseObject.SetError desc iface scope }

/-- `ICapeParameter::put_value`.  The argument `valStatus` is the validation status
of the unit operation before the call. -/
def put_value (p : CRealParameter) (valStatus : CapeValidationStatus) (value : VARIANT) :
    Result :=
  match value.changeTypeR8 with
  | none =>
    { hr := HRESULT.ECapeUnknownHR
      self := p.SetError "Invalid data type. Expected a real number" "ICapeParameter" "put_value"
      valStatus := valStatus }
  | some dblVal =>
    if dblVal.isnan then
      { hr := HRESULT.ECapeUnknownHR
        self := p.SetError "Invalid value: cannot be missing" "ICapeParameter" "put_value"
        valStatus := valStatus }
    else if !p.minVal.isnan && Dbl.lt dblVal p.minVal then
      { hr := HRESULT.ECapeUnknownHR
        self := p.SetError "Invalid value: below minimum value" "ICapeParameter" "put_value"
        valStatus := valStatus }
    else if !p.maxVal.isnan && Dbl.gt dblVal p.maxVal then
      { hr := HRESULT.ECapeUnknownHR
        self := p.SetError "Invalid value: above maximum value" "ICapeParameter" "put_value"
        valStatus := valStatus }
    else
      { hr := HRESULT.NOERROR
        self := { p with value := dblVal, dirty := true }
        valStatus := CapeValidationStatus.CAPE_NOT_VALIDATED }

/-- `ICapeParameter::Reset`: back to the default value. -/
def Reset (p : CRealParameter) (_valStatus : CapeValidationStatus) : Result :=
  { hr := HRESULT.NOERROR
    self := { p with value := p.defVal, dirty := true }
    valStatus := CapeValidationStatus.CAPE_NOT_VALIDATED }

/-- The current value is valid, in the words of the class documentation and of the
checks of `put_value`: it is not missing, not below the lower bound when one is
defined, and not above the upper bound when one is defined. -/
def valid (p : CRealParameter) : Bool :=
  !p.value.isnan &&
  !(!p.minVal.isnan && Dbl.lt p.value p.minVal) &&
  !(!p.maxVal.isnan && Dbl.gt p.value p.maxVal)

end CRealParameter

/-! ## CEditDialog -/

namespace CEditDialog

/-- `CEditDialog::UpdateSplitFactor`: the new split factor.  `scanned` is the number
`swscanf_s` reads from the text of the edit field, `none` if the text is not a
number. -/
def UpdateSplitFactor (scanned : Option Dbl) : Dbl :=
  let newValue := scanned.getD (Dbl.fin (1 / 2))
  if Dbl.lt newValue (Dbl.fin 0) then Dbl.fin 0
  else if Dbl.gt newValue (Dbl.fin 1) then Dbl.fin 1
  else newValue

/-- `CEditDialog::UpdateHeatInput`: the new heat input. -/
def UpdateHeatInput (scanned : Option Dbl) : Dbl :=
  scanned.getD (Dbl.fin 0)

/-- An edit field of the dialog loses the focus, with the number scanned from its
text. -/
inductive Killfocus where
  | Splitfactor (scanned : Option Dbl)
  | Heatinput (scanned : Option Dbl)

/-- The message that ends the dialog: OK, Cancel, or closing the window, the last
with the numbers scanned from the two edit fields. -/
inductive Ending where
  | ClickedOK
  | ClickedCancel
  | Close (scannedSplitFactor scannedHeatInput : Option Dbl)

/-- Handler of a loss of focus: `OnEnKillfocusSplitfactor`, `OnEnKillfocusHeatinput`.
The pair holds the values `*splitFactor` and `*heatInput`. -/
def OnEnKillfocus (values : Dbl × Dbl) : Killfocus → Dbl × Dbl
  | Killfocus.Splitfactor scanned => (UpdateSplitFactor scanned, values.2)
  | Killfocus.Heatinput scanned => (values.1, UpdateHeatInput scanned)

/-- Handler of the ending message: `OnClickedOK`, `OnClickedCancel`, `OnClose`. -/
def OnEnding (values : Dbl × Dbl) : Ending → Dbl × Dbl
  | Ending.ClickedOK => values
  | Ending.ClickedCancel => values
  | Ending.Close scannedSplitFactor scannedHeatInput =>
    (UpdateSplitFactor scannedSplitFactor, UpdateHeatInput scannedHeatInput)

/-- `DoModal` on the dialog: the losses of focus in order, then the ending message. -/
def DoModal (values : Dbl × Dbl) (edits : List Killfocus) (ending : Ending) : Dbl × Dbl :=
  OnEnding (edits.foldl OnEnKillfocus values) ending

end CEditDialog

/-! ## Streams -/

/-- The in-memory form of a `double`, eight bytes, in both directions.  It belongs to
the platform, not to the repository. -/
structure DoubleLayout where
  toBytes : Dbl → List Nat
  ofBytes : List Nat → Dbl

namespace binary64

/-- The number of binary digits of `n`; `fuel` bounds the recursion. -/
def bitLength : Nat → Nat → Nat
  | 0, _ => 0
  | fuel + 1, n => if n = 0 then 0 else 1 + bitLength fuel (n / 2)

/-- The integer part of `n / d * 2 ^ s`. -/
def scaled (n d : Nat) (s : Int) : Nat :=
  if 0 ≤ s then n * 2 ^ s.toNat / d else n / (d * 2 ^ (-s).toNat)

/-- The 64-bit pattern of a finite value in the IEEE 754 binary64 format: sign bit,
eleven bits of biased exponent, fifty-two bits of mantissa.  A value that the format
does not hold is rounded toward zero; a value beyond the range gives the pattern of
an infinity. -/
def bitsOfRat (q : ℚ) : Nat :=
  let sign : Nat := if q < 0 then 2 ^ 63 else 0
  let n : Nat := q.num.natAbs
  let d : Nat := q.den
  if n = 0 then 0
  else
    let e0 : Int := (bitLength 2200 n : Int) - (bitLength 2200 d : Int)
    let m0 : Nat := scaled n d (52 - e0)
    let e : Int := if 2 ^ 52 ≤ m0 then e0 else e0 - 1
    let m : Nat := if 2 ^ 52 ≤ m0 then m0 else scaled n d (53 - e0)
    let E : Int := e + 1023
    if 2047 ≤ E then sign + 2047 * 2 ^ 52
    else if 1 ≤ E then sign + E.toNat * 2 ^ 52 + (m - 2 ^ 52)
    else sign + scaled n d 1074

/-- The 64-bit pattern of a `double`; not-a-number is the quiet pattern. -/
def bitsOf : Dbl → Nat
  | Dbl.nan => 2047 * 2 ^ 52 + 2 ^ 51
  | Dbl.fin q => bitsOfRat q

/-- The `double` of a 64-bit pattern.  The patterns with all exponent bits set are
not-a-number; among them the two infinities, which the model does not have. -/
def valueOf (bits : Nat) : Dbl :=
  let sign : Nat := bits / 2 ^ 63 % 2
  let E : Nat := bits / 2 ^ 52 % 2048
  let M : Nat := bits % 2 ^ 52
  if E = 2047 then Dbl.nan
  else
    let mag : ℚ :=
      if E = 0 then mkRat (Int.ofNat M) (2 ^ 1074)
      else mkRat (Int.ofNat ((2 ^ 52 + M) * 2 ^ (E - 1075))) (2 ^ (1075 - E))
    Dbl.fin (if sign = 1 then -mag else mag)

/-- The `k` low bytes of `n`, least significant byte first. -/
def bytesOf : Nat → Nat → List Nat
  | 0, _ => []
  | k + 1, n => n % 256 :: bytesOf k (n / 256)

/-- The layout of a `double` on the platform of the source: IEEE 754 binary64, least
significant byte first. -/
def layout : DoubleLayout :=
  { toBytes := fun d => bytesOf 8 (bitsOf d)
    ofBytes := fun bytes => valueOf (bytes.foldr (fun b n => b + 256 * n) 0) }

end binary64

/-- `IStream::Read` on a stream given by the bytes still to be read: the bytes read
(fewer than asked for at the end of the stream) and the rest of the stream. -/
def IStream.Read (pstm : List Nat) (cb : Nat) : List Nat × List Nat :=
  (pstm.take cb, pstm.drop cb)

/-- The `UINT` held by four bytes, least significant byte first. -/
def UINT.ofBytes (bytes : List Nat) : Nat :=
  bytes.foldr (fun b n => b + 256 * n) 0

/-- The `OLECHAR` values held by a buffer of bytes, two bytes each, least significant
byte first. -/
def OLECHAR.ofBytes : List Nat → List Nat
  | lo :: hi :: rest => (lo + 256 * hi) :: OLECHAR.ofBytes rest
  | _ => []

/-- The assignment `name=buf` of a zero-terminated buffer to a `wstring`: the
characters before the first zero.  There is no result if the buffer holds no zero
(the source then reads past the buffer). -/
def wstring.ofBuffer (buf : List Nat) : Option String :=
  if 0 ∈ buf then some (String.mk ((buf.takeWhile (fun c => c ≠ 0)).map Char.ofNat))
  else none

namespace CCPPMixerSplitterUnitOperation

/-! ### Parameter operations on the unit operation -/

/-- Outcome of a call that returns a code and changes the unit operation. -/
structure Result where
  hr : HRESULT
  self : CCPPMixerSplitterUnitOperation

/-- A call of `ICapeParameter::put_value` on item `i` of the parameter collection.
There is no result if the collection has no item `i`. -/
def parameter_put_value (u : CCPPMixerSplitterUnitOperation) (i : Nat) (value : VARIANT) :
    Option Result :=
  match u.parameterCollection.items[i]? with
  | some par =>
    let r := par.put_value u.valStatus value
    some { hr := r.hr
           self := { u with
             valStatus := r.valStatus
             parameterCollection :=
               { u.parameterCollection with items := u.parameterCollection.items.set i r.self } } }
  | none => none

/-- A call of `ICapeParameter::Reset` on item `i` of the parameter collection.
There is no result if the collection has no item `i`. -/
def parameter_Reset (u : CCPPMixerSplitterUnitOperation) (i : Nat) : Option Result :=
  match u.parameterCollection.items[i]? with
  | some par =>
    let r := par.Reset u.valStatus
    some { hr := r.hr
           self := { u with
             valStatus := r.valStatus
             parameterCollection :=
               { u.parameterCollection with items := u.parameterCollection.items.set i r.self } } }
  | none => none

/-! ### Edit -/

/-- `ICapeUtilities::Edit`, with what the user does in the dialog.  There is no
result if the parameter collection has fewer than two items. -/
def Edit (u : CCPPMixerSplitterUnitOperation) (edits : List CEditDialog.Killfocus)
    (ending : CEditDialog.Ending) : Option Result :=
  match u.parameterCollection.items with
  | splitFactor :: heatInput :: rest =>
    let values := CEditDialog.DoModal (splitFactor.value, heatInput.value) edits ending
    some { hr := HRESULT.NOERROR
           self := { u with
             parameterCollection := { u.parameterCollection with
               items := { splitFactor with value := values.1 } ::
                 { heatInput with value := values.2 } :: rest }
             valStatus := CapeValidationStatus.CAPE_NOT_VALIDATED
             dirty := true } }
  | _ => none

/-! ### Load -/

/-- The constant `CURRENTFILEVERSIONNUMBER`. -/
def CURRENTFILEVERSIONNUMBER : Nat := 0

/-- Outcome of `Load`: the returned code, the object after the call and the rest of
the stream. -/
structure LoadResult where
  hr : HRESULT
  self : CCPPMixerSplitterUnitOperation
  pstm : List Nat

/-- Reading of one string in `Load`: the length as `UINT`, then `2*(length+1)` bytes
(in `UINT` arithmetic) holding the characters and the terminating zero.  The result
is the content of the buffer, or `none` if a read is short (`Load` then returns
`E_FAIL`), and the rest of the stream.  The allocation `new OLECHAR[length+1]` of the
buffer is taken to succeed. -/
def Load.readBuffer (pstm : List Nat) : Option (List Nat) × List Nat :=
  let (bytes, pstm) := IStream.Read pstm 4
  if bytes.length ≠ 4 then (none, pstm)
  else
    let length := UINT.ofBytes bytes
    let cb := (2 * ((length + 1) % 2 ^ 32)) % 2 ^ 32
    let (buf, pstm) := IStream.Read pstm cb
    if buf.length ≠ cb then (none, pstm)
    else (some (OLECHAR.ofBytes buf), pstm)

/-- Reading of the value of one parameter in `Load`: eight bytes read straight into
`par->value`.  On a short read the bytes that were read replace the first bytes of
the value.  The result is the parameter, whether the read was complete, and the rest
of the stream. -/
def Load.readValue (L : DoubleLayout) (par : CRealParameter) (pstm : List Nat) :
    CRealParameter × Bool × List Nat :=
  let (bytes, pstm) := IStream.Read pstm 8
  if bytes.length = 8 then ({ par with value := L.ofBytes bytes }, true, pstm)
  else
    ({ par with value := L.ofBytes (bytes ++ (L.toBytes par.value).drop bytes.length) },
      false, pstm)

/-- `IPersistStream::Load`.  There is no result (`none`) if a string buffer read from
the stream holds no terminating zero, or if the parameter collection has fewer than
two items when the values are read. -/
def Load (L : DoubleLayout) (u : CCPPMixerSplitterUnitOperation) (pstm : Option (List Nat)) :
    Option LoadResult :=
  match pstm with
  | none => some { hr := HRESULT.E_POINTER, self := u, pstm := [] }
  | some pstm =>
    let (bytes, pstm) := IStream.Read pstm 4
    if bytes.length ≠ 4 then some { hr := HRESULT.E_FAIL, self := u, pstm := pstm }
    else if UINT.ofBytes bytes > CURRENTFILEVERSIONNUMBER then
      some { hr := HRESULT.E_FAIL, self := u, pstm := pstm }
    else
      -- read name
      match Load.readBuffer pstm with
      | (none, pstm) => some { hr := HRESULT.E_FAIL, self := u, pstm := pstm }
      | (some buf, pstm) =>
        match wstring.ofBuffer buf with
        | none => none
        | some name =>
          let u := { u with name := name }
          -- read description
          match Load.readBuffer pstm with
          | (none, pstm) => some { hr := HRESULT.E_FAIL, self := u, pstm := pstm }
          | (some buf, pstm) =>
            match wstring.ofBuffer buf with
            | none => none
            | some description =>
              let u := { u with description := description }
              -- read parameter values
              match u.parameterCollection.items with
              | par0 :: par1 :: rest =>
                let (par0, complete, pstm) := Load.readValue L par0 pstm
                let u := { u with parameterCollection :=
                  { u.parameterCollection with items := par0 :: par1 :: rest } }
                if !complete then some { hr := HRESULT.E_FAIL, self := u, pstm := pstm }
                else
                  let (par1, complete, pstm) := Load.readValue L par1 pstm
                  let u := { u with parameterCollection :=
                    { u.parameterCollection with items := par0 :: par1 :: rest } }
                  if !complete then some { hr := HRESULT.E_FAIL, self := u, pstm := pstm }
                  else some { hr := HRESULT.S_OK, self := u, pstm := pstm }
              | _ => none

end CCPPMixerSplitterUnitOperation

/-! ## Statements used by the properties -/

/-- Equality of two `BSTR` values without regard to case, a NULL value read as the
empty string. -/
def sameText (a b : BSTR) : Prop := lowerW (a.getD "") = lowerW (b.getD "")

namespace CCPPMixerSplitterUnitOperation

/-- Validity of the unit operation in the words of the specification: at least one
feed port (index below 2) and at least one product port (index from 2 on) are
connected; the compound list can be obtained from every connected port, and has the
same length as, and is element by element equal without regard to case to, the list
of the first connected port; the list of single-phase properties of the first
connected port can be obtained and contains "enthalpy" without regard to case. -/
def Validate.Spec (items : List CMaterialPort) : Prop :=
  (∃ i port, i < 2 ∧ items[i]? = some port ∧ port.IsConnected = true) ∧
  (∃ i port, 2 ≤ i ∧ items[i]? = some port ∧ port.IsConnected = true) ∧
  ∃ first material1 compList1 propList,
    items.find? CMaterialPort.IsConnected = some first ∧
    first.GetMaterial = some material1 ∧
    material1.GetCompoundIDs = Except.ok compList1 ∧
    (∀ port ∈ items, port.IsConnected = true → ∃ material compList,
      port.GetMaterial = some material ∧
      material.GetCompoundIDs = Except.ok compList ∧
      compList.length = compList1.length ∧
      ∀ k, k < compList1.length →
        sameText (compList.getD k none) (compList1.getD k none)) ∧
    material1.GetSinglePhasePropList = Except.ok propList ∧
    ∃ prop ∈ propList, sameText prop (some "enthalpy")

end CCPPMixerSplitterUnitOperation

/-! ## What the host reports of a feed -/

/-- The value of a scalar answer of the host. -/
def scalarOf : Except String (List Dbl) → Dbl
  | Except.ok value => GetDoubleAt value 0
  | Except.error _ => Dbl.nan

/-- The values of an array answer of the host. -/
def valuesOf : Except String (List Dbl) → List Dbl
  | Except.ok value => value
  | Except.error _ => []

namespace Material

/-- Pressure of a material, as the host reports it. -/
def pressure (m : Material) : Dbl := scalarOf (m.GetOverallProperty "pressure" none)

/-- Total flow of a material (mole basis), as the host reports it. -/
def totalFlow (m : Material) : Dbl :=
  scalarOf (m.GetOverallProperty "totalFlow" (some "mole"))

/-- Overall mole fractions of a material, as the host reports them. -/
def fraction (m : Material) : List Dbl :=
  valuesOf (m.GetOverallProperty "fraction" (some "mole"))

/-- Temperature of a material, as the host reports it. -/
def temperature (m : Material) : Dbl := scalarOf (m.GetOverallProperty "temperature" none)

end Material

namespace MaterialObjectWrapper

/-- Phase fraction (mole basis) of a phase, as the host reports it. -/
def phaseFraction (d : MaterialObjectWrapper) (phaseName : BSTR) : Dbl :=
  scalarOf (d.GetSinglePhaseProperty "phaseFraction" phaseName none (some "mole"))

/-- Molar enthalpy of a phase, as the host reports it. -/
def enthalpy (d : MaterialObjectWrapper) (phaseName : BSTR) : Dbl :=
  scalarOf (d.GetSinglePhaseProperty "enthalpy" phaseName (some "mixture") (some "mole"))

/-- The terms `flow * phaseFraction * h` of the present phases in the list that have a
positive phase fraction. -/
def enthalpyTerms (d : MaterialObjectWrapper) (flow : Dbl) (phaseList : List BSTR) :
    List Dbl :=
  (phaseList.filter (fun phaseName => Dbl.gt (d.phaseFraction phaseName) (Dbl.fin 0))).map
    (fun phaseName => flow * d.phaseFraction phaseName * d.enthalpy phaseName)

end MaterialObjectWrapper

namespace Material

/-- The enthalpy terms of a feed: over the present phases of its duplicate with a
positive phase fraction, `flow * phaseFraction * h`. -/
def enthalpyTerms (m : Material) : List Dbl :=
  match m.Duplicate with
  | Except.ok d =>
    match d.GetListOfPresentPhases with
    | Except.ok phaseList => d.enthalpyTerms m.totalFlow phaseList
    | Except.error _ => []
  | Except.error _ => []

end Material

/-! ## The balances of `Calculate` in the words of the specification -/

namespace CCPPMixerSplitterUnitOperation

/-- The material of a port, if the port is connected: a list of at most one
material. -/
def Calculate.materialOf (port : CMaterialPort) : List Material :=
  if port.IsConnected then port.GetMaterial.toList else []

/-- The materials of the connected feed ports, Feed 1 first. -/
def Calculate.connectedFeeds (feed1 feed2 : CMaterialPort) : List Material :=
  Calculate.materialOf feed1 ++ Calculate.materialOf feed2

/-- The materials of the connected feed ports that report a positive flow. -/
def Calculate.flowingFeeds (feed1 feed2 : CMaterialPort) : List Material :=
  (Calculate.connectedFeeds feed1 feed2).filter
    (fun m => Dbl.gt m.totalFlow (Dbl.fin 0))

/-- The total flow: the sum of the positive flows of the connected feeds. -/
def Calculate.Spec.totalFlow (feed1 feed2 : CMaterialPort) : Dbl :=
  ((Calculate.flowingFeeds feed1 feed2).map Material.totalFlow).sum

/-- The flow-weighted mix of the feeds, for compound `j`: the sum over the connected
feeds with a positive flow of `flow * x[j]`, divided by the sum of their flows. -/
def Calculate.Spec.composition (feed1 feed2 : CMaterialPort) (j : Nat) : Dbl :=
  ((Calculate.flowingFeeds feed1 feed2).map
    (fun m => m.totalFlow * GetDoubleAt m.fraction j)).sum /
  Calculate.Spec.totalFlow feed1 feed2

/-- The molar enthalpy of the mix: the sum over the connected feeds with a positive
flow, and over their present phases with a positive phase fraction, of
`flow * phaseFraction * h`, plus the heat input, divided by the total flow.  The sum
is one sum over the pairs of a feed and a phase, term after term from zero, Feed 1
first and the phases of a feed in the order of its list of present phases. -/
def Calculate.Spec.molarEnthalpy (feed1 feed2 : CMaterialPort) (heatInput : Dbl) : Dbl :=
  (((Calculate.flowingFeeds feed1 feed2).flatMap Material.enthalpyTerms).foldl
    (fun x y => x + y) (Dbl.fin 0) + heatInput) /
  Calculate.Spec.totalFlow feed1 feed2

/-- The smaller of two numbers; the first if neither is smaller. -/
def Calculate.Spec.min (a b : Dbl) : Dbl := if Dbl.lt b a then b else a

/-- The minimum of the pressures of the connected feeds; `none` if no feed is
connected. -/
def Calculate.Spec.minPressure (feed1 feed2 : CMaterialPort) : Option Dbl :=
  match (Calculate.connectedFeeds feed1 feed2).map Material.pressure with
  | [] => none
  | pressure :: rest => some (rest.foldl Calculate.Spec.min pressure)

/-- The value the variable `pressure` of `Calculate` holds after the feed loop, in
terms of the feeds: the statement of the source that selects the pressure
(`Calculate.selectPressure`), applied to the pressures of the connected feeds in
order, starting from zero.  This follows the code, not the specification; the
specification selects `Calculate.Spec.minPressure`. -/
def Calculate.selectedPressure (feed1 feed2 : CMaterialPort) : Dbl :=
  ((Calculate.connectedFeeds feed1 feed2).map Material.pressure).foldl
    Calculate.selectPressure (Dbl.fin 0)

/-- The number of connected feeds, as a `double`. -/
def Calculate.Spec.feedCount (feed1 feed2 : CMaterialPort) : Dbl :=
  Dbl.fin ((Calculate.connectedFeeds feed1 feed2).length : ℚ)

/-- The arithmetic mean of the temperatures of the connected feeds. -/
def Calculate.Spec.meanTemperature (feed1 feed2 : CMaterialPort) : Dbl :=
  ((Calculate.connectedFeeds feed1 feed2).map Material.temperature).sum /
  Calculate.Spec.feedCount feed1 feed2

/-- The arithmetic mean of the compositions of the connected feeds, for compound
`j`. -/
def Calculate.Spec.meanComposition (feed1 feed2 : CMaterialPort) (j : Nat) : Dbl :=
  ((Calculate.connectedFeeds feed1 feed2).map (fun m => GetDoubleAt m.fraction j)).sum /
  Calculate.Spec.feedCount feed1 feed2

end CCPPMixerSplitterUnitOperation

/-- Whether a request sets a product: `SetFromFlowTPX`. -/
def Request.isSetFromFlowTPX : Request → Bool
  | Request.SetFromFlowTPX _ _ _ _ _ => true
  | _ => false

/-- Whether a request is a pressure-enthalpy flash: `GetTemperatureFromPHFlash`. -/
def Request.isFlash : Request → Bool
  | Request.GetTemperatureFromPHFlash _ _ _ _ => true
  | _ => false

/-- Whether a request reads a feed material or works on its duplicate, short of the
flash. -/
def Request.isRead (req : Request) : Bool :=
  !req.isSetFromFlowTPX && !req.isFlash

/-- The flow a request sets on a product; zero for any other request. -/
def Request.flow : Request → Dbl
  | Request.SetFromFlowTPX _ _ flow _ _ => flow
  | _ => Dbl.fin 0

/-- The requests of a list that set a product, in order. -/
def Request.writes (requests : List Request) : List Request :=
  requests.filter Request.isSetFromFlowTPX

/-! ## Sample objects

Material objects and unit operations with concrete answers, used to run the
operations on concrete inputs. -/

namespace Sample

/-- A material with two compounds and one present phase, "Vapor", with phase
fraction 1: pressure `P`, total flow `F`, temperature `T`, mole fractions `x` and
molar enthalpy `h`.  Every request succeeds; the pressure-enthalpy flash answers
with the temperature `H / 100`. -/
def wrapper (P F T : Dbl) (x : List Dbl) (h : Dbl) : MaterialObjectWrapper :=
  { GetCompoundIDs := Except.ok [some "Water", some "Ethanol"]
    GetSinglePhasePropList := Except.ok [some "density", some "Enthalpy"]
    GetOverallProperty := fun propName _ =>
      if propName = "pressure" then Except.ok [P]
      else if propName = "totalFlow" then Except.ok [F]
      else if propName = "temperature" then Except.ok [T]
      else if propName = "fraction" then Except.ok x
      else Except.error "unknown property"
    GetListOfPresentPhases := Except.ok [some "Vapor"]
    CalcSinglePhaseProperty := fun _ _ => Except.ok ()
    GetSinglePhaseProperty := fun propName _ _ _ =>
      if propName = "phaseFraction" then Except.ok [Dbl.fin 1] else Except.ok [h]
    GetTemperatureFromPHFlash := fun _ _ H => Except.ok (H / Dbl.fin 100)
    SetFromFlowTPX := fun _ _ _ _ => Except.ok () }

/-- The material of `wrapper`, with a duplicate that answers alike. -/
def material (P F T : Dbl) (x : List Dbl) (h : Dbl) : Material :=
  { toMaterialObjectWrapper := wrapper P F T x h
    Duplicate := Except.ok (wrapper P F T x h) }

/-- A port connected to the given version 1.1 material object, if any. -/
def port (name : String) (direction : CapePortDirection) (mat11 : Option Material) :
    CMaterialPort :=
  { CMaterialPort.CreateMaterialPort name "" direction with mat11 := mat11 }

/-- Port "Feed 1" connected to the given material, if any. -/
def feed1 (m : Option Material) : CMaterialPort :=
  port "Feed 1" CapePortDirection.CAPE_INLET m

/-- Port "Feed 2" connected to the given material, if any. -/
def feed2 (m : Option Material) : CMaterialPort :=
  port "Feed 2" CapePortDirection.CAPE_INLET m

/-- Port "Product 1" connected to the given material, if any. -/
def product1 (m : Option Material) : CMaterialPort :=
  port "Product 1" CapePortDirection.CAPE_OUTLET m

/-- Port "Product 2" connected to the given material, if any. -/
def product2 (m : Option Material) : CMaterialPort :=
  port "Product 2" CapePortDirection.CAPE_OUTLET m

/-- The split factor parameter of the constructor, with the given value. -/
def splitFactor (value : Dbl) : CRealParameter :=
  { CRealParameter.CreateParameter "Split factor"
      "Split factor: fraction of product that goes to Product 1 stream"
      (Dbl.fin 0) (Dbl.fin 1) (Dbl.fin (1 / 2)) [] with value := value }

/-- The heat input parameter of the constructor, with the given value. -/
def heatInput (value : Dbl) : CRealParameter :=
  { CRealParameter.CreateParameter "Heat input"
      "Heat input: energy added to the total product"
      Dbl.nan Dbl.nan (Dbl.fin 0) [Dbl.fin 2, Dbl.fin 1, Dbl.fin (-3)] with value := value }

/-- The unit operation as constructed, with the given materials connected to its four
ports, the given split factor and heat input, validation status and number of
compounds. -/
def unit (mFeed1 mFeed2 mProduct1 mProduct2 : Option Material) (s h : Dbl)
    (valStatus : CapeValidationStatus) (nCompounds : Nat) :
    CCPPMixerSplitterUnitOperation :=
  { CCPPMixerSplitterUnitOperation.ctor with
    valStatus := valStatus
    nCompounds := nCompounds
    portCollection :=
      { CCPPMixerSplitterUnitOperation.ctor.portCollection with
        items := [feed1 mFeed1, feed2 mFeed2, product1 mProduct1, product2 mProduct2] }
    parameterCollection :=
      { CCPPMixerSplitterUnitOperation.ctor.parameterCollection with
        items := [splitFactor s, heatInput h] } }

/-- Feed at 200 Pa, 3 mol/s, 300 K, fractions 1/3 and 2/3, molar enthalpy 1000. -/
def feedA : Material :=
  material (Dbl.fin 200) (Dbl.fin 3) (Dbl.fin 300) [Dbl.fin (1 / 3), Dbl.fin (2 / 3)]
    (Dbl.fin 1000)

/-- Feed at 100 Pa, 1 mol/s, 400 K, fractions 1 and 0, molar enthalpy 2000. -/
def feedB : Material :=
  material (Dbl.fin 100) (Dbl.fin 1) (Dbl.fin 400) [Dbl.fin 1, Dbl.fin 0] (Dbl.fin 2000)

/-- A product material: what it reports does not matter, it accepts what is set. -/
def product : Material :=
  material (Dbl.fin 0) (Dbl.fin 0) (Dbl.fin 0) [] (Dbl.fin 0)

/-- Feed at 300 Pa, no flow, 350 K, fractions 1/2 and 1/2. -/
def feedIdle : Material :=
  material (Dbl.fin 300) (Dbl.fin 0) (Dbl.fin 350) [Dbl.fin (1 / 2), Dbl.fin (1 / 2)]
    (Dbl.fin 0)

/-- Feed that reports a pressure of 0 Pa, with 1 mol/s at 300 K. -/
def feedVacuum : Material :=
  material (Dbl.fin 0) (Dbl.fin 1) (Dbl.fin 300) [Dbl.fin 1, Dbl.fin 0] (Dbl.fin 1000)

/-- A valid unit operation with both feeds and both products connected, split factor
1/4 and heat input 500. -/
def mixer : CCPPMixerSplitterUnitOperation :=
  unit (some feedA) (some feedB) (some product) (some product) (Dbl.fin (1 / 4)) (Dbl.fin 500)
    CapeValidationStatus.CAPE_VALID 2

/-- A valid unit operation whose two connected feeds have no flow, with the given heat
input and both products connected. -/
def idle (h : Dbl) : CCPPMixerSplitterUnitOperation :=
  unit (some feedIdle) (some feedIdle) (some product) (some product) (Dbl.fin (1 / 4)) h
    CapeValidationStatus.CAPE_VALID 2

/-- A valid unit operation whose Feed 1 reports a pressure of 0 Pa and whose Feed 2
is at 100 Pa, with Product 1 connected. -/
def vacuum : CCPPMixerSplitterUnitOperation :=
  unit (some feedVacuum) (some feedB) (some product) none (Dbl.fin (1 / 2)) (Dbl.fin 0)
    CapeValidationStatus.CAPE_VALID 2

/-- A stream as `Save` writes it, with version 0, an empty name, an empty
description, the split factor 2.0 and the heat input 0.0. -/
def stream : List Nat :=
  [0, 0, 0, 0] ++ ([0, 0, 0, 0] ++ [0, 0]) ++ ([0, 0, 0, 0] ++ [0, 0]) ++
    [0, 0, 0, 0, 0, 0, 0, 64] ++ [0, 0, 0, 0, 0, 0, 0, 0]

end Sample

/-! ## Identification methods of the base object -/

namespace CAPEOPENBaseObject

/-- Outcome of a method of the base object: the returned code and the object after
the call. -/
structure Result where
  hr : HRESULT
  self : CAPEOPENBaseObject

/-- `ICapeIdentification::put_ComponentName`.  The argument is read as a
zero-terminated string: `none` is the NULL pointer, the string holds the characters
before the terminating zero. -/
def put_ComponentName (o : CAPEOPENBaseObject) (name : BSTR) : Result :=
  if !o.canRename then
    { hr := HRESULT.ECapeUnknownHR
      self := o.SetError "The name of this object is read-only" "ICapeIdentification"
        "put_ComponentName" }
  else
    match name with
    | none =>
      { hr := HRESULT.ECapeUnknownHR
        self := o.SetError "The name of this object cannot be empty" "ICapeIdentification"
          "put_ComponentName" }
    | some text =>
      if text.data.isEmpty then
        { hr := HRESULT.ECapeUnknownHR
          self := o.SetError "The name of this object cannot be empty" "ICapeIdentification"
            "put_ComponentName" }
      else
        { hr := HRESULT.NOERROR, self := { o with name := text, dirty := true } }

/-- `ICapeIdentification::put_ComponentDescription`. -/
def put_ComponentDescription (o : CAPEOPENBaseObject) (desc : BSTR) : Result :=
  if !o.canRename then
    { hr := HRESULT.ECapeUnknownHR
      self := o.SetError "The description of this object is read-only" "ICapeIdentification"
        "put_ComponentDescription" }
  else
    match desc with
    | none => { hr := HRESULT.NOERROR, self := { o with description := "", dirty := true } }
    | some text =>
      { hr := HRESULT.NOERROR, self := { o with description := text, dirty := true } }

end CAPEOPENBaseObject

/-! ## Operations of a port -/

/-- An object the host passes to `Connect`, known by what its `QueryInterface` gives
for the two material interfaces: the material behind the interface if the call
succeeds, nothing if it fails (the pointer is then NULL). -/
structure IDispatch where
  ICapeThermoMaterial : Option Material
  ICapeThermoMaterialObject : Option Material

namespace CMaterialPort

/-- Outcome of a method of a port: the returned code and the port after the call. -/
structure Result where
  hr : HRESULT
  self : CMaterialPort

/-- Method `SetError` on a port. -/
def SetError (p : CMaterialPort) (desc iface scope : String) : CMaterialPort :=
  { p with toCAPEOPENBaseObject := p.toCAPEOPENBaseObject.SetError desc iface scope }

/-- `ICapeUnitPort::Disconnect`: release the references to the connected object. -/
def Disconnect (p : CMaterialPort) : Result :=
  { hr := HRESULT.NOERROR, self := { p with mat10 := none, mat11 := none } }

/-- `ICapeUnitPort::Connect`: disconnect what is connected, then take the version 1.1
interface of the object if it has one, else its version 1.0 interface. -/
def Connect (p : CMaterialPort) (objectToConnect : Option IDispatch) : Result :=
  match objectToConnect with
  | none => { hr := HRESULT.E_POINTER, self := p }
  | some object =>
    -- disconnect whatever we have connected now
    let p := p.Disconnect.self
    -- we prefer to use version 1.1 thermo, if available
    match object.ICapeThermoMaterial with
    | some m => { hr := HRESULT.NOERROR, self := { p with mat11 := some m } }
    | none =>
      -- not available, so use version 1.0 thermo
      match object.ICapeThermoMaterialObject with
      | some m => { hr := HRESULT.NOERROR, self := { p with mat10 := some m } }
      | none =>
        { hr := HRESULT.ECapeUnknownHR
          self := p.SetError
            "Object is not a valid version 1.0 or version 1.1 CAPE-OPEN material object"
            "ICapeUnitPort" "Connect" }

/-- The methods of a port that can change it. -/
inductive Operation where
  | Connect (objectToConnect : Option IDispatch)
  | Disconnect
  | put_ComponentName (name : BSTR)
  | put_ComponentDescription (desc : BSTR)

/-- One call of a method of a port. -/
def step (p : CMaterialPort) : Operation → Result
  | Operation.Connect objectToConnect => p.Connect objectToConnect
  | Operation.Disconnect => p.Disconnect
  | Operation.put_ComponentName name =>
    let r := p.toCAPEOPENBaseObject.put_ComponentName name
    { hr := r.hr, self := { p with toCAPEOPENBaseObject := r.self } }
  | Operation.put_ComponentDescription desc =>
    let r := p.toCAPEOPENBaseObject.put_ComponentDescription desc
    { hr := r.hr, self := { p with toCAPEOPENBaseObject := r.self } }

/-- The port after a sequence of calls. -/
def run (p : CMaterialPort) (ops : List Operation) : CMaterialPort :=
  ops.foldl (fun p op => (p.step op).self) p

end CMaterialPort

/-! ## Operations of a collection -/

namespace CCollection

/-- Outcome of `Item`: the returned code, the pointee of `Item` after the call
(`none` for a NULL pointer) and the collection after the call. -/
structure ItemResult (α : Type) where
  hr : HRESULT
  Item : Option (Option α)
  self : CCollection α

/-- Method `SetError` on a collection. -/
def SetError {α : Type} (c : CCollection α) (desc iface scope : String) : CCollection α :=
  { c with toCAPEOPENBaseObject := c.toCAPEOPENBaseObject.SetError desc iface scope }

/-- `ICapeCollection::Item`.  The items are stored as base objects: `toBase` gives
the base object of an item.  The index is an `int`; there is no result (`none`) if
the conversion from the 1-based index overflows. -/
def Item {α : Type} (toBase : α → CAPEOPENBaseObject) (c : CCollection α) (id : VARIANT)
    (Item : Option (Option α)) : Option (ItemResult α) :=
  match Item with
  | none => some { hr := HRESULT.E_POINTER, Item := none, self := c }
  | some pointee =>
    let index : Option Int :=
      if id.vt = VARTYPE.VT_BSTR then
        -- string: the first item with this name
        let index := c.items.findIdx (fun item => CBSTR.Same id.bstrVal (some (toBase item).name))
        if index = c.items.length then some (-1) else some (Int.ofNat index)
      else
        -- not a string, convert to an integer
        match id.changeTypeI4 with
        | some lVal => if lVal - 1 < -(2 ^ 31) then none else some (lVal - 1)
        | none => some (-1)
    match index with
    | none => none
    | some index =>
      if index < 0 then
        some { hr := HRESULT.ECapeUnknownHR
               Item := some pointee
               self := c.SetError "Requested item not found" "ICapeCollection" "Item" }
      else if index ≥ Int.ofNat c.items.length then
        some { hr := HRESULT.ECapeUnknownHR
               Item := some pointee
               self := c.SetError "Index out of range" "ICapeCollection" "Item" }
      else
        some { hr := HRESULT.NOERROR, Item := some c.items[index.toNat]?, self := c }

/-- `ICapeCollection::Count`: the returned code and the pointee of `itemsCount` after
the call. -/
def Count {α : Type} (c : CCollection α) (itemsCount : Option Int) : HRESULT × Option Int :=
  match itemsCount with
  | none => (HRESULT.E_POINTER, none)
  | some _ => (HRESULT.NOERROR, some (Int.ofNat c.items.length))

end CCollection

/-- The methods of a collection that can change it.  `Item` is given the identifier
and whether its `Item` pointer is not NULL. -/
inductive CCollection.Operation where
  | Item (id : VARIANT) (Item : Bool)
  | put_ComponentName (name : BSTR)
  | put_ComponentDescription (desc : BSTR)

/-- One call of a method of a collection: the returned code and the collection after
the call.  There is no result where `Item` has none. -/
def CCollection.step {α : Type} (toBase : α → CAPEOPENBaseObject) (c : CCollection α) :
    CCollection.Operation → Option (HRESULT × CCollection α)
  | CCollection.Operation.Item id Item =>
    (c.Item toBase id (if Item then some none else none)).map (fun r => (r.hr, r.self))
  | CCollection.Operation.put_ComponentName name =>
    let r := c.toCAPEOPENBaseObject.put_ComponentName name
    some (r.hr, { c with toCAPEOPENBaseObject := r.self })
  | CCollection.Operation.put_ComponentDescription desc =>
    let r := c.toCAPEOPENBaseObject.put_ComponentDescription desc
    some (r.hr, { c with toCAPEOPENBaseObject := r.self })

/-! ## Further operations of a parameter -/

namespace CRealParameter

/-- `ICapeParameter::put_Mode`: not supported. -/
def put_Mode (p : CRealParameter) (valStatus : CapeValidationStatus) : Result :=
  { hr := HRESULT.ECapeUnknownHR
    self := p.SetError "The mode of this parameter is read-only" "ICapeParameter" "put_Mode"
    valStatus := valStatus }

/-- The methods of a parameter that can change it or the unit operation. -/
inductive Operation where
  | put_value (value : VARIANT)
  | Reset
  | put_Mode
  | put_ComponentName (name : BSTR)
  | put_ComponentDescription (desc : BSTR)

/-- One call of a method of a parameter.  The argument `valStatus` is the validation
status of the unit operation before the call. -/
def step (p : CRealParameter) (valStatus : CapeValidationStatus) : Operation → Result
  | Operation.put_value value => p.put_value valStatus value
  | Operation.Reset => p.Reset valStatus
  | Operation.put_Mode => p.put_Mode valStatus
  | Operation.put_ComponentName name =>
    let r := p.toCAPEOPENBaseObject.put_ComponentName name
    { hr := r.hr, self := { p with toCAPEOPENBaseObject := r.self }, valStatus := valStatus }
  | Operation.put_ComponentDescription desc =>
    let r := p.toCAPEOPENBaseObject.put_ComponentDescription desc
    { hr := r.hr, self := { p with toCAPEOPENBaseObject := r.self }, valStatus := valStatus }

end CRealParameter

/-! ## Writing to a stream -/

/-- A stream the host passes to `Save`: the bytes written to it so far and the number
of further bytes it takes (`none`: any number). -/
structure IStream where
  written : List Nat
  room : Option Nat

/-- `IStream::Write` of the first `cb` bytes of a buffer: the stream after the call
and the number of bytes written. -/
def IStream.Write (pstm : IStream) (pv : List Nat) (cb : Nat) : IStream × Nat :=
  let n := match pstm.room with
    | none => cb
    | some room => min cb room
  ({ written := pstm.written ++ pv.take n, room := pstm.room.map (fun room => room - n) }, n)

/-- The four bytes of a `UINT`, least significant byte first. -/
def UINT.toBytes (n : Nat) : List Nat := binary64.bytesOf 4 n

/-- The bytes of the buffer `c_str()` of a `wstring`: two bytes for each character,
least significant byte first, and the terminating zero.  A character of the model is
one `OLECHAR`. -/
def wstring.c_str (s : String) : List Nat :=
  (s.data.flatMap (fun c => [c.toNat % 256, c.toNat / 256 % 256])) ++ [0, 0]

namespace CCPPMixerSplitterUnitOperation

/-! ### Save -/

/-- Outcome of `Save`: the returned code, the object after the call and the stream
after the call. -/
structure SaveResult where
  hr : HRESULT
  self : CCPPMixerSplitterUnitOperation
  pstm : Option IStream

/-- Writing of one string in `Save`: the length as `UINT`, then `2*(length+1)` bytes
(in `UINT` arithmetic) of the characters and the terminating zero.  The result is
whether both writes were complete, and the stream. -/
def Save.writeString (pstm : IStream) (s : String) : Bool × IStream :=
  let length := s.length % 2 ^ 32
  let (pstm, written) := IStream.Write pstm (UINT.toBytes length) 4
  if written ≠ 4 then (false, pstm)
  else
    let cb := (2 * ((length + 1) % 2 ^ 32)) % 2 ^ 32
    let (pstm, written) := IStream.Write pstm (wstring.c_str s) cb
    if written ≠ cb then (false, pstm) else (true, pstm)

/-- `IPersistStream::Save`.  There is no result (`none`) if the parameter collection
has fewer than two items when the values are written. -/
def Save (L : DoubleLayout) (u : CCPPMixerSplitterUnitOperation) (pstm : Option IStream)
    (fClearDirty : Bool) : Option SaveResult :=
  match pstm with
  | none => some { hr := HRESULT.E_POINTER, self := u, pstm := none }
  | some pstm =>
    -- save version number, in case of future changes to the format
    let (pstm, written) := IStream.Write pstm (UINT.toBytes CURRENTFILEVERSIONNUMBER) 4
    if written ≠ 4 then some { hr := HRESULT.E_FAIL, self := u, pstm := some pstm }
    else
      -- save name
      match Save.writeString pstm u.name with
      | (false, pstm) => some { hr := HRESULT.E_FAIL, self := u, pstm := some pstm }
      | (true, pstm) =>
        -- save description
        match Save.writeString pstm u.description with
        | (false, pstm) => some { hr := HRESULT.E_FAIL, self := u, pstm := some pstm }
        | (true, pstm) =>
          -- save parameter values
          match u.parameterCollection.items with
          | par0 :: par1 :: _ =>
            let (pstm, written) := IStream.Write pstm (L.toBytes par0.value) 8
            if written ≠ 8 then some { hr := HRESULT.E_FAIL, self := u, pstm := some pstm }
            else
              let (pstm, written) := IStream.Write pstm (L.toBytes par1.value) 8
              if written ≠ 8 then some { hr := HRESULT.E_FAIL, self := u, pstm := some pstm }
              else if fClearDirty then
                -- clear the dirty flags, also on the parameters
                some { hr := HRESULT.S_OK
                       self := { u with
                         dirty := false
                         parameterCollection := { u.parameterCollection with
                           items := u.parameterCollection.items.map
                             (fun par => { par with dirty := false }) } }
                       pstm := some pstm }
              else some { hr := HRESULT.S_OK, self := u, pstm := some pstm }
          | _ => none

/-! ### Further methods of the unit operation -/

/-- `IPersistStream::IsDirty`: the unit operation is dirty if a parameter is. -/
def IsDirty (u : CCPPMixerSplitterUnitOperation) : Result :=
  let dirty := u.parameterCollection.items.any (fun par => par.dirty) || u.dirty
  { hr := if dirty then HRESULT.S_OK else HRESULT.S_FALSE
    self := { u with dirty := dirty } }

/-- `ICapeUtilities::Terminate`: disconnect the ports. -/
def Terminate (u : CCPPMixerSplitterUnitOperation) : Result :=
  { hr := HRESULT.NOERROR
    self := { u with portCollection := { u.portCollection with
      items := u.portCollection.items.map (fun port => port.Disconnect.self) } } }

/-- `ICapeUnitReport::get_selectedReport`; `report` is the pointee of the argument
(`none` for a NULL pointer).  The result holds the pointee after the call. -/
def get_selectedReport (u : CCPPMixerSplitterUnitOperation) (report : Option BSTR) :
    Result × Option BSTR :=
  match report with
  | none => ({ hr := HRESULT.E_POINTER, self := u }, none)
  | some old =>
    if u.selectedReportIndex < 0 then
      ({ hr := HRESULT.ECapeUnknownHR
         self := u.SetError "A report was not selected" "ICapeUnitReport" "get_selectedReport" },
        some old)
    else ({ hr := HRESULT.NOERROR, self := u }, some (some "Sample report"))

/-- `ICapeUnitReport::put_selectedReport`. -/
def put_selectedReport (u : CCPPMixerSplitterUnitOperation) (report : BSTR) : Result :=
  if CBSTR.Same report (some "Sample report") then
    { hr := HRESULT.NOERROR, self := { u with selectedReportIndex := 0 } }
  else
    { hr := HRESULT.ECapeUnknownHR
      self := u.SetError "Invalid report selection: no such report" "ICapeUnitReport"
        "put_selectedReport" }

/-- `ICapeUnitReport::ProduceReport`; `reportContent` is the pointee of the argument
(`none` for a NULL pointer).  The result holds the pointee after the call. -/
def ProduceReport (u : CCPPMixerSplitterUnitOperation) (reportContent : Option BSTR) :
    Result × Option BSTR :=
  match reportContent with
  | none => ({ hr := HRESULT.E_POINTER, self := u }, none)
  | some _ =>
    if u.selectedReportIndex < 0 then
      ({ hr := HRESULT.ECapeUnknownHR
         self := u.SetError "A report was not selected" "ICapeUnitReport" "ProduceReport" },
        some none)
    else
      ({ hr := HRESULT.NOERROR, self := u }, some (some "Example Mixer Splitter Report Content"))

/-! ### The calls a host can make -/

/-- The methods of the unit operation, of its ports, of its parameters and of its two
collections that can change one of these objects.  The methods that only read
(`get_...`, `Count`, `GetSizeMax`, `GetClassID`, `Initialize`, the `Validate` methods
of a parameter) and `put_simulationContext`, whose reference no other method reads,
leave all of them as they are and are not listed. -/
inductive Operation where
  | Calculate
  | Validate (message : Option BSTR) (isValid : Option Bool)
  | Terminate
  | Edit (edits : List CEditDialog.Killfocus) (ending : CEditDialog.Ending)
  | IsDirty
  | Load (pstm : Option (List Nat))
  | Save (pstm : Option IStream) (fClearDirty : Bool)
  | get_selectedReport (report : Option BSTR)
  | put_selectedReport (report : BSTR)
  | ProduceReport (reportContent : Option BSTR)
  | put_ComponentName (name : BSTR)
  | put_ComponentDescription (desc : BSTR)
  | port (i : Nat) (op : CMaterialPort.Operation)
  | parameter (i : Nat) (op : CRealParameter.Operation)
  | ports (op : CCollection.Operation)
  | parameters (op : CCollection.Operation)

/-- One call by the host: the returned code and the unit operation, with its ports,
parameters and collections, after the call.  There is no result (`none`) where the
method called has none, and for a port or parameter that the collection does not
hold. -/
def step (L : DoubleLayout) (u : CCPPMixerSplitterUnitOperation) : Operation → Option Result
  | Operation.Calculate => u.Calculate.map (fun r => { hr := r.hr, self := r.self })
  | Operation.Validate message isValid =>
    let r := u.Validate message isValid
    some { hr := r.hr, self := r.self }
  | Operation.Terminate => some u.Terminate
  | Operation.Edit edits ending => u.Edit edits ending
  | Operation.IsDirty => some u.IsDirty
  | Operation.Load pstm => (u.Load L pstm).map (fun r => { hr := r.hr, self := r.self })
  | Operation.Save pstm fClearDirty =>
    (u.Save L pstm fClearDirty).map (fun r => { hr := r.hr, self := r.self })
  | Operation.get_selectedReport report => some (u.get_selectedReport report).1
  | Operation.put_selectedReport report => some (u.put_selectedReport report)
  | Operation.ProduceReport reportContent => some (u.ProduceReport reportContent).1
  | Operation.put_ComponentName name =>
    let r := u.toCAPEOPENBaseObject.put_ComponentName name
    some { hr := r.hr, self := { u with toCAPEOPENBaseObject := r.self } }
  | Operation.put_ComponentDescription desc =>
    let r := u.toCAPEOPENBaseObject.put_ComponentDescription desc
    some { hr := r.hr, self := { u with toCAPEOPENBaseObject := r.self } }
  | Operation.port i op =>
    match u.portCollection.items[i]? with
    | some port =>
      let r := port.step op
      some { hr := r.hr
             self := { u with portCollection :=
               { u.portCollection with items := u.portCollection.items.set i r.self } } }
    | none => none
  | Operation.parameter i op =>
    match u.parameterCollection.items[i]? with
    | some par =>
      let r := par.step u.valStatus op
      some { hr := r.hr
             self := { u with
               valStatus := r.valStatus
               parameterCollection :=
                 { u.parameterCollection with items := u.parameterCollection.items.set i r.self } } }
    | none => none
  | Operation.ports op =>
    (u.portCollection.step CMaterialPort.toCAPEOPENBaseObject op).map
      (fun r => { hr := r.1, self := { u with portCollection := r.2 } })
  | Operation.parameters op =>
    (u.parameterCollection.step CRealParameter.toCAPEOPENBaseObject op).map
      (fun r => { hr := r.1, self := { u with parameterCollection := r.2 } })

/-- The unit operation after a sequence of calls by the host; `none` if one of the
calls has no result. -/
def run (L : DoubleLayout) (u : CCPPMixerSplitterUnitOperation) :
    List Operation → Option CCPPMixerSplitterUnitOperation
  | [] => some u
  | op :: rest =>
    match step L u op with
    | some r => run L r.self rest
    | none => none

end CCPPMixerSplitterUnitOperation

/-! ## Comparison in the words of the specification -/

/-- Comparison `a<=b` of two numbers; false when an operand is not-a-number. -/
def Dbl.le : Dbl → Dbl → Bool
  | Dbl.fin a, Dbl.fin b => decide (a ≤ b)
  | _, _ => false

/-! ## The saved form in the words of the specification -/

/-- The value is a `double` of the layout: its form in memory has eight bytes, and
these bytes give the value back. -/
def DoubleLayout.holds (L : DoubleLayout) (v : Dbl) : Prop :=
  (L.toBytes v).length = 8 ∧ L.ofBytes (L.toBytes v) = v

/-- A string in the saved form: a 4-byte length, then the characters and a terminating
zero, two bytes per character. -/
def Save.Spec.string (s : String) : List Nat :=
  UINT.toBytes s.length ++ wstring.c_str s

/-- The saved form of a unit operation: a 4-byte version tag equal to 0, the name, the
description, then the split factor and the heat input as two 8-byte doubles. -/
def Save.Spec.bytes (L : DoubleLayout) (name description : String)
    (splitFactor heatInput : Dbl) : List Nat :=
  [0, 0, 0, 0] ++ Save.Spec.string name ++ Save.Spec.string description ++
    L.toBytes splitFactor ++ L.toBytes heatInput

/-- The text is a zero-terminated string of `OLECHAR` characters: no character of it
is the character zero, and each is one `OLECHAR`. -/
def wstring.plain (s : String) : Prop :=
  ∀ c ∈ s.data, c ≠ Char.ofNat 0 ∧ c.toNat < 65536

/-! ## The items of the two collections in the words of the specification -/

namespace CCPPMixerSplitterUnitOperation

/-- What identifies the ports, in the order of the collection: name, direction, and
whether the port can be renamed. -/
def portsOf (u : CCPPMixerSplitterUnitOperation) : List (String × CapePortDirection × Bool) :=
  u.portCollection.items.map (fun port => (port.name, port.direction, port.canRename))

/-- What identifies the parameters, in the order of the collection: name, lower bound,
upper bound, default value, and whether the parameter can be renamed. -/
def parametersOf (u : CCPPMixerSplitterUnitOperation) :
    List (String × Dbl × Dbl × Dbl × Bool) :=
  u.parameterCollection.items.map
    (fun par => (par.name, par.minVal, par.maxVal, par.defVal, par.canRename))

end CCPPMixerSplitterUnitOperation

namespace CCPPMixerSplitterUnitOperation

/-- No call of the sequence, made from the given state on, is a `Validate` that
reports valid. -/
def neverReportsValid (L : DoubleLayout) :
    CCPPMixerSplitterUnitOperation → List Operation → Prop
  | _, [] => True
  | u, op :: rest =>
    (∀ message isValid, op = Operation.Validate (some message) (some isValid) →
      (u.Validate (some message) (some isValid)).isValid ≠ some true) ∧
    ∀ r, step L u op = some r → neverReportsValid L r.self rest

end CCPPMixerSplitterUnitOperation

/-- Calls of a host on a unit operation: a disconnection, a reset, an edit without
change and a renaming. -/
def Sample.calls : List CCPPMixerSplitterUnitOperation.Operation :=
  [CCPPMixerSplitterUnitOperation.Operation.port 0 CMaterialPort.Operation.Disconnect,
    CCPPMixerSplitterUnitOperation.Operation.parameter 1 CRealParameter.Operation.Reset,
    CCPPMixerSplitterUnitOperation.Operation.Edit [] CEditDialog.Ending.ClickedOK,
    CCPPMixerSplitterUnitOperation.Operation.put_ComponentName (some "Mixer")]

/-- A call that sets the split factor to 3/4. -/
def Sample.change : CCPPMixerSplitterUnitOperation.Operation :=
  CCPPMixerSplitterUnitOperation.Operation.parameter 0
    (CRealParameter.Operation.put_value
      { vt := VARTYPE.VT_R8, bstrVal := none, changeTypeR8 := some (Dbl.fin (3 / 4)),
        changeTypeI4 := some 1 })

/-- Further calls of a host: a disconnection and a question for the dirty state. -/
def Sample.further : List CCPPMixerSplitterUnitOperation.Operation :=
  [CCPPMixerSplitterUnitOperation.Operation.port 0 CMaterialPort.Operation.Disconnect,
    CCPPMixerSplitterUnitOperation.Operation.IsDirty]

/-! ## Errors in the words of the specification -/

namespace CCPPMixerSplitterUnitOperation

/-- The object a call by the host is made on, in the given state: the unit operation,
a port, a parameter or one of the two collections. -/
def Operation.object (u : CCPPMixerSplitterUnitOperation) : Operation → Option CAPEOPENBaseObject
  | Operation.port i _ => u.portCollection.items[i]?.map (fun port => port.toCAPEOPENBaseObject)
  | Operation.parameter i _ =>
    u.parameterCollection.items[i]?.map (fun par => par.toCAPEOPENBaseObject)
  | Operation.ports _ => some u.portCollection.toCAPEOPENBaseObject
  | Operation.parameters _ => some u.parameterCollection.toCAPEOPENBaseObject
  | _ => some u.toCAPEOPENBaseObject

end CCPPMixerSplitterUnitOperation

/-! ## The host's material objects behind the facade

The two wrapper classes reach a material object of the host through its COM
interfaces.  A host object is given by its answers: the answer to a call may depend
on the calls made before. -/

/-- The value `CBSTR(str)` of the constructor of `CBSTR` from a string: NULL for the
NULL pointer and for the empty string. -/
def CBSTR.ctor (value : Option String) : BSTR :=
  match value with
  | some s => if s.data.isEmpty then none else some s
  | none => none

/-- The enumeration `CapePhaseStatus` of the CAPE-OPEN type library. -/
inductive CapePhaseStatus where
  | CAPE_UNKNOWNPHASESTATUS
  | CAPE_ATEQUILIBRIUM
  | CAPE_ESTIMATES
deriving DecidableEq, Repr

/-- A `VARIANT` a host stores in an `[out]` argument: empty, a safe array of strings
or of reals with its number of dimensions, its lower bound and its elements, or a
value of another type. -/
inductive HostVariant where
  | empty
  | strings (cDims : Nat) (lBound : Int) (elements : List BSTR)
  | doubles (cDims : Nat) (lBound : Int) (elements : List Dbl)
  | other
deriving DecidableEq

/-- `CVariant::CheckArray(VT_BSTR,error)`: the elements of a proper array of strings,
or the description of the problem. -/
def HostVariant.CheckArrayBSTR : HostVariant → Except String (List BSTR)
  | HostVariant.empty => Except.ok []
  | HostVariant.strings cDims lBound elements =>
    if cDims ≠ 1 then Except.error "unexpected dimension; 1-dimensional array expected"
    else if lBound ≠ 0 then Except.error "unexpected lower bound; expected zero"
    else Except.ok elements
  | _ => Except.error "Expected an array of type string"

/-- `CVariant::CheckArray(VT_R8,error)`: the elements of a proper array of reals, or
the description of the problem. -/
def HostVariant.CheckArrayR8 : HostVariant → Except String (List Dbl)
  | HostVariant.empty => Except.ok []
  | HostVariant.doubles cDims lBound elements =>
    if cDims ≠ 1 then Except.error "unexpected dimension; 1-dimensional array expected"
    else if lBound ≠ 0 then Except.error "unexpected lower bound; expected zero"
    else Except.ok elements
  | _ => Except.error "Expected an array of type double precision"

/-- The outcome of a call on a host object: a failure code, with the text `CO_Error`
makes of the object and the code, or success, with the `VARIANT` stored in the `[out]`
argument of the method, if it has one. -/
inductive Response where
  | failed (text : String)
  | succeeded (value : HostVariant)
deriving DecidableEq

/-- Whether the call succeeded. -/
def Response.isSucceeded : Response → Bool
  | Response.succeeded _ => true
  | Response.failed _ => false

/-- A host object with calls of type `κ`: the answer to the last call of a sequence
of calls made to it. -/
abbrev Host (κ : Type) := List κ → Response

/-- The calls made to a host object so far, each with its answer. -/
abbrev Calls (κ : Type) := List (κ × Response)

/-- The answer of the host to a further call. -/
def Host.ask {κ : Type} (host : Host κ) (done : Calls κ) (call : κ) : Response :=
  host (done.map Prod.fst ++ [call])

/-- The calls of the version 1.0 wrapper on `ICapeThermoMaterialObject`, with the
arguments that vary; `QueryInterface` is the request for `ICapeThermoMaterialObject`
itself that the wrapper makes of a duplicate. -/
inductive ICapeThermoMaterialObject where
  | SetProp (property phase calcType basis : BSTR) (values : List Dbl)
  | CalcEquilibrium (flashType : BSTR)
  | GetProp (property phase calcType basis : BSTR)
  | Duplicate
  | QueryInterface
  | get_ComponentIds
  | GetPropList
  | get_PhaseIds
  | CalcProp (props phases : List BSTR) (calcType : BSTR)
deriving DecidableEq

/-- The interfaces the version 1.1 wrapper asks the material object for. -/
inductive IID where
  | ICapeThermoPropertyRoutine
  | ICapeThermoEquilibriumRoutine
  | ICapeThermoCompounds
  | ICapeThermoPhases
  | ICapeThermoMaterial
deriving DecidableEq, Repr

/-- The calls of the version 1.1 wrapper on `ICapeThermoMaterial` and on the
interfaces it obtains from it. -/
inductive ICapeThermoMaterial where
  | SetOverallProp (property basis : BSTR) (values : List Dbl)
  | QueryInterface (iid : IID)
  | GetPhaseList
  | SetPresentPhases (phaseLabels : List BSTR) (phaseStatus : List CapePhaseStatus)
  | CalcEquilibrium (specification1 specification2 : List BSTR) (solutionType : BSTR)
  | GetOverallProp (property basis : BSTR)
  | CreateMaterial
  | CopyFromMaterial
  | GetCompoundList
  | GetSinglePhasePropList
  | GetPresentPhases
  | CalcSinglePhaseProp (props : List BSTR) (phaseLabel : BSTR)
  | GetSinglePhaseProp (property phaseLabel basis : BSTR)
deriving DecidableEq

/-- Outcome of a method of a wrapper: the calls made to the host, in order and with
their answers, and the result or the reason for stopping. -/
abbrev Wrapped (κ α : Type) := Calls κ × Except Abort α

namespace MaterialObject10Wrapper

/-- `MaterialObject10Wrapper::SetFromFlowTPX` on the host object `mat`, after the
calls `done`. -/
def SetFromFlowTPX (mat : Host ICapeThermoMaterialObject)
    (done : Calls ICapeThermoMaterialObject) (composition : List Dbl) (flow T P : Dbl) :
    Wrapped ICapeThermoMaterialObject Unit :=
  let overall := CBSTR.ctor (some "overall")
  let mole := CBSTR.ctor (some "mole")
  -- set composition
  let call := ICapeThermoMaterialObject.SetProp (CBSTR.ctor (some "fraction")) overall none mole
    composition
  let hr := mat.ask done call
  let done := done ++ [(call, hr)]
  match hr with
  | Response.failed text =>
    (done, Except.error (Abort.error
      ("Failed to set overall composition on material object: " ++ text)))
  | Response.succeeded _ =>
    -- set flow
    let call := ICapeThermoMaterialObject.SetProp (CBSTR.ctor (some "totalFlow")) overall none
      mole [flow]
    let hr := mat.ask done call
    let done := done ++ [(call, hr)]
    match hr with
    | Response.failed text =>
      (done, Except.error (Abort.error ("Failed to set total flow on material object: " ++ text)))
    | Response.succeeded _ =>
      -- set temperature
      let call := ICapeThermoMaterialObject.SetProp (CBSTR.ctor (some "temperature")) overall
        none none [T]
      let hr := mat.ask done call
      let done := done ++ [(call, hr)]
      match hr with
      | Response.failed text =>
        (done, Except.error (Abort.error
          ("Failed to set temperature on material object: " ++ text)))
      | Response.succeeded _ =>
        -- set pressure
        let call := ICapeThermoMaterialObject.SetProp (CBSTR.ctor (some "pressure")) overall
          none none [P]
        let hr := mat.ask done call
        let done := done ++ [(call, hr)]
        match hr with
        | Response.failed text =>
          (done, Except.error (Abort.error
            ("Failed to set pressure on material object: " ++ text)))
        | Response.succeeded _ =>
          -- perform TP flash
          let call := ICapeThermoMaterialObject.CalcEquilibrium (CBSTR.ctor (some "TP"))
          let hr := mat.ask done call
          let done := done ++ [(call, hr)]
          match hr with
          | Response.failed text =>
            (done, Except.error (Abort.error ("TP flash calculation failed: " ++ text)))
          | Response.succeeded _ => (done, Except.ok ())

/-- `MaterialObject10Wrapper::GetTemperatureFromPHFlash` on the host object `mat`,
after the calls `done`.  The result is the value of `T`.  The run is not defined
where the source reads element 0 of an array that has no element. -/
def GetTemperatureFromPHFlash (mat : Host ICapeThermoMaterialObject)
    (done : Calls ICapeThermoMaterialObject) (composition : List Dbl) (P H : Dbl) :
    Wrapped ICapeThermoMaterialObject Dbl :=
  let overall := CBSTR.ctor (some "overall")
  let mole := CBSTR.ctor (some "mole")
  -- set composition
  let call := ICapeThermoMaterialObject.SetProp (CBSTR.ctor (some "fraction")) overall none mole
    composition
  let hr := mat.ask done call
  let done := done ++ [(call, hr)]
  match hr with
  | Response.failed text =>
    (done, Except.error (Abort.error
      ("Failed to set overall composition on material object: " ++ text)))
  | Response.succeeded _ =>
    -- set pressure
    let call := ICapeThermoMaterialObject.SetProp (CBSTR.ctor (some "pressure")) overall none
      none [P]
    let hr := mat.ask done call
    let done := done ++ [(call, hr)]
    match hr with
    | Response.failed text =>
      (done, Except.error (Abort.error ("Failed to set pressure on material object: " ++ text)))
    | Response.succeeded _ =>
      -- set enthalpy
      let call := ICapeThermoMaterialObject.SetProp (CBSTR.ctor (some "enthalpy")) overall
        (CBSTR.ctor (some "mixture")) mole [H]
      let hr := mat.ask done call
      let done := done ++ [(call, hr)]
      match hr with
      | Response.failed text =>
        (done, Except.error (Abort.error
          ("Failed to set overall enthalpy on material object: " ++ text)))
      | Response.succeeded _ =>
        -- perform PH flash
        let call := ICapeThermoMaterialObject.CalcEquilibrium (CBSTR.ctor (some "PH"))
        let hr := mat.ask done call
        let done := done ++ [(call, hr)]
        match hr with
        | Response.failed text =>
          (done, Except.error (Abort.error ("PH flash calculation failed: " ++ text)))
        | Response.succeeded _ =>
          -- get temperature
          let call := ICapeThermoMaterialObject.GetProp (CBSTR.ctor (some "temperature"))
            overall none none
          let hr := mat.ask done call
          let done := done ++ [(call, hr)]
          match hr with
          | Response.failed text =>
            (done, Except.error (Abort.error
              ("Failed to obtain temperature after PH flash: " ++ text)))
          | Response.succeeded v =>
            -- check value
            match v.CheckArrayR8 with
            | Except.error error =>
              (done, Except.error (Abort.error
                ("Invalid values for temprature from material object: " ++ error)))
            | Except.ok scalar =>
              match scalar with
              | T :: _ => (done, Except.ok T)
              | [] => (done, Except.error Abort.undefined)

end MaterialObject10Wrapper

/-- Member variables of `MaterialObject11Wrapper` next to the material object itself:
whether each of the interfaces obtained from it on first use has been obtained. -/
structure MaterialObject11Wrapper where
  iPropRoutine : Bool
  iEqRoutine : Bool
  iCompounds : Bool
  iPhases : Bool

namespace MaterialObject11Wrapper

/-- Constructor `MaterialObject11Wrapper::MaterialObject11Wrapper`: no interface has
been obtained. -/
def ctor : MaterialObject11Wrapper :=
  { iPropRoutine := false, iEqRoutine := false, iCompounds := false, iPhases := false }

/-- The call of `CalcEquilibrium` in both flash methods, with the two specifications;
`failure` is the text for a failing flash. -/
def calcEquilibrium (w : MaterialObject11Wrapper) (mat : Host ICapeThermoMaterial)
    (done : Calls ICapeThermoMaterial) (flashSpec1 flashSpec2 : List BSTR) (failure : String) :
    MaterialObject11Wrapper × Wrapped ICapeThermoMaterial Unit :=
  let call := ICapeThermoMaterial.CalcEquilibrium flashSpec1 flashSpec2
    (CBSTR.ctor (some "unspecified"))
  let hr := mat.ask done call
  let done := done ++ [(call, hr)]
  match hr with
  | Response.failed text => (w, done, Except.error (Abort.error (failure ++ text)))
  | Response.succeeded _ => (w, done, Except.ok ())

/-- The part of both flash methods from the list of possible phases on: get the list
of possible phases and check it, set the present phases, get the interface for the
flash if it has not been obtained, and perform the flash.  `error` is the text the
argument `error` holds when the method is called. -/
def setPresentPhases (w : MaterialObject11Wrapper) (mat : Host ICapeThermoMaterial)
    (done : Calls ICapeThermoMaterial) (error : String) (flashSpec1 flashSpec2 : List BSTR)
    (failure : String) : MaterialObject11Wrapper × Wrapped ICapeThermoMaterial Unit :=
  -- get the total phase list
  let call := ICapeThermoMaterial.GetPhaseList
  let hr := mat.ask done call
  let done := done ++ [(call, hr)]
  match hr with
  | Response.failed text =>
    (w, done, Except.error (Abort.error
      ("Failed to get list of possible phases from material object: " ++ text)))
  | Response.succeeded phaseList =>
    -- check phase list
    match phaseList.CheckArrayBSTR with
    | Except.error error =>
      (w, done, Except.error (Abort.error
        ("Invalid list of possible phases from material object: " ++ error)))
    | Except.ok phaseLabels =>
      -- set present phases on MO; we do not have an initial guess
      let phaseStatus := phaseLabels.map (fun _ => CapePhaseStatus.CAPE_UNKNOWNPHASESTATUS)
      let call := ICapeThermoMaterial.SetPresentPhases phaseLabels phaseStatus
      let hr := mat.ask done call
      let done := done ++ [(call, hr)]
      match hr with
      | Response.failed _ =>
        (w, done, Except.error (Abort.error
          ("Failed to set list of present phases on material object: " ++ error)))
      | Response.succeeded _ =>
        -- the flash is performed by the ICapeThermoEquilibriumRoutine interface
        if !w.iEqRoutine then
          let call := ICapeThermoMaterial.QueryInterface IID.ICapeThermoEquilibriumRoutine
          let hr := mat.ask done call
          let done := done ++ [(call, hr)]
          match hr with
          | Response.failed _ =>
            (w, done, Except.error (Abort.error
              "Material object does not expose ICapeThermoEquilibriumRoutine"))
          | Response.succeeded _ =>
            calcEquilibrium { w with iEqRoutine := true } mat done flashSpec1 flashSpec2 failure
        else calcEquilibrium w mat done flashSpec1 flashSpec2 failure

/-- The part of both flash methods that follows the setting of the overall
properties: get the interface for the phases if it has not been obtained, then go on
with the list of possible phases. -/
def flash (w : MaterialObject11Wrapper) (mat : Host ICapeThermoMaterial)
    (done : Calls ICapeThermoMaterial) (error : String) (flashSpec1 flashSpec2 : List BSTR)
    (failure : String) : MaterialObject11Wrapper × Wrapped ICapeThermoMaterial Unit :=
  if !w.iPhases then
    let call := ICapeThermoMaterial.QueryInterface IID.ICapeThermoPhases
    let hr := mat.ask done call
    let done := done ++ [(call, hr)]
    match hr with
    | Response.failed _ =>
      (w, done, Except.error (Abort.error "Material object does not expose ICapeThermoPhases"))
    | Response.succeeded _ =>
      setPresentPhases { w with iPhases := true } mat done error flashSpec1 flashSpec2 failure
  else setPresentPhases w mat done error flashSpec1 flashSpec2 failure

/-- `MaterialObject11Wrapper::SetFromFlowTPX` on the host object `mat`, after the
calls `done`; `error` is the text the argument `error` holds when the method is
called. -/
def SetFromFlowTPX (w : MaterialObject11Wrapper) (mat : Host ICapeThermoMaterial)
    (done : Calls ICapeThermoMaterial) (error : String) (composition : List Dbl)
    (flow T P : Dbl) : MaterialObject11Wrapper × Wrapped ICapeThermoMaterial Unit :=
  let mole := CBSTR.ctor (some "mole")
  -- set composition
  let call := ICapeThermoMaterial.SetOverallProp (CBSTR.ctor (some "fraction")) mole composition
  let hr := mat.ask done call
  let done := done ++ [(call, hr)]
  match hr with
  | Response.failed text =>
    (w, done, Except.error (Abort.error
      ("Failed to set overall composition on material object: " ++ text)))
  | Response.succeeded _ =>
    -- set total flow
    let call := ICapeThermoMaterial.SetOverallProp (CBSTR.ctor (some "totalFlow")) mole [flow]
    let hr := mat.ask done call
    let done := done ++ [(call, hr)]
    match hr with
    | Response.failed text =>
      (w, done, Except.error (Abort.error
        ("Failed to set total flow on material object: " ++ text)))
    | Response.succeeded _ =>
      -- set temperature
      let call := ICapeThermoMaterial.SetOverallProp (CBSTR.ctor (some "temperature")) none [T]
      let hr := mat.ask done call
      let done := done ++ [(call, hr)]
      match hr with
      | Response.failed text =>
        (w, done, Except.error (Abort.error
          ("Failed to set temperature on material object: " ++ text)))
      | Response.succeeded _ =>
        -- set pressure
        let call := ICapeThermoMaterial.SetOverallProp (CBSTR.ctor (some "pressure")) none [P]
        let hr := mat.ask done call
        let done := done ++ [(call, hr)]
        match hr with
        | Response.failed text =>
          (w, done, Except.error (Abort.error
            ("Failed to set pressure on material object: " ++ text)))
        | Response.succeeded _ =>
          -- flash specifications: overall temperature, overall pressure; perform TP flash
          let overall := CBSTR.ctor (some "overall")
          w.flash mat done error [some "temperature", none, overall]
            [some "pressure", none, overall] "TP flash calculation failed: "

/-- `MaterialObject11Wrapper::GetTemperatureFromPHFlash` on the host object `mat`,
after the calls `done`; `error` is the text the argument `error` holds when the method
is called.  The result is the value of `T`.  The run is not defined where the source
reads element 0 of an array that has no element. -/
def GetTemperatureFromPHFlash (w : MaterialObject11Wrapper) (mat : Host ICapeThermoMaterial)
    (done : Calls ICapeThermoMaterial) (error : String) (composition : List Dbl) (P H : Dbl) :
    MaterialObject11Wrapper × Wrapped ICapeThermoMaterial Dbl :=
  let mole := CBSTR.ctor (some "mole")
  -- set composition
  let call := ICapeThermoMaterial.SetOverallProp (CBSTR.ctor (some "fraction")) mole composition
  let hr := mat.ask done call
  let done := done ++ [(call, hr)]
  match hr with
  | Response.failed text =>
    (w, done, Except.error (Abort.error
      ("Failed to set overall composition on material object: " ++ text)))
  | Response.succeeded _ =>
    -- set pressure
    let call := ICapeThermoMaterial.SetOverallProp (CBSTR.ctor (some "pressure")) none [P]
    let hr := mat.ask done call
    let done := done ++ [(call, hr)]
    match hr with
    | Response.failed text =>
      (w, done, Except.error (Abort.error
        ("Failed to set pressure on material object: " ++ text)))
    | Response.succeeded _ =>
      -- set enthalpy
      let call := ICapeThermoMaterial.SetOverallProp (CBSTR.ctor (some "enthalpy")) mole [H]
      let hr := mat.ask done call
      let done := done ++ [(call, hr)]
      match hr with
      | Response.failed text =>
        (w, done, Except.error (Abort.error
          ("Failed to set overall enthalpy on material object: " ++ text)))
      | Response.succeeded _ =>
        -- flash specifications: overall enthalpy, overall pressure; perform PH flash
        let overall := CBSTR.ctor (some "overall")
        match w.flash mat done error [some "enthalpy", none, overall]
            [some "pressure", none, overall] "PH flash calculation failed: " with
        | (w, done, Except.error e) => (w, done, Except.error e)
        | (w, done, Except.ok _) =>
          -- get temperature
          let call := ICapeThermoMaterial.GetOverallProp (CBSTR.ctor (some "temperature")) none
          let hr := mat.ask done call
          let done := done ++ [(call, hr)]
          match hr with
          | Response.failed text =>
            (w, done, Except.error (Abort.error
              ("Failed to obtain temperature after PH flash: " ++ text)))
          | Response.succeeded v =>
            -- check value
            match v.CheckArrayR8 with
            | Except.error error =>
              (w, done, Except.error (Abort.error
                ("Invalid values for temprature from material object: " ++ error)))
            | Except.ok scalar =>
              match scalar with
              | T :: _ => (w, done, Except.ok T)
              | [] => (w, done, Except.error Abort.undefined)

end MaterialObject11Wrapper

/-! ## The two wrappers in the words of the specification -/

/-- What a call asks of the material object, in terms common to the two versions:
set the overall mole fraction, the overall total flow on mole basis, the temperature,
the pressure or the overall molar enthalpy, request a temperature-pressure or a
pressure-enthalpy flash, or get the overall temperature. -/
inductive Action where
  | setFraction (composition : List Dbl)
  | setTotalFlow (flow : Dbl)
  | setTemperature (T : Dbl)
  | setPressure (P : Dbl)
  | setEnthalpy (H : Dbl)
  | flashTP
  | flashPH
  | getTemperature
deriving DecidableEq

/-- The action of a call of version 1.0, if it is one of the actions. -/
def ICapeThermoMaterialObject.action : ICapeThermoMaterialObject → Option Action
  | ICapeThermoMaterialObject.SetProp (some "fraction") (some "overall") none (some "mole")
      composition => some (Action.setFraction composition)
  | ICapeThermoMaterialObject.SetProp (some "totalFlow") (some "overall") none (some "mole")
      [flow] => some (Action.setTotalFlow flow)
  | ICapeThermoMaterialObject.SetProp (some "temperature") (some "overall") none none [T] =>
    some (Action.setTemperature T)
  | ICapeThermoMaterialObject.SetProp (some "pressure") (some "overall") none none [P] =>
    some (Action.setPressure P)
  | ICapeThermoMaterialObject.SetProp (some "enthalpy") (some "overall") (some "mixture")
      (some "mole") [H] => some (Action.setEnthalpy H)
  | ICapeThermoMaterialObject.CalcEquilibrium (some "TP") => some Action.flashTP
  | ICapeThermoMaterialObject.CalcEquilibrium (some "PH") => some Action.flashPH
  | ICapeThermoMaterialObject.GetProp (some "temperature") (some "overall") none none =>
    some Action.getTemperature
  | _ => none

/-- The action of a call of version 1.1, if it is one of the actions. -/
def ICapeThermoMaterial.action : ICapeThermoMaterial → Option Action
  | ICapeThermoMaterial.SetOverallProp (some "fraction") (some "mole") composition =>
    some (Action.setFraction composition)
  | ICapeThermoMaterial.SetOverallProp (some "totalFlow") (some "mole") [flow] =>
    some (Action.setTotalFlow flow)
  | ICapeThermoMaterial.SetOverallProp (some "temperature") none [T] =>
    some (Action.setTemperature T)
  | ICapeThermoMaterial.SetOverallProp (some "pressure") none [P] => some (Action.setPressure P)
  | ICapeThermoMaterial.SetOverallProp (some "enthalpy") (some "mole") [H] =>
    some (Action.setEnthalpy H)
  | ICapeThermoMaterial.CalcEquilibrium [some "temperature", none, some "overall"]
      [some "pressure", none, some "overall"] _ => some Action.flashTP
  | ICapeThermoMaterial.CalcEquilibrium [some "enthalpy", none, some "overall"]
      [some "pressure", none, some "overall"] _ => some Action.flashPH
  | ICapeThermoMaterial.GetOverallProp (some "temperature") none => some Action.getTemperature
  | _ => none

/-- The calls a method made: those after the calls made before it. -/
def Calls.made {κ : Type} (done after : Calls κ) : Calls κ := after.drop done.length

/-- The actions of a sequence of calls, in order. -/
def Calls.actions {κ : Type} (action : κ → Option Action) (calls : Calls κ) : List Action :=
  calls.filterMap (fun e => action e.1)

/-- Every call of the sequence succeeded. -/
def Calls.succeeded {κ : Type} (calls : Calls κ) : Prop :=
  ∀ e ∈ calls, e.2.isSucceeded = true

/-- What `SetFromFlowTPX` is to ask of the material object, in order. -/
def SetFromFlowTPX.Spec.actions (composition : List Dbl) (flow T P : Dbl) : List Action :=
  [Action.setFraction composition, Action.setTotalFlow flow, Action.setTemperature T,
    Action.setPressure P, Action.flashTP]

/-- What `GetTemperatureFromPHFlash` is to ask of the material object, in order. -/
def GetTemperatureFromPHFlash.Spec.actions (composition : List Dbl) (P H : Dbl) : List Action :=
  [Action.setFraction composition, Action.setPressure P, Action.setEnthalpy H, Action.flashPH,
    Action.getTemperature]

/-- The real a host reports for a property with one value: the first element of a
one-dimensional array of reals from index 0. -/
def HostVariant.reported : HostVariant → Option Dbl
  | HostVariant.doubles cDims lBound (value :: _) =>
    if cDims = 1 ∧ lBound = 0 then some value else none
  | _ => none

/-- Whether a value is a list of phase labels: no value, or a one-dimensional array of
strings from index 0. -/
def HostVariant.isPhaseList : HostVariant → Bool
  | HostVariant.empty => true
  | HostVariant.strings cDims lBound _ => decide (cDims = 1 ∧ lBound = 0)
  | _ => false

/-- The form of the value a successful call of version 1.1 is to return, for the calls
of `SetFromFlowTPX`: the list of possible phases is a list of phase labels. -/
def ICapeThermoMaterial.expected : ICapeThermoMaterial → HostVariant → Bool
  | ICapeThermoMaterial.GetPhaseList, value => value.isPhaseList
  | _, _ => true

/-- Every value returned by a successful call of the sequence has the expected form. -/
def Calls.proper {κ : Type} (expected : κ → HostVariant → Bool) (calls : Calls κ) : Prop :=
  ∀ e ∈ calls, ∀ value, e.2 = Response.succeeded value → expected e.1 value = true

/-- Version 1.0 checks the form of no value during `SetFromFlowTPX`, and during
`GetTemperatureFromPHFlash` only that of the temperature it returns. -/
def ICapeThermoMaterialObject.expected : ICapeThermoMaterialObject → HostVariant → Bool :=
  fun _ _ => true

/-- A method stops at the first step that fails: it makes at least one call, and every
call but the last one made succeeded and returned a value of the expected form, so
that nothing is called after a call that fails or returns a value of another form. -/
def Calls.Stops {κ : Type} (expected : κ → HostVariant → Bool) (made : Calls κ) : Prop :=
  made ≠ [] ∧ Calls.succeeded made.dropLast ∧ Calls.proper expected made.dropLast

/-- The sentence of the specification on `SetFromFlowTPX`, for the run `run` of the
method after the calls `done`: the calls made set the overall mole fraction, the total
flow, the temperature and the pressure and request the flash, in this order, up to
the first call that fails, after which nothing is called; and the method returns true
if and only if every call succeeded, and then all five were made. -/
def SetFromFlowTPX.Spec.holds {κ : Type} (action : κ → Option Action) (done : Calls κ)
    (run : Wrapped κ Unit) (composition : List Dbl) (flow T P : Dbl) : Prop :=
  run.1 = done ++ Calls.made done run.1 ∧
  (Calls.made done run.1).actions action <+: SetFromFlowTPX.Spec.actions composition flow T P ∧
  (Calls.made done run.1).Stops (fun _ _ => true) ∧
  (run.2 = Except.ok () →
    (Calls.made done run.1).actions action = SetFromFlowTPX.Spec.actions composition flow T P) ∧
  (run.2 = Except.ok () ↔ (Calls.made done run.1).succeeded) ∧
  run.2 ≠ Except.error Abort.undefined

/-- The sentence on `SetFromFlowTPX` with the success of the method made to depend
also on the form of the values returned: the method stops at the first call that fails
or returns a value of another form than expected, and returns true if and only if
every call succeeded and returned a value of the expected form. -/
def SetFromFlowTPX.Spec.amended {κ : Type} (action : κ → Option Action)
    (expected : κ → HostVariant → Bool) (done : Calls κ) (run : Wrapped κ Unit)
    (composition : List Dbl) (flow T P : Dbl) : Prop :=
  run.1 = done ++ Calls.made done run.1 ∧
  (Calls.made done run.1).actions action <+: SetFromFlowTPX.Spec.actions composition flow T P ∧
  (Calls.made done run.1).Stops expected ∧
  (run.2 = Except.ok () →
    (Calls.made done run.1).actions action = SetFromFlowTPX.Spec.actions composition flow T P) ∧
  (run.2 = Except.ok () ↔
    (Calls.made done run.1).succeeded ∧ (Calls.made done run.1).proper expected) ∧
  run.2 ≠ Except.error Abort.undefined

/-- The sentence of the specification on `GetTemperatureFromPHFlash`, for the run `run`
of the method after the calls `done`: the calls made set the overall mole fraction, the
pressure and the molar enthalpy, request the flash and get the temperature, in this
order, up to the first call that fails or returns a value of another form than
expected, after which nothing is called; unless there is such a call all five are
made; and the method returns a temperature exactly when all five were made and the
answer to the last call reports that temperature; every call has then succeeded. -/
def GetTemperatureFromPHFlash.Spec.holds {κ : Type} (action : κ → Option Action)
    (expected : κ → HostVariant → Bool) (done : Calls κ) (run : Wrapped κ Dbl)
    (composition : List Dbl) (P H : Dbl) : Prop :=
  run.1 = done ++ Calls.made done run.1 ∧
  (Calls.made done run.1).actions action <+:
    GetTemperatureFromPHFlash.Spec.actions composition P H ∧
  (Calls.made done run.1).Stops expected ∧
  ((Calls.made done run.1).succeeded → (Calls.made done run.1).proper expected →
    (Calls.made done run.1).actions action =
      GetTemperatureFromPHFlash.Spec.actions composition P H) ∧
  (∀ T, run.2 = Except.ok T ↔
    (Calls.made done run.1).actions action =
        GetTemperatureFromPHFlash.Spec.actions composition P H ∧
      ∃ call value, (Calls.made done run.1).getLast? = some (call, Response.succeeded value) ∧
        value.reported = some T) ∧
  (∀ T, run.2 = Except.ok T → (Calls.made done run.1).succeeded)

/-- A host object of version 1.1 all of whose calls succeed: it returns `phaseList` for
the list of possible phases and an overall temperature of 350 K. -/
def Sample.host11 (phaseList : HostVariant) : Host ICapeThermoMaterial := fun calls =>
  match calls.getLast? with
  | some ICapeThermoMaterial.GetPhaseList => Response.succeeded phaseList
  | some (ICapeThermoMaterial.GetOverallProp _ _) =>
    Response.succeeded (HostVariant.doubles 1 0 [Dbl.fin 350])
  | _ => Response.succeeded HostVariant.empty

/-- A host object of version 1.0 all of whose calls succeed: it reports an overall
temperature of 350 K. -/
def Sample.host10 : Host ICapeThermoMaterialObject := fun calls =>
  match calls.getLast? with
  | some (ICapeThermoMaterialObject.GetProp _ _ _ _) =>
    Response.succeeded (HostVariant.doubles 1 0 [Dbl.fin 350])
  | _ => Response.succeeded HostVariant.empty

/-- A list of two phase labels in an array with indices from 1. -/
def Sample.phaseListFrom1 : HostVariant :=
  HostVariant.strings 1 1 [some "Vapor", some "Liquid"]

/-! ## Loading in the words of the specification -/

/-- One length-prefixed string at the head of a stream: the length as four bytes, then
that many characters of two bytes and their terminator.  The result is the rest of the
stream, if the string is in the stream in full. -/
def Load.Spec.string (pstm : List Nat) : Option (List Nat) :=
  if pstm.length < 4 then none
  else
    let length := UINT.ofBytes (pstm.take 4)
    if (pstm.drop 4).length < 2 * (length + 1) then none
    else some (pstm.drop (4 + 2 * (length + 1)))

/-- Whether `Load` is to succeed on a stream: the version tag is there and not greater
than the current file version, and both strings and both reals of eight bytes are in
the stream in full. -/
def Load.Spec.succeeds (pstm : List Nat) : Bool :=
  decide (4 ≤ pstm.length ∧
    UINT.ofBytes (pstm.take 4) ≤ CCPPMixerSplitterUnitOperation.CURRENTFILEVERSIONNUMBER) &&
  match Load.Spec.string (pstm.drop 4) with
  | none => false
  | some pstm =>
    match Load.Spec.string pstm with
    | none => false
    | some pstm => decide (16 ≤ pstm.length)

/-- A stream with version 0 that announces a name of 2^31 characters and goes on with
a single zero character, an empty description and the values 0.0 and 0.0. -/
def Sample.streamLongName : List Nat :=
  [0, 0, 0, 0] ++ ([0, 0, 0, 128] ++ [0, 0]) ++ ([0, 0, 0, 0] ++ [0, 0]) ++
    [0, 0, 0, 0, 0, 0, 0, 0] ++ [0, 0, 0, 0, 0, 0, 0, 0]

/-- A stream with version 0 that announces a name of 2^32 - 1 characters and goes on
with an empty description and the values 0.0 and 0.0. -/
def Sample.streamLongestName : List Nat :=
  [0, 0, 0, 0] ++ [255, 255, 255, 255] ++ ([0, 0, 0, 0] ++ [0, 0]) ++
    [0, 0, 0, 0, 0, 0, 0, 0] ++ [0, 0, 0, 0, 0, 0, 0, 0]


/-! ## The size of the saved form -/

namespace CCPPMixerSplitterUnitOperation

/-- `IPersistStream::GetSizeMax`: the returned code and the pointee of `pcbSize` after
the call (`none` for a NULL pointer).  The total is a `UINT`. -/
def GetSizeMax (u : CCPPMixerSplitterUnitOperation) (pcbSize : Option Nat) :
    HRESULT × Option Nat :=
  match pcbSize with
  | none => (HRESULT.E_POINTER, none)
  | some _ =>
    -- version number
    let total := 4
    -- size and data of name
    let length := u.name.length % 2 ^ 32
    let total := (total + (4 + (2 * ((length + 1) % 2 ^ 32)) % 2 ^ 32)) % 2 ^ 32
    -- size and data of description
    let length := u.description.length % 2 ^ 32
    let total := (total + (4 + (2 * ((length + 1) % 2 ^ 32)) % 2 ^ 32)) % 2 ^ 32
    -- size of values of parameters
    let total := (total + 8 * 2) % 2 ^ 32
    (HRESULT.NOERROR, some total)

end CCPPMixerSplitterUnitOperation

/-- The size of the saved form of a unit operation with a name of `n` characters and a
description of `m` characters. -/
def GetSizeMax.Spec.size (n m : Nat) : Nat :=
  4 + (4 + 2 * (n + 1)) + (4 + 2 * (m + 1)) + 16

/-- The newly constructed unit operation after the host has named it "Mixer". -/
def Sample.renamed : CCPPMixerSplitterUnitOperation :=
  { CCPPMixerSplitterUnitOperation.ctor with
    toCAPEOPENBaseObject :=
      (CCPPMixerSplitterUnitOperation.ctor.toCAPEOPENBaseObject.put_ComponentName
        (some "Mixer")).self }

/-! ## Failing requests in the words of the specification

A request of `Calculate` fails if the host answers it with a failure, or with values
of a number that `Calculate` does not expect. -/

/-- The material of the port at index `i`, if the port is connected. -/
def Request.material (ports : List CMaterialPort) (i : Nat) : Option Material :=
  match ports[i]? with
  | some port => port.GetMaterial
  | none => none

/-- The duplicate the host gives of the material of the port at index `i`. -/
def Request.duplicate (ports : List CMaterialPort) (i : Nat) : Option MaterialObjectWrapper :=
  match Request.material ports i with
  | some material =>
    match material.Duplicate with
    | Except.ok duplicateMaterial => some duplicateMaterial
    | Except.error _ => none
  | none => none

/-- The text `Calculate` produces for the values of a property that are not of the
expected number: `nCompounds` values for the fractions, one value for the others. -/
def Request.unexpected (nCompounds : Nat) (propName : String) (value : List Dbl) :
    Option String :=
  if propName = "fraction" then
    if value.length ≠ nCompounds then
      some "Invalid values for overall fraction from material object: unexpected number of values"
    else none
  else if value.length ≠ 1 then
    if propName = "pressure" then
      some "Invalid values for pressure from material object: scalar expected"
    else if propName = "totalFlow" then
      some "Invalid values for total flow from material object: scalar expected"
    else if propName = "temperature" then
      some "Invalid values for temperature from material object: scalar expected"
    else if propName = "phaseFraction" then
      some "Invalid values for phase fraction from material object: scalar expected"
    else if propName = "enthalpy" then
      some "Invalid values for enthalpy from material object: scalar expected"
    else none
  else none

/-- The text produced for an answer: the text of the failure, or the text for the
value of a successful answer, if there is one. -/
def Request.textOf {α : Type} (answer : Except String α) (check : α → Option String) :
    Option String :=
  match answer with
  | Except.error text => some text
  | Except.ok a => check a

/-- The text produced for the failure of a request, if the request fails: the text of
the material facade for a failure of the host, the text of `Calculate` for values of
an unexpected number.  The requests on a duplicate go to the duplicate of the material
of the port. -/
def Request.failure (ports : List CMaterialPort) (nCompounds : Nat) : Request → Option String
  | Request.GetOverallProperty i propName basis =>
    match Request.material ports i with
    | some material =>
      Request.textOf (material.GetOverallProperty propName basis)
        (Request.unexpected nCompounds propName)
    | none => none
  | Request.Duplicate i =>
    match Request.material ports i with
    | some material => Request.textOf material.Duplicate (fun _ => none)
    | none => none
  | Request.GetListOfPresentPhases i =>
    match Request.duplicate ports i with
    | some duplicateMaterial =>
      Request.textOf duplicateMaterial.GetListOfPresentPhases (fun _ => none)
    | none => none
  | Request.GetSinglePhaseProperty i propName phaseName calcType basis =>
    match Request.duplicate ports i with
    | some duplicateMaterial =>
      Request.textOf (duplicateMaterial.GetSinglePhaseProperty propName phaseName calcType basis)
        (Request.unexpected nCompounds propName)
    | none => none
  | Request.CalcSinglePhaseProperty i propName phaseName =>
    match Request.duplicate ports i with
    | some duplicateMaterial =>
      Request.textOf (duplicateMaterial.CalcSinglePhaseProperty propName phaseName)
        (fun _ => none)
    | none => none
  | Request.GetTemperatureFromPHFlash i composition P H =>
    match Request.duplicate ports i with
    | some duplicateMaterial =>
      Request.textOf (duplicateMaterial.GetTemperatureFromPHFlash composition P H)
        (fun _ => none)
    | none => none
  | Request.SetFromFlowTPX i composition flow T P =>
    match Request.material ports i with
    | some material =>
      Request.textOf (material.SetFromFlowTPX composition flow T P) (fun _ => none)
    | none => none

/-- A computation stops at a failing request: no request but the last one fails, and
if the last one fails the computation stops with the text produced for the failure.
`failure` gives the text produced for the failure of a request that fails. -/
def Traced.Stops {α : Type} (failure : Request → Option String) (x : Traced α) : Prop :=
  (∀ r ∈ x.1.dropLast, failure r = none) ∧
  ∀ r text, x.1.getLast? = some r → failure r = some text →
    x.2 = Except.error (Abort.error text)

/-! ## How often a request is made, in the words of the specification -/

/-- The present phases the host lists for the duplicate of the material of the port at
index `i`; no phase if there is no such list. -/
def Request.phases (ports : List CMaterialPort) (i : Nat) : List BSTR :=
  match Request.duplicate ports i with
  | some duplicateMaterial =>
    match duplicateMaterial.GetListOfPresentPhases with
    | Except.ok phaseList => phaseList
    | Except.error _ => []
  | none => []

/-- The port and the phase of a request about a phase of a material; `none` for every
other request. -/
def Request.phase : Request → Option (Nat × BSTR)
  | Request.GetSinglePhaseProperty i _ phaseName _ _ => some (i, phaseName)
  | Request.CalcSinglePhaseProperty i _ phaseName => some (i, phaseName)
  | _ => none

/-- How many times a request may be made: once, and a request about a phase once for
every time the host lists the phase as present. -/
def Request.listed (ports : List CMaterialPort) : Request → Nat
  | Request.GetSinglePhaseProperty i _ phaseName _ _ => (Request.phases ports i).count phaseName
  | Request.CalcSinglePhaseProperty i _ phaseName => (Request.phases ports i).count phaseName
  | _ => 1

/-- Feed like `Sample.feedA` whose host lists the phase "Vapor" twice among the
present phases. -/
def Sample.feedTwice : Material :=
  { Sample.feedA with
    GetListOfPresentPhases := Except.ok [some "Vapor", some "Vapor"]
    Duplicate := Except.ok
      { Sample.feedA.toMaterialObjectWrapper with
        GetListOfPresentPhases := Except.ok [some "Vapor", some "Vapor"] } }

/-- A valid unit operation whose Feed 1 lists the phase "Vapor" twice, with Product 1
connected. -/
def Sample.twice : CCPPMixerSplitterUnitOperation :=
  Sample.unit (some Sample.feedTwice) none (some Sample.product) none (Dbl.fin (1 / 2))
    (Dbl.fin 0) CapeValidationStatus.CAPE_VALID 2

/-- A product material that refuses what is set. -/
def Sample.refusing : Material :=
  { Sample.product with SetFromFlowTPX := fun _ _ _ _ => Except.error "cannot set" }

/-- A valid unit operation like `Sample.mixer` whose Product 1 refuses what is set. -/
def Sample.blocked : CCPPMixerSplitterUnitOperation :=
  Sample.unit (some Sample.feedA) (some Sample.feedB) (some Sample.refusing)
    (some Sample.product) (Dbl.fin (1 / 4)) (Dbl.fin 500) CapeValidationStatus.CAPE_VALID 2

namespace CCPPMixerSplitterUnitOperation

/-- The requests of the phase loop of `Calculate` for one phase of feed `i`, if all are
made. -/
def Calculate.Plan.phase (i : Nat) (phaseName : BSTR) : List Request :=
  [Request.GetSinglePhaseProperty i "phaseFraction" phaseName none (some "mole"),
    Request.CalcSinglePhaseProperty i "enthalpy" phaseName,
    Request.GetSinglePhaseProperty i "enthalpy" phaseName (some "mixture") (some "mole")]

/-- The requests of the phase loop of `Calculate` for feed `i` and a list of phases, if
all are made. -/
def Calculate.Plan.phases (i : Nat) (phaseList : List BSTR) : List Request :=
  phaseList.flatMap (Calculate.Plan.phase i)

/-- The requests of the feed loop of `Calculate` for a feed `i` without a positive
flow, if all are made. -/
def Calculate.Plan.idle (i : Nat) : List Request :=
  [Request.GetOverallProperty i "pressure" none,
    Request.GetOverallProperty i "totalFlow" (some "mole")]

/-- The requests of the feed loop of `Calculate` for a feed `i` with a positive flow,
if all are made, but those of the phase loop. -/
def Calculate.Plan.flowing (i : Nat) : List Request :=
  [Request.GetOverallProperty i "pressure" none,
    Request.GetOverallProperty i "totalFlow" (some "mole"),
    Request.GetOverallProperty i "fraction" (some "mole"),
    Request.Duplicate i,
    Request.GetListOfPresentPhases i]

/-- The requests of the averaging loop of `Calculate` for feed `i`, if all are made. -/
def Calculate.Plan.average (i : Nat) : List Request :=
  [Request.GetOverallProperty i "temperature" none,
    Request.GetOverallProperty i "fraction" (some "mole")]

end CCPPMixerSplitterUnitOperation


/-! ## The arithmetic of the machine

The model `Dbl` computes without rounding.  `Binary64` computes as the machine does on
finite numbers: every result is rounded to the nearest number of the IEEE 754
binary64 format, the one with the even mantissa when two are equally near. -/

namespace binary64

/-- The rational `n / d * 2 ^ s` as a pair of a numerator and a denominator. -/
def shifted (n d : Nat) (s : Int) : Nat × Nat :=
  if 0 ≤ s then (n * 2 ^ s.toNat, d) else (n, d * 2 ^ (-s).toNat)

/-- The rational `m * 2 ^ p`. -/
def scale (m : Nat) (p : Int) : ℚ :=
  if 0 ≤ p then ((m * 2 ^ p.toNat : Nat) : ℚ) else mkRat (Int.ofNat m) (2 ^ (-p).toNat)

/-- The nearest integer to `n / d`, the even one of two equally near. -/
def nearestEven (n d : Nat) : Nat :=
  let f := n / d
  let twice := 2 * (n % d)
  if twice < d then f
  else if d < twice then f + 1
  else if f % 2 = 0 then f else f + 1

/-- The exponent of the unit in the last place of the binary64 numbers near `n / d`
(`n` and `d` positive): `e - 52` for `2 ^ e ≤ n / d < 2 ^ (e + 1)`, and `-1074` for
quotients below `2 ^ (-1022)`. -/
def ulpExponent (n d : Nat) : Int :=
  let e0 : Int := (bitLength 2200 n : Int) - (bitLength 2200 d : Int)
  let e : Int := if (shifted n d (-e0)).2 ≤ (shifted n d (-e0)).1 then e0 else e0 - 1
  max e (-1022) - 52

/-- Rounding to binary64, round-to-nearest with ties to even: the multiple of the unit
in the last place nearest to `q`.  The result is `none` where it is beyond the range
of the finite numbers (the machine gives an infinity). -/
def round (q : ℚ) : Option ℚ :=
  let n : Nat := q.num.natAbs
  let d : Nat := q.den
  if n = 0 then some 0
  else
    let p := ulpExponent n d
    let m := nearestEven (shifted n d (-p)).1 (shifted n d (-p)).2
    if 2 ^ 53 * 2 ^ 971 ≤ (shifted m 1 p).1 / (shifted m 1 p).2 then none
    else some (if q < 0 then -scale m p else scale m p)

end binary64

/-- A `double` with the arithmetic of the machine: not-a-number or a finite binary64
number; a result beyond the range, an infinity on the machine, is not-a-number here
as in `Dbl`. -/
structure Binary64 where
  value : Dbl
deriving DecidableEq

namespace Binary64

/-- The `double` a decimal literal or an exact result is rounded to. -/
def ofRat (q : ℚ) : Binary64 :=
  match binary64.round q with
  | some r => ⟨Dbl.fin r⟩
  | none => ⟨Dbl.nan⟩

/-- The rounded result of an operation on two numbers. -/
def lift (op : ℚ → ℚ → ℚ) : Binary64 → Binary64 → Binary64
  | ⟨Dbl.fin a⟩, ⟨Dbl.fin b⟩ => ofRat (op a b)
  | _, _ => ⟨Dbl.nan⟩

instance : Add Binary64 := ⟨lift (fun a b => a + b)⟩
instance : Sub Binary64 := ⟨lift (fun a b => a - b)⟩
instance : Mul Binary64 := ⟨lift (fun a b => a * b)⟩
instance : One Binary64 := ⟨ofRat 1⟩

end Binary64

/-! ## Further sample objects -/

/-- A stream as `Save` writes it, with version 0, an empty name, an empty
description, a not-a-number as the split factor (the pattern 7FF8000000000000) and the
heat input 0.0. -/
def Sample.streamNaN : List Nat :=
  [0, 0, 0, 0] ++ ([0, 0, 0, 0] ++ [0, 0]) ++ ([0, 0, 0, 0] ++ [0, 0]) ++
    [0, 0, 0, 0, 0, 0, 248, 127] ++ [0, 0, 0, 0, 0, 0, 0, 0]

/-! ## The other methods of the two wrappers

The methods of the wrappers that `Calculate` calls through the facade next to the two
flash methods, on the host object `mat` after the calls `done`. -/

/-- The text `error` after `error+=str` for a pointer `str`: the source does not define
it for the NULL pointer. -/
def BSTR.appendedTo (error : String) (str : BSTR) : Option String :=
  match str with
  | some s => some (error ++ s)
  | none => none

namespace MaterialObject10Wrapper

/-- `MaterialObject10Wrapper::Duplicate`; `dup` is the object the host creates.  The
result is the calls made to the new object, which the new wrapper holds. -/
def Duplicate (mat : Host ICapeThermoMaterialObject) (done : Calls ICapeThermoMaterialObject)
    (dup : Host ICapeThermoMaterialObject) :
    Wrapped ICapeThermoMaterialObject (Calls ICapeThermoMaterialObject) :=
  -- creates a new material with copied content
  let call := ICapeThermoMaterialObject.Duplicate
  let hr := mat.ask done call
  let done := done ++ [(call, hr)]
  match hr with
  | Response.failed text =>
    (done, Except.error (Abort.error ("Failed to duplicate material object: " ++ text)))
  | Response.succeeded _ =>
    let call := ICapeThermoMaterialObject.QueryInterface
    let hr := dup.ask [] call
    match hr with
    | Response.failed _ =>
      (done, Except.error (Abort.error
        "Duplicate material object does not expose ICapeThermoMaterialObject"))
    | Response.succeeded _ => (done, Except.ok [(call, hr)])

/-- `MaterialObject10Wrapper::GetCompoundIDs`.  The result is the content of `list`. -/
def GetCompoundIDs (mat : Host ICapeThermoMaterialObject)
    (done : Calls ICapeThermoMaterialObject) : Wrapped ICapeThermoMaterialObject (List BSTR) :=
  let call := ICapeThermoMaterialObject.get_ComponentIds
  let hr := mat.ask done call
  let done := done ++ [(call, hr)]
  match hr with
  | Response.failed text =>
    (done, Except.error (Abort.error
      ("Failed to get list of compounds from material object: " ++ text)))
  | Response.succeeded v =>
    -- check the list
    match v.CheckArrayBSTR with
    | Except.error error =>
      (done, Except.error (Abort.error
        ("Invalid list of compound IDs from material object: " ++ error)))
    | Except.ok list => (done, Except.ok list)

/-- `MaterialObject10Wrapper::GetSinglePhasePropList`.  The result is the content of
`list`. -/
def GetSinglePhasePropList (mat : Host ICapeThermoMaterialObject)
    (done : Calls ICapeThermoMaterialObject) : Wrapped ICapeThermoMaterialObject (List BSTR) :=
  let call := ICapeThermoMaterialObject.GetPropList
  let hr := mat.ask done call
  let done := done ++ [(call, hr)]
  match hr with
  | Response.failed text =>
    (done, Except.error (Abort.error
      ("Failed to get list of properties from material object: " ++ text)))
  | Response.succeeded v =>
    -- check the list
    match v.CheckArrayBSTR with
    | Except.error error =>
      (done, Except.error (Abort.error
        ("Invalid list of properties from material object: " ++ error)))
    | Except.ok list => (done, Except.ok list)

/-- `MaterialObject10Wrapper::GetOverallProperty`.  The result is the content of
`value`. -/
def GetOverallProperty (mat : Host ICapeThermoMaterialObject)
    (done : Calls ICapeThermoMaterialObject) (propName : String) (basis : Option String) :
    Wrapped ICapeThermoMaterialObject (List Dbl) :=
  let call := ICapeThermoMaterialObject.GetProp (CBSTR.ctor (some propName))
    (CBSTR.ctor (some "overall")) none (CBSTR.ctor basis)
  let hr := mat.ask done call
  let done := done ++ [(call, hr)]
  match hr with
  | Response.failed text =>
    (done, Except.error (Abort.error
      ("Failed to get overall property \"" ++ propName ++ "\" from material object: " ++ text)))
  | Response.succeeded v =>
    -- check result
    match v.CheckArrayR8 with
    | Except.error error =>
      (done, Except.error (Abort.error
        ("Invalid property value for overall property \"" ++ propName ++
          "\" from material object: " ++ error)))
    | Except.ok value => (done, Except.ok value)

/-- `MaterialObject10Wrapper::GetListOfPresentPhases`.  The result is the content of
`list`. -/
def GetListOfPresentPhases (mat : Host ICapeThermoMaterialObject)
    (done : Calls ICapeThermoMaterialObject) : Wrapped ICapeThermoMaterialObject (List BSTR) :=
  let call := ICapeThermoMaterialObject.get_PhaseIds
  let hr := mat.ask done call
  let done := done ++ [(call, hr)]
  match hr with
  | Response.failed text =>
    (done, Except.error (Abort.error
      ("Failed to get list of present phases from material object: " ++ text)))
  | Response.succeeded v =>
    -- check the list
    match v.CheckArrayBSTR with
    | Except.error error =>
      (done, Except.error (Abort.error
        ("Invalid list of present phases from material object: " ++ error)))
    | Except.ok list => (done, Except.ok list)

/-- `MaterialObject10Wrapper::CalcSinglePhaseProperty`.  The run is not defined where
the source appends the NULL pointer `phaseName` to the text of the error. -/
def CalcSinglePhaseProperty (mat : Host ICapeThermoMaterialObject)
    (done : Calls ICapeThermoMaterialObject) (propName : String) (phaseName : BSTR) :
    Wrapped ICapeThermoMaterialObject Unit :=
  -- a list of properties and a list of phases
  let call := ICapeThermoMaterialObject.CalcProp [some propName] [phaseName]
    (CBSTR.ctor (some "mixture"))
  let hr := mat.ask done call
  let done := done ++ [(call, hr)]
  match hr with
  | Response.failed text =>
    match BSTR.appendedTo ("Failed to calculate property \"" ++ propName ++ "\" for phase \"")
        phaseName with
    | none => (done, Except.error Abort.undefined)
    | some error => (done, Except.error (Abort.error (error ++ "\": " ++ text)))
  | Response.succeeded _ => (done, Except.ok ())

/-- `MaterialObject10Wrapper::GetSinglePhaseProperty`.  The result is the content of
`value`.  The run is not defined where the source appends the NULL pointer `phaseName`
to the text of the error. -/
def GetSinglePhaseProperty (mat : Host ICapeThermoMaterialObject)
    (done : Calls ICapeThermoMaterialObject) (propName : String) (phaseName : BSTR)
    (calcType basis : Option String) : Wrapped ICapeThermoMaterialObject (List Dbl) :=
  let call := ICapeThermoMaterialObject.GetProp (CBSTR.ctor (some propName))
    (CBSTR.ctor phaseName) (CBSTR.ctor calcType) (CBSTR.ctor basis)
  let hr := mat.ask done call
  let done := done ++ [(call, hr)]
  match hr with
  | Response.failed text =>
    match BSTR.appendedTo ("Failed to get property \"" ++ propName ++ "\" for phase \"")
        phaseName with
    | none => (done, Except.error Abort.undefined)
    | some error =>
      (done, Except.error (Abort.error (error ++ "\" from material object: " ++ text)))
  | Response.succeeded v =>
    -- check result
    match v.CheckArrayR8 with
    | Except.error error =>
      match BSTR.appendedTo
          ("Invalid property value for property \"" ++ propName ++ "\" for phase \"")
          phaseName with
      | none => (done, Except.error Abort.undefined)
      | some s => (done, Except.error (Abort.error (s ++ "\" from material object: " ++ error)))
    | Except.ok value => (done, Except.ok value)

end MaterialObject10Wrapper

namespace MaterialObject11Wrapper

/-- `MaterialObject11Wrapper::Duplicate`; `dup` is the object the host creates.  The
result is the calls made to the new object, which the new wrapper holds. -/
def Duplicate (mat : Host ICapeThermoMaterial) (done : Calls ICapeThermoMaterial)
    (dup : Host ICapeThermoMaterial) :
    Wrapped ICapeThermoMaterial (Calls ICapeThermoMaterial) :=
  -- creates a new material without copied content
  let call := ICapeThermoMaterial.CreateMaterial
  let hr := mat.ask done call
  let done := done ++ [(call, hr)]
  match hr with
  | Response.failed text =>
    (done, Except.error (Abort.error ("Failed to create duplicate material object: " ++ text)))
  | Response.succeeded _ =>
    let call := ICapeThermoMaterial.QueryInterface IID.ICapeThermoMaterial
    let hr := dup.ask [] call
    let made := [(call, hr)]
    match hr with
    | Response.failed _ =>
      (done, Except.error (Abort.error
        "Duplicate material object does not expose ICapeThermoMaterial"))
    | Response.succeeded _ =>
      -- copy the content
      let call := ICapeThermoMaterial.CopyFromMaterial
      let hr := dup.ask made call
      let made := made ++ [(call, hr)]
      match hr with
      | Response.failed text =>
        (done, Except.error (Abort.error
          ("Failed to copy content to duplicate material object: " ++ text)))
      | Response.succeeded _ => (done, Except.ok made)

/-- The call of `GetCompoundList` in `GetCompoundIDs` and the check of the list. -/
def getCompoundList (w : MaterialObject11Wrapper) (mat : Host ICapeThermoMaterial)
    (done : Calls ICapeThermoMaterial) :
    MaterialObject11Wrapper × Wrapped ICapeThermoMaterial (List BSTR) :=
  let call := ICapeThermoMaterial.GetCompoundList
  let hr := mat.ask done call
  let done := done ++ [(call, hr)]
  match hr with
  | Response.failed text =>
    (w, done, Except.error (Abort.error
      ("Failed to get list of compounds from material object: " ++ text)))
  | Response.succeeded compIds =>
    -- check the list we do use
    match compIds.CheckArrayBSTR with
    | Except.error error =>
      (w, done, Except.error (Abort.error
        ("Invalid list of compound IDs from material object: " ++ error)))
    | Except.ok list => (w, done, Except.ok list)

/-- `MaterialObject11Wrapper::GetCompoundIDs`.  The result is the content of `list`. -/
def GetCompoundIDs (w : MaterialObject11Wrapper) (mat : Host ICapeThermoMaterial)
    (done : Calls ICapeThermoMaterial) :
    MaterialObject11Wrapper × Wrapped ICapeThermoMaterial (List BSTR) :=
  -- get compound interface
  if !w.iCompounds then
    let call := ICapeThermoMaterial.QueryInterface IID.ICapeThermoCompounds
    let hr := mat.ask done call
    let done := done ++ [(call, hr)]
    match hr with
    | Response.failed _ =>
      (w, done, Except.error (Abort.error "Material object does not expose ICapeThermoCompounds"))
    | Response.succeeded _ => getCompoundList { w with iCompounds := true } mat done
  else getCompoundList w mat done

/-- The call of `GetSinglePhasePropList` in the method of that name and the check of
the list. -/
def getSinglePhasePropList (w : MaterialObject11Wrapper) (mat : Host ICapeThermoMaterial)
    (done : Calls ICapeThermoMaterial) :
    MaterialObject11Wrapper × Wrapped ICapeThermoMaterial (List BSTR) :=
  let call := ICapeThermoMaterial.GetSinglePhasePropList
  let hr := mat.ask done call
  let done := done ++ [(call, hr)]
  match hr with
  | Response.failed text =>
    (w, done, Except.error (Abort.error
      ("Failed to get list of properties from material object: " ++ text)))
  | Response.succeeded v =>
    -- check the list
    match v.CheckArrayBSTR with
    | Except.error error =>
      (w, done, Except.error (Abort.error
        ("Invalid list of properties from material object: " ++ error)))
    | Except.ok list => (w, done, Except.ok list)

/-- `MaterialObject11Wrapper::GetSinglePhasePropList`.  The result is the content of
`list`. -/
def GetSinglePhasePropList (w : MaterialObject11Wrapper) (mat : Host ICapeThermoMaterial)
    (done : Calls ICapeThermoMaterial) :
    MaterialObject11Wrapper × Wrapped ICapeThermoMaterial (List BSTR) :=
  -- get property routine
  if !w.iPropRoutine then
    let call := ICapeThermoMaterial.QueryInterface IID.ICapeThermoPropertyRoutine
    let hr := mat.ask done call
    let done := done ++ [(call, hr)]
    match hr with
    | Response.failed _ =>
      (w, done, Except.error (Abort.error
        "Material object does not expose ICapeThermoPropertyRoutine"))
    | Response.succeeded _ => getSinglePhasePropList { w with iPropRoutine := true } mat done
  else getSinglePhasePropList w mat done

/-- `MaterialObject11Wrapper::GetOverallProperty`.  The result is the content of
`value`. -/
def GetOverallProperty (w : MaterialObject11Wrapper) (mat : Host ICapeThermoMaterial)
    (done : Calls ICapeThermoMaterial) (propName : String) (basis : Option String) :
    MaterialObject11Wrapper × Wrapped ICapeThermoMaterial (List Dbl) :=
  let call := ICapeThermoMaterial.GetOverallProp (CBSTR.ctor (some propName)) (CBSTR.ctor basis)
  let hr := mat.ask done call
  let done := done ++ [(call, hr)]
  match hr with
  | Response.failed text =>
    (w, done, Except.error (Abort.error
      ("Failed to get overall property \"" ++ propName ++ "\" from material object: " ++ text)))
  | Response.succeeded v =>
    -- check result
    match v.CheckArrayR8 with
    | Except.error error =>
      (w, done, Except.error (Abort.error
        ("Invalid property value for overall property \"" ++ propName ++
          "\" from material object: " ++ error)))
    | Except.ok value => (w, done, Except.ok value)

/-- `MaterialObject11Wrapper::GetListOfPresentPhases`.  The result is the content of
`list`. -/
def GetListOfPresentPhases (w : MaterialObject11Wrapper) (mat : Host ICapeThermoMaterial)
    (done : Calls ICapeThermoMaterial) :
    MaterialObject11Wrapper × Wrapped ICapeThermoMaterial (List BSTR) :=
  let call := ICapeThermoMaterial.GetPresentPhases
  let hr := mat.ask done call
  let done := done ++ [(call, hr)]
  match hr with
  | Response.failed text =>
    (w, done, Except.error (Abort.error
      ("Failed to get list of present phases from material object: " ++ text)))
  | Response.succeeded phases =>
    -- check the list
    match phases.CheckArrayBSTR with
    | Except.error error =>
      (w, done, Except.error (Abort.error
        ("Invalid list of present phases from material object: " ++ error)))
    | Except.ok list => (w, done, Except.ok list)

/-- The call of `CalcSinglePhaseProp` in `CalcSinglePhaseProperty`. -/
def calcSinglePhaseProp (w : MaterialObject11Wrapper) (mat : Host ICapeThermoMaterial)
    (done : Calls ICapeThermoMaterial) (propName : String) (phaseName : BSTR) :
    MaterialObject11Wrapper × Wrapped ICapeThermoMaterial Unit :=
  -- a list of properties
  let call := ICapeThermoMaterial.CalcSinglePhaseProp [some propName] (CBSTR.ctor phaseName)
  let hr := mat.ask done call
  let done := done ++ [(call, hr)]
  match hr with
  | Response.failed text =>
    match BSTR.appendedTo ("Failed to calculate property \"" ++ propName ++ "\" for phase \"")
        phaseName with
    | none => (w, done, Except.error Abort.undefined)
    | some error => (w, done, Except.error (Abort.error (error ++ "\": " ++ text)))
  | Response.succeeded _ => (w, done, Except.ok ())

/-- `MaterialObject11Wrapper::CalcSinglePhaseProperty`.  The run is not defined where
the source appends the NULL pointer `phaseName` to the text of the error. -/
def CalcSinglePhaseProperty (w : MaterialObject11Wrapper) (mat : Host ICapeThermoMaterial)
    (done : Calls ICapeThermoMaterial) (propName : String) (phaseName : BSTR) :
    MaterialObject11Wrapper × Wrapped ICapeThermoMaterial Unit :=
  -- get IPropertyRoutine interface
  if !w.iPropRoutine then
    let call := ICapeThermoMaterial.QueryInterface IID.ICapeThermoPropertyRoutine
    let hr := mat.ask done call
    let done := done ++ [(call, hr)]
    match hr with
    | Response.failed _ =>
      (w, done, Except.error (Abort.error
        "Material object does not expose ICapeThermoPropertyRoutine"))
    | Response.succeeded _ =>
      calcSinglePhaseProp { w with iPropRoutine := true } mat done propName phaseName
  else calcSinglePhaseProp w mat done propName phaseName

/-- `MaterialObject11Wrapper::GetSinglePhaseProperty`; the argument `calcType` is not
used.  The result is the content of `value`.  The run is not defined where the source
appends the NULL pointer `phaseName` to the text of the error. -/
def GetSinglePhaseProperty (w : MaterialObject11Wrapper) (mat : Host ICapeThermoMaterial)
    (done : Calls ICapeThermoMaterial) (propName : String) (phaseName : BSTR)
    (_calcType basis : Option String) :
    MaterialObject11Wrapper × Wrapped ICapeThermoMaterial (List Dbl) :=
  let call := ICapeThermoMaterial.GetSinglePhaseProp (CBSTR.ctor (some propName))
    (CBSTR.ctor phaseName) (CBSTR.ctor basis)
  let hr := mat.ask done call
  let done := done ++ [(call, hr)]
  match hr with
  | Response.failed text =>
    match BSTR.appendedTo ("Failed to get property \"" ++ propName ++ "\" for phase \"")
        phaseName with
    | none => (w, done, Except.error Abort.undefined)
    | some error =>
      (w, done, Except.error (Abort.error (error ++ "\" from material object: " ++ text)))
  | Response.succeeded v =>
    -- check result
    match v.CheckArrayR8 with
    | Except.error error =>
      match BSTR.appendedTo
          ("Invalid property value for property \"" ++ propName ++ "\" for phase \"")
          phaseName with
      | none => (w, done, Except.error Abort.undefined)
      | some s =>
        (w, done, Except.error (Abort.error (s ++ "\" from material object: " ++ error)))
    | Except.ok value => (w, done, Except.ok value)

end MaterialObject11Wrapper

/-! ## The facade over a host object -/

/-- The answer of the facade for a run of a wrapper, as a value: the result of the run
or the text of its error. -/
def Wrapped.answer {κ α : Type} (run : Wrapped κ α) : Except String α :=
  match run.2 with
  | Except.ok value => Except.ok value
  | Except.error (Abort.error desc) => Except.error desc
  | Except.error Abort.undefined => Except.error ""

open CCPPMixerSplitterUnitOperation

/-! ## Validate -/

/-- A connected port gives a material. -/
theorem IsConnected_GetMaterial (p : CMaterialPort) (h : p.IsConnected = true) :
    ∃ m, p.GetMaterial = some m := by
  unfold CMaterialPort.IsConnected at h
  unfold CMaterialPort.GetMaterial
  cases h11 : p.mat11 with
  | some m => exact ⟨m, rfl⟩
  | none =>
    cases h10 : p.mat10 with
    | some m => exact ⟨m, rfl⟩
    | none => simp [h11, h10] at h

/-- The first flag of the port scan: a connected port was seen at an index below 2. -/
theorem scanPorts_fst (l : List CMaterialPort) : ∀ (i : Nat) (f p : Bool),
    ((Validate.scanPorts l i (f, p)).1 = true ↔
      (f = true ∨ ∃ k port, l[k]? = some port ∧ i + k < 2 ∧ port.IsConnected = true)) := by
  induction l with
  | nil => intro i f p; simp [Validate.scanPorts]
  | cons port rest ih =>
    intro i f p
    unfold Validate.scanPorts
    by_cases hc : port.IsConnected = true
    · by_cases hi : i < 2
      · simp only [hc, hi, if_true, ih]
        constructor
        · intro _; exact Or.inr ⟨0, port, by simp, by simpa using hi, hc⟩
        · intro _; exact Or.inl trivial
      · simp only [hc, hi, if_true, if_false, ih]
        constructor
        · rintro (h | ⟨k, q, hk, hlt, _⟩)
          · exact Or.inl h
          · omega
        · rintro (h | ⟨k, q, hk, hlt, _⟩)
          · exact Or.inl h
          · omega
    · simp only [hc, if_false, ih, Bool.false_eq_true]
      constructor
      · rintro (h | ⟨k, q, hk, hlt, hq⟩)
        · exact Or.inl h
        · exact Or.inr ⟨k + 1, q, by simpa using hk, by omega, hq⟩
      · rintro (h | ⟨k, q, hk, hlt, hq⟩)
        · exact Or.inl h
        · cases k with
          | zero =>
            simp at hk
            subst hk
            exact absurd hq hc
          | succ k => exact Or.inr ⟨k, q, by simpa using hk, by omega, hq⟩

/-- The second flag of the port scan: a connected port was seen at an index from 2
on. -/
theorem scanPorts_snd (l : List CMaterialPort) : ∀ (i : Nat) (f p : Bool),
    ((Validate.scanPorts l i (f, p)).2 = true ↔
      (p = true ∨ ∃ k port, l[k]? = some port ∧ 2 ≤ i + k ∧ port.IsConnected = true)) := by
  induction l with
  | nil => intro i f p; simp [Validate.scanPorts]
  | cons port rest ih =>
    intro i f p
    unfold Validate.scanPorts
    by_cases hc : port.IsConnected = true
    · by_cases hi : i < 2
      · simp only [hc, hi, if_true, ih]
        constructor
        · rintro (h | ⟨k, q, hk, hlt, hq⟩)
          · exact Or.inl h
          · exact Or.inr ⟨k + 1, q, by simpa using hk, by omega, hq⟩
        · rintro (h | ⟨k, q, hk, hlt, hq⟩)
          · exact Or.inl h
          · cases k with
            | zero => omega
            | succ k => exact Or.inr ⟨k, q, by simpa using hk, by omega, hq⟩
      · simp only [hc, hi, if_true, if_false, ih]
        constructor
        · intro _; exact Or.inr ⟨0, port, by simp, by omega, hc⟩
        · intro _; exact Or.inl trivial
    · simp only [hc, if_false, ih, Bool.false_eq_true]
      constructor
      · rintro (h | ⟨k, q, hk, hlt, hq⟩)
        · exact Or.inl h
        · exact Or.inr ⟨k + 1, q, by simpa using hk, by omega, hq⟩
      · rintro (h | ⟨k, q, hk, hlt, hq⟩)
        · exact Or.inl h
        · cases k with
          | zero =>
            simp at hk
            subst hk
            exact absurd hq hc
          | succ k => exact Or.inr ⟨k, q, by simpa using hk, by omega, hq⟩

/-- C1. In every unit state in which neither feed port (port items 0 and 1) is
connected, `Validate` called with non-null arguments returns the success code,
reports `isValid = false`, returns the message "At least one feed port must be
connected." and leaves the validation status at invalid. -/
theorem Validate_no_feed_connected (u : CCPPMixerSplitterUnitOperation) (message : BSTR)
    (isValid : Bool)
    (h : ∀ i port, i < 2 → u.portCollection.items[i]? = some port →
      port.IsConnected = false) :
    (u.Validate (some message) (some isValid)).hr = HRESULT.NOERROR ∧
    (u.Validate (some message) (some isValid)).isValid = some false ∧
    (u.Validate (some message) (some isValid)).message =
      some (some "At least one feed port must be connected.") ∧
    (u.Validate (some message) (some isValid)).self.valStatus =
      CapeValidationStatus.CAPE_INVALID := by
  have hfeed : (Validate.scanPorts u.portCollection.items 0 (false, false)).1 = false := by
    rw [Bool.eq_false_iff, Ne, scanPorts_fst]
    rintro (hf | ⟨k, port, hk, hlt, hc⟩)
    · exact Bool.false_ne_true hf
    · rw [h k port (by omega) hk] at hc
      exact Bool.false_ne_true hc
  unfold Validate
  generalize Validate.scanPorts u.portCollection.items 0 (false, false) = s at hfeed
  obtain ⟨f, p⟩ := s
  simp only at hfeed
  subst hfeed
  simp

/-- C1, at the newly constructed unit operation (no port is connected). -/
theorem Validate_no_feed_connected_witness :
    (∀ i port, i < 2 → ctor.portCollection.items[i]? = some port →
      port.IsConnected = false) ∧
    (ctor.Validate (some none) (some true)).hr = HRESULT.NOERROR ∧
    (ctor.Validate (some none) (some true)).isValid = some false ∧
    (ctor.Validate (some none) (some true)).message =
      some (some "At least one feed port must be connected.") ∧
    (ctor.Validate (some none) (some true)).self.valStatus =
      CapeValidationStatus.CAPE_INVALID :=
  have h : ∀ i port, i < 2 → ctor.portCollection.items[i]? = some port →
      port.IsConnected = false := by
    intro i port hi hp
    interval_cases i
    · simp [ctor, CCollection.AddItem, CCollection.CreateCollection] at hp
      subst hp
      rfl
    · simp [ctor, CCollection.AddItem, CCollection.CreateCollection] at hp
      subst hp
      rfl
  ⟨h, Validate_no_feed_connected ctor none true h⟩

/-- C3. For every unit state and non-null arguments, `Validate` returns the success
code; afterwards the validation status is valid exactly when `isValid` is true and
invalid exactly when it is false, never not-validated; and a message is returned
exactly when `isValid` is false (with `isValid` true the message is NULL). -/
theorem Validate_status (u : CCPPMixerSplitterUnitOperation) (message : BSTR)
    (isValid : Bool) :
    (u.Validate (some message) (some isValid)).hr = HRESULT.NOERROR ∧
    ((u.Validate (some message) (some isValid)).isValid = some true ∨
      (u.Validate (some message) (some isValid)).isValid = some false) ∧
    ((u.Validate (some message) (some isValid)).self.valStatus =
        CapeValidationStatus.CAPE_VALID ↔
      (u.Validate (some message) (some isValid)).isValid = some true) ∧
    ((u.Validate (some message) (some isValid)).self.valStatus =
        CapeValidationStatus.CAPE_INVALID ↔
      (u.Validate (some message) (some isValid)).isValid = some false) ∧
    (u.Validate (some message) (some isValid)).self.valStatus ≠
      CapeValidationStatus.CAPE_NOT_VALIDATED ∧
    ((∃ text, (u.Validate (some message) (some isValid)).message = some (some text)) ↔
      (u.Validate (some message) (some isValid)).isValid = some false) ∧
    ((u.Validate (some message) (some isValid)).message = some none ↔
      (u.Validate (some message) (some isValid)).isValid = some true) := by
  unfold Validate
  generalize Validate.scanPorts u.portCollection.items 0 (false, false) = s
  generalize Validate.checkCompounds u.portCollection.items = c
  generalize Validate.checkEnthalpy u.portCollection.items = e
  obtain ⟨f, p⟩ := s
  obtain ⟨cm, cn⟩ := c
  cases f <;> cases p <;> cases cm <;> cases e <;> simp

/-- C4. When the validation status is invalid or not-validated, `Calculate` returns
the CAPE-OPEN error code, with the error description "Unit is not valid" or "Unit has
not been validated" respectively, interface `ICapeUnit` and scope `Calculate`, and
makes no request to a material object: it reads no feed and writes no product. -/
theorem Calculate_requires_valid (u : CCPPMixerSplitterUnitOperation)
    (h : u.valStatus = CapeValidationStatus.CAPE_INVALID ∨
      u.valStatus = CapeValidationStatus.CAPE_NOT_VALIDATED) :
    ∃ r, u.Calculate = some r ∧ r.hr = HRESULT.ECapeUnknownHR ∧ r.requests = [] ∧
      (u.valStatus = CapeValidationStatus.CAPE_INVALID →
        r.self.errDesc = "Unit is not valid") ∧
      (u.valStatus = CapeValidationStatus.CAPE_NOT_VALIDATED →
        r.self.errDesc = "Unit has not been validated") ∧
      r.self.errIface = "ICapeUnit" ∧ r.self.errScope = "Calculate" := by
  unfold Calculate
  rcases h with h | h
  · simp [h, SetError, CAPEOPENBaseObject.SetError]
  · simp [h, SetError, CAPEOPENBaseObject.SetError]

/-- C4, at the newly constructed unit operation (not validated). -/
theorem Calculate_requires_valid_witness :
    (ctor.valStatus = CapeValidationStatus.CAPE_INVALID ∨
      ctor.valStatus = CapeValidationStatus.CAPE_NOT_VALIDATED) ∧
    ∃ r, ctor.Calculate = some r ∧ r.hr = HRESULT.ECapeUnknownHR ∧ r.requests = [] ∧
      (ctor.valStatus = CapeValidationStatus.CAPE_INVALID →
        r.self.errDesc = "Unit is not valid") ∧
      (ctor.valStatus = CapeValidationStatus.CAPE_NOT_VALIDATED →
        r.self.errDesc = "Unit has not been validated") ∧
      r.self.errIface = "ICapeUnit" ∧ r.self.errScope = "Calculate" :=
  ⟨Or.inr rfl, Calculate_requires_valid ctor (Or.inr rfl)⟩

/-- `CBSTR::Same` is equality without regard to case, NULL read as the empty string. -/
theorem Same_iff (a b : BSTR) : CBSTR.Same a b = true ↔ sameText a b := by
  cases a with
  | none =>
    cases b with
    | none => simp [CBSTR.Same, sameText]
    | some s2 =>
      simp [CBSTR.Same, sameText, lowerW]
  | some s1 =>
    cases b with
    | none => simp [CBSTR.Same, sameText, lowerW]
    | some s2 => simp [CBSTR.Same, sameText, lstrcmpiW_zero]

theorem sameText_symm {a b : BSTR} (h : sameText a b) : sameText b a := by
  unfold sameText at *
  exact h.symm

/-- The flag `same` of `Validate`: equal lengths and equal elements without regard
to case. -/
theorem same_iff (l1 : List BSTR) : ∀ l2 : List BSTR,
    (Validate.same l1 l2 = true ↔
      l2.length = l1.length ∧
        ∀ k, k < l1.length → sameText (l2.getD k none) (l1.getD k none)) := by
  induction l1 with
  | nil =>
    intro l2
    cases l2 with
    | nil => simp [Validate.same]
    | cons b l2 => simp [Validate.same]
  | cons a l1 ih =>
    intro l2
    cases l2 with
    | nil => simp [Validate.same]
    | cons b l2 =>
      have ih2 := ih l2
      unfold Validate.same at ih2 ⊢
      by_cases hlen : l1.length = l2.length
      · simp only [List.length_cons, hlen, ne_eq, not_true_eq_false, if_false,
          List.zip_cons_cons, List.all_cons, Bool.and_eq_true, true_and] at ih2 ⊢
        rw [ih2, Same_iff]
        constructor
        · rintro ⟨h0, hk⟩ k hklt
          cases k with
          | zero => simpa using sameText_symm h0
          | succ k => simpa using hk k (by omega)
        · intro h
          refine ⟨?_, ?_⟩
          · have := h 0 (by omega)
            simp at this
            exact sameText_symm this
          · intro k hk
            have := h (k + 1) (by omega)
            simpa using this
      · have hlen2 : ¬ l2.length = l1.length := fun h => hlen h.symm
        simp [hlen, hlen2]

/-- Loop `j` of `Validate` reports nothing exactly when every connected port gives a
compound list that matches the first list. -/
theorem compareOthers_none (portName1 : String) (compList1 : List BSTR)
    (rest : List CMaterialPort) :
    Validate.compareOthers portName1 compList1 rest = none ↔
      ∀ port ∈ rest, port.IsConnected = true → ∃ material compList,
        port.GetMaterial = some material ∧
        material.GetCompoundIDs = Except.ok compList ∧
        compList.length = compList1.length ∧
        ∀ k, k < compList1.length →
          sameText (compList.getD k none) (compList1.getD k none) := by
  induction rest with
  | nil => simp [Validate.compareOthers]
  | cons port rest ih =>
    unfold Validate.compareOthers
    by_cases hc : port.IsConnected = true
    · obtain ⟨m, hm⟩ := IsConnected_GetMaterial port hc
      simp only [hc, if_true, hm, List.mem_cons, forall_eq_or_imp, true_implies]
      cases hg : m.GetCompoundIDs with
      | error e => simp [hg]
      | ok compList2 =>
        by_cases hs : Validate.same compList1 compList2 = true
        · simp only [hs, Bool.not_true, Bool.false_eq_true, if_false, ih]
          constructor
          · intro h
            exact ⟨⟨m, compList2, rfl, hg, (same_iff _ _).1 hs⟩, h⟩
          · intro h; exact h.2
        · simp only [hs, Bool.not_false, if_true]
          constructor
          · intro h; cases h
          · rintro ⟨⟨m2, cl, hm2, hcl, hrest⟩, _⟩
            cases hm2
            rw [hg] at hcl
            cases hcl
            exact absurd ((same_iff _ _).2 hrest) hs
    · simp only [hc, if_false, ih, List.mem_cons, forall_eq_or_imp, Bool.false_eq_true,
        false_implies, true_and]

/-- The compound check of `Validate`, given the first connected port: it reports
nothing exactly when the compound list can be obtained from every connected port and
matches the list of the first connected port; and it stores the length of the list
of the first connected port whenever that list can be obtained. -/
theorem checkCompounds_spec (items : List CMaterialPort) (first : CMaterialPort)
    (hfirst : items.find? CMaterialPort.IsConnected = some first) :
    ((Validate.checkCompounds items).1 = none ↔
      ∃ material1 compList1, first.GetMaterial = some material1 ∧
        material1.GetCompoundIDs = Except.ok compList1 ∧
        ∀ port ∈ items, port.IsConnected = true → ∃ material compList,
          port.GetMaterial = some material ∧
          material.GetCompoundIDs = Except.ok compList ∧
          compList.length = compList1.length ∧
          ∀ k, k < compList1.length →
            sameText (compList.getD k none) (compList1.getD k none)) ∧
    (∀ material1 compList1, first.GetMaterial = some material1 →
      material1.GetCompoundIDs = Except.ok compList1 →
      (Validate.checkCompounds items).2 = some compList1.length) := by
  induction items with
  | nil => simp at hfirst
  | cons port rest ih =>
    unfold Validate.checkCompounds
    by_cases hc : port.IsConnected = true
    · have hf : first = port := by
        simp [List.find?, hc] at hfirst
        exact hfirst.symm
      subst hf
      obtain ⟨m, hm⟩ := IsConnected_GetMaterial first hc
      simp only [hc, if_true, hm]
      cases hg : m.GetCompoundIDs with
      | error e =>
        constructor
        · constructor
          · intro h; cases h
          · rintro ⟨m1, l1, hm1, hl1, _⟩
            cases hm1
            rw [hg] at hl1
            cases hl1
        · intro m1 l1 hm1 hl1
          cases hm1
          rw [hg] at hl1
          cases hl1
      | ok compList1 =>
        constructor
        · simp only [compareOthers_none]
          constructor
          · intro h
            refine ⟨m, compList1, rfl, hg, ?_⟩
            intro q hq hqc
            rcases List.mem_cons.1 hq with hq | hq
            · subst hq
              exact ⟨m, compList1, hm, hg, rfl, fun k _ => rfl⟩
            · exact h q hq hqc
          · rintro ⟨m1, l1, hm1, hl1, hall⟩
            cases hm1
            rw [hg] at hl1
            cases hl1
            intro q hq hqc
            exact hall q (List.mem_cons_of_mem _ hq) hqc
        · intro m1 l1 hm1 hl1
          cases hm1
          rw [hg] at hl1
          cases hl1
          rfl
    · have hrest : rest.find? CMaterialPort.IsConnected = some first := by
        simpa [List.find?, hc] using hfirst
      obtain ⟨ih1, ih2⟩ := ih hrest
      simp only [hc, if_false, Bool.false_eq_true]
      refine ⟨?_, ih2⟩
      rw [ih1]
      constructor
      · rintro ⟨m1, l1, hm1, hl1, hall⟩
        refine ⟨m1, l1, hm1, hl1, ?_⟩
        intro q hq hqc
        rcases List.mem_cons.1 hq with hq | hq
        · subst hq
          exact absurd hqc hc
        · exact hall q hq hqc
      · rintro ⟨m1, l1, hm1, hl1, hall⟩
        exact ⟨m1, l1, hm1, hl1, fun q hq hqc => hall q (List.mem_cons_of_mem _ hq) hqc⟩

/-- The enthalpy check of `Validate`, given the first connected port: it reports
nothing exactly when the list of single-phase properties can be obtained from that
port and contains "enthalpy". -/
theorem checkEnthalpy_spec (items : List CMaterialPort) (first : CMaterialPort)
    (hfirst : items.find? CMaterialPort.IsConnected = some first) :
    Validate.checkEnthalpy items = none ↔
      ∃ material1 propList, first.GetMaterial = some material1 ∧
        material1.GetSinglePhasePropList = Except.ok propList ∧
        ∃ prop ∈ propList, sameText prop (some "enthalpy") := by
  induction items with
  | nil => simp at hfirst
  | cons port rest ih =>
    unfold Validate.checkEnthalpy
    by_cases hc : port.IsConnected = true
    · have hf : first = port := by
        simp [List.find?, hc] at hfirst
        exact hfirst.symm
      subst hf
      obtain ⟨m, hm⟩ := IsConnected_GetMaterial first hc
      simp only [hc, if_true, hm]
      cases hg : m.GetSinglePhasePropList with
      | error e =>
        constructor
        · intro h; cases h
        · rintro ⟨m1, l1, hm1, hl1, _⟩
          cases hm1
          rw [hg] at hl1
          cases hl1
      | ok propList =>
        by_cases ha : propList.any (fun prop => CBSTR.Same prop (some "enthalpy")) = true
        · simp only [ha, if_true, true_iff]
          obtain ⟨prop, hp, hs⟩ := List.any_eq_true.1 ha
          exact ⟨m, propList, rfl, hg, prop, hp, (Same_iff _ _).1 hs⟩
        · simp only [ha, if_false]
          constructor
          · intro h; cases h
          · rintro ⟨m1, l1, hm1, hl1, prop, hp, hs⟩
            cases hm1
            rw [hg] at hl1
            cases hl1
            exact absurd (List.any_eq_true.2 ⟨prop, hp, (Same_iff prop (some "enthalpy")).2 hs⟩) ha
    · have hrest : rest.find? CMaterialPort.IsConnected = some first := by
        simpa [List.find?, hc] using hfirst
      simp only [hc, if_false, Bool.false_eq_true]
      exact ih hrest

/-- A connected port at some index gives a first connected port. -/
theorem find_connected (items : List CMaterialPort) (i : Nat) (port : CMaterialPort)
    (hi : items[i]? = some port) (hc : port.IsConnected = true) :
    ∃ first, items.find? CMaterialPort.IsConnected = some first := by
  have hmem : port ∈ items := by
    obtain ⟨hlt, hget⟩ := List.getElem?_eq_some_iff.1 hi
    exact hget ▸ List.getElem_mem hlt
  cases hf : items.find? CMaterialPort.IsConnected with
  | some first => exact ⟨first, rfl⟩
  | none =>
    rw [List.find?_eq_none] at hf
    exact absurd hc (hf port hmem)

/-- C2. `Validate` reports valid if and only if the unit operation is valid in the
words of the specification (`Validate.Spec`); and when it reports valid, `nCompounds`
is the length of the compound list of the first connected port, which is the common
length of the compound lists. -/
theorem Validate_valid_iff (u : CCPPMixerSplitterUnitOperation) (message : BSTR)
    (isValid : Bool) :
    ((u.Validate (some message) (some isValid)).isValid = some true ↔
      Validate.Spec u.portCollection.items) ∧
    ((u.Validate (some message) (some isValid)).isValid = some true →
      ∀ first material1 compList1,
        u.portCollection.items.find? CMaterialPort.IsConnected = some first →
        first.GetMaterial = some material1 →
        material1.GetCompoundIDs = Except.ok compList1 →
        (u.Validate (some message) (some isValid)).self.nCompounds = compList1.length) := by
  have hf := scanPorts_fst u.portCollection.items 0 false false
  have hp := scanPorts_snd u.portCollection.items 0 false false
  simp only [Bool.false_eq_true, false_or, zero_add] at hf hp
  unfold Validate Validate.Spec
  generalize Validate.scanPorts u.portCollection.items 0 (false, false) = s at hf hp
  obtain ⟨f, p⟩ := s
  simp only at hf hp
  cases f with
  | false =>
    have hnf : ¬ ∃ k port, u.portCollection.items[k]? = some port ∧ k < 2 ∧
        port.IsConnected = true := by
      rw [← hf]; simp
    constructor
    · simp only [Bool.not_false, if_true, Bool.false_eq_true, if_false, Option.some.injEq,
        false_iff]
      rintro ⟨⟨i, port, hi, hget, hc⟩, _⟩
      exact hnf ⟨i, port, hget, hi, hc⟩
    · simp
  | true =>
    obtain ⟨i0, port0, hget0, hi0, hc0⟩ := hf.1 rfl
    obtain ⟨first, hfirst⟩ := find_connected _ i0 port0 hget0 hc0
    obtain ⟨hcc1, hcc2⟩ := checkCompounds_spec _ first hfirst
    have hce := checkEnthalpy_spec _ first hfirst
    cases p with
    | false =>
      have hnp : ¬ ∃ k port, u.portCollection.items[k]? = some port ∧ 2 ≤ k ∧
          port.IsConnected = true := by
        rw [← hp]; simp
      constructor
      · simp only [Bool.not_true, Bool.false_eq_true, if_false, Bool.not_false, if_true,
          Option.some.injEq, false_iff]
        rintro ⟨_, ⟨i, port, hi, hget, hc⟩, _⟩
        exact hnp ⟨i, port, hget, hi, hc⟩
      · simp
    | true =>
      obtain ⟨i1, port1, hget1, hi1, hc1⟩ := hp.1 rfl
      have hfeed : ∃ i port, i < 2 ∧ u.portCollection.items[i]? = some port ∧
          port.IsConnected = true := ⟨i0, port0, hi0, hget0, hc0⟩
      have hprod : ∃ i port, 2 ≤ i ∧ u.portCollection.items[i]? = some port ∧
          port.IsConnected = true := ⟨i1, port1, hi1, hget1, hc1⟩
      generalize Validate.checkCompounds u.portCollection.items = c at hcc1 hcc2
      generalize Validate.checkEnthalpy u.portCollection.items = e at hce
      obtain ⟨cm, cn⟩ := c
      simp only at hcc1 hcc2
      cases cm with
      | some err =>
        have hno := fun h => Option.some_ne_none err (hcc1.2 h)
        constructor
        · simp only [Bool.not_true, Bool.false_eq_true, if_false, if_true,
            Option.some.injEq, false_iff]
          rintro ⟨_, _, first2, m1, l1, pl, hfirst2, hm1, hl1, hall, _⟩
          rw [hfirst] at hfirst2
          cases hfirst2
          exact hno ⟨m1, l1, hm1, hl1, hall⟩
        · simp
      | none =>
        obtain ⟨m1, l1, hm1, hl1, hall⟩ := hcc1.1 rfl
        have hn := hcc2 m1 l1 hm1 hl1
        subst hn
        cases e with
        | some err =>
          have hno := fun h => Option.some_ne_none err (hce.2 h)
          constructor
          · simp only [Bool.not_true, Bool.false_eq_true, if_false, if_true,
              Option.some.injEq, false_iff]
            rintro ⟨_, _, first2, m2, l2, pl, hfirst2, hm2, hl2, _, hpl, hent⟩
            rw [hfirst] at hfirst2
            cases hfirst2
            exact hno ⟨m2, pl, hm2, hpl, hent⟩
          · simp
        | none =>
          obtain ⟨m2, pl, hm2, hpl, hent⟩ := hce.1 rfl
          rw [hm1] at hm2
          cases hm2
          constructor
          · simp only [Bool.not_true, Bool.false_eq_true, if_false, if_true, true_iff]
            exact ⟨hfeed, hprod, first, m1, l1, pl, hfirst, hm1, hl1, hall, hpl, hent⟩
          · intro _ first2 m3 l3 hfirst3 hm3 hl3
            rw [hfirst] at hfirst3
            cases hfirst3
            rw [hm1] at hm3
            cases hm3
            rw [hl1] at hl3
            cases hl3
            simp

/-! ## Arithmetic of `Dbl` -/

@[simp] theorem Dbl.fin_add_fin (a b : ℚ) : Dbl.fin a + Dbl.fin b = Dbl.fin (a + b) := rfl

@[simp] theorem Dbl.fin_sub_fin (a b : ℚ) : Dbl.fin a - Dbl.fin b = Dbl.fin (a - b) := rfl

@[simp] theorem Dbl.fin_mul_fin (a b : ℚ) : Dbl.fin a * Dbl.fin b = Dbl.fin (a * b) := rfl

@[simp] theorem Dbl.nan_add (a : Dbl) : Dbl.nan + a = Dbl.nan := rfl

@[simp] theorem Dbl.add_nan (a : Dbl) : a + Dbl.nan = Dbl.nan := by cases a <;> rfl

@[simp] theorem Dbl.nan_mul (a : Dbl) : Dbl.nan * a = Dbl.nan := rfl

@[simp] theorem Dbl.mul_nan (a : Dbl) : a * Dbl.nan = Dbl.nan := by cases a <;> rfl

@[simp] theorem Dbl.nan_div (a : Dbl) : Dbl.nan / a = Dbl.nan := rfl

@[simp] theorem Dbl.div_nan (a : Dbl) : a / Dbl.nan = Dbl.nan := by cases a <;> rfl

theorem Dbl.fin_div_fin (a b : ℚ) :
    Dbl.fin a / Dbl.fin b = if b = 0 then Dbl.nan else Dbl.fin (a / b) := rfl

@[simp] theorem Dbl.zero_eq : (0 : Dbl) = Dbl.fin 0 := rfl

@[simp] theorem Dbl.one_eq : (1 : Dbl) = Dbl.fin 1 := rfl

@[simp] theorem Dbl.zeroAdd (a : Dbl) : Dbl.fin 0 + a = a := by
  cases a with
  | nan => rfl
  | fin q => simp

@[simp] theorem Dbl.addZero (a : Dbl) : a + Dbl.fin 0 = a := by
  cases a with
  | nan => rfl
  | fin q => simp

/-! ## Traced computations -/

@[simp] theorem Traced.bind_eq {α β : Type} (x : Traced α) (f : α → Traced β) :
    x >>= f = Traced.andThen x f := rfl

@[simp] theorem Traced.pure_eq {α : Type} (a : α) : (pure a : Traced α) = Traced.ret a := rfl

theorem Traced.andThen_ok {α β : Type} (x : Traced α) (f : α → Traced β)
    (l : List Request) (b : β) (h : Traced.andThen x f = (l, Except.ok b)) :
    ∃ l1 a l2, x = (l1, Except.ok a) ∧ f a = (l2, Except.ok b) ∧ l = l1 ++ l2 := by
  obtain ⟨l1, r⟩ := x
  cases r with
  | error e => simp [Traced.andThen] at h
  | ok a =>
    simp only [Traced.andThen, Prod.mk.injEq] at h
    exact ⟨l1, a, (f a).1, rfl, Prod.ext rfl h.2, h.1.symm⟩

theorem Traced.call_ok {α : Type} (req : Request) (answer : Except String α)
    (l : List Request) (a : α) (h : Traced.call req answer = (l, Except.ok a)) :
    answer = Except.ok a ∧ l = [req] := by
  cases answer with
  | error e => simp [Traced.call] at h
  | ok a2 =>
    simp only [Traced.call, Prod.mk.injEq, Except.ok.injEq] at h
    exact ⟨by rw [h.2], h.1.symm⟩

theorem Traced.ret_ok {α : Type} (a b : α) (l : List Request)
    (h : Traced.ret a = (l, Except.ok b)) : a = b ∧ l = [] := by
  simp only [Traced.ret, Prod.mk.injEq, Except.ok.injEq] at h
  exact ⟨h.2, h.1.symm⟩

theorem Traced.fail_ok {α : Type} (desc : String) (b : α) (l : List Request)
    (h : (Traced.fail desc : Traced α) = (l, Except.ok b)) : False := by
  simp [Traced.fail] at h

theorem scalarOf_ok (value : List Dbl) : scalarOf (Except.ok value) = GetDoubleAt value 0 := rfl

/-- The phase loop, when every request succeeds, adds the enthalpy terms of the
present phases to the enthalpy flow. -/
theorem phaseLoop_ok (i : Nat) (d : MaterialObjectWrapper) (flow : Dbl)
    (phaseList : List BSTR) : ∀ (enthalpy : Dbl) (l : List Request) (e : Dbl),
    Calculate.phaseLoop i d flow phaseList enthalpy = (l, Except.ok e) →
    e = (d.enthalpyTerms flow phaseList).foldl (fun x y => x + y) enthalpy := by
  induction phaseList with
  | nil =>
    intro enthalpy l e h
    unfold Calculate.phaseLoop at h
    obtain ⟨h1, _⟩ := Traced.ret_ok _ _ _ h
    simp [MaterialObjectWrapper.enthalpyTerms, h1]
  | cons phaseName rest ih =>
    intro enthalpy l e h
    unfold Calculate.phaseLoop at h
    simp only [Traced.bind_eq] at h
    obtain ⟨l1, value, l2, hcall, hrest, _⟩ := Traced.andThen_ok _ _ _ _ h
    obtain ⟨hval, _⟩ := Traced.call_ok _ _ _ _ hcall
    have hpf : d.phaseFraction phaseName = GetDoubleAt value 0 := by
      unfold MaterialObjectWrapper.phaseFraction
      rw [hval]
      rfl
    by_cases hlen : value.length = 1
    · simp only [hlen, ne_eq, not_true_eq_false, if_false] at hrest
      by_cases hgt : Dbl.gt (GetDoubleAt value 0) (Dbl.fin 0) = true
      · simp only [hgt, if_true] at hrest
        obtain ⟨l3, _, l4, _, hrest2, _⟩ := Traced.andThen_ok _ _ _ _ hrest
        obtain ⟨l5, value2, l6, hcall2, hrest3, _⟩ := Traced.andThen_ok _ _ _ _ hrest2
        obtain ⟨hval2, _⟩ := Traced.call_ok _ _ _ _ hcall2
        have hh : d.enthalpy phaseName = GetDoubleAt value2 0 := by
          unfold MaterialObjectWrapper.enthalpy
          rw [hval2]
          rfl
        by_cases hlen2 : value2.length = 1
        · simp only [hlen2, ne_eq, not_true_eq_false, if_false] at hrest3
          have := ih _ _ _ hrest3
          rw [this]
          simp [MaterialObjectWrapper.enthalpyTerms, List.filter_cons, hpf, hgt, hh]
        · simp only [hlen2, ne_eq, not_false_eq_true, if_true] at hrest3
          exact absurd hrest3 (fun h => Traced.fail_ok _ _ _ h)
      · simp only [hgt, if_false, Bool.false_eq_true] at hrest
        have := ih _ _ _ hrest
        rw [this]
        simp [MaterialObjectWrapper.enthalpyTerms, List.filter_cons, hpf, hgt]
    · simp only [hlen, ne_eq, not_false_eq_true, if_true] at hrest
      exact absurd hrest (fun h => Traced.fail_ok _ _ _ h)

/-- One step of the feed loop, when every request succeeds: the port is not
connected and nothing changes, or the pressure is selected and, for a positive flow,
the flow, the component flows and the enthalpy terms of the feed are added. -/
theorem feedStep_ok (n i : Nat) (port : CMaterialPort) (t : FeedTotals)
    (l : List Request) (t2 : FeedTotals)
    (h : Calculate.feedStep n i port t = (l, Except.ok t2)) :
    (port.IsConnected = false ∧ t2 = t) ∨
    ∃ m, port.IsConnected = true ∧ port.GetMaterial = some m ∧
      t2.pressure = Calculate.selectPressure t.pressure m.pressure ∧
      ((Dbl.gt m.totalFlow (Dbl.fin 0) = false ∧ t2.totalFlow = t.totalFlow ∧
          t2.componentFlows = t.componentFlows ∧ t2.enthalpy = t.enthalpy ∧
          t2.duplicateMaterial = t.duplicateMaterial) ∨
        (Dbl.gt m.totalFlow (Dbl.fin 0) = true ∧ m.fraction.length = n ∧
          t2.totalFlow = t.totalFlow + m.totalFlow ∧
          t2.componentFlows = (List.range n).map
            (fun j => GetDoubleAt t.componentFlows j + m.totalFlow * GetDoubleAt m.fraction j) ∧
          t2.enthalpy = m.enthalpyTerms.foldl (fun x y => x + y) t.enthalpy ∧
          ∃ d, m.Duplicate = Except.ok d ∧ t2.duplicateMaterial = some (i, d))) := by
  unfold Calculate.feedStep at h
  by_cases hc : port.IsConnected = true
  · obtain ⟨m, hm⟩ := IsConnected_GetMaterial port hc
    right
    refine ⟨m, hc, hm, ?_⟩
    simp only [hc, if_true, hm, Traced.bind_eq] at h
    obtain ⟨l1, v1, l2, hcall1, h, _⟩ := Traced.andThen_ok _ _ _ _ h
    obtain ⟨hv1, _⟩ := Traced.call_ok _ _ _ _ hcall1
    have hP : m.pressure = GetDoubleAt v1 0 := by
      unfold Material.pressure; rw [hv1]; rfl
    by_cases hlen1 : v1.length = 1
    · simp only [hlen1, ne_eq, not_true_eq_false, if_false] at h
      obtain ⟨l3, v2, l4, hcall2, h, _⟩ := Traced.andThen_ok _ _ _ _ h
      obtain ⟨hv2, _⟩ := Traced.call_ok _ _ _ _ hcall2
      have hF : m.totalFlow = GetDoubleAt v2 0 := by
        unfold Material.totalFlow; rw [hv2]; rfl
      by_cases hlen2 : v2.length = 1
      · simp only [hlen2, ne_eq, not_true_eq_false, if_false] at h
        by_cases hgt : Dbl.gt (GetDoubleAt v2 0) (Dbl.fin 0) = true
        · simp only [hgt, if_true] at h
          obtain ⟨l5, v3, l6, hcall3, h, _⟩ := Traced.andThen_ok _ _ _ _ h
          obtain ⟨hv3, _⟩ := Traced.call_ok _ _ _ _ hcall3
          have hX : m.fraction = v3 := by
            unfold Material.fraction; rw [hv3]; rfl
          by_cases hlen3 : v3.length = n
          · simp only [hlen3, ne_eq, not_true_eq_false, if_false] at h
            obtain ⟨l7, d, l8, hcall4, h, _⟩ := Traced.andThen_ok _ _ _ _ h
            obtain ⟨hd, _⟩ := Traced.call_ok _ _ _ _ hcall4
            obtain ⟨l9, phaseList, l10, hcall5, h, _⟩ := Traced.andThen_ok _ _ _ _ h
            obtain ⟨hph, _⟩ := Traced.call_ok _ _ _ _ hcall5
            obtain ⟨l11, e, l12, hloop, h, _⟩ := Traced.andThen_ok _ _ _ _ h
            obtain ⟨ht2, _⟩ := Traced.ret_ok _ _ _ h
            have he := phaseLoop_ok _ _ _ _ _ _ _ hloop
            have hterms : m.enthalpyTerms = d.enthalpyTerms (GetDoubleAt v2 0) phaseList := by
              simp only [Material.enthalpyTerms, hd, hph, hF]
            subst ht2
            refine ⟨by rw [hP], Or.inr ⟨by rw [hF]; exact hgt, by rw [hX]; exact hlen3, ?_, ?_, ?_,
              d, hd, rfl⟩⟩
            · simp only [hF]
            · simp only [hF, hX]
            · simp only [hterms, he]
          · simp only [hlen3, ne_eq, not_false_eq_true, if_true] at h
            exact absurd h (fun h => Traced.fail_ok _ _ _ h)
        · simp only [hgt, if_false, Bool.false_eq_true] at h
          obtain ⟨ht2, _⟩ := Traced.ret_ok _ _ _ h
          subst ht2
          refine ⟨by rw [hP], Or.inl ⟨?_, rfl, rfl, rfl, rfl⟩⟩
          rw [hF]
          simpa using hgt
      · simp only [hlen2, ne_eq, not_false_eq_true, if_true] at h
        exact absurd h (fun h => Traced.fail_ok _ _ _ h)
    · simp only [hlen1, ne_eq, not_false_eq_true, if_true] at h
      exact absurd h (fun h => Traced.fail_ok _ _ _ h)
  · left
    simp only [hc, if_false, Bool.false_eq_true] at h
    obtain ⟨ht2, _⟩ := Traced.ret_ok _ _ _ h
    exact ⟨by simpa using hc, ht2.symm⟩

/-- The sum of a list of at most one number followed by another list: no addition is
regrouped. -/
theorem Dbl.sum_append (l1 l2 : List Dbl) (h : l1.length ≤ 1) :
    (l1 ++ l2).sum = l1.sum + l2.sum := by
  match l1, h with
  | [], _ => simp
  | [a], _ => simp
  | _ :: _ :: _, h => simp at h

theorem materialOf_length_le (port : CMaterialPort) : (Calculate.materialOf port).length ≤ 1 := by
  unfold Calculate.materialOf
  split_ifs
  · cases port.GetMaterial <;> simp
  · simp

theorem materialOf_length (port : CMaterialPort) (p : Material → Bool) :
    ((Calculate.materialOf port).filter p).length ≤ 1 := by
  refine (List.length_filter_le _ _).trans ?_
  unfold Calculate.materialOf
  split_ifs
  · cases port.GetMaterial <;> simp
  · simp

theorem GetDoubleAt_map_range (n j : Nat) (f : Nat → Dbl) (hj : j < n) :
    GetDoubleAt ((List.range n).map f) j = f j := by
  unfold GetDoubleAt
  simp [List.getD_eq_getElem?_getD, hj]

/-- One step of the feed loop, when every request succeeds, in terms of the material
of the port: the pressure selection is applied, and flow, component flows and
enthalpy terms of a feed with a positive flow are added. -/
theorem feedStep_sum (n i : Nat) (port : CMaterialPort) (t : FeedTotals)
    (l : List Request) (t2 : FeedTotals)
    (h : Calculate.feedStep n i port t = (l, Except.ok t2))
    (hlen : t.componentFlows.length = n) :
    t2.pressure = ((Calculate.materialOf port).map Material.pressure).foldl
      Calculate.selectPressure t.pressure ∧
    t2.totalFlow = t.totalFlow + (((Calculate.materialOf port).filter
      (fun m => Dbl.gt m.totalFlow (Dbl.fin 0))).map Material.totalFlow).sum ∧
    t2.componentFlows.length = n ∧
    (∀ j, j < n → GetDoubleAt t2.componentFlows j = GetDoubleAt t.componentFlows j +
      (((Calculate.materialOf port).filter (fun m => Dbl.gt m.totalFlow (Dbl.fin 0))).map
        (fun m => m.totalFlow * GetDoubleAt m.fraction j)).sum) ∧
    t2.enthalpy = (((Calculate.materialOf port).filter
      (fun m => Dbl.gt m.totalFlow (Dbl.fin 0))).flatMap Material.enthalpyTerms).foldl
        (fun x y => x + y) t.enthalpy ∧
    (∀ m ∈ (Calculate.materialOf port).filter (fun m => Dbl.gt m.totalFlow (Dbl.fin 0)),
      m.fraction.length = n) ∧
    (((Calculate.materialOf port).filter (fun m => Dbl.gt m.totalFlow (Dbl.fin 0))) = [] →
      t2.duplicateMaterial = t.duplicateMaterial) ∧
    (∀ m ∈ (Calculate.materialOf port).filter (fun m => Dbl.gt m.totalFlow (Dbl.fin 0)),
      ∃ d, m.Duplicate = Except.ok d ∧ t2.duplicateMaterial = some (i, d)) := by
  rcases feedStep_ok n i port t l t2 h with ⟨hc, ht⟩ | ⟨m, hc, hm, hp, hcase⟩
  · subst ht
    simp [Calculate.materialOf, hc, hlen]
  · rcases hcase with ⟨hgt, hF, hC, hE, hD⟩ | ⟨hgt, hX, hF, hC, hE, d, hd, hD⟩
    · simp [Calculate.materialOf, hc, hm, hgt, hp, hF, hC, hE, hD, hlen]
    · simp only [Calculate.materialOf, hc, hm, if_true, Option.toList_some, List.map_cons,
        List.map_nil, List.foldl_cons, List.foldl_nil, List.filter_cons, hgt, List.filter_nil,
        List.sum_cons, List.sum_nil, Dbl.zero_eq, Dbl.addZero, List.mem_singleton,
        forall_eq]
      refine ⟨hp, hF, by simp [hC], ?_, ?_, hX, by simp, d, hd, hD⟩
      · intro j hj
        rw [hC, GetDoubleAt_map_range n j _ hj]
      · rw [hE]
        simp [List.flatMap_cons]

/-- The feed loop, when every request succeeds: the selected pressure, the total
flow, the component flows and the enthalpy flow are the sums over the connected
feeds with a positive flow; the duplicate material is the duplicate of such a feed,
if there is one. -/
theorem feedLoop_ok (n : Nat) (feed1 feed2 : CMaterialPort) (l : List Request)
    (t : FeedTotals) (h : Calculate.feedLoop n feed1 feed2 = (l, Except.ok t)) :
    t.pressure = Calculate.selectedPressure feed1 feed2 ∧
    t.totalFlow = Calculate.Spec.totalFlow feed1 feed2 ∧
    t.componentFlows.length = n ∧
    (∀ j, j < n → GetDoubleAt t.componentFlows j =
      ((Calculate.flowingFeeds feed1 feed2).map
        (fun m => m.totalFlow * GetDoubleAt m.fraction j)).sum) ∧
    t.enthalpy = ((Calculate.flowingFeeds feed1 feed2).flatMap Material.enthalpyTerms).foldl
      (fun x y => x + y) (Dbl.fin 0) ∧
    (∀ m ∈ Calculate.flowingFeeds feed1 feed2, m.fraction.length = n) ∧
    (Calculate.flowingFeeds feed1 feed2 = [] → t.duplicateMaterial = none) ∧
    (Calculate.flowingFeeds feed1 feed2 ≠ [] →
      ∃ i d m, m ∈ Calculate.flowingFeeds feed1 feed2 ∧ m.Duplicate = Except.ok d ∧
        t.duplicateMaterial = some (i, d)) := by
  unfold Calculate.feedLoop at h
  simp only [Traced.bind_eq] at h
  obtain ⟨l1, t1, l2, h1, h2, _⟩ := Traced.andThen_ok _ _ _ _ h
  have hinit : (Calculate.init n).componentFlows.length = n := by simp [Calculate.init]
  obtain ⟨hp1, hF1, hlen1, hC1, hE1, hX1, hD1, hD1'⟩ := feedStep_sum _ _ _ _ _ _ h1 hinit
  obtain ⟨hp2, hF2, hlen2, hC2, hE2, hX2, hD2, hD2'⟩ := feedStep_sum _ _ _ _ _ _ h2 hlen1
  have hinitj : ∀ j, j < n → GetDoubleAt (Calculate.init n).componentFlows j = Dbl.fin 0 := by
    intro j hj
    simp only [Calculate.init]
    exact GetDoubleAt_map_range n j _ hj
  refine ⟨?_, ?_, hlen2, ?_, ?_, ?_, ?_, ?_⟩
  · rw [hp2, hp1]
    simp [Calculate.selectedPressure, Calculate.connectedFeeds, Calculate.init]
  · rw [hF2, hF1]
    simp [Calculate.Spec.totalFlow, Calculate.flowingFeeds, Calculate.connectedFeeds,
      Calculate.init, Dbl.sum_append _ _ ((List.length_map _ _).trans_le (materialOf_length feed1 _))]
  · intro j hj
    rw [hC2 j hj, hC1 j hj, hinitj j hj]
    simp [Calculate.flowingFeeds, Calculate.connectedFeeds,
      Dbl.sum_append _ _ ((List.length_map _ _).trans_le (materialOf_length feed1 _))]
  · rw [hE2, hE1]
    simp [Calculate.flowingFeeds, Calculate.connectedFeeds, Calculate.init,
      List.flatMap_append, List.foldl_append]
  · intro m hm
    simp only [Calculate.flowingFeeds, Calculate.connectedFeeds, List.filter_append,
      List.mem_append] at hm
    rcases hm with hm | hm
    · exact hX1 m hm
    · exact hX2 m hm
  · intro hnil
    simp only [Calculate.flowingFeeds, Calculate.connectedFeeds, List.filter_append,
      List.append_eq_nil] at hnil
    rw [hD2 hnil.2, hD1 hnil.1]
    rfl
  · intro hne
    by_cases h2nil : (Calculate.materialOf feed2).filter
        (fun m => Dbl.gt m.totalFlow (Dbl.fin 0)) = []
    · have h1ne : (Calculate.materialOf feed1).filter
          (fun m => Dbl.gt m.totalFlow (Dbl.fin 0)) ≠ [] := by
        intro h1nil
        apply hne
        simp [Calculate.flowingFeeds, Calculate.connectedFeeds, List.filter_append, h1nil,
          h2nil]
      obtain ⟨m, hm⟩ := List.exists_mem_of_ne_nil _ h1ne
      obtain ⟨d, hd, hD⟩ := hD1' m hm
      refine ⟨0, d, m, ?_, hd, ?_⟩
      · simp only [Calculate.flowingFeeds, Calculate.connectedFeeds, List.filter_append,
          List.mem_append]
        exact Or.inl hm
      · rw [hD2 h2nil, hD]
    · obtain ⟨m, hm⟩ := List.exists_mem_of_ne_nil _ h2nil
      obtain ⟨d, hd, hD⟩ := hD2' m hm
      refine ⟨1, d, m, ?_, hd, hD⟩
      simp only [Calculate.flowingFeeds, Calculate.connectedFeeds, List.filter_append,
        List.mem_append]
      exact Or.inr hm

/-! ## The requests of the stages of `Calculate` -/

theorem Traced.all_andThen {α β : Type} (P : Request → Prop) (x : Traced α)
    (f : α → Traced β) (hx : ∀ r ∈ x.1, P r) (hf : ∀ a, ∀ r ∈ (f a).1, P r) :
    ∀ r ∈ (Traced.andThen x f).1, P r := by
  obtain ⟨l1, res⟩ := x
  cases res with
  | error e => simpa [Traced.andThen] using hx
  | ok a =>
    intro r hr
    simp only [Traced.andThen, List.mem_append] at hr
    rcases hr with hr | hr
    · exact hx r hr
    · exact hf a r hr

theorem Traced.all_call {α : Type} (P : Request → Prop) (req : Request)
    (answer : Except String α) (h : P req) : ∀ r ∈ (Traced.call req answer).1, P r := by
  cases answer <;> simpa [Traced.call] using h

theorem Traced.all_ret {α : Type} (P : Request → Prop) (a : α) :
    ∀ r ∈ (Traced.ret a).1, P r := by
  simp [Traced.ret]

theorem Traced.all_fail {α : Type} (P : Request → Prop) (desc : String) :
    ∀ r ∈ (Traced.fail desc : Traced α).1, P r := by
  simp [Traced.fail]

/-- The phase loop only reads. -/
theorem phaseLoop_requests (i : Nat) (d : MaterialObjectWrapper) (flow : Dbl)
    (phaseList : List BSTR) : ∀ (enthalpy : Dbl),
    ∀ r ∈ (Calculate.phaseLoop i d flow phaseList enthalpy).1, r.isRead = true := by
  induction phaseList with
  | nil =>
    intro enthalpy
    unfold Calculate.phaseLoop
    exact Traced.all_ret _ _
  | cons phaseName rest ih =>
    intro enthalpy
    unfold Calculate.phaseLoop
    simp only [Traced.bind_eq]
    apply Traced.all_andThen
    · exact Traced.all_call _ _ _ rfl
    · intro value
      split_ifs
      · exact Traced.all_fail _ _
      · apply Traced.all_andThen
        · exact Traced.all_call _ _ _ rfl
        · intro _
          apply Traced.all_andThen
          · exact Traced.all_call _ _ _ rfl
          · intro value2
            split_ifs
            · exact Traced.all_fail _ _
            · exact ih _
      · exact ih _

/-- A step of the feed loop only reads. -/
theorem feedStep_requests (n i : Nat) (port : CMaterialPort) (t : FeedTotals) :
    ∀ r ∈ (Calculate.feedStep n i port t).1, r.isRead = true := by
  unfold Calculate.feedStep
  split_ifs
  · split
    · simp only [Traced.bind_eq]
      apply Traced.all_andThen
      · exact Traced.all_call _ _ _ rfl
      · intro v1
        split_ifs
        · exact Traced.all_fail _ _
        · apply Traced.all_andThen
          · exact Traced.all_call _ _ _ rfl
          · intro v2
            split_ifs
            · exact Traced.all_fail _ _
            · apply Traced.all_andThen
              · exact Traced.all_call _ _ _ rfl
              · intro v3
                split_ifs
                · exact Traced.all_fail _ _
                · apply Traced.all_andThen
                  · exact Traced.all_call _ _ _ rfl
                  · intro d
                    apply Traced.all_andThen
                    · exact Traced.all_call _ _ _ rfl
                    · intro phaseList
                      apply Traced.all_andThen
                      · exact phaseLoop_requests _ _ _ _ _
                      · intro e
                        exact Traced.all_ret _ _
            · exact Traced.all_ret _ _
    · exact Traced.all_ret _ _
  · exact Traced.all_ret _ _

/-- The feed loop only reads. -/
theorem feedLoop_requests (n : Nat) (feed1 feed2 : CMaterialPort) :
    ∀ r ∈ (Calculate.feedLoop n feed1 feed2).1, r.isRead = true := by
  unfold Calculate.feedLoop
  simp only [Traced.bind_eq]
  apply Traced.all_andThen
  · exact feedStep_requests _ _ _ _
  · intro t
    exact feedStep_requests _ _ _ _

/-- A step of the averaging loop only reads. -/
theorem averageStep_requests (n i : Nat) (port : CMaterialPort) (a : Average) :
    ∀ r ∈ (Calculate.averageStep n i port a).1, r.isRead = true := by
  unfold Calculate.averageStep
  split_ifs
  · split
    · simp only [Traced.bind_eq]
      apply Traced.all_andThen
      · exact Traced.all_call _ _ _ rfl
      · intro v1
        split_ifs
        · exact Traced.all_fail _ _
        · apply Traced.all_andThen
          · exact Traced.all_call _ _ _ rfl
          · intro v2
            split_ifs
            · exact Traced.all_fail _ _
            · exact Traced.all_ret _ _
    · exact Traced.all_ret _ _
  · exact Traced.all_ret _ _

/-- The mixing stage sets no product. -/
theorem mix_requests (n : Nat) (feed1 feed2 : CMaterialPort) (t : FeedTotals)
    (heatInput : Dbl) :
    ∀ r ∈ (Calculate.mix n feed1 feed2 t heatInput).1, r.isSetFromFlowTPX = false := by
  unfold Calculate.mix
  split_ifs
  · exact Traced.all_fail _ _
  · simp only [Traced.bind_eq]
    apply Traced.all_andThen
    · intro r hr
      have := averageStep_requests _ _ _ _ r hr
      simp only [Request.isRead, Bool.and_eq_true, Bool.not_eq_true'] at this
      exact this.1
    · intro a
      apply Traced.all_andThen
      · intro r hr
        have := averageStep_requests _ _ _ _ r hr
        simp only [Request.isRead, Bool.and_eq_true, Bool.not_eq_true'] at this
        exact this.1
      · intro a2
        split_ifs
        · exact Traced.all_ret _ _
        · exact Traced.all_ret _ _
  · split
    · simp only [Traced.bind_eq]
      apply Traced.all_andThen
      · exact Traced.all_call _ _ _ rfl
      · intro T
        exact Traced.all_ret _ _
    · simp

/-- The requests of a step of the product loop: one `SetFromFlowTPX` on a connected
port, none on a port that is not connected. -/
theorem productStep_requests (k : Nat) (totalFlow splitFactor : Dbl) (composition : List Dbl)
    (temperature pressure : Dbl) (i : Nat) (port : CMaterialPort) :
    (Calculate.productStep k totalFlow splitFactor composition temperature pressure i port).1 =
      if port.IsConnected then
        [Request.SetFromFlowTPX i composition
          (Calculate.productFlow k totalFlow splitFactor i) temperature pressure]
      else [] := by
  unfold Calculate.productStep
  by_cases hc : port.IsConnected = true
  · obtain ⟨m, hm⟩ := IsConnected_GetMaterial port hc
    simp only [hc, if_true, hm]
    cases m.SetFromFlowTPX composition (Calculate.productFlow k totalFlow splitFactor i)
      temperature pressure <;> rfl
  · simp only [hc, if_false, Bool.false_eq_true]
    rfl

/-- A successful run of the part of `Calculate` after the status check: the feed
loop and the mixing stage succeeded, and the requests are those of the feed loop,
of the mixing stage and of the two steps of the product loop. -/
theorem body_ok (n : Nat) (feed1 feed2 product1 product2 : CMaterialPort)
    (splitFactor heatInput : Dbl) (requests : List Request) (x : Unit)
    (h : Calculate.body n feed1 feed2 product1 product2 splitFactor heatInput =
      (requests, Except.ok x)) :
    ∃ l1 t l2 composition temperature,
      Calculate.feedLoop n feed1 feed2 = (l1, Except.ok t) ∧
      Calculate.mix n feed1 feed2 t heatInput = (l2, Except.ok (composition, temperature)) ∧
      requests = l1 ++ (l2 ++
        ((if product1.IsConnected then
            [Request.SetFromFlowTPX 2 composition
              (Calculate.productFlow
                ((if product1.IsConnected then 1 else 0) + (if product2.IsConnected then 1 else 0))
                t.totalFlow splitFactor 2) temperature t.pressure]
          else []) ++
        (if product2.IsConnected then
            [Request.SetFromFlowTPX 3 composition
              (Calculate.productFlow
                ((if product1.IsConnected then 1 else 0) + (if product2.IsConnected then 1 else 0))
                t.totalFlow splitFactor 3) temperature t.pressure]
          else []))) := by
  unfold Calculate.body at h
  simp only [Traced.bind_eq] at h
  obtain ⟨l1, t, l2', h1, h, hreq1⟩ := Traced.andThen_ok _ _ _ _ h
  obtain ⟨l2, ct, l3', h2, h, hreq2⟩ := Traced.andThen_ok _ _ _ _ h
  obtain ⟨composition, temperature⟩ := ct
  simp only at h
  obtain ⟨l3, _, l4, h3, h4, hreq3⟩ := Traced.andThen_ok _ _ _ _ h
  refine ⟨l1, t, l2, composition, temperature, h1, h2, ?_⟩
  have e3 := productStep_requests
    ((if product1.IsConnected then 1 else 0) + (if product2.IsConnected then 1 else 0))
    t.totalFlow splitFactor composition temperature t.pressure 2 product1
  have e4 := productStep_requests
    ((if product1.IsConnected then 1 else 0) + (if product2.IsConnected then 1 else 0))
    t.totalFlow splitFactor composition temperature t.pressure 3 product2
  rw [h3] at e3
  rw [h4] at e4
  simp only at e3 e4
  rw [hreq1, hreq2, hreq3, e3, e4]

theorem Dbl.gt_zero {a : Dbl} (h : Dbl.gt a (Dbl.fin 0) = true) : ∃ q, a = Dbl.fin q ∧ 0 < q := by
  cases a with
  | nan => simp [Dbl.gt, Dbl.lt] at h
  | fin q =>
    refine ⟨q, rfl, ?_⟩
    simpa [Dbl.gt, Dbl.lt] using h

/-- The sum of positive flows is a number, not negative, and zero only for the empty
list. -/
theorem sum_flows (l : List Material)
    (h : ∀ m ∈ l, Dbl.gt m.totalFlow (Dbl.fin 0) = true) :
    ∃ q, (l.map Material.totalFlow).sum = Dbl.fin q ∧ 0 ≤ q ∧ (q = 0 ↔ l = []) := by
  induction l with
  | nil => exact ⟨0, rfl, le_refl _, by simp⟩
  | cons m l ih =>
    obtain ⟨q, hq, hq0, _⟩ := ih (fun x hx => h x (List.mem_cons_of_mem _ hx))
    obtain ⟨a, ha, ha0⟩ := Dbl.gt_zero (h m (List.mem_cons_self _ _))
    refine ⟨a + q, ?_, by linarith, ?_⟩
    · simp only [List.map_cons, List.sum_cons, hq, ha, Dbl.fin_add_fin]
    · constructor
      · intro h0; linarith
      · intro h0; simp at h0

/-- The total flow is a number that is not negative; it is zero exactly when no
connected feed has a positive flow. -/
theorem totalFlow_fin (feed1 feed2 : CMaterialPort) :
    ∃ q, Calculate.Spec.totalFlow feed1 feed2 = Dbl.fin q ∧ 0 ≤ q ∧
      (q = 0 ↔ Calculate.flowingFeeds feed1 feed2 = []) := by
  unfold Calculate.Spec.totalFlow
  apply sum_flows
  intro m hm
  unfold Calculate.flowingFeeds at hm
  exact (List.mem_filter.1 hm).2

theorem list_eq_map_range (l : List Dbl) (n : Nat) (f : Nat → Dbl) (hlen : l.length = n)
    (h : ∀ j, j < n → GetDoubleAt l j = f j) : l = (List.range n).map f := by
  apply List.ext_getElem
  · simp [hlen]
  · intro j h1 h2
    have hj : j < n := by omega
    have := h j hj
    unfold GetDoubleAt at this
    simp only [List.getD_eq_getElem?_getD, List.getElem?_eq_getElem h1, Option.getD_some] at this
    simp [this]

/-- The mixing stage for a non-zero total flow, when it succeeds: one flash request
on the duplicate material, at the composition `componentFlows[j]/totalFlow`, the
selected pressure and the molar enthalpy `(enthalpy+heatInput)/totalFlow`; the
temperature is the answer of the flash. -/
theorem mix_flash (n : Nat) (feed1 feed2 : CMaterialPort) (t : FeedTotals) (heatInput : Dbl)
    (l : List Request) (composition : List Dbl) (temperature : Dbl)
    (h : Calculate.mix n feed1 feed2 t heatInput = (l, Except.ok (composition, temperature)))
    (hz : Dbl.eq t.totalFlow (Dbl.fin 0) = false) :
    ∃ i d, t.duplicateMaterial = some (i, d) ∧
      composition = (List.range n).map (fun j => GetDoubleAt t.componentFlows j / t.totalFlow) ∧
      l = [Request.GetTemperatureFromPHFlash i composition t.pressure
        ((t.enthalpy + heatInput) / t.totalFlow)] ∧
      d.GetTemperatureFromPHFlash composition t.pressure
        ((t.enthalpy + heatInput) / t.totalFlow) = Except.ok temperature := by
  unfold Calculate.mix at h
  simp only [hz, Bool.false_eq_true, if_false] at h
  cases hd : t.duplicateMaterial with
  | none => simp [hd] at h
  | some id =>
    obtain ⟨i, d⟩ := id
    simp only [hd, Traced.bind_eq] at h
    obtain ⟨l1, T, l2, hcall, hret, hl⟩ := Traced.andThen_ok _ _ _ _ h
    obtain ⟨hans, hl1⟩ := Traced.call_ok _ _ _ _ hcall
    obtain ⟨hct, hl2⟩ := Traced.ret_ok _ _ _ hret
    simp only [Prod.mk.injEq] at hct
    obtain ⟨hc, hT⟩ := hct
    subst hc
    subst hT
    refine ⟨i, d, rfl, rfl, ?_, hans⟩
    rw [hl, hl1, hl2]
    rfl

/-! ## Successful runs of `Calculate` -/

/-- The requests `Calculate` makes to the connected product ports: `SetFromFlowTPX`
on port 2 and on port 3, each if connected, with the flow of the stream. -/
theorem writes_of_products (l1 l2 : List Request) (product1 product2 : CMaterialPort)
    (w1 w2 : Request) (h1 : ∀ r ∈ l1, r.isRead = true)
    (h2 : ∀ r ∈ l2, r.isSetFromFlowTPX = false)
    (hw1 : w1.isSetFromFlowTPX = true) (hw2 : w2.isSetFromFlowTPX = true) :
    Request.writes (l1 ++ (l2 ++ ((if product1.IsConnected then [w1] else []) ++
      (if product2.IsConnected then [w2] else [])))) =
    (if product1.IsConnected then [w1] else []) ++
      (if product2.IsConnected then [w2] else []) := by
  have e1 : l1.filter Request.isSetFromFlowTPX = [] := by
    rw [List.filter_eq_nil_iff]
    intro r hr
    have := h1 r hr
    simp only [Request.isRead, Bool.and_eq_true, Bool.not_eq_true'] at this
    simp [this.1]
  have e2 : l2.filter Request.isSetFromFlowTPX = [] := by
    rw [List.filter_eq_nil_iff]
    intro r hr
    simp [h2 r hr]
  unfold Request.writes
  simp only [List.filter_append, e1, e2, List.nil_append]
  by_cases c1 : product1.IsConnected = true <;> by_cases c2 : product2.IsConnected = true <;>
    simp [c1, c2, List.filter_cons, hw1, hw2]

/-- A successful `Calculate`: the unit operation was valid, the feed loop and the
mixing stage succeeded, and the requests that set a product are, in order, one on
each connected product port, with the composition and temperature of the mixing
stage, the selected pressure and the flow of the stream. -/
theorem Calculate_success (u : CCPPMixerSplitterUnitOperation)
    (feed1 feed2 product1 product2 : CMaterialPort) (restPorts : List CMaterialPort)
    (par0 par1 : CRealParameter) (restPars : List CRealParameter)
    (hitems : u.portCollection.items = feed1 :: feed2 :: product1 :: product2 :: restPorts)
    (hpars : u.parameterCollection.items = par0 :: par1 :: restPars)
    (r : CalculateResult) (hr : u.Calculate = some r) (hok : r.hr = HRESULT.NOERROR) :
    ∃ l1 t l2 composition temperature,
      Calculate.feedLoop u.nCompounds feed1 feed2 = (l1, Except.ok t) ∧
      Calculate.mix u.nCompounds feed1 feed2 t par1.value =
        (l2, Except.ok (composition, temperature)) ∧
      (∀ q ∈ l1, q.isRead = true) ∧
      r.requests = l1 ++ (l2 ++
        ((if product1.IsConnected then
            [Request.SetFromFlowTPX 2 composition
              (Calculate.productFlow
                ((if product1.IsConnected then 1 else 0) + (if product2.IsConnected then 1 else 0))
                t.totalFlow par0.value 2) temperature t.pressure]
          else []) ++
        (if product2.IsConnected then
            [Request.SetFromFlowTPX 3 composition
              (Calculate.productFlow
                ((if product1.IsConnected then 1 else 0) + (if product2.IsConnected then 1 else 0))
                t.totalFlow par0.value 3) temperature t.pressure]
          else []))) ∧
      Request.writes r.requests =
        (if product1.IsConnected then
            [Request.SetFromFlowTPX 2 composition
              (Calculate.productFlow
                ((if product1.IsConnected then 1 else 0) + (if product2.IsConnected then 1 else 0))
                t.totalFlow par0.value 2) temperature t.pressure]
          else []) ++
        (if product2.IsConnected then
            [Request.SetFromFlowTPX 3 composition
              (Calculate.productFlow
                ((if product1.IsConnected then 1 else 0) + (if product2.IsConnected then 1 else 0))
                t.totalFlow par0.value 3) temperature t.pressure]
          else []) := by
  unfold Calculate at hr
  by_cases hv1 : u.valStatus = CapeValidationStatus.CAPE_INVALID
  · simp only [hv1, if_true] at hr
    injection hr with hr
    rw [← hr] at hok
    cases hok
  by_cases hv2 : u.valStatus = CapeValidationStatus.CAPE_NOT_VALIDATED
  · simp only [hv2, if_true, reduceCtorEq, if_false] at hr
    injection hr with hr
    rw [← hr] at hok
    cases hok
  simp only [hv1, hv2, if_false, hitems, hpars] at hr
  generalize hb : Calculate.body u.nCompounds feed1 feed2 product1 product2 par0.value
    par1.value = b at hr
  obtain ⟨requests, res⟩ := b
  cases res with
  | error e =>
    cases e with
    | error desc =>
      injection hr with hr
      rw [← hr] at hok
      cases hok
    | undefined => simp at hr
  | ok x =>
    injection hr with hr
    obtain ⟨l1, t, l2, composition, temperature, h1, h2, hreq⟩ := body_ok _ _ _ _ _ _ _ _ _ hb
    have hrr : r.requests = requests := by rw [← hr]
    have hread : ∀ q ∈ l1, q.isRead = true := by
      intro q hq
      have := feedLoop_requests u.nCompounds feed1 feed2 q
      rw [h1] at this
      exact this hq
    have hmix : ∀ q ∈ l2, q.isSetFromFlowTPX = false := by
      intro q hq
      have := mix_requests u.nCompounds feed1 feed2 t par1.value q
      rw [h2] at this
      exact this hq
    refine ⟨l1, t, l2, composition, temperature, h1, h2, hread, by rw [hrr, hreq], ?_⟩
    rw [hrr, hreq]
    exact writes_of_products l1 l2 product1 product2 _ _ hread hmix rfl rfl

/-- The total flow is not zero exactly when the comparison `totalFlow==0` of the
source is false. -/
theorem totalFlow_eq_zero (feed1 feed2 : CMaterialPort) :
    Dbl.eq (Calculate.Spec.totalFlow feed1 feed2) (Dbl.fin 0) = true ↔
      Calculate.Spec.totalFlow feed1 feed2 = Dbl.fin 0 := by
  obtain ⟨q, hq, _, _⟩ := totalFlow_fin feed1 feed2
  rw [hq]
  simp [Dbl.eq]

/-- C6. On every successful `Calculate` with a non-zero total flow, the composition
written to the product ports is the flow-weighted mix of the feeds: every fraction
vector of a feed with a positive flow has `nCompounds` values, and the requests that
set a product are one `SetFromFlowTPX` on each connected product port, all with the
composition whose value for every compound `j` below `nCompounds` is the sum over the
connected feeds with a positive flow of `flow * x[j]`, divided by the sum of these
flows. -/
theorem Calculate_composition (u : CCPPMixerSplitterUnitOperation)
    (feed1 feed2 product1 product2 : CMaterialPort) (restPorts : List CMaterialPort)
    (par0 par1 : CRealParameter) (restPars : List CRealParameter)
    (hitems : u.portCollection.items = feed1 :: feed2 :: product1 :: product2 :: restPorts)
    (hpars : u.parameterCollection.items = par0 :: par1 :: restPars)
    (r : CalculateResult) (hr : u.Calculate = some r) (hok : r.hr = HRESULT.NOERROR)
    (hflow : Calculate.Spec.totalFlow feed1 feed2 ≠ Dbl.fin 0) :
    (∀ m ∈ Calculate.flowingFeeds feed1 feed2, m.fraction.length = u.nCompounds) ∧
    ∃ flow1 flow2 temperature pressure,
      Request.writes r.requests =
        (if product1.IsConnected then
          [Request.SetFromFlowTPX 2
            ((List.range u.nCompounds).map (Calculate.Spec.composition feed1 feed2))
            flow1 temperature pressure]
        else []) ++
        (if product2.IsConnected then
          [Request.SetFromFlowTPX 3
            ((List.range u.nCompounds).map (Calculate.Spec.composition feed1 feed2))
            flow2 temperature pressure]
        else []) := by
  obtain ⟨l1, t, l2, composition, temperature, hfeed, hmix, _, _, hw⟩ :=
    Calculate_success u feed1 feed2 product1 product2 restPorts par0 par1 restPars hitems hpars
      r hr hok
  obtain ⟨hP, hF, hlen, hC, hE, hX, _, _⟩ := feedLoop_ok _ _ _ _ _ hfeed
  have hz : Dbl.eq t.totalFlow (Dbl.fin 0) = false := by
    rw [hF, Bool.eq_false_iff, Ne, totalFlow_eq_zero]
    exact hflow
  obtain ⟨i, d, _, hcomp, _, _⟩ := mix_flash _ _ _ _ _ _ _ _ hmix hz
  have hcomp2 : composition =
      (List.range u.nCompounds).map (Calculate.Spec.composition feed1 feed2) := by
    rw [hcomp]
    apply List.map_congr_left
    intro j hj
    rw [hC j (List.mem_range.1 hj), hF]
    rfl
  refine ⟨hX,
    Calculate.productFlow
      ((if product1.IsConnected then 1 else 0) + (if product2.IsConnected then 1 else 0))
      t.totalFlow par0.value 2,
    Calculate.productFlow
      ((if product1.IsConnected then 1 else 0) + (if product2.IsConnected then 1 else 0))
      t.totalFlow par0.value 3, temperature, t.pressure, ?_⟩
  rw [hw, hcomp2]

/-- C8 (as amended). On every successful `Calculate` the total flow (the sum of the
positive flows of the connected feeds) is split by the split factor `s`: with both
product ports connected Product 1 is set to `total*s` and Product 2 to `total*(1-s)`,
the products being those of the arithmetic of `double`; with exactly one product port
connected it is set to the whole total flow, and the flows set on the connected
products then add up to the total flow.  Nothing is said of the sum of `total*s` and
`total*(1-s)`, and the split factor may be any `double`. -/
theorem Calculate_split (u : CCPPMixerSplitterUnitOperation)
    (feed1 feed2 product1 product2 : CMaterialPort) (restPorts : List CMaterialPort)
    (par0 par1 : CRealParameter) (restPars : List CRealParameter)
    (hitems : u.portCollection.items = feed1 :: feed2 :: product1 :: product2 :: restPorts)
    (hpars : u.parameterCollection.items = par0 :: par1 :: restPars)
    (r : CalculateResult) (hr : u.Calculate = some r) (hok : r.hr = HRESULT.NOERROR) :
    (product1.IsConnected = true → product2.IsConnected = true →
      ∃ composition temperature pressure, Request.writes r.requests =
        [Request.SetFromFlowTPX 2 composition
            (Calculate.Spec.totalFlow feed1 feed2 * par0.value) temperature pressure,
          Request.SetFromFlowTPX 3 composition
            (Calculate.Spec.totalFlow feed1 feed2 * (Dbl.fin 1 - par0.value))
            temperature pressure]) ∧
    (product1.IsConnected = true → product2.IsConnected = false →
      ∃ composition temperature pressure, Request.writes r.requests =
        [Request.SetFromFlowTPX 2 composition (Calculate.Spec.totalFlow feed1 feed2)
          temperature pressure]) ∧
    (product1.IsConnected = false → product2.IsConnected = true →
      ∃ composition temperature pressure, Request.writes r.requests =
        [Request.SetFromFlowTPX 3 composition (Calculate.Spec.totalFlow feed1 feed2)
          temperature pressure]) ∧
    (product1.IsConnected ≠ product2.IsConnected →
      ((Request.writes r.requests).map Request.flow).sum =
        Calculate.Spec.totalFlow feed1 feed2) := by
  obtain ⟨l1, t, l2, composition, temperature, hfeed, hmix, _, _, hw⟩ :=
    Calculate_success u feed1 feed2 product1 product2 restPorts par0 par1 restPars hitems hpars
      r hr hok
  obtain ⟨hP, hF, _⟩ := feedLoop_ok _ _ _ _ _ hfeed
  rw [hF] at hw
  refine ⟨?_, ?_, ?_, ?_⟩
  · intro c1 c2
    refine ⟨composition, temperature, t.pressure, ?_⟩
    rw [hw]
    simp [c1, c2, Calculate.productFlow]
  · intro c1 c2
    refine ⟨composition, temperature, t.pressure, ?_⟩
    rw [hw]
    simp [c1, c2, Calculate.productFlow]
  · intro c1 c2
    refine ⟨composition, temperature, t.pressure, ?_⟩
    rw [hw]
    simp [c1, c2, Calculate.productFlow]
  · intro hc
    rw [hw]
    by_cases c1 : product1.IsConnected = true <;> by_cases c2 : product2.IsConnected = true
    · exact absurd (c1.trans c2.symm) hc
    · simp [c1, c2, Calculate.productFlow, Request.flow]
    · simp [c1, c2, Calculate.productFlow, Request.flow]
    · simp only [Bool.not_eq_true] at c1 c2
      exact absurd (c1.trans c2.symm) hc

theorem Traced.andThen_call_ok {α β : Type} (req : Request) (a : α) (f : α → Traced β) :
    Traced.andThen (Traced.call req (Except.ok a)) f = (req :: (f a).1, (f a).2) := rfl

theorem Traced.andThen_call_error {α β : Type} (req : Request) (desc : String)
    (f : α → Traced β) :
    Traced.andThen (Traced.call req (Except.error desc)) f =
      ([req], Except.error (Abort.error desc)) := rfl

theorem Traced.andThen_mk_ok {α β : Type} (l : List Request) (a : α) (f : α → Traced β) :
    Traced.andThen (l, Except.ok a) f = (l ++ (f a).1, (f a).2) := rfl

theorem Traced.andThen_mk_error {α β : Type} (l : List Request) (e : Abort)
    (f : α → Traced β) :
    Traced.andThen ((l, Except.error e) : Traced α) f = (l, Except.error e) := rfl

theorem Traced.ret_fst {α : Type} (a : α) : (Traced.ret a).1 = [] := rfl

theorem Traced.ret_snd {α : Type} (a : α) : (Traced.ret a).2 = Except.ok a := rfl

theorem Traced.call_defined {α : Type} (req : Request) (answer : Except String α) :
    (Traced.call req answer).2 ≠ Except.error Abort.undefined := by
  cases answer <;> simp [Traced.call]

/-- A step of the product loop ends with a value or with an error description. -/
theorem productStep_defined (k : Nat) (totalFlow splitFactor : Dbl) (composition : List Dbl)
    (temperature pressure : Dbl) (i : Nat) (port : CMaterialPort) :
    (Calculate.productStep k totalFlow splitFactor composition temperature pressure i port).2 ≠
      Except.error Abort.undefined := by
  unfold Calculate.productStep
  split_ifs
  · split
    · exact Traced.call_defined _ _
    · simp [Traced.ret]
  · simp [Traced.ret]

/-- The product loop: every request sets a product with the given composition,
temperature and pressure; the loop ends with a value or an error description; and
when it ends with a value, the requests are one on each connected product port. -/
theorem productLoop_spec (k : Nat) (totalFlow splitFactor : Dbl) (composition : List Dbl)
    (temperature pressure : Dbl) (product1 product2 : CMaterialPort) :
    (∀ q ∈ (Traced.andThen
        (Calculate.productStep k totalFlow splitFactor composition temperature pressure 2
          product1)
        (fun _ => Calculate.productStep k totalFlow splitFactor composition temperature
          pressure 3 product2)).1,
      ∃ i flow, q = Request.SetFromFlowTPX i composition flow temperature pressure) ∧
    (Traced.andThen
        (Calculate.productStep k totalFlow splitFactor composition temperature pressure 2
          product1)
        (fun _ => Calculate.productStep k totalFlow splitFactor composition temperature
          pressure 3 product2)).2 ≠ Except.error Abort.undefined ∧
    (∀ x, (Traced.andThen
        (Calculate.productStep k totalFlow splitFactor composition temperature pressure 2
          product1)
        (fun _ => Calculate.productStep k totalFlow splitFactor composition temperature
          pressure 3 product2)).2 = Except.ok x →
      (Traced.andThen
        (Calculate.productStep k totalFlow splitFactor composition temperature pressure 2
          product1)
        (fun _ => Calculate.productStep k totalFlow splitFactor composition temperature
          pressure 3 product2)).1 =
      (if product1.IsConnected then
        [Request.SetFromFlowTPX 2 composition
          (Calculate.productFlow k totalFlow splitFactor 2) temperature pressure]
      else []) ++
      (if product2.IsConnected then
        [Request.SetFromFlowTPX 3 composition
          (Calculate.productFlow k totalFlow splitFactor 3) temperature pressure]
      else [])) := by
  have e1 := productStep_requests k totalFlow splitFactor composition temperature pressure 2
    product1
  have e2 := productStep_requests k totalFlow splitFactor composition temperature pressure 3
    product2
  have d1 := productStep_defined k totalFlow splitFactor composition temperature pressure 2
    product1
  have d2 := productStep_defined k totalFlow splitFactor composition temperature pressure 3
    product2
  generalize Calculate.productStep k totalFlow splitFactor composition temperature pressure 2
    product1 = s1 at e1 d1
  generalize Calculate.productStep k totalFlow splitFactor composition temperature pressure 3
    product2 = s2 at e2 d2
  obtain ⟨w1, res1⟩ := s1
  obtain ⟨w2, res2⟩ := s2
  simp only at e1 e2 d1 d2
  have hw1 : ∀ q ∈ w1, ∃ i flow,
      q = Request.SetFromFlowTPX i composition flow temperature pressure := by
    intro q hq
    rw [e1] at hq
    split_ifs at hq
    · exact ⟨2, _, List.mem_singleton.1 hq⟩
    · simp at hq
  have hw2 : ∀ q ∈ w2, ∃ i flow,
      q = Request.SetFromFlowTPX i composition flow temperature pressure := by
    intro q hq
    rw [e2] at hq
    split_ifs at hq
    · exact ⟨3, _, List.mem_singleton.1 hq⟩
    · simp at hq
  cases res1 with
  | error e =>
    refine ⟨by simpa [Traced.andThen] using hw1, by simpa [Traced.andThen] using d1, ?_⟩
    intro x hx
    simp [Traced.andThen] at hx
  | ok x1 =>
    refine ⟨?_, by simpa [Traced.andThen] using d2, ?_⟩
    · intro q hq
      simp only [Traced.andThen, List.mem_append] at hq
      rcases hq with hq | hq
      · exact hw1 q hq
      · exact hw2 q hq
    · intro x _
      simp only [Traced.andThen]
      rw [e1, e2]

/-- The result of `Calculate` on a valid unit operation with four ports and two
parameters, from the run of its body: the requests are those of the body; a value
gives the success code; an error description gives the CAPE-OPEN error code and is
stored with interface `ICapeUnit` and scope `Calculate`. -/
theorem Calculate_of_body (u : CCPPMixerSplitterUnitOperation)
    (feed1 feed2 product1 product2 : CMaterialPort) (restPorts : List CMaterialPort)
    (par0 par1 : CRealParameter) (restPars : List CRealParameter)
    (hitems : u.portCollection.items = feed1 :: feed2 :: product1 :: product2 :: restPorts)
    (hpars : u.parameterCollection.items = par0 :: par1 :: restPars)
    (hvalid : u.valStatus = CapeValidationStatus.CAPE_VALID)
    (requests : List Request) (res : Except Abort Unit)
    (hbody : Calculate.body u.nCompounds feed1 feed2 product1 product2 par0.value par1.value =
      (requests, res))
    (hdef : res ≠ Except.error Abort.undefined) :
    ∃ r, u.Calculate = some r ∧ r.requests = requests ∧
      (r.hr = HRESULT.NOERROR ↔ ∃ x, res = Except.ok x) ∧
      (∀ desc, res = Except.error (Abort.error desc) →
        r.hr = HRESULT.ECapeUnknownHR ∧ r.self.errDesc = desc ∧
        r.self.errIface = "ICapeUnit" ∧ r.self.errScope = "Calculate") := by
  unfold Calculate
  simp only [hvalid, reduceCtorEq, if_false, hitems, hpars, hbody]
  cases res with
  | ok x => exact ⟨_, rfl, rfl, by simp, by simp⟩
  | error e =>
    cases e with
    | undefined => exact absurd rfl hdef
    | error desc =>
      refine ⟨_, rfl, rfl, by simp, ?_⟩
      intro desc2 h2
      simp only [Except.error.injEq, Abort.error.injEq] at h2
      subst h2
      simp [SetError, CAPEOPENBaseObject.SetError]

/-- The flash of `Calculate`.  On every `Calculate` of a valid unit operation in which
the feeds are read successfully and the total flow is not zero, the pressure-enthalpy
flash is requested, right after the feeds are read, on the duplicate of a feed with a
positive flow, at the mixed composition, the pressure the feed loop ends with
(`Calculate.selectedPressure`, which is the minimum of the feed pressures only when
no feed reports a pressure of zero: `selectedPressure_min`) and the molar enthalpy
`H = (sum over the connected feeds with a positive flow and their present phases with
a positive phase fraction of flow * phaseFraction * h + heat input) / total flow`.
If the flash fails, `Calculate` fails with its error text and requests nothing more.
If it returns a temperature, every later request sets a product to that temperature,
and on success these requests are one on each connected product port. -/
theorem Calculate_flash (u : CCPPMixerSplitterUnitOperation)
    (feed1 feed2 product1 product2 : CMaterialPort) (restPorts : List CMaterialPort)
    (par0 par1 : CRealParameter) (restPars : List CRealParameter)
    (hitems : u.portCollection.items = feed1 :: feed2 :: product1 :: product2 :: restPorts)
    (hpars : u.parameterCollection.items = par0 :: par1 :: restPars)
    (hvalid : u.valStatus = CapeValidationStatus.CAPE_VALID)
    (l1 : List Request) (t : FeedTotals)
    (hfeed : Calculate.feedLoop u.nCompounds feed1 feed2 = (l1, Except.ok t))
    (hflow : Calculate.Spec.totalFlow feed1 feed2 ≠ Dbl.fin 0) :
    ∃ i d m r rest,
      m ∈ Calculate.flowingFeeds feed1 feed2 ∧ m.Duplicate = Except.ok d ∧
      u.Calculate = some r ∧
      r.requests = l1 ++
        Request.GetTemperatureFromPHFlash i
          ((List.range u.nCompounds).map (Calculate.Spec.composition feed1 feed2))
          (Calculate.selectedPressure feed1 feed2)
          (Calculate.Spec.molarEnthalpy feed1 feed2 par1.value) :: rest ∧
      (∀ q ∈ l1, q.isRead = true) ∧
      (∀ desc, d.GetTemperatureFromPHFlash
          ((List.range u.nCompounds).map (Calculate.Spec.composition feed1 feed2))
          (Calculate.selectedPressure feed1 feed2)
          (Calculate.Spec.molarEnthalpy feed1 feed2 par1.value) = Except.error desc →
        rest = [] ∧ r.hr = HRESULT.ECapeUnknownHR ∧ r.self.errDesc = desc) ∧
      (∀ T, d.GetTemperatureFromPHFlash
          ((List.range u.nCompounds).map (Calculate.Spec.composition feed1 feed2))
          (Calculate.selectedPressure feed1 feed2)
          (Calculate.Spec.molarEnthalpy feed1 feed2 par1.value) = Except.ok T →
        (∀ q ∈ rest, ∃ k flow, q = Request.SetFromFlowTPX k
          ((List.range u.nCompounds).map (Calculate.Spec.composition feed1 feed2)) flow T
          (Calculate.selectedPressure feed1 feed2)) ∧
        (r.hr = HRESULT.NOERROR →
          (product1.IsConnected = true → ∃ flow, Request.SetFromFlowTPX 2
            ((List.range u.nCompounds).map (Calculate.Spec.composition feed1 feed2)) flow T
            (Calculate.selectedPressure feed1 feed2) ∈ rest) ∧
          (product2.IsConnected = true → ∃ flow, Request.SetFromFlowTPX 3
            ((List.range u.nCompounds).map (Calculate.Spec.composition feed1 feed2)) flow T
            (Calculate.selectedPressure feed1 feed2) ∈ rest))) := by
  obtain ⟨hP, hF, hlen, hC, hE, hX, _, hD⟩ := feedLoop_ok _ _ _ _ _ hfeed
  have hz : Dbl.eq t.totalFlow (Dbl.fin 0) = false := by
    rw [hF, Bool.eq_false_iff, Ne, totalFlow_eq_zero]
    exact hflow
  have hne : Calculate.flowingFeeds feed1 feed2 ≠ [] := by
    obtain ⟨q, hq, _, hq0⟩ := totalFlow_fin feed1 feed2
    intro hnil
    apply hflow
    rw [hq, hq0.2 hnil]
  obtain ⟨i, d, m, hm, hmd, hd⟩ := hD hne
  have hread : ∀ q ∈ l1, q.isRead = true := by
    intro q hq
    have := feedLoop_requests u.nCompounds feed1 feed2 q
    rw [hfeed] at this
    exact this hq
  have hcomp : (List.range u.nCompounds).map
      (fun j => GetDoubleAt t.componentFlows j / t.totalFlow) =
      (List.range u.nCompounds).map (Calculate.Spec.composition feed1 feed2) := by
    apply List.map_congr_left
    intro j hj
    rw [hC j (List.mem_range.1 hj), hF]
    rfl
  have hH : (t.enthalpy + par1.value) / t.totalFlow =
      Calculate.Spec.molarEnthalpy feed1 feed2 par1.value := by
    rw [hE, hF]
    rfl
  have hmix : Calculate.mix u.nCompounds feed1 feed2 t par1.value =
      Traced.andThen
        (Traced.call
          (Request.GetTemperatureFromPHFlash i
            ((List.range u.nCompounds).map (Calculate.Spec.composition feed1 feed2))
            (Calculate.selectedPressure feed1 feed2)
            (Calculate.Spec.molarEnthalpy feed1 feed2 par1.value))
          (d.GetTemperatureFromPHFlash
            ((List.range u.nCompounds).map (Calculate.Spec.composition feed1 feed2))
            (Calculate.selectedPressure feed1 feed2)
            (Calculate.Spec.molarEnthalpy feed1 feed2 par1.value)))
        (fun temperature => Traced.ret
          ((List.range u.nCompounds).map (Calculate.Spec.composition feed1 feed2),
            temperature)) := by
    unfold Calculate.mix
    simp only [hz, Bool.false_eq_true, if_false, hd, Traced.bind_eq, hcomp, hH, hP]
  have hbody : Calculate.body u.nCompounds feed1 feed2 product1 product2 par0.value
      par1.value =
      (l1 ++ (Traced.andThen (Calculate.mix u.nCompounds feed1 feed2 t par1.value) (fun ct =>
          Traced.andThen
            (Calculate.productStep
              ((if product1.IsConnected then 1 else 0) + (if product2.IsConnected then 1 else 0))
              t.totalFlow par0.value ct.1 ct.2 t.pressure 2 product1)
            (fun _ => Calculate.productStep
              ((if product1.IsConnected then 1 else 0) + (if product2.IsConnected then 1 else 0))
              t.totalFlow par0.value ct.1 ct.2 t.pressure 3 product2))).1,
        (Traced.andThen (Calculate.mix u.nCompounds feed1 feed2 t par1.value) (fun ct =>
          Traced.andThen
            (Calculate.productStep
              ((if product1.IsConnected then 1 else 0) + (if product2.IsConnected then 1 else 0))
              t.totalFlow par0.value ct.1 ct.2 t.pressure 2 product1)
            (fun _ => Calculate.productStep
              ((if product1.IsConnected then 1 else 0) + (if product2.IsConnected then 1 else 0))
              t.totalFlow par0.value ct.1 ct.2 t.pressure 3 product2))).2) := by
    unfold Calculate.body
    simp only [Traced.bind_eq, hfeed]
    rfl
  cases hans : d.GetTemperatureFromPHFlash
      ((List.range u.nCompounds).map (Calculate.Spec.composition feed1 feed2))
      (Calculate.selectedPressure feed1 feed2)
      (Calculate.Spec.molarEnthalpy feed1 feed2 par1.value) with
  | error desc =>
    rw [hmix, hans] at hbody
    simp only [Traced.andThen_call_error, Traced.andThen_mk_error] at hbody
    obtain ⟨r, hr, hreq, _, herr⟩ := Calculate_of_body u feed1 feed2 product1 product2 restPorts
      par0 par1 restPars hitems hpars hvalid _ _ hbody (by simp)
    obtain ⟨hhr, hdesc, _, _⟩ := herr desc rfl
    refine ⟨i, d, m, r, [], hm, hmd, hr, hreq, hread, ?_, ?_⟩
    · intro desc2 h2
      rw [hans] at h2
      cases h2
      exact ⟨rfl, hhr, hdesc⟩
    · intro T hT
      rw [hans] at hT
      cases hT
  | ok T =>
    obtain ⟨hall, hdef, hok⟩ := productLoop_spec
      ((if product1.IsConnected then 1 else 0) + (if product2.IsConnected then 1 else 0))
      t.totalFlow par0.value
      ((List.range u.nCompounds).map (Calculate.Spec.composition feed1 feed2)) T
      t.pressure product1 product2
    rw [hmix, hans] at hbody
    simp only [Traced.andThen_call_ok, Traced.ret_fst, Traced.ret_snd,
      Traced.andThen_mk_ok, List.cons_append, List.nil_append] at hbody
    rw [hP] at hbody hall hdef hok
    obtain ⟨r, hr, hreq, hiff, _⟩ := Calculate_of_body u feed1 feed2 product1 product2 restPorts
      par0 par1 restPars hitems hpars hvalid _ _ hbody hdef
    refine ⟨i, d, m, r, _, hm, hmd, hr, hreq, hread, ?_, ?_⟩
    · intro desc h2
      rw [hans] at h2
      cases h2
    · intro T2 hT2
      rw [hans] at hT2
      cases hT2
      refine ⟨hall, ?_⟩
      intro hnoerr
      obtain ⟨x, hx⟩ := hiff.1 hnoerr
      rw [hok x hx]
      constructor
      · intro c1
        refine ⟨Calculate.productFlow
          ((if product1.IsConnected then 1 else 0) + (if product2.IsConnected then 1 else 0))
          t.totalFlow par0.value 2, ?_⟩
        simp [c1]
      · intro c2
        refine ⟨Calculate.productFlow
          ((if product1.IsConnected then 1 else 0) + (if product2.IsConnected then 1 else 0))
          t.totalFlow par0.value 3, ?_⟩
        simp [c2]

/-! ## Zero total flow -/

/-- One step of the averaging loop, when every request succeeds, in terms of the
material of the port: the count, the temperature and the composition of a connected
feed are added. -/
theorem averageStep_sum (n i : Nat) (port : CMaterialPort) (a : Average)
    (l : List Request) (a2 : Average)
    (h : Calculate.averageStep n i port a = (l, Except.ok a2))
    (hlen : a.composition.length = n) :
    a2.d = a.d + Dbl.fin ((Calculate.materialOf port).length : ℚ) ∧
    a2.temperature = a.temperature +
      ((Calculate.materialOf port).map Material.temperature).sum ∧
    a2.composition.length = n ∧
    (∀ j, j < n → GetDoubleAt a2.composition j = GetDoubleAt a.composition j +
      ((Calculate.materialOf port).map (fun m => GetDoubleAt m.fraction j)).sum) := by
  unfold Calculate.averageStep at h
  by_cases hc : port.IsConnected = true
  · obtain ⟨m, hm⟩ := IsConnected_GetMaterial port hc
    simp only [hc, if_true, hm, Traced.bind_eq] at h
    obtain ⟨l1, v1, l2, hcall1, h, _⟩ := Traced.andThen_ok _ _ _ _ h
    obtain ⟨hv1, _⟩ := Traced.call_ok _ _ _ _ hcall1
    have hT : m.temperature = GetDoubleAt v1 0 := by
      unfold Material.temperature; rw [hv1]; rfl
    by_cases hlen1 : v1.length = 1
    · simp only [hlen1, ne_eq, not_true_eq_false, if_false] at h
      obtain ⟨l3, v2, l4, hcall2, h, _⟩ := Traced.andThen_ok _ _ _ _ h
      obtain ⟨hv2, _⟩ := Traced.call_ok _ _ _ _ hcall2
      have hX : m.fraction = v2 := by
        unfold Material.fraction; rw [hv2]; rfl
      by_cases hlen2 : v2.length = n
      · simp only [hlen2, ne_eq, not_true_eq_false, if_false] at h
        obtain ⟨ha2, _⟩ := Traced.ret_ok _ _ _ h
        subst ha2
        simp only [Calculate.materialOf, hc, hm, if_true, Option.toList_some,
          List.length_singleton, Nat.cast_one, List.map_cons, List.map_nil, List.sum_cons,
          List.sum_nil, Dbl.zero_eq, Dbl.addZero, hT, hX, List.length_map, List.length_range,
          true_and]
        intro j hj
        rw [GetDoubleAt_map_range n j _ hj]
      · simp only [hlen2, ne_eq, not_false_eq_true, if_true] at h
        exact absurd h (fun h => Traced.fail_ok _ _ _ h)
    · simp only [hlen1, ne_eq, not_false_eq_true, if_true] at h
      exact absurd h (fun h => Traced.fail_ok _ _ _ h)
  · simp only [hc, if_false, Bool.false_eq_true] at h
    obtain ⟨ha2, _⟩ := Traced.ret_ok _ _ _ h
    subst ha2
    simp [Calculate.materialOf, hc, hlen]

/-- The product with `1.0/d` is the quotient by `d` for the two counts the averaging
divides by: two (the reciprocal is one half) and zero (both sides are not-a-number). -/
theorem Dbl.mul_one_div (x : Dbl) (k : Nat) (hk : k = 0 ∨ k = 2) :
    x * (Dbl.fin 1 / Dbl.fin (k : ℚ)) = x / Dbl.fin (k : ℚ) := by
  cases x with
  | nan => simp
  | fin q =>
    rcases hk with hk | hk
    · subst hk
      simp [Dbl.fin_div_fin]
    · subst hk
      simp [Dbl.fin_div_fin, div_eq_mul_inv]

theorem connectedFeeds_length (feed1 feed2 : CMaterialPort) :
    (Calculate.connectedFeeds feed1 feed2).length ≤ 2 := by
  unfold Calculate.connectedFeeds
  rw [List.length_append]
  have h1 := materialOf_length_le feed1
  have h2 := materialOf_length_le feed2
  omega

theorem Dbl.div_one (x : Dbl) : x / Dbl.fin 1 = x := by
  cases x with
  | nan => simp
  | fin q => simp [Dbl.fin_div_fin]

/-- The mixing stage for a zero total flow, when it succeeds: the heat input is zero,
the composition is the arithmetic mean of the compositions of the connected feeds and
the temperature is the arithmetic mean of their temperatures. -/
theorem mix_average (n : Nat) (feed1 feed2 : CMaterialPort) (t : FeedTotals) (heatInput : Dbl)
    (l : List Request) (composition : List Dbl) (temperature : Dbl)
    (h : Calculate.mix n feed1 feed2 t heatInput = (l, Except.ok (composition, temperature)))
    (hz : Dbl.eq t.totalFlow (Dbl.fin 0) = true) :
    Dbl.ne heatInput (Dbl.fin 0) = false ∧
    composition = (List.range n).map (Calculate.Spec.meanComposition feed1 feed2) ∧
    temperature = Calculate.Spec.meanTemperature feed1 feed2 := by
  unfold Calculate.mix at h
  simp only [hz, if_true] at h
  by_cases hh : Dbl.ne heatInput (Dbl.fin 0) = true
  · simp only [hh, if_true] at h
    exact absurd h (fun h => Traced.fail_ok _ _ _ h)
  simp only [hh, Bool.false_eq_true, if_false, Traced.bind_eq] at h
  refine ⟨by simpa using hh, ?_⟩
  obtain ⟨l1, a1, l2, h1, h, _⟩ := Traced.andThen_ok _ _ _ _ h
  obtain ⟨l3, a2, l4, h2, h, _⟩ := Traced.andThen_ok _ _ _ _ h
  obtain ⟨hd1, hT1, hlen1, hC1⟩ := averageStep_sum _ _ _ _ _ _ h1 (by simp)
  obtain ⟨hd2, hT2, hlen2, hC2⟩ := averageStep_sum _ _ _ _ _ _ h2 hlen1
  have hd : a2.d = Calculate.Spec.feedCount feed1 feed2 := by
    rw [hd2, hd1]
    simp [Calculate.Spec.feedCount, Calculate.connectedFeeds]
  have hT : a2.temperature =
      ((Calculate.connectedFeeds feed1 feed2).map Material.temperature).sum := by
    rw [hT2, hT1]
    simp [Calculate.connectedFeeds,
      Dbl.sum_append _ _ ((List.length_map _ _).trans_le (materialOf_length_le feed1))]
  have hC : ∀ j, j < n → GetDoubleAt a2.composition j =
      ((Calculate.connectedFeeds feed1 feed2).map (fun m => GetDoubleAt m.fraction j)).sum := by
    intro j hj
    rw [hC2 j hj, hC1 j hj, GetDoubleAt_map_range n j _ hj]
    simp [Calculate.connectedFeeds,
      Dbl.sum_append _ _ ((List.length_map _ _).trans_le (materialOf_length_le feed1))]
  by_cases hne : Dbl.ne a2.d (Dbl.fin 1) = true
  · simp only [hne, if_true] at h
    obtain ⟨hct, _⟩ := Traced.ret_ok _ _ _ h
    simp only [Prod.mk.injEq] at hct
    obtain ⟨hc, hT'⟩ := hct
    subst hc
    subst hT'
    have hcount : (Calculate.connectedFeeds feed1 feed2).length = 0 ∨
        (Calculate.connectedFeeds feed1 feed2).length = 2 := by
      have hle := connectedFeeds_length feed1 feed2
      have hne1 : (Calculate.connectedFeeds feed1 feed2).length ≠ 1 := by
        intro h1
        rw [hd] at hne
        simp [Calculate.Spec.feedCount, h1, Dbl.ne, Dbl.eq] at hne
      omega
    constructor
    · apply List.map_congr_left
      intro j hj
      rw [hC j (List.mem_range.1 hj), hd]
      unfold Calculate.Spec.meanComposition Calculate.Spec.feedCount
      exact Dbl.mul_one_div _ _ hcount
    · rw [hT, hd]
      unfold Calculate.Spec.meanTemperature Calculate.Spec.feedCount
      exact Dbl.mul_one_div _ _ hcount
  · simp only [hne, Bool.false_eq_true, if_false] at h
    obtain ⟨hct, _⟩ := Traced.ret_ok _ _ _ h
    simp only [Prod.mk.injEq] at hct
    obtain ⟨hc, hT'⟩ := hct
    subst hc
    subst hT'
    have hone : Calculate.Spec.feedCount feed1 feed2 = Dbl.fin 1 := by
      rw [← hd]
      cases hd' : a2.d with
      | nan => simp [hd', Dbl.ne, Dbl.eq] at hne
      | fin q =>
        simp only [hd', Dbl.ne, Dbl.eq, Bool.not_eq_true', decide_eq_false_iff_not,
          not_not] at hne
        rw [hne]
    constructor
    · apply list_eq_map_range _ _ _ hlen2
      intro j hj
      rw [hC j hj]
      unfold Calculate.Spec.meanComposition
      rw [hone, Dbl.div_one]
    · rw [hT]
      unfold Calculate.Spec.meanTemperature
      rw [hone, Dbl.div_one]

theorem Traced.andThen_defined {α β : Type} (x : Traced α) (f : α → Traced β)
    (hx : x.2 ≠ Except.error Abort.undefined)
    (hf : ∀ a, (f a).2 ≠ Except.error Abort.undefined) :
    (Traced.andThen x f).2 ≠ Except.error Abort.undefined := by
  obtain ⟨l, res⟩ := x
  cases res with
  | error e => simpa [Traced.andThen] using hx
  | ok a => simpa [Traced.andThen] using hf a

theorem Traced.ret_defined {α : Type} (a : α) :
    (Traced.ret a).2 ≠ Except.error Abort.undefined := by
  simp [Traced.ret]

theorem Traced.fail_defined {α : Type} (desc : String) :
    (Traced.fail desc : Traced α).2 ≠ Except.error Abort.undefined := by
  simp [Traced.fail]

/-- A computation that stops with an error only after a request: if it made no
request, it gave a value. -/
theorem Traced.andThen_nil {α β : Type} (x : Traced α) (f : α → Traced β)
    (hx : x.1 = [] → ∃ a, x.2 = Except.ok a)
    (hf : ∀ a, (f a).1 = [] → ∃ b, (f a).2 = Except.ok b)
    (h : (Traced.andThen x f).1 = []) : ∃ b, (Traced.andThen x f).2 = Except.ok b := by
  obtain ⟨l, res⟩ := x
  cases res with
  | error e =>
    simp only [Traced.andThen] at h
    obtain ⟨a, ha⟩ := hx h
    cases ha
  | ok a =>
    simp only [Traced.andThen, List.append_eq_nil] at h
    simpa [Traced.andThen] using hf a h.2

theorem Traced.call_andThen_ne_nil {α β : Type} (req : Request) (answer : Except String α)
    (f : α → Traced β) : (Traced.andThen (Traced.call req answer) f).1 ≠ [] := by
  cases answer <;> simp [Traced.andThen, Traced.call]

theorem Traced.call_ne_nil {α : Type} (req : Request) (answer : Except String α) :
    (Traced.call req answer).1 ≠ [] := by
  cases answer <;> simp [Traced.call]

/-- A step of the averaging loop ends with a value or with an error description, and
stops with an error only after a request. -/
theorem averageStep_defined (n i : Nat) (port : CMaterialPort) (a : Average) :
    (Calculate.averageStep n i port a).2 ≠ Except.error Abort.undefined ∧
    ((Calculate.averageStep n i port a).1 = [] →
      ∃ a2, (Calculate.averageStep n i port a).2 = Except.ok a2) := by
  unfold Calculate.averageStep
  split_ifs
  · split
    · simp only [Traced.bind_eq]
      constructor
      · apply Traced.andThen_defined _ _ (Traced.call_defined _ _)
        intro v1
        split_ifs
        · exact Traced.fail_defined _
        · apply Traced.andThen_defined _ _ (Traced.call_defined _ _)
          intro v2
          split_ifs
          · exact Traced.fail_defined _
          · exact Traced.ret_defined _
      · intro h
        exact absurd h (Traced.call_andThen_ne_nil _ _ _)
    · exact ⟨Traced.ret_defined _, fun _ => ⟨_, rfl⟩⟩
  · exact ⟨Traced.ret_defined _, fun _ => ⟨_, rfl⟩⟩

/-- A step of the averaging loop succeeds when the host answers the temperature with
one value and the fractions with `n` values. -/
theorem averageStep_succeeds (n i : Nat) (port : CMaterialPort) (a : Average)
    (h : ∀ m ∈ Calculate.materialOf port,
      (∃ v, m.GetOverallProperty "temperature" none = Except.ok v ∧ v.length = 1) ∧
      (∃ x, m.GetOverallProperty "fraction" (some "mole") = Except.ok x ∧ x.length = n)) :
    ∃ a2, (Calculate.averageStep n i port a).2 = Except.ok a2 := by
  unfold Calculate.averageStep
  by_cases hc : port.IsConnected = true
  · obtain ⟨m, hm⟩ := IsConnected_GetMaterial port hc
    obtain ⟨⟨v, hv, hvlen⟩, ⟨x, hx, hxlen⟩⟩ := h m (by simp [Calculate.materialOf, hc, hm])
    simp only [hc, if_true, hm, Traced.bind_eq, hv, hx, Traced.andThen_call_ok, hvlen, hxlen,
      ne_eq, not_true_eq_false, if_false, Traced.ret_snd]
    exact ⟨_, rfl⟩
  · simp only [hc, Bool.false_eq_true, if_false]
    exact ⟨_, rfl⟩

/-- A step of the product loop stops with an error only after a request, and succeeds
when the host accepts what is set. -/
theorem productStep_succeeds (k : Nat) (totalFlow splitFactor : Dbl) (composition : List Dbl)
    (temperature pressure : Dbl) (i : Nat) (port : CMaterialPort) :
    ((Calculate.productStep k totalFlow splitFactor composition temperature pressure i port).1
        = [] →
      (Calculate.productStep k totalFlow splitFactor composition temperature pressure i port).2
        = Except.ok ()) ∧
    ((∀ m ∈ Calculate.materialOf port, ∀ c f T P, m.SetFromFlowTPX c f T P = Except.ok ()) →
      (Calculate.productStep k totalFlow splitFactor composition temperature pressure i port).2
        = Except.ok ()) := by
  unfold Calculate.productStep
  by_cases hc : port.IsConnected = true
  · obtain ⟨m, hm⟩ := IsConnected_GetMaterial port hc
    simp only [hc, if_true, hm]
    constructor
    · intro h
      exact absurd h (Traced.call_ne_nil _ _)
    · intro h
      rw [h m (by simp [Calculate.materialOf, hc, hm])]
      rfl
  · simp only [hc, Bool.false_eq_true, if_false]
    exact ⟨fun _ => rfl, fun _ => rfl⟩

/-- The mixing stage for a zero total flow and a zero heat input: it ends with a
value or with an error description, it stops with an error only after a request, and
it succeeds when the host answers, for every connected feed, the temperature with one
value and the fractions with `n` values. -/
theorem mix_zero (n : Nat) (feed1 feed2 : CMaterialPort) (t : FeedTotals) (heatInput : Dbl)
    (hz : Dbl.eq t.totalFlow (Dbl.fin 0) = true)
    (hh : Dbl.ne heatInput (Dbl.fin 0) = false) :
    (Calculate.mix n feed1 feed2 t heatInput).2 ≠ Except.error Abort.undefined ∧
    ((Calculate.mix n feed1 feed2 t heatInput).1 = [] →
      ∃ ct, (Calculate.mix n feed1 feed2 t heatInput).2 = Except.ok ct) ∧
    ((∀ m ∈ Calculate.connectedFeeds feed1 feed2,
        (∃ v, m.GetOverallProperty "temperature" none = Except.ok v ∧ v.length = 1) ∧
        (∃ x, m.GetOverallProperty "fraction" (some "mole") = Except.ok x ∧ x.length = n)) →
      ∃ ct, (Calculate.mix n feed1 feed2 t heatInput).2 = Except.ok ct) := by
  unfold Calculate.mix
  simp only [hz, if_true, hh, Bool.false_eq_true, if_false, Traced.bind_eq]
  have hfin : ∀ a : Average,
      (if Dbl.ne a.d (Dbl.fin 1) = true then
        Traced.ret ((List.range n).map (fun j => GetDoubleAt a.composition j *
          (Dbl.fin 1 / a.d)), a.temperature * (Dbl.fin 1 / a.d))
      else Traced.ret (a.composition, a.temperature)).2 ≠ Except.error Abort.undefined ∧
      ∃ ct, (if Dbl.ne a.d (Dbl.fin 1) = true then
        Traced.ret ((List.range n).map (fun j => GetDoubleAt a.composition j *
          (Dbl.fin 1 / a.d)), a.temperature * (Dbl.fin 1 / a.d))
      else Traced.ret (a.composition, a.temperature)).2 = Except.ok ct := by
    intro a
    split_ifs
    · exact ⟨Traced.ret_defined _, _, rfl⟩
    · exact ⟨Traced.ret_defined _, _, rfl⟩
  refine ⟨?_, ?_, ?_⟩
  · apply Traced.andThen_defined _ _ (averageStep_defined _ _ _ _).1
    intro a1
    apply Traced.andThen_defined _ _ (averageStep_defined _ _ _ _).1
    intro a2
    exact (hfin a2).1
  · apply Traced.andThen_nil _ _ (averageStep_defined _ _ _ _).2
    intro a1
    apply Traced.andThen_nil _ _ (averageStep_defined _ _ _ _).2
    intro a2 _
    exact (hfin a2).2
  · intro hhost
    obtain ⟨a1, ha1⟩ := averageStep_succeeds n 0 feed1
      { d := Dbl.fin 0, temperature := Dbl.fin 0
        composition := (List.range n).map (fun _ => Dbl.fin 0) }
      (fun m hm => hhost m (by simp [Calculate.connectedFeeds, hm]))
    obtain ⟨a2, ha2⟩ := averageStep_succeeds n 1 feed2 a1
      (fun m hm => hhost m (by simp [Calculate.connectedFeeds, hm]))
    generalize Calculate.averageStep n 0 feed1
      { d := Dbl.fin 0, temperature := Dbl.fin 0
        composition := (List.range n).map (fun _ => Dbl.fin 0) } = s1 at ha1
    obtain ⟨w1, res1⟩ := s1
    simp only at ha1
    subst ha1
    simp only [Traced.andThen_mk_ok]
    generalize Calculate.averageStep n 1 feed2 a1 = s2 at ha2
    obtain ⟨w2, res2⟩ := s2
    simp only at ha2
    subst ha2
    simp only [Traced.andThen_mk_ok]
    exact (hfin a2).2

/-- The zero-flow case of `Calculate`.  On a valid unit operation whose feeds are read
successfully with a total flow of zero: if the heat input is not zero, `Calculate` fails with "Total flow is zero.
Cannot satisfy energy balance with non-zero heat input" and makes no further request;
if the heat input is zero, `Calculate` returns a result, never fails without a further
request, succeeds when the host answers the temperature and fraction requests of the
connected feeds with values of the expected size and accepts what is set on the
connected products, and on success (the split factor being a number) sets on every
connected product a flow of zero, the arithmetic mean of the temperatures of the
connected feeds and the arithmetic mean of their compositions. -/
theorem Calculate_zero_flow (u : CCPPMixerSplitterUnitOperation)
    (feed1 feed2 product1 product2 : CMaterialPort) (restPorts : List CMaterialPort)
    (par0 par1 : CRealParameter) (restPars : List CRealParameter)
    (hitems : u.portCollection.items = feed1 :: feed2 :: product1 :: product2 :: restPorts)
    (hpars : u.parameterCollection.items = par0 :: par1 :: restPars)
    (hvalid : u.valStatus = CapeValidationStatus.CAPE_VALID)
    (l1 : List Request) (t : FeedTotals)
    (hfeed : Calculate.feedLoop u.nCompounds feed1 feed2 = (l1, Except.ok t))
    (hzero : Calculate.Spec.totalFlow feed1 feed2 = Dbl.fin 0) :
    (Dbl.ne par1.value (Dbl.fin 0) = true →
      ∃ r, u.Calculate = some r ∧ r.hr = HRESULT.ECapeUnknownHR ∧
        r.self.errDesc =
          "Total flow is zero. Cannot satisfy energy balance with non-zero heat input" ∧
        r.self.errIface = "ICapeUnit" ∧ r.self.errScope = "Calculate" ∧
        r.requests = l1) ∧
    (Dbl.ne par1.value (Dbl.fin 0) = false →
      ∃ r, u.Calculate = some r ∧
        (r.requests = l1 → r.hr = HRESULT.NOERROR) ∧
        ((∀ m ∈ Calculate.connectedFeeds feed1 feed2,
            (∃ v, m.GetOverallProperty "temperature" none = Except.ok v ∧ v.length = 1) ∧
            (∃ x, m.GetOverallProperty "fraction" (some "mole") = Except.ok x ∧
              x.length = u.nCompounds)) →
          (∀ m ∈ Calculate.materialOf product1 ++ Calculate.materialOf product2,
            ∀ c f T P, m.SetFromFlowTPX c f T P = Except.ok ()) →
          r.hr = HRESULT.NOERROR) ∧
        (r.hr = HRESULT.NOERROR → par0.value.isnan = false →
          Request.writes r.requests =
            (if product1.IsConnected then
              [Request.SetFromFlowTPX 2
                ((List.range u.nCompounds).map (Calculate.Spec.meanComposition feed1 feed2))
                (Dbl.fin 0) (Calculate.Spec.meanTemperature feed1 feed2)
                (Calculate.selectedPressure feed1 feed2)]
            else []) ++
            (if product2.IsConnected then
              [Request.SetFromFlowTPX 3
                ((List.range u.nCompounds).map (Calculate.Spec.meanComposition feed1 feed2))
                (Dbl.fin 0) (Calculate.Spec.meanTemperature feed1 feed2)
                (Calculate.selectedPressure feed1 feed2)]
            else []))) := by
  obtain ⟨hP, hF, _⟩ := feedLoop_ok _ _ _ _ _ hfeed
  have hz : Dbl.eq t.totalFlow (Dbl.fin 0) = true := by
    rw [hF, hzero]
    simp [Dbl.eq]
  have hbody : Calculate.body u.nCompounds feed1 feed2 product1 product2 par0.value
      par1.value =
      (l1 ++ (Traced.andThen (Calculate.mix u.nCompounds feed1 feed2 t par1.value) (fun ct =>
          Traced.andThen
            (Calculate.productStep
              ((if product1.IsConnected then 1 else 0) + (if product2.IsConnected then 1 else 0))
              t.totalFlow par0.value ct.1 ct.2 t.pressure 2 product1)
            (fun _ => Calculate.productStep
              ((if product1.IsConnected then 1 else 0) + (if product2.IsConnected then 1 else 0))
              t.totalFlow par0.value ct.1 ct.2 t.pressure 3 product2))).1,
        (Traced.andThen (Calculate.mix u.nCompounds feed1 feed2 t par1.value) (fun ct =>
          Traced.andThen
            (Calculate.productStep
              ((if product1.IsConnected then 1 else 0) + (if product2.IsConnected then 1 else 0))
              t.totalFlow par0.value ct.1 ct.2 t.pressure 2 product1)
            (fun _ => Calculate.productStep
              ((if product1.IsConnected then 1 else 0) + (if product2.IsConnected then 1 else 0))
              t.totalFlow par0.value ct.1 ct.2 t.pressure 3 product2))).2) := by
    unfold Calculate.body
    simp only [Traced.bind_eq, hfeed]
    rfl
  constructor
  · intro hh
    have hmix : Calculate.mix u.nCompounds feed1 feed2 t par1.value =
        ([], Except.error (Abort.error
          "Total flow is zero. Cannot satisfy energy balance with non-zero heat input")) := by
      unfold Calculate.mix
      simp only [hz, if_true, hh]
      rfl
    rw [hmix] at hbody
    simp only [Traced.andThen_mk_error, List.append_nil] at hbody
    obtain ⟨r, hr, hreq, _, herr⟩ := Calculate_of_body u feed1 feed2 product1 product2
      restPorts par0 par1 restPars hitems hpars hvalid _ _ hbody (by simp)
    obtain ⟨h1, h2, h3, h4⟩ := herr _ rfl
    exact ⟨r, hr, h1, h2, h3, h4, hreq⟩
  · intro hh
    obtain ⟨hmdef, hmnil, hmok⟩ := mix_zero u.nCompounds feed1 feed2 t par1.value hz hh
    have hGdef : ∀ ct : List Dbl × Dbl, (Traced.andThen
        (Calculate.productStep
          ((if product1.IsConnected then 1 else 0) + (if product2.IsConnected then 1 else 0))
          t.totalFlow par0.value ct.1 ct.2 t.pressure 2 product1)
        (fun _ => Calculate.productStep
          ((if product1.IsConnected then 1 else 0) + (if product2.IsConnected then 1 else 0))
          t.totalFlow par0.value ct.1 ct.2 t.pressure 3 product2)).2 ≠
        Except.error Abort.undefined := fun ct => (productLoop_spec _ _ _ _ _ _ _ _).2.1
    have hdef := Traced.andThen_defined _ _ hmdef hGdef
    obtain ⟨r, hr, hreq, hiff, _⟩ := Calculate_of_body u feed1 feed2 product1 product2
      restPorts par0 par1 restPars hitems hpars hvalid _ _ hbody hdef
    refine ⟨r, hr, ?_, ?_, ?_⟩
    · intro hl1
      rw [hreq] at hl1
      have hnil := List.append_right_eq_self.1 hl1
      rw [hiff]
      apply Traced.andThen_nil _ _ hmnil _ hnil
      intro ct
      apply Traced.andThen_nil
      · intro h
        exact ⟨_, (productStep_succeeds _ _ _ _ _ _ _ _).1 h⟩
      · intro _ h
        exact ⟨_, (productStep_succeeds _ _ _ _ _ _ _ _).1 h⟩
    · intro hfeeds hproducts
      rw [hiff]
      obtain ⟨ct, hct⟩ := hmok hfeeds
      generalize Calculate.mix u.nCompounds feed1 feed2 t par1.value = mx at hct
      obtain ⟨lm, resm⟩ := mx
      simp only at hct
      subst hct
      simp only [Traced.andThen_mk_ok]
      have s1 := (productStep_succeeds
        ((if product1.IsConnected then 1 else 0) + (if product2.IsConnected then 1 else 0))
        t.totalFlow par0.value ct.1 ct.2 t.pressure 2 product1).2
        (fun m hm => hproducts m (List.mem_append_left _ hm))
      have s2 := (productStep_succeeds
        ((if product1.IsConnected then 1 else 0) + (if product2.IsConnected then 1 else 0))
        t.totalFlow par0.value ct.1 ct.2 t.pressure 3 product2).2
        (fun m hm => hproducts m (List.mem_append_right _ hm))
      generalize Calculate.productStep
        ((if product1.IsConnected then 1 else 0) + (if product2.IsConnected then 1 else 0))
        t.totalFlow par0.value ct.1 ct.2 t.pressure 2 product1 = ps1 at s1
      obtain ⟨lp1, resp1⟩ := ps1
      simp only at s1
      subst s1
      simp only [Traced.andThen_mk_ok]
      exact ⟨(), s2⟩
    · intro hok hs
      obtain ⟨l1', t', l2, composition, temperature, hfeed', hmix, _, _, hw⟩ :=
        Calculate_success u feed1 feed2 product1 product2 restPorts par0 par1 restPars hitems
          hpars r hr hok
      rw [hfeed] at hfeed'
      simp only [Prod.mk.injEq, Except.ok.injEq] at hfeed'
      obtain ⟨_, ht⟩ := hfeed'
      subst ht
      obtain ⟨_, hcomp, hT⟩ := mix_average _ _ _ _ _ _ _ _ hmix hz
      rw [hw, hcomp, hT, hP, hF, hzero]
      cases hsv : par0.value with
      | nan => simp [hsv, Dbl.isnan] at hs
      | fin s =>
        by_cases c1 : product1.IsConnected = true <;>
          by_cases c2 : product2.IsConnected = true <;>
          simp [c1, c2, Calculate.productFlow]

/-! ## Runs on the sample objects -/

theorem mixer_items : Sample.mixer.portCollection.items =
    [Sample.feed1 (some Sample.feedA), Sample.feed2 (some Sample.feedB),
      Sample.product1 (some Sample.product), Sample.product2 (some Sample.product)] := rfl

theorem mixer_parameters : Sample.mixer.parameterCollection.items =
    [Sample.splitFactor (Dbl.fin (1 / 4)), Sample.heatInput (Dbl.fin 500)] := rfl

/-- `Calculate` succeeds on the sample mixer. -/
theorem mixer_Calculate : ∃ r, Sample.mixer.Calculate = some r ∧ r.hr = HRESULT.NOERROR :=
  ⟨_, by with_unfolding_all rfl, by with_unfolding_all rfl⟩

/-- The feeds of the sample mixer are read successfully. -/
theorem mixer_feedLoop : ∃ l1 t,
    Calculate.feedLoop 2 (Sample.feed1 (some Sample.feedA)) (Sample.feed2 (some Sample.feedB)) =
      (l1, Except.ok t) :=
  ⟨_, _, by with_unfolding_all rfl⟩

theorem mixer_totalFlow :
    Calculate.Spec.totalFlow (Sample.feed1 (some Sample.feedA))
      (Sample.feed2 (some Sample.feedB)) = Dbl.fin 4 := by
  decide!

/-- The feeds of the idle sample unit are read successfully. -/
theorem idle_feedLoop : ∃ l1 t,
    Calculate.feedLoop 2 (Sample.feed1 (some Sample.feedIdle))
      (Sample.feed2 (some Sample.feedIdle)) = (l1, Except.ok t) :=
  ⟨_, _, by with_unfolding_all rfl⟩

theorem idle_totalFlow :
    Calculate.Spec.totalFlow (Sample.feed1 (some Sample.feedIdle))
      (Sample.feed2 (some Sample.feedIdle)) = Dbl.fin 0 := by
  decide!

/-- C2, on the sample mixer: `Validate` reports valid, so the unit operation is valid
in the words of the specification. -/
theorem Validate_valid_iff_witness :
    (Sample.mixer.Validate (some none) (some false)).isValid = some true ∧
    Validate.Spec Sample.mixer.portCollection.items ∧
    (Sample.mixer.Validate (some none) (some false)).self.nCompounds = 2 :=
  ⟨by decide!, (Validate_valid_iff Sample.mixer none false).1.1 (by decide!),
    (Validate_valid_iff Sample.mixer none false).2 (by decide!)
      (Sample.feed1 (some Sample.feedA)) Sample.feedA [some "Water", some "Ethanol"]
      rfl rfl rfl⟩

/-- C6, on the sample mixer: feeds of 3 mol/s at fractions (1/3, 2/3) and of 1 mol/s at
fractions (1, 0) give the composition (1/2, 1/2) on both products. -/
theorem Calculate_composition_witness :
    ∃ r, Sample.mixer.Calculate = some r ∧ r.hr = HRESULT.NOERROR ∧
      Calculate.Spec.totalFlow (Sample.feed1 (some Sample.feedA))
        (Sample.feed2 (some Sample.feedB)) ≠ Dbl.fin 0 ∧
      (List.range 2).map (Calculate.Spec.composition (Sample.feed1 (some Sample.feedA))
        (Sample.feed2 (some Sample.feedB))) = [Dbl.fin (1 / 2), Dbl.fin (1 / 2)] ∧
      ∃ flow1 flow2 temperature pressure,
        Request.writes r.requests =
          (if (Sample.product1 (some Sample.product)).IsConnected then
            [Request.SetFromFlowTPX 2
              ((List.range Sample.mixer.nCompounds).map
                (Calculate.Spec.composition (Sample.feed1 (some Sample.feedA))
                  (Sample.feed2 (some Sample.feedB))))
              flow1 temperature pressure]
          else []) ++
          (if (Sample.product2 (some Sample.product)).IsConnected then
            [Request.SetFromFlowTPX 3
              ((List.range Sample.mixer.nCompounds).map
                (Calculate.Spec.composition (Sample.feed1 (some Sample.feedA))
                  (Sample.feed2 (some Sample.feedB))))
              flow2 temperature pressure]
          else []) :=
  Exists.elim mixer_Calculate (fun r h =>
    ⟨r, h.1, h.2, by decide!, by decide!,
      (Calculate_composition Sample.mixer _ _ _ _ [] _ _ [] mixer_items mixer_parameters r
        h.1 h.2 (by decide!)).2⟩)

/-- C8 (as amended), on the sample mixer: a total flow of 4 mol/s and a split factor of
1/4 give `4 * (1/4)` on Product 1 and `4 * (1 - 1/4)` on Product 2. -/
theorem Calculate_split_witness :
    ∃ r, Sample.mixer.Calculate = some r ∧ r.hr = HRESULT.NOERROR ∧
      (∃ composition temperature pressure, Request.writes r.requests =
        [Request.SetFromFlowTPX 2 composition (Dbl.fin 4 * Dbl.fin (1 / 4)) temperature pressure,
          Request.SetFromFlowTPX 3 composition (Dbl.fin 4 * (Dbl.fin 1 - Dbl.fin (1 / 4)))
            temperature pressure]) :=
  Exists.elim mixer_Calculate (fun r h =>
    ⟨r, h.1, h.2,
      mixer_totalFlow ▸ (Calculate_split Sample.mixer _ _ _ _ [] _ _ [] mixer_items
        mixer_parameters r h.1 h.2).1 rfl rfl⟩)

/-- On the sample mixer the flash is requested on the duplicate of a feed at the
composition (1/2, 1/2), the pressure 100 and the molar enthalpy
(3*1000 + 1*2000 + 500) / 4 = 1375. -/
theorem Calculate_flash_witness :
    (List.range 2).map (Calculate.Spec.composition (Sample.feed1 (some Sample.feedA))
        (Sample.feed2 (some Sample.feedB))) = [Dbl.fin (1 / 2), Dbl.fin (1 / 2)] ∧
    Calculate.selectedPressure (Sample.feed1 (some Sample.feedA))
      (Sample.feed2 (some Sample.feedB)) = Dbl.fin 100 ∧
    Calculate.Spec.molarEnthalpy (Sample.feed1 (some Sample.feedA))
      (Sample.feed2 (some Sample.feedB)) (Dbl.fin 500) = Dbl.fin 1375 ∧
    ∃ l1 i r rest, Sample.mixer.Calculate = some r ∧
      r.requests = l1 ++
        Request.GetTemperatureFromPHFlash i
          ((List.range 2).map (Calculate.Spec.composition (Sample.feed1 (some Sample.feedA))
            (Sample.feed2 (some Sample.feedB))))
          (Calculate.selectedPressure (Sample.feed1 (some Sample.feedA))
            (Sample.feed2 (some Sample.feedB)))
          (Calculate.Spec.molarEnthalpy (Sample.feed1 (some Sample.feedA))
            (Sample.feed2 (some Sample.feedB)) (Dbl.fin 500)) :: rest :=
  ⟨by decide!, by decide!, by decide!,
    Exists.elim mixer_feedLoop (fun l1 h1 => Exists.elim h1 (fun t ht =>
      match Calculate_flash Sample.mixer _ _ _ _ [] _ _ [] mixer_items mixer_parameters rfl
        l1 t ht (by decide!) with
      | ⟨i, _, _, r, rest, _, _, hr, hreq, _⟩ => ⟨l1, i, r, rest, hr, hreq⟩))⟩

theorem idle_items (h : Dbl) : (Sample.idle h).portCollection.items =
    [Sample.feed1 (some Sample.feedIdle), Sample.feed2 (some Sample.feedIdle),
      Sample.product1 (some Sample.product), Sample.product2 (some Sample.product)] := rfl

theorem idle_parameters (h : Dbl) : (Sample.idle h).parameterCollection.items =
    [Sample.splitFactor (Dbl.fin (1 / 4)), Sample.heatInput h] := rfl

/-- Every request succeeds on the sample materials. -/
theorem idle_host :
    (∀ m ∈ Calculate.connectedFeeds (Sample.feed1 (some Sample.feedIdle))
        (Sample.feed2 (some Sample.feedIdle)),
      (∃ v, m.GetOverallProperty "temperature" none = Except.ok v ∧ v.length = 1) ∧
      (∃ x, m.GetOverallProperty "fraction" (some "mole") = Except.ok x ∧ x.length = 2)) ∧
    (∀ m ∈ Calculate.materialOf (Sample.product1 (some Sample.product)) ++
        Calculate.materialOf (Sample.product2 (some Sample.product)),
      ∀ c f T P, m.SetFromFlowTPX c f T P = Except.ok ()) := by
  constructor
  · intro m hm
    have hm2 : m = Sample.feedIdle := by
      simp only [Calculate.connectedFeeds, Calculate.materialOf, Sample.feed1, Sample.feed2,
        Sample.port, CMaterialPort.IsConnected, CMaterialPort.GetMaterial,
        CMaterialPort.CreateMaterialPort, Option.isSome_some, Bool.or_true, if_true,
        Option.toList_some, List.singleton_append, List.mem_cons, List.mem_singleton,
        or_self, List.not_mem_nil, or_false] at hm
      exact hm
    subst hm2
    exact ⟨⟨_, rfl, rfl⟩, ⟨_, rfl, rfl⟩⟩
  · intro m hm
    have hm2 : m = Sample.product := by
      simp only [Calculate.materialOf, Sample.product1, Sample.product2,
        Sample.port, CMaterialPort.IsConnected, CMaterialPort.GetMaterial,
        CMaterialPort.CreateMaterialPort, Option.isSome_some, Bool.or_true, if_true,
        Option.toList_some, List.singleton_append, List.mem_cons, List.mem_singleton,
        or_self, List.not_mem_nil, or_false] at hm
      exact hm
    subst hm2
    intro c f T P
    rfl

/-- On the idle sample unit (two connected feeds at 350 K and fractions
(1/2, 1/2), both without flow): with a heat input of 500 `Calculate` fails with the
message of the zero-flow test; with a heat input of zero it succeeds and sets on both
products a flow of zero, the temperature 350 and the composition (1/2, 1/2). -/
theorem Calculate_zero_flow_witness :
    (∃ r, (Sample.idle (Dbl.fin 500)).Calculate = some r ∧
      r.hr = HRESULT.ECapeUnknownHR ∧
      r.self.errDesc =
        "Total flow is zero. Cannot satisfy energy balance with non-zero heat input") ∧
    Calculate.Spec.meanTemperature (Sample.feed1 (some Sample.feedIdle))
      (Sample.feed2 (some Sample.feedIdle)) = Dbl.fin 350 ∧
    (List.range 2).map (Calculate.Spec.meanComposition (Sample.feed1 (some Sample.feedIdle))
      (Sample.feed2 (some Sample.feedIdle))) = [Dbl.fin (1 / 2), Dbl.fin (1 / 2)] ∧
    (∃ r, (Sample.idle (Dbl.fin 0)).Calculate = some r ∧ r.hr = HRESULT.NOERROR ∧
      Request.writes r.requests =
        [Request.SetFromFlowTPX 2
          ((List.range 2).map (Calculate.Spec.meanComposition
            (Sample.feed1 (some Sample.feedIdle)) (Sample.feed2 (some Sample.feedIdle))))
          (Dbl.fin 0)
          (Calculate.Spec.meanTemperature (Sample.feed1 (some Sample.feedIdle))
            (Sample.feed2 (some Sample.feedIdle)))
          (Calculate.selectedPressure (Sample.feed1 (some Sample.feedIdle))
            (Sample.feed2 (some Sample.feedIdle))),
        Request.SetFromFlowTPX 3
          ((List.range 2).map (Calculate.Spec.meanComposition
            (Sample.feed1 (some Sample.feedIdle)) (Sample.feed2 (some Sample.feedIdle))))
          (Dbl.fin 0)
          (Calculate.Spec.meanTemperature (Sample.feed1 (some Sample.feedIdle))
            (Sample.feed2 (some Sample.feedIdle)))
          (Calculate.selectedPressure (Sample.feed1 (some Sample.feedIdle))
            (Sample.feed2 (some Sample.feedIdle)))]) := by
  obtain ⟨l1, t, hfeed⟩ := idle_feedLoop
  refine ⟨?_, by decide!, by decide!, ?_⟩
  · obtain ⟨r, hr, hhr, hdesc, _⟩ :=
      (Calculate_zero_flow (Sample.idle (Dbl.fin 500)) _ _ _ _ [] _ _ []
        (idle_items _) (idle_parameters _) rfl l1 t hfeed idle_totalFlow).1 (by decide)
    exact ⟨r, hr, hhr, hdesc⟩
  · obtain ⟨r, hr, _, hsucc, hwrites⟩ :=
      (Calculate_zero_flow (Sample.idle (Dbl.fin 0)) _ _ _ _ [] _ _ []
        (idle_items _) (idle_parameters _) rfl l1 t hfeed idle_totalFlow).2 (by decide)
    have hok := hsucc idle_host.1 idle_host.2
    exact ⟨r, hr, hok, hwrites hok rfl⟩

/-! ## Pressure selection -/

/-- The pressure `Calculate` selects is the minimum of the pressures of the connected
feeds when every connected feed reports a pressure that is a number other than zero:
it is the pressure of a connected feed, and no connected feed has a lower one. -/
theorem selectedPressure_min (feed1 feed2 : CMaterialPort)
    (hne : Calculate.connectedFeeds feed1 feed2 ≠ [])
    (hp : ∀ m ∈ Calculate.connectedFeeds feed1 feed2, ∃ q, m.pressure = Dbl.fin q ∧ q ≠ 0) :
    (∃ m ∈ Calculate.connectedFeeds feed1 feed2,
      m.pressure = Calculate.selectedPressure feed1 feed2) ∧
    ∀ m ∈ Calculate.connectedFeeds feed1 feed2,
      Dbl.lt m.pressure (Calculate.selectedPressure feed1 feed2) = false := by
  unfold Calculate.selectedPressure
  have hlen : (Calculate.connectedFeeds feed1 feed2).length ≤ 2 := by
    unfold Calculate.connectedFeeds Calculate.materialOf
    rw [List.length_append]
    split_ifs <;> cases feed1.GetMaterial <;> cases feed2.GetMaterial <;> simp
  generalize Calculate.connectedFeeds feed1 feed2 = l at hne hp hlen
  match l, hne, hp, hlen with
  | [m], _, hp, _ =>
    obtain ⟨q, hq, _⟩ := hp m (by simp)
    simp [Calculate.selectPressure, Dbl.eq, Dbl.lt, hq]
  | [m1, m2], _, hp, _ =>
    obtain ⟨q1, hq1, hq1ne⟩ := hp m1 (by simp)
    obtain ⟨q2, hq2, _⟩ := hp m2 (by simp)
    by_cases hlt : q2 < q1
    · simp [Calculate.selectPressure, Dbl.eq, Dbl.lt, hq1, hq2, hq1ne, hlt, le_of_lt hlt]
    · simp [Calculate.selectPressure, Dbl.eq, Dbl.lt, hq1, hq2, hq1ne, hlt, not_lt.1 hlt]
  | _ :: _ :: _ :: _, _, _, hlen => simp at hlen

/-- The pressure the feed loop ends with is the minimum of the pressures of the
connected feeds when every connected feed reports a pressure that is a number other
than zero. -/
theorem selectedPressure_eq_min (feed1 feed2 : CMaterialPort)
    (hp : ∀ m ∈ Calculate.connectedFeeds feed1 feed2, ∃ q, m.pressure = Dbl.fin q ∧ q ≠ 0)
    (hne : Calculate.connectedFeeds feed1 feed2 ≠ []) :
    Calculate.Spec.minPressure feed1 feed2 = some (Calculate.selectedPressure feed1 feed2) := by
  unfold Calculate.selectedPressure Calculate.Spec.minPressure
  have hlen := connectedFeeds_length feed1 feed2
  generalize Calculate.connectedFeeds feed1 feed2 = l at hne hp hlen
  match l, hne, hp, hlen with
  | [m], _, hp, _ =>
    obtain ⟨q, hq, _⟩ := hp m (by simp)
    simp [Calculate.selectPressure, Dbl.eq, Dbl.lt, hq]
  | [m1, m2], _, hp, _ =>
    obtain ⟨q1, hq1, hq1ne⟩ := hp m1 (by simp)
    obtain ⟨q2, hq2, _⟩ := hp m2 (by simp)
    by_cases hlt : q2 < q1
    · simp [Calculate.selectPressure, Calculate.Spec.min, Dbl.eq, Dbl.lt, hq1, hq2, hq1ne, hlt]
    · simp [Calculate.selectPressure, Calculate.Spec.min, Dbl.eq, Dbl.lt, hq1, hq2, hq1ne, hlt]
  | _ :: _ :: _ :: _, _, _, hlen => simp at hlen

/-- C7, at its failing input.  On the sample unit whose Feed 1 reports a pressure of
0 Pa and whose Feed 2 is at 100 Pa (1 mol/s each, molar enthalpies 1000 and 2000, no
heat input), `Calculate` succeeds and requests one pressure-enthalpy flash, at the
mixed composition (1, 0) and the molar enthalpy 1500 but at the pressure 100: the
flash is not requested at the selected feed pressure of the specification, the
minimum of the pressures of the connected feeds, which is 0. -/
theorem Calculate_flash_pressure_zero_feed :
    (Calculate.connectedFeeds (Sample.feed1 (some Sample.feedVacuum))
      (Sample.feed2 (some Sample.feedB))).map Material.pressure =
      [Dbl.fin 0, Dbl.fin 100] ∧
    Calculate.Spec.minPressure (Sample.feed1 (some Sample.feedVacuum))
      (Sample.feed2 (some Sample.feedB)) = some (Dbl.fin 0) ∧
    Sample.vacuum.Calculate.map
      (fun r => (r.hr, r.requests.filter Request.isFlash)) =
      some (HRESULT.NOERROR,
        [Request.GetTemperatureFromPHFlash 1 [Dbl.fin 1, Dbl.fin 0] (Dbl.fin 100)
          (Dbl.fin 1500)]) := by
  decide!

/-- C5, at its failing input.  On the sample unit whose Feed 1 reports a pressure of
0 Pa and whose Feed 2 is at 100 Pa, `Calculate` succeeds and sets Product 1 to the
pressure 100: the pressure written is not the minimum of the pressures of the
connected feeds, which is 0. -/
theorem Calculate_pressure_zero_feed :
    (Calculate.connectedFeeds (Sample.feed1 (some Sample.feedVacuum))
      (Sample.feed2 (some Sample.feedB))).map Material.pressure =
      [Dbl.fin 0, Dbl.fin 100] ∧
    Sample.vacuum.Calculate.map (fun r => (r.hr, Request.writes r.requests)) =
      some (HRESULT.NOERROR,
        [Request.SetFromFlowTPX 2 [Dbl.fin 1, Dbl.fin 0] (Dbl.fin 2) (Dbl.fin 15)
          (Dbl.fin 100)]) := by
  decide!

/-! ## Validity of the value of a parameter -/

/-- The parameters of a newly constructed unit operation hold valid values. -/
theorem ctor_valid : ctor.parameterCollection.items.map CRealParameter.valid = [true, true] := by
  decide!

/-- `put_value` keeps the value valid: it checks the new value before storing it. -/
theorem put_value_valid (p : CRealParameter) (valStatus : CapeValidationStatus)
    (value : VARIANT) (h : p.valid = true) : (p.put_value valStatus value).self.valid = true := by
  unfold CRealParameter.put_value
  cases value.changeTypeR8 with
  | none => simpa [CRealParameter.SetError, CRealParameter.valid] using h
  | some dblVal =>
    simp only
    split_ifs with h1 h2 h3
    · simpa [CRealParameter.SetError, CRealParameter.valid] using h
    · simpa [CRealParameter.SetError, CRealParameter.valid] using h
    · simpa [CRealParameter.SetError, CRealParameter.valid] using h
    · simp only [CRealParameter.valid, Bool.and_eq_true, Bool.not_eq_true'] at h ⊢
      simp only [Bool.not_eq_true] at h1
      simp only [Bool.and_eq_true, Bool.not_eq_true', not_and, Bool.not_eq_true] at h2 h3
      refine ⟨⟨h1, ?_⟩, ?_⟩
      · cases hmin : p.minVal.isnan
        · simpa using h2 hmin
        · simp
      · cases hmax : p.maxVal.isnan
        · simpa using h3 hmax
        · simp

/-- The split factor the dialog stores is a number between 0 and 1 when the text does
not scan as not-a-number. -/
theorem UpdateSplitFactor_valid (scanned : Option Dbl) (h : scanned ≠ some Dbl.nan) :
    ∃ q, CEditDialog.UpdateSplitFactor scanned = Dbl.fin q ∧ 0 ≤ q ∧ q ≤ 1 := by
  unfold CEditDialog.UpdateSplitFactor
  cases scanned with
  | none => exact ⟨1 / 2, by simp [Dbl.lt, Dbl.gt]; norm_num, by norm_num, by norm_num⟩
  | some v =>
    cases v with
    | nan => exact absurd rfl h
    | fin q =>
      simp only [Option.getD_some, Dbl.lt, Dbl.gt, decide_eq_true_eq]
      split_ifs with h1 h2
      · exact ⟨0, rfl, le_refl _, by norm_num⟩
      · exact ⟨1, rfl, by norm_num, le_refl _⟩
      · exact ⟨q, rfl, not_lt.1 h1, not_lt.1 h2⟩

/-- C10, at its failing input.  The newly constructed unit operation holds valid
parameter values; `Load` on a well-formed stream that carries the split factor 2.0
succeeds and stores 2.0 as the value of the split factor, above its upper bound 1:
the value is no longer valid. -/
theorem Load_value_above_bound :
    ctor.parameterCollection.items.map CRealParameter.valid = [true, true] ∧
    (Load binary64.layout ctor (some Sample.stream)).map
      (fun r => (r.hr, r.self.parameterCollection.items.map
        (fun par => (par.name, par.value, par.maxVal, par.valid)))) =
    some (HRESULT.S_OK,
      [("Split factor", Dbl.fin 2, Dbl.fin 1, false),
        ("Heat input", Dbl.fin 0, Dbl.nan, true)]) := by
  decide!


/-! ## Setting the value of a parameter -/

/-- C11. `put_value` with a real number `v` succeeds exactly when `v` is not
not-a-number, is not below the lower bound when the lower bound is defined, and is
not above the upper bound when the upper bound is defined.  On success the value is
`v`.  On failure the CAPE-OPEN error code is returned and the value, the dirty flag
and the validation status of the unit operation are as before. -/
theorem put_value_succeeds_iff (p : CRealParameter) (valStatus : CapeValidationStatus)
    (value : VARIANT) (v : Dbl) (hv : value.changeTypeR8 = some v) :
    ((p.put_value valStatus value).hr = HRESULT.NOERROR ↔
      (v.isnan = false ∧ (p.minVal.isnan = false → Dbl.le p.minVal v = true) ∧
        (p.maxVal.isnan = false → Dbl.le v p.maxVal = true))) ∧
    ((p.put_value valStatus value).hr = HRESULT.NOERROR →
      (p.put_value valStatus value).self.value = v) ∧
    ((p.put_value valStatus value).hr ≠ HRESULT.NOERROR →
      (p.put_value valStatus value).hr = HRESULT.ECapeUnknownHR ∧
      (p.put_value valStatus value).self.value = p.value ∧
      (p.put_value valStatus value).self.dirty = p.dirty ∧
      (p.put_value valStatus value).valStatus = valStatus) := by
  unfold CRealParameter.put_value
  rw [hv]
  cases v with
  | nan => simp [Dbl.isnan, CRealParameter.SetError, CAPEOPENBaseObject.SetError]
  | fin q =>
    cases hmin : p.minVal with
    | nan =>
      cases hmax : p.maxVal with
      | nan => simp [Dbl.isnan]
      | fin b =>
        by_cases hb : b < q
        · simp [Dbl.isnan, Dbl.gt, Dbl.lt, Dbl.le, hb, CRealParameter.SetError,
            CAPEOPENBaseObject.SetError]
        · simp [Dbl.isnan, Dbl.gt, Dbl.lt, Dbl.le, hb, not_lt.1 hb]
    | fin a =>
      by_cases ha : q < a
      · simp [Dbl.isnan, Dbl.gt, Dbl.lt, Dbl.le, ha, CRealParameter.SetError,
          CAPEOPENBaseObject.SetError]
      · cases hmax : p.maxVal with
        | nan => simp [Dbl.isnan, Dbl.gt, Dbl.lt, Dbl.le, ha, not_lt.1 ha]
        | fin b =>
          by_cases hb : b < q
          · simp [Dbl.isnan, Dbl.gt, Dbl.lt, Dbl.le, ha, hb, CRealParameter.SetError,
              CAPEOPENBaseObject.SetError]
          · simp [Dbl.isnan, Dbl.gt, Dbl.lt, Dbl.le, ha, hb, not_lt.1 ha, not_lt.1 hb]

/-- C11, for the split factor of the newly constructed unit operation and the
value 3/4. -/
theorem put_value_succeeds_iff_witness :
    (({ vt := VARTYPE.VT_R8, bstrVal := none, changeTypeR8 := some (Dbl.fin (3 / 4)),
        changeTypeI4 := some 1 } : VARIANT).changeTypeR8 = some (Dbl.fin (3 / 4))) ∧
    (((Sample.splitFactor (Dbl.fin (1 / 2))).put_value CapeValidationStatus.CAPE_VALID
        { vt := VARTYPE.VT_R8, bstrVal := none, changeTypeR8 := some (Dbl.fin (3 / 4)),
          changeTypeI4 := some 1 }).hr = HRESULT.NOERROR ↔
      ((Dbl.fin (3 / 4)).isnan = false ∧
        ((Sample.splitFactor (Dbl.fin (1 / 2))).minVal.isnan = false →
          Dbl.le (Sample.splitFactor (Dbl.fin (1 / 2))).minVal (Dbl.fin (3 / 4)) = true) ∧
        ((Sample.splitFactor (Dbl.fin (1 / 2))).maxVal.isnan = false →
          Dbl.le (Dbl.fin (3 / 4)) (Sample.splitFactor (Dbl.fin (1 / 2))).maxVal = true))) :=
  ⟨rfl, (put_value_succeeds_iff (Sample.splitFactor (Dbl.fin (1 / 2)))
    CapeValidationStatus.CAPE_VALID _ (Dbl.fin (3 / 4)) rfl).1⟩

/-! ## Connection of a port -/

/-- One call of a method of a port leaves at most one of the two references set. -/
theorem CMaterialPort.step_exclusive (p : CMaterialPort) (op : CMaterialPort.Operation)
    (h : ¬(p.mat10.isSome = true ∧ p.mat11.isSome = true)) :
    ¬((p.step op).self.mat10.isSome = true ∧ (p.step op).self.mat11.isSome = true) := by
  cases op with
  | Connect objectToConnect =>
    cases objectToConnect with
    | none => simpa [CMaterialPort.step, CMaterialPort.Connect] using h
    | some object =>
      simp only [CMaterialPort.step, CMaterialPort.Connect, CMaterialPort.Disconnect]
      cases object.ICapeThermoMaterial with
      | some m => simp
      | none =>
        cases object.ICapeThermoMaterialObject with
        | some m => simp
        | none => simp [CMaterialPort.SetError]
  | Disconnect => simp [CMaterialPort.step, CMaterialPort.Disconnect]
  | put_ComponentName name => simpa [CMaterialPort.step] using h
  | put_ComponentDescription desc => simpa [CMaterialPort.step] using h

/-- A sequence of calls of methods of a port leaves at most one of the two references
set. -/
theorem CMaterialPort.run_exclusive (ops : List CMaterialPort.Operation) :
    ∀ p : CMaterialPort, ¬(p.mat10.isSome = true ∧ p.mat11.isSome = true) →
      ¬((p.run ops).mat10.isSome = true ∧ (p.run ops).mat11.isSome = true) := by
  induction ops with
  | nil => intro p h; simpa [CMaterialPort.run] using h
  | cons op rest ih =>
    intro p h
    have := ih (p.step op).self (CMaterialPort.step_exclusive p op h)
    simpa [CMaterialPort.run] using this

/-- C13. In every state reached from a new port by a sequence of calls of `Connect`
and `Disconnect` (and of the renaming methods), whatever the objects passed and
whether the calls succeed, the version 1.0 reference and the version 1.1 reference
are not both set, and `IsConnected` is true exactly when one of them is set. -/
theorem port_connected_to_at_most_one (name description : String)
    (direction : CapePortDirection) (ops : List CMaterialPort.Operation) :
    ¬(((CMaterialPort.CreateMaterialPort name description direction).run ops).mat10.isSome
        = true ∧
      ((CMaterialPort.CreateMaterialPort name description direction).run ops).mat11.isSome
        = true) ∧
    (((CMaterialPort.CreateMaterialPort name description direction).run ops).IsConnected
        = true ↔
      (((CMaterialPort.CreateMaterialPort name description direction).run ops).mat10.isSome
          = true ∨
        ((CMaterialPort.CreateMaterialPort name description direction).run ops).mat11.isSome
          = true)) := by
  refine ⟨CMaterialPort.run_exclusive ops _ ?_, ?_⟩
  · simp [CMaterialPort.CreateMaterialPort]
  · simp [CMaterialPort.IsConnected]

/-- C14. For a non-null object, `Connect` succeeds exactly when the object exposes the
version 1.1 or the version 1.0 material interface.  When it exposes version 1.1, the
port ends connected through version 1.1 only, and `GetMaterial` gives that material;
when it exposes version 1.0 and not version 1.1, the port ends connected through
version 1.0 only; when it exposes neither, `Connect` returns the CAPE-OPEN error code
and the port ends not connected.  All this holds whatever was connected before. -/
theorem Connect_accepts (p : CMaterialPort) (object : IDispatch) :
    ((p.Connect (some object)).hr = HRESULT.NOERROR ↔
      (object.ICapeThermoMaterial.isSome = true ∨
        object.ICapeThermoMaterialObject.isSome = true)) ∧
    (∀ m, object.ICapeThermoMaterial = some m →
      (p.Connect (some object)).self.mat11 = some m ∧
      (p.Connect (some object)).self.mat10 = none ∧
      (p.Connect (some object)).self.IsConnected = true ∧
      (p.Connect (some object)).self.GetMaterial = some m) ∧
    (∀ m, object.ICapeThermoMaterial = none → object.ICapeThermoMaterialObject = some m →
      (p.Connect (some object)).self.mat10 = some m ∧
      (p.Connect (some object)).self.mat11 = none ∧
      (p.Connect (some object)).self.IsConnected = true ∧
      (p.Connect (some object)).self.GetMaterial = some m) ∧
    (object.ICapeThermoMaterial = none → object.ICapeThermoMaterialObject = none →
      (p.Connect (some object)).hr = HRESULT.ECapeUnknownHR ∧
      (p.Connect (some object)).self.mat10 = none ∧
      (p.Connect (some object)).self.mat11 = none ∧
      (p.Connect (some object)).self.IsConnected = false) := by
  unfold CMaterialPort.Connect
  cases h11 : object.ICapeThermoMaterial with
  | some m =>
    simp [h11, CMaterialPort.Disconnect, CMaterialPort.IsConnected, CMaterialPort.GetMaterial]
  | none =>
    cases h10 : object.ICapeThermoMaterialObject with
    | some m =>
      simp [h11, h10, CMaterialPort.Disconnect, CMaterialPort.IsConnected,
        CMaterialPort.GetMaterial]
    | none =>
      simp [h11, h10, CMaterialPort.Disconnect, CMaterialPort.IsConnected,
        CMaterialPort.SetError]

/-- C14, for a port connected through version 1.0 before the call and an object that
exposes both interfaces: the port ends connected through version 1.1. -/
theorem Connect_accepts_witness :
    (({ Sample.feed1 none with mat10 := some Sample.feedB } : CMaterialPort).Connect
        (some { ICapeThermoMaterial := some Sample.feedA
                ICapeThermoMaterialObject := some Sample.feedB })).hr = HRESULT.NOERROR ∧
    (({ Sample.feed1 none with mat10 := some Sample.feedB } : CMaterialPort).Connect
        (some { ICapeThermoMaterial := some Sample.feedA
                ICapeThermoMaterialObject := some Sample.feedB })).self.mat10 = none ∧
    (({ Sample.feed1 none with mat10 := some Sample.feedB } : CMaterialPort).Connect
        (some { ICapeThermoMaterial := some Sample.feedA
                ICapeThermoMaterialObject := some Sample.feedB })).self.GetMaterial =
      some Sample.feedA :=
  ⟨(Connect_accepts _ _).1.2 (Or.inl rfl), ((Connect_accepts _ _).2.1 _ rfl).2.1,
    ((Connect_accepts _ _).2.1 _ rfl).2.2.2⟩

/-! ## Lookup in a collection -/

/-- `Item` with an identifier that is not a string and converts to the integer `i`,
other than the least `int`: the index is `i - 1`. -/
theorem CCollection.Item_integer {α : Type} (toBase : α → CAPEOPENBaseObject)
    (c : CCollection α) (id : VARIANT) (pointee : Option α) (i : Int)
    (hvt : id.vt ≠ VARTYPE.VT_BSTR) (hi : id.changeTypeI4 = some i) (hmin : -(2 ^ 31) < i) :
    c.Item toBase id (some pointee) =
      some (if i - 1 < 0 then
          { hr := HRESULT.ECapeUnknownHR
            Item := some pointee
            self := c.SetError "Requested item not found" "ICapeCollection" "Item" }
        else if i - 1 ≥ Int.ofNat c.items.length then
          { hr := HRESULT.ECapeUnknownHR
            Item := some pointee
            self := c.SetError "Index out of range" "ICapeCollection" "Item" }
        else { hr := HRESULT.NOERROR, Item := some c.items[(i - 1).toNat]?, self := c }) := by
  have h : ¬(i - 1 < -(2 ^ 31)) := by omega
  simp only [CCollection.Item, hvt, hi, if_false, h]
  split_ifs <;> rfl

/-- `Item` with a string identifier: the index is that of the first item whose name
passes `CBSTR::Same`. -/
theorem CCollection.Item_string {α : Type} (toBase : α → CAPEOPENBaseObject)
    (c : CCollection α) (id : VARIANT) (pointee : Option α)
    (hvt : id.vt = VARTYPE.VT_BSTR) :
    c.Item toBase id (some pointee) =
      some (if c.items.findIdx (fun item => CBSTR.Same id.bstrVal (some (toBase item).name))
            = c.items.length then
          { hr := HRESULT.ECapeUnknownHR
            Item := some pointee
            self := c.SetError "Requested item not found" "ICapeCollection" "Item" }
        else
          { hr := HRESULT.NOERROR
            Item := some c.items[c.items.findIdx
              (fun item => CBSTR.Same id.bstrVal (some (toBase item).name))]?
            self := c }) := by
  have hle : c.items.findIdx (fun item => CBSTR.Same id.bstrVal (some (toBase item).name))
      ≤ c.items.length := List.findIdx_le_length _
  simp only [CCollection.Item, hvt, if_true]
  by_cases h : c.items.findIdx (fun item => CBSTR.Same id.bstrVal (some (toBase item).name))
      = c.items.length
  · simp [h]
  · have hlt : c.items.findIdx (fun item => CBSTR.Same id.bstrVal (some (toBase item).name))
        < c.items.length := lt_of_le_of_ne hle h
    have h0 : ¬((c.items.findIdx
        (fun item => CBSTR.Same id.bstrVal (some (toBase item).name)) : Int) < 0) := by omega
    have hn : ¬(c.items.length ≤ c.items.findIdx
        (fun item => CBSTR.Same id.bstrVal (some (toBase item).name))) := by omega
    simp [h, hlt, h0, hn]

/-- Lookup in a collection.  For a collection of `n` items and a non-null `Item`
pointer: `Item` with an integer identifier `i` gives the item at 0-based position `i - 1` when
`1 <= i <= n`, fails with "Requested item not found" when `i <= 0`, and fails with
"Index out of range" when `i > n`; `Item` with a string identifier gives the first
item whose name equals the identifier without regard to case, and fails with
"Requested item not found" when no item has that name; `Count` gives `n`.  The
integer is an `int` other than the least one, for which the conversion to the 0-based
index overflows. -/
theorem Item_lookup {α : Type} (toBase : α → CAPEOPENBaseObject) (c : CCollection α)
    (id : VARIANT) (pointee : Option α) :
    (∀ i : Int, id.vt ≠ VARTYPE.VT_BSTR → id.changeTypeI4 = some i → -(2 ^ 31) < i →
      ∃ r, c.Item toBase id (some pointee) = some r ∧
        (1 ≤ i → i ≤ Int.ofNat c.items.length →
          r.hr = HRESULT.NOERROR ∧ r.self = c ∧
          ∃ item, c.items[(i - 1).toNat]? = some item ∧ r.Item = some (some item)) ∧
        (i ≤ 0 →
          r.hr = HRESULT.ECapeUnknownHR ∧ r.self.errDesc = "Requested item not found") ∧
        (i > Int.ofNat c.items.length →
          r.hr = HRESULT.ECapeUnknownHR ∧ r.self.errDesc = "Index out of range")) ∧
    (id.vt = VARTYPE.VT_BSTR →
      ∃ r, c.Item toBase id (some pointee) = some r ∧
        (∀ (k : Nat) (item : α), c.items[k]? = some item →
          sameText id.bstrVal (some (toBase item).name) →
          (∀ (j : Nat) (other : α), j < k → c.items[j]? = some other →
            ¬sameText id.bstrVal (some (toBase other).name)) →
          r.hr = HRESULT.NOERROR ∧ r.self = c ∧ r.Item = some (some item)) ∧
        ((∀ item ∈ c.items, ¬sameText id.bstrVal (some (toBase item).name)) →
          r.hr = HRESULT.ECapeUnknownHR ∧ r.self.errDesc = "Requested item not found")) ∧
    (∀ itemsCount : Int,
      c.Count (some itemsCount) = (HRESULT.NOERROR, some (Int.ofNat c.items.length))) := by
  refine ⟨?_, ?_, ?_⟩
  · intro i hvt hi hmin
    refine ⟨_, CCollection.Item_integer toBase c id pointee i hvt hi hmin, ?_, ?_, ?_⟩
    · intro h1 hn
      have h0 : ¬(i - 1 < 0) := by omega
      have hlt : ¬(i - 1 ≥ Int.ofNat c.items.length) := by omega
      have hk : (i - 1).toNat < c.items.length := by
        have : Int.ofNat c.items.length = (c.items.length : Int) := rfl
        omega
      simp only [h0, hlt, if_false]
      exact ⟨trivial, trivial, c.items[(i - 1).toNat], List.getElem?_eq_getElem hk,
        by rw [List.getElem?_eq_getElem hk]⟩
    · intro h0
      have h : i - 1 < 0 := by omega
      simp [h, CCollection.SetError, CAPEOPENBaseObject.SetError]
    · intro hn
      have h0 : ¬(i - 1 < 0) := by
        have : (0 : Int) ≤ Int.ofNat c.items.length := Int.ofNat_nonneg _
        omega
      have hge : i - 1 ≥ Int.ofNat c.items.length := by omega
      simp only [h0, hge, if_true, if_false]
      exact ⟨trivial, rfl⟩
  · intro hvt
    refine ⟨_, CCollection.Item_string toBase c id pointee hvt, ?_, ?_⟩
    · intro k item hk hsame hfirst
      obtain ⟨hlt, hget⟩ := List.getElem?_eq_some_iff.1 hk
      have hidx : c.items.findIdx
          (fun item => CBSTR.Same id.bstrVal (some (toBase item).name)) = k := by
        rw [List.findIdx_eq hlt]
        refine ⟨?_, ?_⟩
        · rw [hget]; exact (Same_iff _ _).2 hsame
        · intro j hj
          have hjl : j < c.items.length := lt_trans hj hlt
          have := hfirst j c.items[j] hj (List.getElem?_eq_getElem hjl)
          cases hs : CBSTR.Same id.bstrVal (some (toBase c.items[j]).name) with
          | false => rfl
          | true => exact absurd ((Same_iff _ _).1 hs) this
      have hne : k ≠ c.items.length := Nat.ne_of_lt hlt
      simp [hidx, hne, hk]
    · intro hnone
      have hidx : c.items.findIdx
          (fun item => CBSTR.Same id.bstrVal (some (toBase item).name)) = c.items.length := by
        apply List.findIdx_eq_length_of_false
        intro x hx
        cases hs : CBSTR.Same id.bstrVal (some (toBase x).name) with
        | false => rfl
        | true => exact absurd ((Same_iff _ _).1 hs) (hnone x hx)
      simp [hidx, CCollection.SetError, CAPEOPENBaseObject.SetError]
  · intro itemsCount
    rfl

/-! ## Persistence -/

/-- A complete `Write` appends the bytes asked for. -/
theorem IStream.Write_complete (pstm : IStream) (pv : List Nat) (cb : Nat)
    (h : (IStream.Write pstm pv cb).2 = cb) :
    (IStream.Write pstm pv cb).1.written = pstm.written ++ pv.take cb := by
  unfold IStream.Write at h ⊢
  cases hr : pstm.room with
  | none => simp
  | some room =>
    simp only [hr] at h
    simp only [h]

/-- Four bytes hold a `UINT`. -/
theorem UINT.toBytes_length (n : Nat) : (UINT.toBytes n).length = 4 := by
  simp [UINT.toBytes, binary64.bytesOf]

/-- The four bytes of a `UINT` give it back. -/
theorem UINT.ofBytes_toBytes (n : Nat) (h : n < 2 ^ 32) : UINT.ofBytes (UINT.toBytes n) = n := by
  simp only [UINT.toBytes, binary64.bytesOf, UINT.ofBytes, List.foldr]
  omega

/-- The buffer of a string has two bytes for each character and for the terminating
zero. -/
theorem wstring.c_str_length (s : String) : (wstring.c_str s).length = 2 * (s.length + 1) := by
  unfold wstring.c_str
  have : ∀ l : List Char,
      (l.flatMap (fun c => [c.toNat % 256, c.toNat / 256 % 256])).length = 2 * l.length := by
    intro l
    induction l with
    | nil => rfl
    | cons c rest ih => simp [List.flatMap_cons, ih]; omega
  rw [List.length_append, this]
  show 2 * s.data.length + 2 = 2 * (s.data.length + 1)
  omega

/-- The `OLECHAR` values of the buffer of a string are its characters and the
terminating zero. -/
theorem OLECHAR.ofBytes_c_str (s : String) (h : ∀ c ∈ s.data, c.toNat < 65536) :
    OLECHAR.ofBytes (wstring.c_str s) = s.data.map Char.toNat ++ [0] := by
  unfold wstring.c_str
  generalize s.data = l at h
  induction l with
  | nil => simp [OLECHAR.ofBytes]
  | cons c rest ih =>
    have hc := h c (List.mem_cons_self _ _)
    have := ih (fun d hd => h d (List.mem_cons_of_mem _ hd))
    simp only [List.flatMap_cons, List.cons_append, List.nil_append, OLECHAR.ofBytes,
      List.map_cons, this]
    congr 1
    omega

/-- The assignment of the buffer of a string gives the string. -/
theorem wstring.ofBuffer_c_str (s : String) (h : ∀ c ∈ s.data, c ≠ Char.ofNat 0) :
    wstring.ofBuffer (s.data.map Char.toNat ++ [0]) = some s := by
  unfold wstring.ofBuffer
  have h0 : (0 : Nat) ∈ s.data.map Char.toNat ++ [0] := by simp
  rw [if_pos h0]
  have htw : ∀ l : List Char, (∀ c ∈ l, c ≠ Char.ofNat 0) →
      ((l.map Char.toNat ++ [0]).takeWhile (fun c => c ≠ 0)).map Char.ofNat = l := by
    intro l hl
    induction l with
    | nil => simp [List.takeWhile]
    | cons c rest ih =>
      have hc : c.toNat ≠ 0 := by
        intro hz
        apply hl c (List.mem_cons_self _ _)
        rw [← Char.ofNat_toNat c, hz]
      simp only [List.map_cons, List.cons_append, List.takeWhile_cons, ne_eq, hc,
        not_false_eq_true, decide_True, if_true, Char.ofNat_toNat, List.cons.injEq, true_and]
      exact ih (fun d hd => hl d (List.mem_cons_of_mem _ hd))
  rw [htw s.data h]

/-- A complete writing of a string appends its saved form. -/
theorem Save.writeString_complete (pstm : IStream) (s : String)
    (hsize : s.length + 1 < 2 ^ 31) (h : (Save.writeString pstm s).1 = true) :
    (Save.writeString pstm s).2.written = pstm.written ++ Save.Spec.string s := by
  have hlen : s.length % 2 ^ 32 = s.length := Nat.mod_eq_of_lt (by omega)
  have hcb : (2 * ((s.length + 1) % 2 ^ 32)) % 2 ^ 32 = 2 * (s.length + 1) := by omega
  unfold Save.writeString at h ⊢
  simp only [hlen, hcb] at h ⊢
  by_cases h4 : (IStream.Write pstm (UINT.toBytes s.length) 4).2 = 4
  · simp only [h4, ne_eq, not_true_eq_false, if_false] at h ⊢
    by_cases hc : (IStream.Write (IStream.Write pstm (UINT.toBytes s.length) 4).1
        (wstring.c_str s) (2 * (s.length + 1))).2 = 2 * (s.length + 1)
    · simp only [hc, not_true_eq_false, if_false]
      rw [IStream.Write_complete _ _ _ hc, IStream.Write_complete _ _ _ h4,
        List.take_of_length_le (le_of_eq (UINT.toBytes_length _)),
        List.take_of_length_le (le_of_eq (wstring.c_str_length s)), Save.Spec.string,
        List.append_assoc]
    · simp [hc] at h
  · simp [h4] at h

/-- Reading of a string in its saved form. -/
theorem Load.readBuffer_string (s : String) (rest : List Nat) (hsize : s.length + 1 < 2 ^ 31) :
    Load.readBuffer (Save.Spec.string s ++ rest) =
      (some (OLECHAR.ofBytes (wstring.c_str s)), rest) := by
  have hlen : UINT.ofBytes (UINT.toBytes s.length) = s.length :=
    UINT.ofBytes_toBytes _ (by omega)
  have hcb : (2 * ((s.length + 1) % 2 ^ 32)) % 2 ^ 32 = 2 * (s.length + 1) := by omega
  unfold Load.readBuffer IStream.Read Save.Spec.string
  simp only [List.append_assoc, List.take_left' (UINT.toBytes_length s.length),
    List.drop_left' (UINT.toBytes_length s.length), UINT.toBytes_length, ne_eq,
    not_true_eq_false, if_false, hlen, hcb, List.take_left' (wstring.c_str_length s),
    List.drop_left' (wstring.c_str_length s), wstring.c_str_length]

/-- The bytes a successful `Save` writes. -/
theorem Save_written (L : DoubleLayout) (u : CCPPMixerSplitterUnitOperation) (pstm : IStream)
    (fClearDirty : Bool) (r : SaveResult) (par0 par1 : CRealParameter)
    (rest : List CRealParameter)
    (hname : u.name.length + 1 < 2 ^ 31) (hdesc : u.description.length + 1 < 2 ^ 31)
    (hpar : u.parameterCollection.items = par0 :: par1 :: rest)
    (h0 : (L.toBytes par0.value).length = 8) (h1 : (L.toBytes par1.value).length = 8)
    (hsave : u.Save L (some pstm) fClearDirty = some r) (hok : r.hr = HRESULT.S_OK) :
    ∃ out, r.pstm = some out ∧
      out.written = pstm.written ++
        Save.Spec.bytes L u.name u.description par0.value par1.value := by
  unfold Save at hsave
  simp only [hpar] at hsave
  by_cases hv : (IStream.Write pstm (UINT.toBytes CURRENTFILEVERSIONNUMBER) 4).2 = 4
  swap
  · simp only [hv, ne_eq, not_false_eq_true, if_true, Option.some.injEq] at hsave
    rw [← hsave] at hok; cases hok
  simp only [hv, ne_eq, not_true_eq_false, if_false] at hsave
  have hwv := IStream.Write_complete _ _ _ hv
  generalize (IStream.Write pstm (UINT.toBytes CURRENTFILEVERSIONNUMBER) 4).1 = s1 at hsave hwv
  have hn := Save.writeString_complete s1 u.name hname
  cases hwn : Save.writeString s1 u.name with
  | mk okn s2 =>
    rw [hwn] at hsave hn
    cases okn with
    | false => simp only [Option.some.injEq] at hsave; rw [← hsave] at hok; cases hok
    | true =>
      simp only at hsave
      have hd := Save.writeString_complete s2 u.description hdesc
      cases hwd : Save.writeString s2 u.description with
      | mk okd s3 =>
        rw [hwd] at hsave hd
        cases okd with
        | false => simp only [Option.some.injEq] at hsave; rw [← hsave] at hok; cases hok
        | true =>
          simp only at hsave
          by_cases h8 : (IStream.Write s3 (L.toBytes par0.value) 8).2 = 8
          swap
          · simp only [h8, ne_eq, not_false_eq_true, if_true, Option.some.injEq] at hsave
            rw [← hsave] at hok; cases hok
          simp only [h8, ne_eq, not_true_eq_false, if_false] at hsave
          have hw0 := IStream.Write_complete _ _ _ h8
          generalize (IStream.Write s3 (L.toBytes par0.value) 8).1 = s4 at hsave hw0
          by_cases h9 : (IStream.Write s4 (L.toBytes par1.value) 8).2 = 8
          swap
          · simp only [h9, ne_eq, not_false_eq_true, if_true, Option.some.injEq] at hsave
            rw [← hsave] at hok; cases hok
          simp only [h9, ne_eq, not_true_eq_false, if_false] at hsave
          have hw1 := IStream.Write_complete _ _ _ h9
          have hfinal : (IStream.Write s4 (L.toBytes par1.value) 8).1.written =
              pstm.written ++ Save.Spec.bytes L u.name u.description par0.value par1.value := by
            rw [hw1, hw0, hd rfl, hn rfl, hwv, List.take_of_length_le (le_of_eq h0),
              List.take_of_length_le (le_of_eq h1),
              List.take_of_length_le (le_of_eq (UINT.toBytes_length _))]
            simp [Save.Spec.bytes, CURRENTFILEVERSIONNUMBER, UINT.toBytes, binary64.bytesOf]
          cases fClearDirty with
          | false =>
            simp only [Bool.false_eq_true, if_false, Option.some.injEq] at hsave
            exact ⟨_, by rw [← hsave], hfinal⟩
          | true =>
            simp only [if_true, Option.some.injEq] at hsave
            exact ⟨_, by rw [← hsave], hfinal⟩

/-- `Load` on the saved form: it succeeds, reads the whole stream, and stores the
name, the description and the two values. -/
theorem Load_saved (L : DoubleLayout) (target : CCPPMixerSplitterUnitOperation)
    (name description : String) (v0 v1 : Dbl) (q0 q1 : CRealParameter)
    (rest : List CRealParameter)
    (hn : wstring.plain name) (hd : wstring.plain description)
    (hname : name.length + 1 < 2 ^ 31) (hdesc : description.length + 1 < 2 ^ 31)
    (h0 : L.holds v0) (h1 : L.holds v1)
    (hpar : target.parameterCollection.items = q0 :: q1 :: rest) :
    target.Load L (some (Save.Spec.bytes L name description v0 v1)) =
      some { hr := HRESULT.S_OK
             self := { target with
               name := name
               description := description
               parameterCollection := { target.parameterCollection with
                 items := { q0 with value := v0 } :: { q1 with value := v1 } :: rest } }
             pstm := [] } := by
  have hb1 : wstring.ofBuffer (OLECHAR.ofBytes (wstring.c_str name)) = some name := by
    rw [OLECHAR.ofBytes_c_str name (fun c hc => (hn c hc).2)]
    exact wstring.ofBuffer_c_str name (fun c hc => (hn c hc).1)
  have hb2 : wstring.ofBuffer (OLECHAR.ofBytes (wstring.c_str description)) =
      some description := by
    rw [OLECHAR.ofBytes_c_str description (fun c hc => (hd c hc).2)]
    exact wstring.ofBuffer_c_str description (fun c hc => (hd c hc).1)
  have hr1 := Load.readBuffer_string name
    (Save.Spec.string description ++ (L.toBytes v0 ++ L.toBytes v1)) hname
  have hr2 := Load.readBuffer_string description (L.toBytes v0 ++ L.toBytes v1) hdesc
  have hv0 : Load.readValue L q0 (L.toBytes v0 ++ L.toBytes v1) =
      ({ q0 with value := v0 }, true, L.toBytes v1) := by
    simp only [Load.readValue, IStream.Read, List.take_left' h0.1, List.drop_left' h0.1,
      h0.1, if_true, h0.2]
  have hv1 : Load.readValue L q1 (L.toBytes v1) = ({ q1 with value := v1 }, true, []) := by
    have ht : (L.toBytes v1).take 8 = L.toBytes v1 := List.take_of_length_le (le_of_eq h1.1)
    have hdr : (L.toBytes v1).drop 8 = [] := List.drop_of_length_le (le_of_eq h1.1)
    simp only [Load.readValue, IStream.Read, ht, hdr, h1.1, if_true, h1.2]
  have hread : IStream.Read (Save.Spec.bytes L name description v0 v1) 4 =
      ([0, 0, 0, 0], Save.Spec.string name ++
        (Save.Spec.string description ++ (L.toBytes v0 ++ L.toBytes v1))) := by
    simp only [Save.Spec.bytes, List.append_assoc, IStream.Read]
    rfl
  have hver : UINT.ofBytes [0, 0, 0, 0] = 0 := rfl
  unfold Load
  simp only [hread, List.length_cons, List.length_nil, hver, CURRENTFILEVERSIONNUMBER, hr1,
    hb1, hr2, hb2, hpar, hv0, hv1]
  simp

/-- C15. For a unit operation whose name and description are zero-terminated strings
(no character zero, every character one `OLECHAR`) of fewer than 2^31 - 1 characters,
and whose two parameter values are doubles of the layout: the bytes a successful
`Save` writes are the version tag 0 in four bytes, the name as a 4-byte length with
its characters and a terminating zero in two bytes each, the description in the same
form, then the split factor and the heat input in eight bytes each; and `Load` on
exactly these bytes, into any unit operation with its two parameters, succeeds and
restores the name, the description, the split factor and the heat input. -/
theorem Save_Load_round_trip (L : DoubleLayout)
    (u target : CCPPMixerSplitterUnitOperation) (pstm : IStream) (fClearDirty : Bool)
    (par0 par1 q0 q1 : CRealParameter) (rest rest2 : List CRealParameter)
    (hn : wstring.plain u.name) (hd : wstring.plain u.description)
    (hname : u.name.length + 1 < 2 ^ 31) (hdesc : u.description.length + 1 < 2 ^ 31)
    (hpar : u.parameterCollection.items = par0 :: par1 :: rest)
    (h0 : L.holds par0.value) (h1 : L.holds par1.value)
    (htarget : target.parameterCollection.items = q0 :: q1 :: rest2)
    (hok : (u.Save L (some pstm) fClearDirty).map (fun r => r.hr) = some HRESULT.S_OK) :
    ((u.Save L (some pstm) fClearDirty).bind (fun r => r.pstm)).map (fun s => s.written) =
      some (pstm.written ++ Save.Spec.bytes L u.name u.description par0.value par1.value) ∧
    ∃ l, target.Load L (some (Save.Spec.bytes L u.name u.description par0.value par1.value)) =
        some l ∧
      l.hr = HRESULT.S_OK ∧ l.pstm = [] ∧
      l.self.name = u.name ∧ l.self.description = u.description ∧
      l.self.parameterCollection.items.map (fun par => par.value) =
        par0.value :: par1.value :: rest2.map (fun par => par.value) := by
  constructor
  · cases hs : u.Save L (some pstm) fClearDirty with
    | none => rw [hs] at hok; cases hok
    | some r =>
      rw [hs] at hok
      simp only [Option.map_some', Option.some.injEq] at hok
      obtain ⟨out, hout, hw⟩ :=
        Save_written L u pstm fClearDirty r par0 par1 rest hname hdesc hpar h0.1 h1.1 hs hok
      simp [hout, hw]
  · exact ⟨_, Load_saved L target u.name u.description par0.value par1.value q0 q1 rest2 hn hd
      hname hdesc h0 h1 htarget, rfl, rfl, rfl, rfl, rfl⟩

/-- One half and zero are doubles of the binary64 layout. -/
theorem binary64.holds_half_zero :
    binary64.layout.holds (Dbl.fin (1 / 2)) ∧ binary64.layout.holds (Dbl.fin 0) := by
  unfold DoubleLayout.holds
  decide!

/-- The name and the description of the newly constructed unit operation are
zero-terminated strings of `OLECHAR` characters. -/
theorem ctor_plain : wstring.plain ctor.name ∧ wstring.plain ctor.description := by
  unfold wstring.plain
  decide

set_option maxRecDepth 100000 in
/-- `Save` of the newly constructed unit operation to an empty stream without limit
succeeds. -/
theorem ctor_Save :
    (ctor.Save binary64.layout (some { written := [], room := none }) true).map
      (fun r => r.hr) = some HRESULT.S_OK := by
  decide!

/-- C15, for the newly constructed unit operation saved to an empty stream without
limit and loaded into another newly constructed unit operation. -/
theorem Save_Load_round_trip_witness :
    ((ctor.Save binary64.layout (some { written := [], room := none }) true).bind
        (fun r => r.pstm)).map (fun s => s.written) =
      some (([] : List Nat) ++ Save.Spec.bytes binary64.layout ctor.name ctor.description
        (Dbl.fin (1 / 2)) (Dbl.fin 0)) ∧
    ∃ l, ctor.Load binary64.layout (some (Save.Spec.bytes binary64.layout ctor.name
          ctor.description (Dbl.fin (1 / 2)) (Dbl.fin 0))) = some l ∧
      l.hr = HRESULT.S_OK ∧ l.pstm = [] ∧
      l.self.name = ctor.name ∧ l.self.description = ctor.description ∧
      l.self.parameterCollection.items.map (fun par => par.value) =
        Dbl.fin (1 / 2) :: Dbl.fin 0 :: ([] : List CRealParameter).map (fun par => par.value) :=
  Save_Load_round_trip binary64.layout ctor ctor { written := [], room := none } true
    (Sample.splitFactor (Dbl.fin (1 / 2))) (Sample.heatInput (Dbl.fin 0))
    (Sample.splitFactor (Dbl.fin (1 / 2))) (Sample.heatInput (Dbl.fin 0)) [] []
    ctor_plain.1 ctor_plain.2 (by decide) (by decide) rfl
    binary64.holds_half_zero.1 binary64.holds_half_zero.2 rfl ctor_Save

/-! ## The items of the collections are fixed -/

/-- Replacing an item by one with the same image leaves the images as they are. -/
theorem List.map_set_same {α β : Type} (f : α → β) (l : List α) (i : Nat) (x y : α)
    (hi : l[i]? = some x) (h : f y = f x) : (l.set i y).map f = l.map f := by
  induction l generalizing i with
  | nil => simp
  | cons a rest ih =>
    cases i with
    | zero =>
      simp at hi
      subst hi
      simp [h]
    | succ i =>
      simp at hi
      simp [ih i hi]

/-- A call of a method of a port does not change what identifies the port. -/
theorem CMaterialPort.port_step_same (p : CMaterialPort) (op : CMaterialPort.Operation)
    (hc : p.canRename = false) :
    ((p.step op).self.name, (p.step op).self.direction, (p.step op).self.canRename) =
      (p.name, p.direction, p.canRename) := by
  cases op with
  | Connect objectToConnect =>
    cases objectToConnect with
    | none => rfl
    | some object =>
      simp only [CMaterialPort.step, CMaterialPort.Connect, CMaterialPort.Disconnect]
      cases object.ICapeThermoMaterial with
      | some m => rfl
      | none =>
        cases object.ICapeThermoMaterialObject with
        | some m => rfl
        | none => rfl
  | Disconnect => rfl
  | put_ComponentName name =>
    simp [CMaterialPort.step, CAPEOPENBaseObject.put_ComponentName, hc,
      CAPEOPENBaseObject.SetError]
  | put_ComponentDescription desc =>
    simp [CMaterialPort.step, CAPEOPENBaseObject.put_ComponentDescription, hc,
      CAPEOPENBaseObject.SetError]

/-- A call of a method of a parameter does not change what identifies the
parameter. -/
theorem CRealParameter.parameter_step_same (p : CRealParameter) (valStatus : CapeValidationStatus)
    (op : CRealParameter.Operation) (hc : p.canRename = false) :
    ((p.step valStatus op).self.name, (p.step valStatus op).self.minVal,
        (p.step valStatus op).self.maxVal, (p.step valStatus op).self.defVal,
        (p.step valStatus op).self.canRename) =
      (p.name, p.minVal, p.maxVal, p.defVal, p.canRename) := by
  cases op with
  | put_value value =>
    simp only [CRealParameter.step, CRealParameter.put_value]
    cases value.changeTypeR8 with
    | none => rfl
    | some dblVal =>
      simp only
      split_ifs <;> rfl
  | Reset => rfl
  | put_Mode => rfl
  | put_ComponentName name =>
    simp [CRealParameter.step, CAPEOPENBaseObject.put_ComponentName, hc,
      CAPEOPENBaseObject.SetError]
  | put_ComponentDescription desc =>
    simp [CRealParameter.step, CAPEOPENBaseObject.put_ComponentDescription, hc,
      CAPEOPENBaseObject.SetError]

/-- `Calculate` changes neither collection. -/
theorem Calculate_collections (u : CCPPMixerSplitterUnitOperation) (r : CalculateResult)
    (h : u.Calculate = some r) :
    r.self.portCollection = u.portCollection ∧
      r.self.parameterCollection = u.parameterCollection ∧ r.self.valStatus = u.valStatus := by
  unfold Calculate at h
  split_ifs at h with h1 h2
  · cases h; exact ⟨rfl, rfl, rfl⟩
  · cases h; exact ⟨rfl, rfl, rfl⟩
  · split at h
    · split at h
      · cases h; exact ⟨rfl, rfl, rfl⟩
      · cases h; exact ⟨rfl, rfl, rfl⟩
      · cases h
    · cases h

/-- Reading a value in `Load` does not change what identifies the parameter. -/
theorem Load.readValue_same (L : DoubleLayout) (par : CRealParameter) (pstm : List Nat) :
    (Load.readValue L par pstm).1.toCAPEOPENBaseObject = par.toCAPEOPENBaseObject ∧
    (Load.readValue L par pstm).1.minVal = par.minVal ∧
    (Load.readValue L par pstm).1.maxVal = par.maxVal ∧
    (Load.readValue L par pstm).1.defVal = par.defVal := by
  unfold Load.readValue
  simp only [IStream.Read]
  split_ifs <;> exact ⟨rfl, rfl, rfl, rfl⟩

/-- `Load` changes neither the ports nor what identifies the parameters, and leaves the
validation status as it is. -/
theorem Load_collections (L : DoubleLayout) (u : CCPPMixerSplitterUnitOperation)
    (pstm : Option (List Nat)) (r : LoadResult) (h : u.Load L pstm = some r) :
    r.self.portCollection = u.portCollection ∧ r.self.parametersOf = u.parametersOf ∧
      r.self.valStatus = u.valStatus := by
  unfold Load at h
  cases pstm with
  | none => cases h; exact ⟨rfl, rfl, rfl⟩
  | some pstm =>
    simp only at h
    split_ifs at h with h1 h2
    · cases h; exact ⟨rfl, rfl, rfl⟩
    · cases h; exact ⟨rfl, rfl, rfl⟩
    · split at h
      · cases h; exact ⟨rfl, rfl, rfl⟩
      · split at h
        · cases h
        · split at h
          · cases h; exact ⟨rfl, rfl, rfl⟩
          · split at h
            · cases h
            · split at h
              · rename_i par0 par1 rest hitems
                have s0 := Load.readValue_same L par0
                have s1 := Load.readValue_same L par1
                split_ifs at h
                · cases h
                  refine ⟨rfl, ?_, rfl⟩
                  simp [parametersOf, hitems, (s0 _).1, (s0 _).2.1, (s0 _).2.2.1, (s0 _).2.2.2]
                · cases h
                  refine ⟨rfl, ?_, rfl⟩
                  simp [parametersOf, hitems, (s0 _).1, (s0 _).2.1, (s0 _).2.2.1, (s0 _).2.2.2,
                    (s1 _).1, (s1 _).2.1, (s1 _).2.2.1, (s1 _).2.2.2]
                · cases h
                  refine ⟨rfl, ?_, rfl⟩
                  simp [parametersOf, hitems, (s0 _).1, (s0 _).2.1, (s0 _).2.2.1, (s0 _).2.2.2,
                    (s1 _).1, (s1 _).2.1, (s1 _).2.2.1, (s1 _).2.2.2]
              · cases h

/-- `Validate` changes neither collection. -/
theorem Validate_collections (u : CCPPMixerSplitterUnitOperation) (message : Option BSTR)
    (isValid : Option Bool) :
    (u.Validate message isValid).self.portCollection = u.portCollection ∧
      (u.Validate message isValid).self.parameterCollection = u.parameterCollection := by
  unfold Validate
  cases message with
  | none => exact ⟨rfl, rfl⟩
  | some m =>
    cases isValid with
    | none => exact ⟨rfl, rfl⟩
    | some v => exact ⟨rfl, rfl⟩

/-- `Save` changes neither the ports nor what identifies the parameters, and leaves the
validation status as it is. -/
theorem Save_collections (L : DoubleLayout) (u : CCPPMixerSplitterUnitOperation)
    (pstm : Option IStream) (fClearDirty : Bool) (r : SaveResult)
    (h : u.Save L pstm fClearDirty = some r) :
    r.self.portCollection = u.portCollection ∧ r.self.parametersOf = u.parametersOf ∧
      r.self.valStatus = u.valStatus := by
  unfold Save at h
  cases pstm with
  | none => cases h; exact ⟨rfl, rfl, rfl⟩
  | some pstm =>
    simp only at h
    repeat' (first | split at h | split_ifs at h)
    all_goals first
      | (cases h; exact ⟨rfl, rfl, rfl⟩)
      | (cases h; exact ⟨rfl, by simp [parametersOf, Function.comp_def], rfl⟩)
      | cases h

/-- `Edit` changes neither the ports nor what identifies the parameters. -/
theorem Edit_collections (u : CCPPMixerSplitterUnitOperation)
    (edits : List CEditDialog.Killfocus) (ending : CEditDialog.Ending) (r : Result)
    (h : u.Edit edits ending = some r) :
    r.self.portCollection = u.portCollection ∧ r.self.parametersOf = u.parametersOf := by
  unfold Edit at h
  split at h
  · rename_i splitFactor heatInput rest hitems
    cases h
    refine ⟨rfl, ?_⟩
    simp [parametersOf, hitems]
  · cases h

/-- A call of a method of a collection does not change its items. -/
theorem CCollection.step_items {α : Type} (toBase : α → CAPEOPENBaseObject)
    (c : CCollection α) (op : CCollection.Operation) (r : HRESULT × CCollection α)
    (h : c.step toBase op = some r) : r.2.items = c.items := by
  cases op with
  | Item id Item =>
    simp only [CCollection.step, Option.map_eq_some'] at h
    obtain ⟨a, ha, rfl⟩ := h
    unfold CCollection.Item at ha
    split at ha
    · cases ha; rfl
    · simp only at ha
      split at ha
      · cases ha
      · split_ifs at ha <;> cases ha <;> rfl
  | put_ComponentName name => cases h; rfl
  | put_ComponentDescription desc => cases h; rfl

/-- One call by the host changes neither what identifies the ports nor what identifies
the parameters, when no port and no parameter can be renamed. -/
theorem step_same (L : DoubleLayout) (u : CCPPMixerSplitterUnitOperation) (op : Operation)
    (r : Result) (hports : ∀ port ∈ u.portCollection.items, port.canRename = false)
    (hpars : ∀ par ∈ u.parameterCollection.items, par.canRename = false)
    (h : step L u op = some r) :
    r.self.portsOf = u.portsOf ∧ r.self.parametersOf = u.parametersOf := by
  cases op with
  | Calculate =>
    simp only [step, Option.map_eq_some'] at h
    obtain ⟨c, hc, rfl⟩ := h
    obtain ⟨h1, h2, _⟩ := Calculate_collections u c hc
    simp [portsOf, parametersOf, h1, h2]
  | Validate message isValid =>
    simp only [step, Option.some.injEq] at h
    subst h
    obtain ⟨h1, h2⟩ := Validate_collections u message isValid
    simp [portsOf, parametersOf, h1, h2]
  | Terminate =>
    simp only [step, Option.some.injEq] at h
    subst h
    simp [portsOf, parametersOf, Terminate, CMaterialPort.Disconnect, Function.comp_def]
  | Edit edits ending =>
    obtain ⟨h1, h2⟩ := Edit_collections u edits ending r h
    simp [portsOf, h1, h2]
  | IsDirty =>
    simp only [step, Option.some.injEq] at h
    subst h
    exact ⟨rfl, rfl⟩
  | Load pstm =>
    simp only [step, Option.map_eq_some'] at h
    obtain ⟨c, hc, rfl⟩ := h
    obtain ⟨h1, h2, _⟩ := Load_collections L u pstm c hc
    simp [portsOf, h1, h2]
  | Save pstm fClearDirty =>
    simp only [step, Option.map_eq_some'] at h
    obtain ⟨c, hc, rfl⟩ := h
    obtain ⟨h1, h2, _⟩ := Save_collections L u pstm fClearDirty c hc
    simp [portsOf, h1, h2]
  | get_selectedReport report =>
    simp only [step, Option.some.injEq] at h
    subst h
    unfold get_selectedReport
    cases report with
    | none => exact ⟨rfl, rfl⟩
    | some old =>
      simp only
      split_ifs <;> exact ⟨rfl, rfl⟩
  | put_selectedReport report =>
    simp only [step, Option.some.injEq] at h
    subst h
    unfold put_selectedReport
    split_ifs <;> exact ⟨rfl, rfl⟩
  | ProduceReport reportContent =>
    simp only [step, Option.some.injEq] at h
    subst h
    unfold ProduceReport
    cases reportContent with
    | none => exact ⟨rfl, rfl⟩
    | some old =>
      simp only
      split_ifs <;> exact ⟨rfl, rfl⟩
  | put_ComponentName name =>
    simp only [step, Option.some.injEq] at h
    subst h
    exact ⟨rfl, rfl⟩
  | put_ComponentDescription desc =>
    simp only [step, Option.some.injEq] at h
    subst h
    exact ⟨rfl, rfl⟩
  | port i op =>
    simp only [step] at h
    cases hi : u.portCollection.items[i]? with
    | none => simp [hi] at h
    | some port =>
      simp only [hi, Option.some.injEq] at h
      subst h
      refine ⟨?_, rfl⟩
      have hmem : port ∈ u.portCollection.items := by
        obtain ⟨hlt, hget⟩ := List.getElem?_eq_some_iff.1 hi
        exact hget ▸ List.getElem_mem hlt
      exact List.map_set_same _ _ i port _ hi
        (CMaterialPort.port_step_same port op (hports port hmem))
  | parameter i op =>
    simp only [step] at h
    cases hi : u.parameterCollection.items[i]? with
    | none => simp [hi] at h
    | some par =>
      simp only [hi, Option.some.injEq] at h
      subst h
      refine ⟨rfl, ?_⟩
      have hmem : par ∈ u.parameterCollection.items := by
        obtain ⟨hlt, hget⟩ := List.getElem?_eq_some_iff.1 hi
        exact hget ▸ List.getElem_mem hlt
      exact List.map_set_same _ _ i par _ hi
        (CRealParameter.parameter_step_same par u.valStatus op (hpars par hmem))
  | ports op =>
    simp only [step, Option.map_eq_some'] at h
    obtain ⟨c, hc, rfl⟩ := h
    have := CCollection.step_items _ _ _ _ hc
    simp [portsOf, parametersOf, this]
  | parameters op =>
    simp only [step, Option.map_eq_some'] at h
    obtain ⟨c, hc, rfl⟩ := h
    have := CCollection.step_items _ _ _ _ hc
    simp [portsOf, parametersOf, this]

/-- The ports and the parameters of the newly constructed unit operation. -/
theorem ctor_items :
    ctor.portsOf =
      [("Feed 1", CapePortDirection.CAPE_INLET, false),
        ("Feed 2", CapePortDirection.CAPE_INLET, false),
        ("Product 1", CapePortDirection.CAPE_OUTLET, false),
        ("Product 2", CapePortDirection.CAPE_OUTLET, false)] ∧
    ctor.parametersOf =
      [("Split factor", Dbl.fin 0, Dbl.fin 1, Dbl.fin (1 / 2), false),
        ("Heat input", Dbl.nan, Dbl.nan, Dbl.fin 0, false)] :=
  ⟨rfl, rfl⟩

/-- A sequence of calls by the host changes neither what identifies the ports nor what
identifies the parameters of the constructor. -/
theorem run_same (L : DoubleLayout) (ops : List Operation) :
    ∀ u u' : CCPPMixerSplitterUnitOperation,
      u.portsOf = ctor.portsOf → u.parametersOf = ctor.parametersOf →
      run L u ops = some u' →
      u'.portsOf = ctor.portsOf ∧ u'.parametersOf = ctor.parametersOf := by
  induction ops with
  | nil =>
    intro u u' h1 h2 h
    simp only [run, Option.some.injEq] at h
    subst h
    exact ⟨h1, h2⟩
  | cons op rest ih =>
    intro u u' h1 h2 h
    simp only [run] at h
    cases hs : step L u op with
    | none => simp [hs] at h
    | some r =>
      simp only [hs] at h
      have hports : ∀ port ∈ u.portCollection.items, port.canRename = false := by
        intro port hport
        have hmem : (port.name, port.direction, port.canRename) ∈ u.portsOf :=
          List.mem_map.2 ⟨port, hport, rfl⟩
        rw [h1, ctor_items.1] at hmem
        simp only [List.mem_cons, Prod.mk.injEq, List.mem_singleton, List.not_mem_nil,
          or_false] at hmem
        rcases hmem with h | h | h | h <;> exact h.2.2
      have hpars : ∀ par ∈ u.parameterCollection.items, par.canRename = false := by
        intro par hpar
        have hmem : (par.name, par.minVal, par.maxVal, par.defVal, par.canRename) ∈
            u.parametersOf := List.mem_map.2 ⟨par, hpar, rfl⟩
        rw [h2, ctor_items.2] at hmem
        simp only [List.mem_cons, Prod.mk.injEq, List.mem_singleton, List.not_mem_nil,
          or_false] at hmem
        rcases hmem with h | h <;> exact h.2.2.2.2
      obtain ⟨s1, s2⟩ := step_same L u op r hports hpars hs
      exact ih r.self u' (s1.trans h1) (s2.trans h2) h

/-- C18. In every state reached from the newly constructed unit operation by calls of
the host, the port collection holds, in this order, the inlets "Feed 1" and "Feed 2"
and the outlets "Product 1" and "Product 2", and the parameter collection holds
"Split factor" (bounds 0 and 1, default 0.5) and "Heat input" (no bounds, default 0),
none of which can be renamed: no call adds, removes or reorders an item.  So the
collections have four and two items, and the items 0 to 3 of the ports and 0 to 1 of
the parameters, which `Validate`, `Calculate`, `Edit`, `Save` and `Load` use, exist.
-/
theorem four_ports_two_parameters (L : DoubleLayout) (ops : List Operation)
    (u : CCPPMixerSplitterUnitOperation) (h : run L ctor ops = some u) :
    u.portsOf =
      [("Feed 1", CapePortDirection.CAPE_INLET, false),
        ("Feed 2", CapePortDirection.CAPE_INLET, false),
        ("Product 1", CapePortDirection.CAPE_OUTLET, false),
        ("Product 2", CapePortDirection.CAPE_OUTLET, false)] ∧
    u.parametersOf =
      [("Split factor", Dbl.fin 0, Dbl.fin 1, Dbl.fin (1 / 2), false),
        ("Heat input", Dbl.nan, Dbl.nan, Dbl.fin 0, false)] ∧
    u.portCollection.items.length = 4 ∧ u.parameterCollection.items.length = 2 ∧
    (∀ i, i < 4 → ∃ port, u.portCollection.items[i]? = some port) ∧
    (∀ i, i < 2 → ∃ par, u.parameterCollection.items[i]? = some par) := by
  obtain ⟨h1, h2⟩ := run_same L ops ctor u rfl rfl h
  have l1 : u.portCollection.items.length = 4 := by
    have := congrArg List.length h1
    simpa [portsOf, ctor_items.1] using this
  have l2 : u.parameterCollection.items.length = 2 := by
    have := congrArg List.length h2
    simpa [parametersOf, ctor_items.2] using this
  refine ⟨h1.trans ctor_items.1, h2.trans ctor_items.2, l1, l2, ?_, ?_⟩
  · intro i hi
    exact ⟨_, List.getElem?_eq_getElem (by omega)⟩
  · intro i hi
    exact ⟨_, List.getElem?_eq_getElem (by omega)⟩

/-- C18, after a disconnection, a reset, an edit without change and a renaming. -/
theorem four_ports_two_parameters_witness :
    ∃ u, run binary64.layout ctor Sample.calls = some u ∧
      u.name = "Mixer" ∧
      u.portsOf =
        [("Feed 1", CapePortDirection.CAPE_INLET, false),
          ("Feed 2", CapePortDirection.CAPE_INLET, false),
          ("Product 1", CapePortDirection.CAPE_OUTLET, false),
          ("Product 2", CapePortDirection.CAPE_OUTLET, false)] ∧
      u.parameterCollection.items.length = 2 :=
  ⟨_, rfl, rfl, (four_ports_two_parameters binary64.layout Sample.calls _ rfl).1,
    (four_ports_two_parameters binary64.layout Sample.calls _ rfl).2.2.2.1⟩

/-! ## Re-validation after a change of a parameter -/

/-- After `Validate` the status is valid exactly when `isValid` is true. -/
theorem Validate_valid_status (u : CCPPMixerSplitterUnitOperation) (message : BSTR)
    (isValid : Bool) :
    (u.Validate (some message) (some isValid)).self.valStatus =
        CapeValidationStatus.CAPE_VALID ↔
      (u.Validate (some message) (some isValid)).isValid = some true := by
  unfold Validate
  generalize Validate.scanPorts u.portCollection.items 0 (false, false) = s
  generalize Validate.checkCompounds u.portCollection.items = c
  generalize Validate.checkEnthalpy u.portCollection.items = e
  obtain ⟨f, p⟩ := s
  obtain ⟨cm, cn⟩ := c
  cases f <;> cases p <;> cases cm <;> cases e <;> simp

/-- One call by the host makes the status valid only if it is a `Validate` that
reports valid. -/
theorem step_valStatus (L : DoubleLayout) (u : CCPPMixerSplitterUnitOperation)
    (op : Operation) (r : Result) (h : step L u op = some r)
    (hu : u.valStatus ≠ CapeValidationStatus.CAPE_VALID)
    (hv : r.self.valStatus = CapeValidationStatus.CAPE_VALID) :
    ∃ message isValid, op = Operation.Validate (some message) (some isValid) ∧
      (u.Validate (some message) (some isValid)).isValid = some true := by
  cases op with
  | Calculate =>
    simp only [step, Option.map_eq_some'] at h
    obtain ⟨c, hc, rfl⟩ := h
    exact absurd ((Calculate_collections u c hc).2.2 ▸ hv) hu
  | Validate message isValid =>
    simp only [step, Option.some.injEq] at h
    subst h
    cases message with
    | none => exact absurd hv hu
    | some m =>
      cases isValid with
      | none => exact absurd hv hu
      | some v => exact ⟨m, v, rfl, (Validate_valid_status u m v).1 hv⟩
  | Terminate =>
    simp only [step, Option.some.injEq] at h
    subst h
    exact absurd hv hu
  | Edit edits ending =>
    simp only [step, Edit] at h
    split at h
    · cases h; cases hv
    · cases h
  | IsDirty =>
    simp only [step, Option.some.injEq] at h
    subst h
    exact absurd hv hu
  | Load pstm =>
    simp only [step, Option.map_eq_some'] at h
    obtain ⟨c, hc, rfl⟩ := h
    exact absurd ((Load_collections L u pstm c hc).2.2 ▸ hv) hu
  | Save pstm fClearDirty =>
    simp only [step, Option.map_eq_some'] at h
    obtain ⟨c, hc, rfl⟩ := h
    exact absurd ((Save_collections L u pstm fClearDirty c hc).2.2 ▸ hv) hu
  | get_selectedReport report =>
    simp only [step, Option.some.injEq] at h
    subst h
    unfold get_selectedReport at hv
    cases report with
    | none => exact absurd hv hu
    | some old =>
      simp only at hv
      split_ifs at hv <;> exact absurd hv hu
  | put_selectedReport report =>
    simp only [step, Option.some.injEq] at h
    subst h
    unfold put_selectedReport at hv
    split_ifs at hv <;> exact absurd hv hu
  | ProduceReport reportContent =>
    simp only [step, Option.some.injEq] at h
    subst h
    unfold ProduceReport at hv
    cases reportContent with
    | none => exact absurd hv hu
    | some old =>
      simp only at hv
      split_ifs at hv <;> exact absurd hv hu
  | put_ComponentName name =>
    simp only [step, Option.some.injEq] at h
    subst h
    exact absurd hv hu
  | put_ComponentDescription desc =>
    simp only [step, Option.some.injEq] at h
    subst h
    exact absurd hv hu
  | port i op =>
    simp only [step] at h
    cases hi : u.portCollection.items[i]? with
    | none => simp [hi] at h
    | some port =>
      simp only [hi, Option.some.injEq] at h
      subst h
      exact absurd hv hu
  | parameter i op =>
    simp only [step] at h
    cases hi : u.parameterCollection.items[i]? with
    | none => simp [hi] at h
    | some par =>
      simp only [hi, Option.some.injEq] at h
      subst h
      simp only at hv
      cases op with
      | put_value value =>
        simp only [CRealParameter.step, CRealParameter.put_value] at hv
        cases hc : value.changeTypeR8 with
        | none => simp only [hc] at hv; exact absurd hv hu
        | some dblVal =>
          simp only [hc] at hv
          split_ifs at hv <;> exact absurd hv hu
      | Reset => cases hv
      | put_Mode => exact absurd hv hu
      | put_ComponentName name => exact absurd hv hu
      | put_ComponentDescription desc => exact absurd hv hu
  | ports op =>
    simp only [step, Option.map_eq_some'] at h
    obtain ⟨c, hc, rfl⟩ := h
    exact absurd hv hu
  | parameters op =>
    simp only [step, Option.map_eq_some'] at h
    obtain ⟨c, hc, rfl⟩ := h
    exact absurd hv hu

/-- A sequence of calls by the host, none of which is a `Validate` that reports valid,
does not make the status valid. -/
theorem run_not_valid (L : DoubleLayout) (ops : List Operation) :
    ∀ u u' : CCPPMixerSplitterUnitOperation,
      u.valStatus ≠ CapeValidationStatus.CAPE_VALID → run L u ops = some u' →
      neverReportsValid L u ops → u'.valStatus ≠ CapeValidationStatus.CAPE_VALID := by
  induction ops with
  | nil =>
    intro u u' hu h _
    simp only [run, Option.some.injEq] at h
    subst h
    exact hu
  | cons op rest ih =>
    intro u u' hu h hnever
    simp only [run] at h
    cases hs : step L u op with
    | none => simp [hs] at h
    | some r =>
      simp only [hs] at h
      refine ih r.self u' ?_ h (hnever.2 r hs)
      intro hv
      obtain ⟨message, isValid, hop, hvalid⟩ := step_valStatus L u op r hs hu hv
      exact hnever.1 message isValid hop hvalid

/-- `Calculate` on a unit operation whose status is not valid returns the CAPE-OPEN
error code without a request to a material object. -/
theorem Calculate_not_valid (u : CCPPMixerSplitterUnitOperation)
    (h : u.valStatus ≠ CapeValidationStatus.CAPE_VALID) :
    ∃ c, u.Calculate = some c ∧ c.hr = HRESULT.ECapeUnknownHR ∧ c.requests = [] := by
  unfold Calculate
  cases hv : u.valStatus with
  | CAPE_INVALID => simp
  | CAPE_NOT_VALIDATED => simp
  | CAPE_VALID => exact absurd hv h

/-- C12. After a successful `put_value` or `Reset` on a parameter, and after `Edit`,
the validation status of the unit operation is not-validated; and after any further
calls by the host, none of which is a `Validate` that reports valid, `Calculate`
returns the CAPE-OPEN error code, without a request to a material object. -/
theorem parameter_change_forces_revalidation (L : DoubleLayout)
    (u u' : CCPPMixerSplitterUnitOperation) (op : Operation) (r : Result)
    (ops : List Operation)
    (hop : (∃ i value, op = Operation.parameter i (CRealParameter.Operation.put_value value)) ∨
      (∃ i, op = Operation.parameter i CRealParameter.Operation.Reset) ∨
      (∃ edits ending, op = Operation.Edit edits ending))
    (hstep : step L u op = some r) (hok : r.hr = HRESULT.NOERROR)
    (hrun : run L r.self ops = some u') (hnever : neverReportsValid L r.self ops) :
    r.self.valStatus = CapeValidationStatus.CAPE_NOT_VALIDATED ∧
    ∃ c, u'.Calculate = some c ∧ c.hr = HRESULT.ECapeUnknownHR ∧ c.requests = [] := by
  have hstatus : r.self.valStatus = CapeValidationStatus.CAPE_NOT_VALIDATED := by
    rcases hop with ⟨i, value, rfl⟩ | ⟨i, rfl⟩ | ⟨edits, ending, rfl⟩
    · simp only [step] at hstep
      cases hi : u.parameterCollection.items[i]? with
      | none => simp [hi] at hstep
      | some par =>
        simp only [hi, Option.some.injEq] at hstep
        subst hstep
        simp only [CRealParameter.step, CRealParameter.put_value] at hok ⊢
        cases hc : value.changeTypeR8 with
        | none => simp [hc] at hok
        | some dblVal =>
          simp only [hc] at hok ⊢
          split_ifs at hok ⊢
          rfl
    · simp only [step] at hstep
      cases hi : u.parameterCollection.items[i]? with
      | none => simp [hi] at hstep
      | some par =>
        simp only [hi, Option.some.injEq] at hstep
        subst hstep
        rfl
    · simp only [step, Edit] at hstep
      split at hstep
      · cases hstep; rfl
      · cases hstep
  refine ⟨hstatus, Calculate_not_valid u' (run_not_valid L ops r.self u' ?_ hrun hnever)⟩
  rw [hstatus]
  decide

/-- A sequence of calls without a `Validate` never reports valid. -/
theorem neverReportsValid_of_no_Validate (L : DoubleLayout) (ops : List Operation)
    (h : ∀ op ∈ ops, ∀ message isValid, op ≠ Operation.Validate message isValid) :
    ∀ u, neverReportsValid L u ops := by
  induction ops with
  | nil => intro u; trivial
  | cons op rest ih =>
    intro u
    refine ⟨?_, fun r _ => ih (fun o ho => h o (List.mem_cons_of_mem _ ho)) r.self⟩
    intro message isValid hop
    exact absurd hop (h op (List.mem_cons_self _ _) _ _)

/-- C12, for a valid unit operation on which the split factor is set to 3/4 and then a
port is disconnected and the dirty state is asked for. -/
theorem parameter_change_forces_revalidation_witness :
    ∃ r u', step binary64.layout Sample.mixer Sample.change = some r ∧
      r.hr = HRESULT.NOERROR ∧ run binary64.layout r.self Sample.further = some u' ∧
      Sample.mixer.valStatus = CapeValidationStatus.CAPE_VALID ∧
      r.self.valStatus = CapeValidationStatus.CAPE_NOT_VALIDATED ∧
      ∃ c, u'.Calculate = some c ∧ c.hr = HRESULT.ECapeUnknownHR ∧ c.requests = [] := by
  refine ⟨_, _, rfl, by decide!, rfl, rfl, ?_⟩
  exact parameter_change_forces_revalidation binary64.layout Sample.mixer _ Sample.change _
    Sample.further (Or.inl ⟨0, _, rfl⟩) rfl (by decide!) rfl
    (neverReportsValid_of_no_Validate _ _
      (by intro op hop message isValid h; subst h; simp [Sample.further] at hop) _)

/-! ## The error description of a failing `Calculate` -/

theorem Calls.made_append {κ : Type} (done made : Calls κ) :
    Calls.made done (done ++ made) = made := by
  simp [Calls.made]

theorem Calls.actions_nil {κ : Type} (action : κ → Option Action) :
    Calls.actions action [] = [] := rfl

theorem Calls.actions_cons {κ : Type} (action : κ → Option Action) (call : κ) (hr : Response)
    (rest : Calls κ) :
    Calls.actions action ((call, hr) :: rest) =
      (action call).toList ++ Calls.actions action rest := by
  unfold Calls.actions
  rw [List.filterMap_cons]
  cases action call <;> rfl

theorem Calls.succeeded_nil {κ : Type} : Calls.succeeded ([] : Calls κ) := by
  intro e he
  cases he

theorem Calls.succeeded_cons {κ : Type} (call : κ) (hr : Response) (rest : Calls κ) :
    Calls.succeeded ((call, hr) :: rest) ↔ hr.isSucceeded = true ∧ Calls.succeeded rest := by
  simp [Calls.succeeded]

theorem Calls.stops_single {κ : Type} (expected : κ → HostVariant → Bool) (e : κ × Response) :
    Calls.Stops expected [e] := by
  refine ⟨by simp, ?_, ?_⟩
  · intro x hx
    simp at hx
  · intro x hx
    simp at hx

theorem Calls.stops_cons {κ : Type} (expected : κ → HostVariant → Bool) (call : κ)
    (value : HostVariant) (rest : Calls κ) (h : Calls.Stops expected rest)
    (hp : expected call value = true) :
    Calls.Stops expected ((call, Response.succeeded value) :: rest) := by
  obtain ⟨hne, hs, hpr⟩ := h
  have hdrop : ((call, Response.succeeded value) :: rest).dropLast =
      (call, Response.succeeded value) :: rest.dropLast := by
    cases rest with
    | nil => exact absurd rfl hne
    | cons a l => rfl
  refine ⟨by simp, ?_, ?_⟩
  · rw [hdrop]
    intro x hx
    rcases List.mem_cons.1 hx with hx | hx
    · subst hx
      rfl
    · exact hs x hx
  · rw [hdrop]
    intro x hx v hv
    rcases List.mem_cons.1 hx with hx | hx
    · subst hx
      simp only [Response.succeeded.injEq] at hv
      subst hv
      exact hp
    · exact hpr x hx v hv

theorem Calls.stops_concat {κ : Type} (expected : κ → HostVariant → Bool) (made : Calls κ)
    (e : κ × Response) (hs : Calls.succeeded made) (hp : Calls.proper expected made) :
    Calls.Stops expected (made ++ [e]) := by
  refine ⟨by simp, ?_, ?_⟩
  · rw [List.dropLast_concat]
    exact hs
  · rw [List.dropLast_concat]
    exact hp

theorem ICapeThermoMaterialObject.action10_fraction (x : List Dbl) :
    ICapeThermoMaterialObject.action (ICapeThermoMaterialObject.SetProp
      (CBSTR.ctor (some "fraction")) (CBSTR.ctor (some "overall")) none
      (CBSTR.ctor (some "mole")) x) = some (Action.setFraction x) := rfl

theorem ICapeThermoMaterialObject.action10_totalFlow (x : Dbl) :
    ICapeThermoMaterialObject.action (ICapeThermoMaterialObject.SetProp
      (CBSTR.ctor (some "totalFlow")) (CBSTR.ctor (some "overall")) none
      (CBSTR.ctor (some "mole")) [x]) = some (Action.setTotalFlow x) := rfl

theorem ICapeThermoMaterialObject.action10_temperature (x : Dbl) :
    ICapeThermoMaterialObject.action (ICapeThermoMaterialObject.SetProp
      (CBSTR.ctor (some "temperature")) (CBSTR.ctor (some "overall")) none none [x]) =
      some (Action.setTemperature x) := rfl

theorem ICapeThermoMaterialObject.action10_pressure (x : Dbl) :
    ICapeThermoMaterialObject.action (ICapeThermoMaterialObject.SetProp
      (CBSTR.ctor (some "pressure")) (CBSTR.ctor (some "overall")) none none [x]) =
      some (Action.setPressure x) := rfl

theorem ICapeThermoMaterialObject.action10_enthalpy (x : Dbl) :
    ICapeThermoMaterialObject.action (ICapeThermoMaterialObject.SetProp
      (CBSTR.ctor (some "enthalpy")) (CBSTR.ctor (some "overall"))
      (CBSTR.ctor (some "mixture")) (CBSTR.ctor (some "mole")) [x]) =
      some (Action.setEnthalpy x) := rfl

theorem ICapeThermoMaterialObject.action10_TP :
    ICapeThermoMaterialObject.action (ICapeThermoMaterialObject.CalcEquilibrium
      (CBSTR.ctor (some "TP"))) = some Action.flashTP := rfl

theorem ICapeThermoMaterialObject.action10_PH :
    ICapeThermoMaterialObject.action (ICapeThermoMaterialObject.CalcEquilibrium
      (CBSTR.ctor (some "PH"))) = some Action.flashPH := rfl

theorem ICapeThermoMaterialObject.action10_get :
    ICapeThermoMaterialObject.action (ICapeThermoMaterialObject.GetProp
      (CBSTR.ctor (some "temperature")) (CBSTR.ctor (some "overall")) none none) =
      some Action.getTemperature := rfl

/-- Version 1.0, `SetFromFlowTPX`: the calls made are the actions of the
specification, in order, up to the first failing one; the result is success exactly
when every call succeeded, and then all five were made. -/
theorem MaterialObject10Wrapper.SetFromFlowTPX10_spec (mat : Host ICapeThermoMaterialObject)
    (done : Calls ICapeThermoMaterialObject) (composition : List Dbl) (flow T P : Dbl) :
    SetFromFlowTPX.Spec.holds ICapeThermoMaterialObject.action done
      (MaterialObject10Wrapper.SetFromFlowTPX mat done composition flow T P)
      composition flow T P := by
  unfold MaterialObject10Wrapper.SetFromFlowTPX SetFromFlowTPX.Spec.holds
  simp only
  iterate 5 (generalize mat.ask _ _ = r; (cases r <;> try simp only); rotate_left)
  all_goals
    simp only [List.append_assoc, Calls.made_append, List.singleton_append, Calls.actions_cons,
      Calls.actions_nil, Calls.succeeded_cons, Calls.succeeded_nil,
      ICapeThermoMaterialObject.action10_fraction, ICapeThermoMaterialObject.action10_totalFlow,
      ICapeThermoMaterialObject.action10_temperature, ICapeThermoMaterialObject.action10_pressure,
      ICapeThermoMaterialObject.action10_TP, SetFromFlowTPX.Spec.actions, Option.toList,
      List.cons_append, List.nil_append, List.append_nil, List.cons_prefix_cons,
      List.nil_prefix, Response.isSucceeded]
    simp
    repeat (first | exact Calls.stops_single _ _ | refine Calls.stops_cons _ _ _ _ ?_ rfl)

theorem HostVariant.CheckArrayR8_reported (value : HostVariant) (T : Dbl) :
    (∃ rest, value.CheckArrayR8 = Except.ok (T :: rest)) ↔ value.reported = some T := by
  cases value with
  | empty => simp [HostVariant.CheckArrayR8, HostVariant.reported]
  | strings cDims lBound elements => simp [HostVariant.CheckArrayR8, HostVariant.reported]
  | other => simp [HostVariant.CheckArrayR8, HostVariant.reported]
  | doubles cDims lBound elements =>
    cases elements with
    | nil =>
      simp only [HostVariant.CheckArrayR8, HostVariant.reported]
      split_ifs <;> simp
    | cons first rest =>
      simp only [HostVariant.CheckArrayR8, HostVariant.reported]
      split_ifs <;> simp_all

/-- Version 1.0, `GetTemperatureFromPHFlash`: the calls made are the actions of the
specification, in order, up to the first failing one; the result is a temperature
exactly when all five were made and the last answer reports that temperature. -/
theorem MaterialObject10Wrapper.GetTemperatureFromPHFlash10_spec
    (mat : Host ICapeThermoMaterialObject) (done : Calls ICapeThermoMaterialObject)
    (composition : List Dbl) (P H : Dbl) :
    GetTemperatureFromPHFlash.Spec.holds ICapeThermoMaterialObject.action
      ICapeThermoMaterialObject.expected done
      (MaterialObject10Wrapper.GetTemperatureFromPHFlash mat done composition P H)
      composition P H := by
  unfold MaterialObject10Wrapper.GetTemperatureFromPHFlash GetTemperatureFromPHFlash.Spec.holds
  simp only
  iterate 5 (generalize mat.ask _ _ = r; (cases r <;> try simp only); rotate_left)
  all_goals
    simp only [List.append_assoc, Calls.made_append, List.singleton_append, Calls.actions_cons,
      Calls.actions_nil, Calls.succeeded_cons, Calls.succeeded_nil,
      ICapeThermoMaterialObject.action10_fraction, ICapeThermoMaterialObject.action10_enthalpy,
      ICapeThermoMaterialObject.action10_get, ICapeThermoMaterialObject.action10_pressure,
      ICapeThermoMaterialObject.action10_PH, GetTemperatureFromPHFlash.Spec.actions,
      Option.toList,
      List.cons_append, List.nil_append, List.append_nil, List.cons_prefix_cons,
      List.nil_prefix, Response.isSucceeded]
  case succeeded v1 v2 v3 v4 v =>
    have hv := HostVariant.CheckArrayR8_reported v
    cases hc : v.CheckArrayR8 with
    | error e =>
      simp only [hc, List.append_assoc, Calls.made_append, List.singleton_append,
        Calls.actions_cons, Calls.actions_nil, Calls.succeeded_cons, Calls.succeeded_nil,
        ICapeThermoMaterialObject.action10_fraction, ICapeThermoMaterialObject.action10_enthalpy,
        ICapeThermoMaterialObject.action10_get, ICapeThermoMaterialObject.action10_pressure,
        ICapeThermoMaterialObject.action10_PH, GetTemperatureFromPHFlash.Spec.actions,
        Option.toList, List.cons_append, List.nil_append, List.append_nil,
        List.cons_prefix_cons, List.nil_prefix, Response.isSucceeded]
      simp [hc, ← hv]
      repeat (first | exact Calls.stops_single _ _ | refine Calls.stops_cons _ _ _ _ ?_ rfl)
    | ok scalar =>
      cases scalar with
      | nil =>
        simp only [hc, List.append_assoc, Calls.made_append, List.singleton_append,
        Calls.actions_cons, Calls.actions_nil, Calls.succeeded_cons, Calls.succeeded_nil,
        ICapeThermoMaterialObject.action10_fraction, ICapeThermoMaterialObject.action10_enthalpy,
        ICapeThermoMaterialObject.action10_get, ICapeThermoMaterialObject.action10_pressure,
        ICapeThermoMaterialObject.action10_PH, GetTemperatureFromPHFlash.Spec.actions,
        Option.toList, List.cons_append, List.nil_append, List.append_nil,
        List.cons_prefix_cons, List.nil_prefix, Response.isSucceeded]
        simp [hc, ← hv]
        repeat (first | exact Calls.stops_single _ _ | refine Calls.stops_cons _ _ _ _ ?_ rfl)
      | cons first rest =>
        simp only [hc, List.append_assoc, Calls.made_append, List.singleton_append,
        Calls.actions_cons, Calls.actions_nil, Calls.succeeded_cons, Calls.succeeded_nil,
        ICapeThermoMaterialObject.action10_fraction, ICapeThermoMaterialObject.action10_enthalpy,
        ICapeThermoMaterialObject.action10_get, ICapeThermoMaterialObject.action10_pressure,
        ICapeThermoMaterialObject.action10_PH, GetTemperatureFromPHFlash.Spec.actions,
        Option.toList, List.cons_append, List.nil_append, List.append_nil,
        List.cons_prefix_cons, List.nil_prefix, Response.isSucceeded]
        simp
        refine ⟨?_, ?_⟩
        · repeat (first | exact Calls.stops_single _ _ | refine Calls.stops_cons _ _ _ _ ?_ rfl)
        intro T
        constructor
        · intro h
          exact ⟨_, _, ⟨rfl, rfl⟩, (hv T).1 ⟨rest, by rw [hc, h]⟩⟩
        · rintro ⟨call, value, ⟨-, rfl⟩, h⟩
          obtain ⟨rest2, h2⟩ := (hv T).2 h
          rw [hc] at h2
          injection h2 with h2
          injection h2 with h2
  all_goals
    simp
    repeat (first | exact Calls.stops_single _ _ | refine Calls.stops_cons _ _ _ _ ?_ rfl)

theorem Calls.actions_append {κ : Type} (action : κ → Option Action) (first rest : Calls κ) :
    Calls.actions action (first ++ rest) =
      Calls.actions action first ++ Calls.actions action rest := by
  simp [Calls.actions]

theorem Calls.succeeded_append {κ : Type} (first rest : Calls κ) :
    Calls.succeeded (first ++ rest) ↔ Calls.succeeded first ∧ Calls.succeeded rest := by
  simp only [Calls.succeeded, List.mem_append]
  constructor
  · intro h
    exact ⟨fun e he => h e (Or.inl he), fun e he => h e (Or.inr he)⟩
  · rintro ⟨h1, h2⟩ e (he | he)
    · exact h1 e he
    · exact h2 e he

theorem Calls.proper_nil {κ : Type} (expected : κ → HostVariant → Bool) :
    Calls.proper expected ([] : Calls κ) := by
  intro e he
  cases he

theorem Calls.proper_cons {κ : Type} (expected : κ → HostVariant → Bool) (call : κ)
    (hr : Response) (rest : Calls κ) :
    Calls.proper expected ((call, hr) :: rest) ↔
      (∀ value, hr = Response.succeeded value → expected call value = true) ∧
        Calls.proper expected rest := by
  simp [Calls.proper]

theorem Calls.proper_append {κ : Type} (expected : κ → HostVariant → Bool)
    (first rest : Calls κ) :
    Calls.proper expected (first ++ rest) ↔
      Calls.proper expected first ∧ Calls.proper expected rest := by
  simp only [Calls.proper, List.mem_append]
  constructor
  · intro h
    exact ⟨fun e he => h e (Or.inl he), fun e he => h e (Or.inr he)⟩
  · rintro ⟨h1, h2⟩ e (he | he)
    · exact h1 e he
    · exact h2 e he

theorem ICapeThermoMaterial.action11_fraction (x : List Dbl) :
    ICapeThermoMaterial.action (ICapeThermoMaterial.SetOverallProp
      (CBSTR.ctor (some "fraction")) (CBSTR.ctor (some "mole")) x) =
      some (Action.setFraction x) := rfl

theorem ICapeThermoMaterial.action11_totalFlow (x : Dbl) :
    ICapeThermoMaterial.action (ICapeThermoMaterial.SetOverallProp
      (CBSTR.ctor (some "totalFlow")) (CBSTR.ctor (some "mole")) [x]) =
      some (Action.setTotalFlow x) := rfl

theorem ICapeThermoMaterial.action11_temperature (x : Dbl) :
    ICapeThermoMaterial.action (ICapeThermoMaterial.SetOverallProp
      (CBSTR.ctor (some "temperature")) none [x]) = some (Action.setTemperature x) := rfl

theorem ICapeThermoMaterial.action11_pressure (x : Dbl) :
    ICapeThermoMaterial.action (ICapeThermoMaterial.SetOverallProp
      (CBSTR.ctor (some "pressure")) none [x]) = some (Action.setPressure x) := rfl

theorem ICapeThermoMaterial.action11_enthalpy (x : Dbl) :
    ICapeThermoMaterial.action (ICapeThermoMaterial.SetOverallProp
      (CBSTR.ctor (some "enthalpy")) (CBSTR.ctor (some "mole")) [x]) =
      some (Action.setEnthalpy x) := rfl

theorem ICapeThermoMaterial.action11_TP :
    ICapeThermoMaterial.action (ICapeThermoMaterial.CalcEquilibrium
      [some "temperature", none, CBSTR.ctor (some "overall")]
      [some "pressure", none, CBSTR.ctor (some "overall")]
      (CBSTR.ctor (some "unspecified"))) = some Action.flashTP := rfl

theorem ICapeThermoMaterial.action11_PH :
    ICapeThermoMaterial.action (ICapeThermoMaterial.CalcEquilibrium
      [some "enthalpy", none, CBSTR.ctor (some "overall")]
      [some "pressure", none, CBSTR.ctor (some "overall")]
      (CBSTR.ctor (some "unspecified"))) = some Action.flashPH := rfl

theorem ICapeThermoMaterial.action11_get :
    ICapeThermoMaterial.action (ICapeThermoMaterial.GetOverallProp
      (CBSTR.ctor (some "temperature")) none) = some Action.getTemperature := rfl

theorem ICapeThermoMaterial.action_QueryInterface (iid : IID) :
    ICapeThermoMaterial.action (ICapeThermoMaterial.QueryInterface iid) = none := rfl

theorem ICapeThermoMaterial.action_GetPhaseList :
    ICapeThermoMaterial.action ICapeThermoMaterial.GetPhaseList = none := rfl

theorem ICapeThermoMaterial.action_SetPresentPhases (phaseLabels : List BSTR)
    (phaseStatus : List CapePhaseStatus) :
    ICapeThermoMaterial.action (ICapeThermoMaterial.SetPresentPhases phaseLabels phaseStatus) =
      none := rfl

theorem HostVariant.CheckArrayBSTR_isPhaseList (value : HostVariant) :
    (∃ labels, value.CheckArrayBSTR = Except.ok labels) ↔ value.isPhaseList = true := by
  cases value with
  | empty => simp [HostVariant.CheckArrayBSTR, HostVariant.isPhaseList]
  | doubles cDims lBound elements => simp [HostVariant.CheckArrayBSTR, HostVariant.isPhaseList]
  | other => simp [HostVariant.CheckArrayBSTR, HostVariant.isPhaseList]
  | strings cDims lBound elements =>
    simp only [HostVariant.CheckArrayBSTR, HostVariant.isPhaseList]
    split_ifs <;> simp_all

/-- The call of `CalcEquilibrium`: one call, the flash; the result is success exactly
when it succeeded. -/
theorem MaterialObject11Wrapper.calcEquilibrium_spec (w : MaterialObject11Wrapper)
    (mat : Host ICapeThermoMaterial) (done : Calls ICapeThermoMaterial)
    (flashSpec1 flashSpec2 : List BSTR) (failure : String) (a : Action)
    (ha : ICapeThermoMaterial.action (ICapeThermoMaterial.CalcEquilibrium flashSpec1 flashSpec2
      (CBSTR.ctor (some "unspecified"))) = some a) :
    ∃ made, (w.calcEquilibrium mat done flashSpec1 flashSpec2 failure).2.1 = done ++ made ∧
      made.actions ICapeThermoMaterial.action <+: [a] ∧
      ((w.calcEquilibrium mat done flashSpec1 flashSpec2 failure).2.2 = Except.ok () →
        made.actions ICapeThermoMaterial.action = [a]) ∧
      ((w.calcEquilibrium mat done flashSpec1 flashSpec2 failure).2.2 = Except.ok () ↔
        made.succeeded ∧ made.proper ICapeThermoMaterial.expected) ∧
      (w.calcEquilibrium mat done flashSpec1 flashSpec2 failure).2.2 ≠
        Except.error Abort.undefined ∧
      made.Stops ICapeThermoMaterial.expected := by
  unfold MaterialObject11Wrapper.calcEquilibrium
  simp only
  generalize mat.ask _ _ = r
  cases r with
  | failed text =>
    refine ⟨[_], rfl, ?_⟩
    simp [Calls.actions_cons, Calls.actions_nil, ha, Calls.succeeded_cons, Response.isSucceeded]
    exact Calls.stops_single _ _
  | succeeded value =>
    refine ⟨[_], rfl, ?_⟩
    simp [Calls.actions_cons, Calls.actions_nil, ha, Calls.succeeded_cons, Calls.succeeded_nil,
      Response.isSucceeded, Calls.proper_cons, Calls.proper_nil, ICapeThermoMaterial.expected]
    exact Calls.stops_single _ _

/-- The part of a flash method from the list of possible phases on: the only action is
the flash; the result is success exactly when every call succeeded and the list of
possible phases was a list of phase labels. -/
theorem MaterialObject11Wrapper.setPresentPhases_spec (w : MaterialObject11Wrapper)
    (mat : Host ICapeThermoMaterial) (done : Calls ICapeThermoMaterial) (error : String)
    (flashSpec1 flashSpec2 : List BSTR) (failure : String) (a : Action)
    (ha : ICapeThermoMaterial.action (ICapeThermoMaterial.CalcEquilibrium flashSpec1 flashSpec2
      (CBSTR.ctor (some "unspecified"))) = some a) :
    ∃ made,
      (w.setPresentPhases mat done error flashSpec1 flashSpec2 failure).2.1 = done ++ made ∧
      made.actions ICapeThermoMaterial.action <+: [a] ∧
      ((w.setPresentPhases mat done error flashSpec1 flashSpec2 failure).2.2 = Except.ok () →
        made.actions ICapeThermoMaterial.action = [a]) ∧
      ((w.setPresentPhases mat done error flashSpec1 flashSpec2 failure).2.2 = Except.ok () ↔
        made.succeeded ∧ made.proper ICapeThermoMaterial.expected) ∧
      (w.setPresentPhases mat done error flashSpec1 flashSpec2 failure).2.2 ≠
        Except.error Abort.undefined ∧
      made.Stops ICapeThermoMaterial.expected := by
  unfold MaterialObject11Wrapper.setPresentPhases
  simp only
  generalize mat.ask done _ = r1
  cases r1 with
  | failed text =>
    refine ⟨[_], rfl, ?_⟩
    simp [Calls.actions_cons, Calls.actions_nil, ICapeThermoMaterial.action_GetPhaseList,
      Calls.succeeded_cons, Response.isSucceeded]
    exact Calls.stops_single _ _
  | succeeded phaseList =>
    simp only
    have hp := HostVariant.CheckArrayBSTR_isPhaseList phaseList
    cases hc : phaseList.CheckArrayBSTR with
    | error text =>
      have hno : ¬ phaseList.isPhaseList = true := by
        rw [← hp, hc]
        simp
      refine ⟨[_], rfl, ?_⟩
      simp [Calls.actions_cons, Calls.actions_nil, ICapeThermoMaterial.action_GetPhaseList,
        Calls.succeeded_cons, Calls.succeeded_nil, Response.isSucceeded, Calls.proper_cons,
        Calls.proper_nil, ICapeThermoMaterial.expected, hno]
      exact Calls.stops_single _ _
    | ok phaseLabels =>
      have hyes : phaseList.isPhaseList = true := hp.1 ⟨_, hc⟩
      simp only
      generalize mat.ask _ _ = r2
      cases r2 with
      | failed text =>
        refine ⟨[_, _], by simp only [List.append_assoc]; rfl, ?_⟩
        simp [Calls.actions_cons, Calls.actions_nil, ICapeThermoMaterial.action_GetPhaseList,
          ICapeThermoMaterial.action_SetPresentPhases, Calls.succeeded_cons,
          Response.isSucceeded]
        exact Calls.stops_cons _ _ _ _ (Calls.stops_single _ _) hyes
      | succeeded value =>
        simp only
        cases hq : w.iEqRoutine with
        | true =>
          simp only [Bool.not_true, Bool.false_eq_true, if_false]
          obtain ⟨made, h1, h2, h3, h4, h5, h6⟩ := MaterialObject11Wrapper.calcEquilibrium_spec w mat
            (done ++ [(ICapeThermoMaterial.GetPhaseList, Response.succeeded phaseList)] ++
              [(ICapeThermoMaterial.SetPresentPhases phaseLabels
                (phaseLabels.map (fun _ => CapePhaseStatus.CAPE_UNKNOWNPHASESTATUS)),
                Response.succeeded value)]) flashSpec1 flashSpec2 failure a ha
          refine ⟨[_, _] ++ made, by rw [h1]; simp only [List.append_assoc]; rfl, ?_, ?_, ?_, h5,
            ?_⟩
          rotate_right
          · exact Calls.stops_cons _ _ _ _ (Calls.stops_cons _ _ _ _ h6 rfl) hyes
          · simpa [Calls.actions_append, Calls.actions_cons, Calls.actions_nil,
              ICapeThermoMaterial.action_GetPhaseList,
              ICapeThermoMaterial.action_SetPresentPhases] using h2
          · simpa [Calls.actions_append, Calls.actions_cons, Calls.actions_nil,
              ICapeThermoMaterial.action_GetPhaseList,
              ICapeThermoMaterial.action_SetPresentPhases] using h3
          · simpa [Calls.succeeded_append, Calls.succeeded_cons, Calls.succeeded_nil,
              Calls.proper_append, Calls.proper_cons, Calls.proper_nil, Response.isSucceeded,
              ICapeThermoMaterial.expected, hyes] using h4
        | false =>
          simp only [Bool.not_false, if_true]
          generalize mat.ask _ _ = r3
          cases r3 with
          | failed text =>
            refine ⟨[_, _, _], by simp only [List.append_assoc]; rfl, ?_⟩
            simp [Calls.actions_cons, Calls.actions_nil, ICapeThermoMaterial.action_GetPhaseList,
              ICapeThermoMaterial.action_SetPresentPhases,
              ICapeThermoMaterial.action_QueryInterface, Calls.succeeded_cons,
              Response.isSucceeded]
            exact Calls.stops_cons _ _ _ _
              (Calls.stops_cons _ _ _ _ (Calls.stops_single _ _) rfl) hyes
          | succeeded value3 =>
            simp only
            obtain ⟨made, h1, h2, h3, h4, h5, h6⟩ := MaterialObject11Wrapper.calcEquilibrium_spec
              { w with iEqRoutine := true } mat
              (done ++ [(ICapeThermoMaterial.GetPhaseList, Response.succeeded phaseList)] ++
                [(ICapeThermoMaterial.SetPresentPhases phaseLabels
                  (phaseLabels.map (fun _ => CapePhaseStatus.CAPE_UNKNOWNPHASESTATUS)),
                  Response.succeeded value)] ++
                [(ICapeThermoMaterial.QueryInterface IID.ICapeThermoEquilibriumRoutine,
                  Response.succeeded value3)]) flashSpec1 flashSpec2 failure a ha
            refine ⟨[_, _, _] ++ made, by rw [h1]; simp only [List.append_assoc]; rfl, ?_, ?_, ?_, h5,
              ?_⟩
            rotate_right
            · exact Calls.stops_cons _ _ _ _
                (Calls.stops_cons _ _ _ _ (Calls.stops_cons _ _ _ _ h6 rfl) rfl) hyes
            · simpa [Calls.actions_append, Calls.actions_cons, Calls.actions_nil,
                ICapeThermoMaterial.action_GetPhaseList,
                ICapeThermoMaterial.action_SetPresentPhases,
                ICapeThermoMaterial.action_QueryInterface] using h2
            · simpa [Calls.actions_append, Calls.actions_cons, Calls.actions_nil,
                ICapeThermoMaterial.action_GetPhaseList,
                ICapeThermoMaterial.action_SetPresentPhases,
                ICapeThermoMaterial.action_QueryInterface] using h3
            · simpa [Calls.succeeded_append, Calls.succeeded_cons, Calls.succeeded_nil,
                Calls.proper_append, Calls.proper_cons, Calls.proper_nil, Response.isSucceeded,
                ICapeThermoMaterial.expected, hyes] using h4

/-- The part of a flash method after the setting of the overall properties: the only
action is the flash; the result is success exactly when every call succeeded and the
list of possible phases was a list of phase labels. -/
theorem MaterialObject11Wrapper.flash_spec (w : MaterialObject11Wrapper)
    (mat : Host ICapeThermoMaterial) (done : Calls ICapeThermoMaterial) (error : String)
    (flashSpec1 flashSpec2 : List BSTR) (failure : String) (a : Action)
    (ha : ICapeThermoMaterial.action (ICapeThermoMaterial.CalcEquilibrium flashSpec1 flashSpec2
      (CBSTR.ctor (some "unspecified"))) = some a) :
    ∃ made,
      (w.flash mat done error flashSpec1 flashSpec2 failure).2.1 = done ++ made ∧
      made.actions ICapeThermoMaterial.action <+: [a] ∧
      ((w.flash mat done error flashSpec1 flashSpec2 failure).2.2 = Except.ok () →
        made.actions ICapeThermoMaterial.action = [a]) ∧
      ((w.flash mat done error flashSpec1 flashSpec2 failure).2.2 = Except.ok () ↔
        made.succeeded ∧ made.proper ICapeThermoMaterial.expected) ∧
      (w.flash mat done error flashSpec1 flashSpec2 failure).2.2 ≠
        Except.error Abort.undefined ∧
      made.Stops ICapeThermoMaterial.expected := by
  unfold MaterialObject11Wrapper.flash
  cases hq : w.iPhases with
  | true =>
    simp only [Bool.not_true, Bool.false_eq_true, if_false]
    exact MaterialObject11Wrapper.setPresentPhases_spec w mat done error flashSpec1 flashSpec2
      failure a ha
  | false =>
    simp only [Bool.not_false, if_true]
    generalize mat.ask done _ = r
    cases r with
    | failed text =>
      refine ⟨[_], rfl, ?_⟩
      simp [Calls.actions_cons, Calls.actions_nil, ICapeThermoMaterial.action_QueryInterface,
        Calls.succeeded_cons, Response.isSucceeded]
      exact Calls.stops_single _ _
    | succeeded value =>
      simp only
      obtain ⟨made, h1, h2, h3, h4, h5, h6⟩ := MaterialObject11Wrapper.setPresentPhases_spec
        { w with iPhases := true } mat
        (done ++ [(ICapeThermoMaterial.QueryInterface IID.ICapeThermoPhases,
          Response.succeeded value)]) error flashSpec1 flashSpec2 failure a ha
      refine ⟨[_] ++ made, by rw [h1]; simp only [List.append_assoc]; rfl, ?_, ?_, ?_, h5, ?_⟩
      rotate_right
      · exact Calls.stops_cons _ _ _ _ h6 rfl
      · simpa [Calls.actions_append, Calls.actions_cons, Calls.actions_nil,
          ICapeThermoMaterial.action_QueryInterface] using h2
      · simpa [Calls.actions_append, Calls.actions_cons, Calls.actions_nil,
          ICapeThermoMaterial.action_QueryInterface] using h3
      · simpa [Calls.succeeded_append, Calls.succeeded_cons, Calls.succeeded_nil,
          Calls.proper_append, Calls.proper_cons, Calls.proper_nil, Response.isSucceeded,
          ICapeThermoMaterial.expected] using h4

/-- Version 1.1, `SetFromFlowTPX`: the calls made are the actions of the
specification, in order, up to the first failing step, with the calls that prepare the
flash between the last setting and the flash; the result is success exactly when every
call succeeded and the list of possible phases was a list of phase labels. -/
theorem MaterialObject11Wrapper.SetFromFlowTPX11_spec (w : MaterialObject11Wrapper)
    (mat : Host ICapeThermoMaterial) (done : Calls ICapeThermoMaterial) (error : String)
    (composition : List Dbl) (flow T P : Dbl) :
    SetFromFlowTPX.Spec.amended ICapeThermoMaterial.action ICapeThermoMaterial.expected done
      (w.SetFromFlowTPX mat done error composition flow T P).2 composition flow T P := by
  unfold MaterialObject11Wrapper.SetFromFlowTPX SetFromFlowTPX.Spec.amended
  simp only
  iterate 4 (generalize mat.ask _ _ = r; (cases r <;> try simp only); rotate_left)
  case succeeded v1 v2 v3 v4 =>
    obtain ⟨made, h1, h2, h3, h4, h5, h6⟩ := MaterialObject11Wrapper.flash_spec w mat
      (done ++
        [(ICapeThermoMaterial.SetOverallProp (CBSTR.ctor (some "fraction"))
          (CBSTR.ctor (some "mole")) composition, Response.succeeded v1)] ++
        [(ICapeThermoMaterial.SetOverallProp (CBSTR.ctor (some "totalFlow"))
          (CBSTR.ctor (some "mole")) [flow], Response.succeeded v2)] ++
        [(ICapeThermoMaterial.SetOverallProp (CBSTR.ctor (some "temperature")) none [T],
          Response.succeeded v3)] ++
        [(ICapeThermoMaterial.SetOverallProp (CBSTR.ctor (some "pressure")) none [P],
          Response.succeeded v4)]) error
      [some "temperature", none, CBSTR.ctor (some "overall")]
      [some "pressure", none, CBSTR.ctor (some "overall")] "TP flash calculation failed: "
      Action.flashTP ICapeThermoMaterial.action11_TP
    rw [h1]
    simp only [List.append_assoc, List.singleton_append, List.cons_append, List.nil_append]
      at h3 h4 h5
    simp only [List.append_assoc, Calls.made_append, List.singleton_append, List.cons_append,
      List.nil_append, Calls.actions_cons, Calls.actions_nil, Calls.succeeded_cons,
      Calls.proper_cons, ICapeThermoMaterial.action11_fraction,
      ICapeThermoMaterial.action11_totalFlow, ICapeThermoMaterial.action11_temperature,
      ICapeThermoMaterial.action11_pressure, SetFromFlowTPX.Spec.actions, Option.toList,
      List.cons_prefix_cons, Response.isSucceeded, ICapeThermoMaterial.expected,
      List.cons.injEq, true_and, implies_true]
    exact ⟨h2, Calls.stops_cons _ _ _ _ (Calls.stops_cons _ _ _ _
      (Calls.stops_cons _ _ _ _ (Calls.stops_cons _ _ _ _ h6 rfl) rfl) rfl) rfl, h3, h4, h5⟩
  all_goals
    simp only [List.append_assoc, Calls.made_append, List.singleton_append, Calls.actions_cons,
      Calls.actions_nil, Calls.succeeded_cons, Calls.succeeded_nil,
      ICapeThermoMaterial.action11_fraction, ICapeThermoMaterial.action11_totalFlow,
      ICapeThermoMaterial.action11_temperature, ICapeThermoMaterial.action11_pressure,
      SetFromFlowTPX.Spec.actions, Option.toList,
      List.cons_append, List.nil_append, List.append_nil, List.cons_prefix_cons,
      List.nil_prefix, Response.isSucceeded]
    simp
    repeat (first | exact Calls.stops_single _ _ | refine Calls.stops_cons _ _ _ _ ?_ rfl)

theorem Calls.getLast_made {κ : Type} (a b c last : κ × Response) (made : Calls κ) :
    (a :: b :: c :: (made ++ [last])).getLast? = some last := by
  rw [show a :: b :: c :: (made ++ [last]) = (a :: b :: c :: made) ++ [last] from rfl]
  exact List.getLast?_concat _

/-- Version 1.1, `GetTemperatureFromPHFlash`: the calls made are the actions of the
specification, in order, up to the first failing step, with the calls that prepare the
flash between the last setting and the flash; the result is a temperature exactly when
all five were made and the last answer reports that temperature. -/
theorem MaterialObject11Wrapper.GetTemperatureFromPHFlash11_spec (w : MaterialObject11Wrapper)
    (mat : Host ICapeThermoMaterial) (done : Calls ICapeThermoMaterial) (error : String)
    (composition : List Dbl) (P H : Dbl) :
    GetTemperatureFromPHFlash.Spec.holds ICapeThermoMaterial.action
      ICapeThermoMaterial.expected done
      (w.GetTemperatureFromPHFlash mat done error composition P H).2 composition P H := by
  unfold MaterialObject11Wrapper.GetTemperatureFromPHFlash GetTemperatureFromPHFlash.Spec.holds
  simp only
  iterate 3 (generalize mat.ask _ _ = r; (cases r <;> try simp only); rotate_left)
  case succeeded v1 v2 v3 =>
    obtain ⟨made, h1, h2, h3, h4, h5, h6⟩ := MaterialObject11Wrapper.flash_spec w mat
      (done ++
        [(ICapeThermoMaterial.SetOverallProp (CBSTR.ctor (some "fraction"))
          (CBSTR.ctor (some "mole")) composition, Response.succeeded v1)] ++
        [(ICapeThermoMaterial.SetOverallProp (CBSTR.ctor (some "pressure")) none [P],
          Response.succeeded v2)] ++
        [(ICapeThermoMaterial.SetOverallProp (CBSTR.ctor (some "enthalpy"))
          (CBSTR.ctor (some "mole")) [H], Response.succeeded v3)]) error
      [some "enthalpy", none, CBSTR.ctor (some "overall")]
      [some "pressure", none, CBSTR.ctor (some "overall")] "PH flash calculation failed: "
      Action.flashPH ICapeThermoMaterial.action11_PH
    generalize w.flash mat _ error _ _ _ = fr at h1 h3 h4 h5 ⊢
    obtain ⟨w2, trace, result⟩ := fr
    simp only at h1 h3 h4 h5
    subst h1
    cases result with
    | error e =>
      simp only [List.append_assoc, Calls.made_append, List.singleton_append, List.cons_append,
        List.nil_append, Calls.actions_cons, Calls.actions_nil,
        ICapeThermoMaterial.action11_fraction, ICapeThermoMaterial.action11_enthalpy,
        ICapeThermoMaterial.action11_pressure, GetTemperatureFromPHFlash.Spec.actions,
        Option.toList, List.cons_prefix_cons, List.cons.injEq, true_and, reduceCtorEq,
        false_iff, not_and, false_implies, implies_true, and_true]
      refine ⟨h2.trans ⟨[Action.getTemperature], rfl⟩,
        Calls.stops_cons _ _ _ _ (Calls.stops_cons _ _ _ _ (Calls.stops_cons _ _ _ _ h6 rfl) rfl)
          rfl, ?_, ?_⟩
      · intro hs hp
        have hs2 : Calls.succeeded made := fun x hx => hs x (by simp [hx])
        have hp2 : Calls.proper ICapeThermoMaterial.expected made :=
          fun x hx => hp x (by simp [hx])
        cases h4.2 ⟨hs2, hp2⟩
      · intro T hfull
        have hlen := h2.length_le
        rw [hfull] at hlen
        simp at hlen
    | ok u =>
      have hacts := h3 rfl
      have hsucc := (h4.1 rfl).1
      have hprop := (h4.1 rfl).2
      have hstops : ∀ e : ICapeThermoMaterial × Response,
          Calls.Stops ICapeThermoMaterial.expected
            ((ICapeThermoMaterial.SetOverallProp (CBSTR.ctor (some "fraction"))
                (CBSTR.ctor (some "mole")) composition, Response.succeeded v1) ::
              (ICapeThermoMaterial.SetOverallProp (CBSTR.ctor (some "pressure")) none [P],
                Response.succeeded v2) ::
              (ICapeThermoMaterial.SetOverallProp (CBSTR.ctor (some "enthalpy"))
                (CBSTR.ctor (some "mole")) [H], Response.succeeded v3) :: (made ++ [e])) :=
        fun e => Calls.stops_cons _ _ _ _ (Calls.stops_cons _ _ _ _
          (Calls.stops_cons _ _ _ _ (Calls.stops_concat _ made e hsucc hprop) rfl) rfl) rfl
      simp only
      generalize mat.ask _ _ = r
      cases r with
      | failed text =>
        simp only [List.append_assoc, Calls.made_append, List.singleton_append,
          List.cons_append, List.nil_append, Calls.actions_cons, Calls.actions_nil,
          Calls.actions_append, hacts,
          ICapeThermoMaterial.action11_fraction, ICapeThermoMaterial.action11_enthalpy,
          ICapeThermoMaterial.action11_pressure, ICapeThermoMaterial.action11_get,
          GetTemperatureFromPHFlash.Spec.actions, Option.toList, Calls.getLast_made]
        simp
        exact hstops _
      | succeeded v =>
        have hv := HostVariant.CheckArrayR8_reported v
        simp only
        cases hc : v.CheckArrayR8 with
        | error e =>
          simp only [List.append_assoc, Calls.made_append, List.singleton_append,
            List.cons_append, List.nil_append, Calls.actions_cons, Calls.actions_nil,
            Calls.actions_append, hacts,
            ICapeThermoMaterial.action11_fraction, ICapeThermoMaterial.action11_enthalpy,
            ICapeThermoMaterial.action11_pressure, ICapeThermoMaterial.action11_get,
            GetTemperatureFromPHFlash.Spec.actions, Option.toList, Calls.getLast_made]
          simp [hc, ← hv]
          exact hstops _
        | ok scalar =>
          cases scalar with
          | nil =>
            simp only [List.append_assoc, Calls.made_append, List.singleton_append,
              List.cons_append, List.nil_append, Calls.actions_cons, Calls.actions_nil,
              Calls.actions_append, hacts,
              ICapeThermoMaterial.action11_fraction, ICapeThermoMaterial.action11_enthalpy,
              ICapeThermoMaterial.action11_pressure, ICapeThermoMaterial.action11_get,
              GetTemperatureFromPHFlash.Spec.actions, Option.toList, Calls.getLast_made]
            simp [hc, ← hv]
            exact hstops _
          | cons first rest =>
            simp only [List.append_assoc, Calls.made_append, List.singleton_append,
              List.cons_append, List.nil_append, Calls.actions_cons, Calls.actions_nil,
              Calls.actions_append, hacts,
              ICapeThermoMaterial.action11_fraction, ICapeThermoMaterial.action11_enthalpy,
              ICapeThermoMaterial.action11_pressure, ICapeThermoMaterial.action11_get,
              GetTemperatureFromPHFlash.Spec.actions, Option.toList, Calls.getLast_made,
              Calls.succeeded_cons, Calls.succeeded_append, Calls.succeeded_nil,
              Response.isSucceeded]
            simp only [List.prefix_refl, Except.ok.injEq, Option.some.injEq, Prod.mk.injEq,
              Response.succeeded.injEq, true_and, and_true, hsucc, implies_true]
            refine ⟨hstops _, ?_⟩
            intro T
            constructor
            · intro h
              exact ⟨_, _, ⟨rfl, rfl⟩, (hv T).1 ⟨rest, by rw [hc, h]⟩⟩
            · rintro ⟨call, value, ⟨-, rfl⟩, h⟩
              obtain ⟨rest2, h2⟩ := (hv T).2 h
              rw [hc] at h2
              injection h2 with h2
              injection h2 with h2
  all_goals
    simp only [List.append_assoc, Calls.made_append, List.singleton_append, Calls.actions_cons,
      Calls.actions_nil, Calls.succeeded_cons, Calls.succeeded_nil,
      ICapeThermoMaterial.action11_fraction, ICapeThermoMaterial.action11_enthalpy,
      ICapeThermoMaterial.action11_pressure,
      GetTemperatureFromPHFlash.Spec.actions, Option.toList,
      List.cons_append, List.nil_append, List.append_nil, List.cons_prefix_cons,
      List.nil_prefix, Response.isSucceeded]
    simp
    repeat (first | exact Calls.stops_single _ _ | refine Calls.stops_cons _ _ _ _ ?_ rfl)

/-- C20 (as amended): for every host object, every state of the wrapper and all
arguments, `SetFromFlowTPX` of both versions sets the overall mole fraction, the total
flow on mole basis, the temperature and the pressure and then requests a
temperature-pressure flash, in this order and up to the first step that fails; the
version 1.0 method returns true if and only if every call succeeded, the version 1.1
method if and only if every call succeeded and the list of possible phases the host
returned is no value or a one-dimensional array of strings from index 0.
`GetTemperatureFromPHFlash` of both versions sets the overall mole fraction, the
pressure and the molar enthalpy, requests a pressure-enthalpy flash and gets the
overall temperature, and returns the temperature the answer to that last call
reports. -/
theorem wrappers_uniform (mat10 : Host ICapeThermoMaterialObject)
    (done10 : Calls ICapeThermoMaterialObject) (w : MaterialObject11Wrapper)
    (mat11 : Host ICapeThermoMaterial) (done11 : Calls ICapeThermoMaterial) (error : String)
    (composition : List Dbl) (flow T P H : Dbl) :
    SetFromFlowTPX.Spec.holds ICapeThermoMaterialObject.action done10
      (MaterialObject10Wrapper.SetFromFlowTPX mat10 done10 composition flow T P)
      composition flow T P ∧
    SetFromFlowTPX.Spec.amended ICapeThermoMaterial.action ICapeThermoMaterial.expected done11
      (w.SetFromFlowTPX mat11 done11 error composition flow T P).2 composition flow T P ∧
    GetTemperatureFromPHFlash.Spec.holds ICapeThermoMaterialObject.action
      ICapeThermoMaterialObject.expected done10
      (MaterialObject10Wrapper.GetTemperatureFromPHFlash mat10 done10 composition P H)
      composition P H ∧
    GetTemperatureFromPHFlash.Spec.holds ICapeThermoMaterial.action
      ICapeThermoMaterial.expected done11
      (w.GetTemperatureFromPHFlash mat11 done11 error composition P H).2 composition P H :=
  ⟨MaterialObject10Wrapper.SetFromFlowTPX10_spec mat10 done10 composition flow T P,
    MaterialObject11Wrapper.SetFromFlowTPX11_spec w mat11 done11 error composition flow T P,
    MaterialObject10Wrapper.GetTemperatureFromPHFlash10_spec mat10 done10 composition P H,
    MaterialObject11Wrapper.GetTemperatureFromPHFlash11_spec w mat11 done11 error composition P H⟩

/-- On the sample hosts of both versions, all of whose calls succeed and of which the
version 1.1 host returns no list of possible phases, the four methods behave as stated,
`SetFromFlowTPX` returns true and `GetTemperatureFromPHFlash` returns the 350 K the
host reports. -/
theorem wrappers_uniform_witness :
    (SetFromFlowTPX.Spec.holds ICapeThermoMaterialObject.action []
      (MaterialObject10Wrapper.SetFromFlowTPX Sample.host10 [] [Dbl.fin 1] (Dbl.fin 2)
        (Dbl.fin 300) (Dbl.fin 101325))
      [Dbl.fin 1] (Dbl.fin 2) (Dbl.fin 300) (Dbl.fin 101325) ∧
    SetFromFlowTPX.Spec.amended ICapeThermoMaterial.action ICapeThermoMaterial.expected []
      (MaterialObject11Wrapper.ctor.SetFromFlowTPX (Sample.host11 HostVariant.empty) [] ""
        [Dbl.fin 1] (Dbl.fin 2) (Dbl.fin 300) (Dbl.fin 101325)).2
      [Dbl.fin 1] (Dbl.fin 2) (Dbl.fin 300) (Dbl.fin 101325) ∧
    GetTemperatureFromPHFlash.Spec.holds ICapeThermoMaterialObject.action
      ICapeThermoMaterialObject.expected []
      (MaterialObject10Wrapper.GetTemperatureFromPHFlash Sample.host10 [] [Dbl.fin 1]
        (Dbl.fin 101325) (Dbl.fin 1500))
      [Dbl.fin 1] (Dbl.fin 101325) (Dbl.fin 1500) ∧
    GetTemperatureFromPHFlash.Spec.holds ICapeThermoMaterial.action
      ICapeThermoMaterial.expected []
      (MaterialObject11Wrapper.ctor.GetTemperatureFromPHFlash (Sample.host11 HostVariant.empty)
        [] "" [Dbl.fin 1] (Dbl.fin 101325) (Dbl.fin 1500)).2
      [Dbl.fin 1] (Dbl.fin 101325) (Dbl.fin 1500)) ∧
    (MaterialObject10Wrapper.SetFromFlowTPX Sample.host10 [] [Dbl.fin 1] (Dbl.fin 2)
      (Dbl.fin 300) (Dbl.fin 101325)).2 = Except.ok () ∧
    (MaterialObject11Wrapper.ctor.SetFromFlowTPX (Sample.host11 HostVariant.empty) [] ""
      [Dbl.fin 1] (Dbl.fin 2) (Dbl.fin 300) (Dbl.fin 101325)).2.2 = Except.ok () ∧
    (MaterialObject10Wrapper.GetTemperatureFromPHFlash Sample.host10 [] [Dbl.fin 1]
      (Dbl.fin 101325) (Dbl.fin 1500)).2 = Except.ok (Dbl.fin 350) ∧
    (MaterialObject11Wrapper.ctor.GetTemperatureFromPHFlash (Sample.host11 HostVariant.empty)
      [] "" [Dbl.fin 1] (Dbl.fin 101325) (Dbl.fin 1500)).2.2 = Except.ok (Dbl.fin 350) :=
  ⟨wrappers_uniform Sample.host10 [] MaterialObject11Wrapper.ctor
      (Sample.host11 HostVariant.empty) [] "" [Dbl.fin 1] (Dbl.fin 2) (Dbl.fin 300)
      (Dbl.fin 101325) (Dbl.fin 1500),
    by with_unfolding_all rfl, by with_unfolding_all rfl, by with_unfolding_all rfl,
    by with_unfolding_all rfl⟩

/-- C20 as worded fails for version 1.1: on a host all of whose calls succeed and that
returns the list of possible phases in an array with indices from 1, `SetFromFlowTPX`
stops at the check of the list and returns false, although every host call
succeeded. -/
theorem SetFromFlowTPX_rejects_phase_list :
    (MaterialObject11Wrapper.ctor.SetFromFlowTPX (Sample.host11 Sample.phaseListFrom1) [] ""
      [Dbl.fin 1] (Dbl.fin 2) (Dbl.fin 300) (Dbl.fin 101325)).2.2 =
      Except.error (Abort.error ("Invalid list of possible phases from material object: " ++
        "unexpected lower bound; expected zero")) ∧
    (Calls.made [] (MaterialObject11Wrapper.ctor.SetFromFlowTPX
      (Sample.host11 Sample.phaseListFrom1) [] ""
      [Dbl.fin 1] (Dbl.fin 2) (Dbl.fin 300) (Dbl.fin 101325)).2.1).succeeded ∧
    ¬ SetFromFlowTPX.Spec.holds ICapeThermoMaterial.action []
      (MaterialObject11Wrapper.ctor.SetFromFlowTPX (Sample.host11 Sample.phaseListFrom1) [] ""
        [Dbl.fin 1] (Dbl.fin 2) (Dbl.fin 300) (Dbl.fin 101325)).2
      [Dbl.fin 1] (Dbl.fin 2) (Dbl.fin 300) (Dbl.fin 101325) := by
  have hresult : (MaterialObject11Wrapper.ctor.SetFromFlowTPX
      (Sample.host11 Sample.phaseListFrom1) [] ""
      [Dbl.fin 1] (Dbl.fin 2) (Dbl.fin 300) (Dbl.fin 101325)).2.2 =
      Except.error (Abort.error ("Invalid list of possible phases from material object: " ++
        "unexpected lower bound; expected zero")) := by
    rfl
  have hmade : (Calls.made [] (MaterialObject11Wrapper.ctor.SetFromFlowTPX
      (Sample.host11 Sample.phaseListFrom1) [] ""
      [Dbl.fin 1] (Dbl.fin 2) (Dbl.fin 300) (Dbl.fin 101325)).2.1).succeeded := by
    have htrace : Calls.made [] (MaterialObject11Wrapper.ctor.SetFromFlowTPX
        (Sample.host11 Sample.phaseListFrom1) [] ""
        [Dbl.fin 1] (Dbl.fin 2) (Dbl.fin 300) (Dbl.fin 101325)).2.1 =
        [(ICapeThermoMaterial.SetOverallProp (some "fraction") (some "mole") [Dbl.fin 1],
            Response.succeeded HostVariant.empty),
          (ICapeThermoMaterial.SetOverallProp (some "totalFlow") (some "mole") [Dbl.fin 2],
            Response.succeeded HostVariant.empty),
          (ICapeThermoMaterial.SetOverallProp (some "temperature") none [Dbl.fin 300],
            Response.succeeded HostVariant.empty),
          (ICapeThermoMaterial.SetOverallProp (some "pressure") none [Dbl.fin 101325],
            Response.succeeded HostVariant.empty),
          (ICapeThermoMaterial.QueryInterface IID.ICapeThermoPhases,
            Response.succeeded HostVariant.empty),
          (ICapeThermoMaterial.GetPhaseList, Response.succeeded Sample.phaseListFrom1)] := by
      rfl
    rw [htrace]
    simp [Calls.succeeded, Response.isSucceeded]
  refine ⟨hresult, hmade, ?_⟩
  rintro ⟨-, -, -, -, hiff, -⟩
  have hok := hiff.2 hmade
  rw [hresult] at hok
  cases hok

/-! ## Loading -/

/-- `Load` on a stream with a newer version tag returns `E_FAIL` and leaves the unit
operation as it was. -/
theorem Load_newer_version (L : DoubleLayout) (u : CCPPMixerSplitterUnitOperation)
    (pstm : List Nat) (h4 : 4 ≤ pstm.length)
    (hv : UINT.ofBytes (pstm.take 4) > CURRENTFILEVERSIONNUMBER) :
    Load L u (some pstm) = some { hr := HRESULT.E_FAIL, self := u, pstm := pstm.drop 4 } := by
  have hlen : (pstm.take 4).length = 4 := by
    rw [List.length_take]
    omega
  simp [Load, IStream.Read, hlen, hv]

/-- A stream that announces a name of 2^32 - 1 characters does not contain the name in
full.  In `Load` the size `length+1` of the buffer wraps to 0, no byte is asked for,
the read is complete, and the assignment of the buffer to the name reads past the
buffer: the call has no defined result, and does not return `E_FAIL`. -/
theorem Load_length_wraps_to_zero :
    Load.Spec.succeeds Sample.streamLongestName = false ∧
    (Load binary64.layout ctor (some Sample.streamLongestName)).isNone = true := by
  decide!

/-- C16, at its failing input.  The stream announces a name of 2^31 characters and
holds one: it does not contain the name in full, and is well formed from there on.
The number of bytes `Load` asks for, `2*(length+1)`, wraps to 2, the read is complete
and `Load` returns `S_OK` with an empty name, where it is to return `E_FAIL`. -/
theorem Load_length_wraps :
    Load.Spec.succeeds Sample.streamLongName = false ∧
    (Load binary64.layout ctor (some Sample.streamLongName)).map
      (fun r => (r.hr, r.self.name, r.self.description, r.pstm)) =
    some (HRESULT.S_OK, "", "", []) := by
  decide!

/-! ## Samples -/

/-- On the port collection of a new unit operation, the integer identifier 3 gives the
item at position 2, and the string identifier "feed 2" gives the port "Feed 2", the
item at position 1. -/
theorem Item_lookup_ports :
    (∃ r, ctor.portCollection.Item CMaterialPort.toCAPEOPENBaseObject
        { vt := VARTYPE.VT_I4, bstrVal := none, changeTypeR8 := some (Dbl.fin 3),
          changeTypeI4 := some 3 } (some none) = some r ∧
      r.hr = HRESULT.NOERROR ∧ r.self = ctor.portCollection ∧
      ∃ item, ctor.portCollection.items[(3 - 1 : Int).toNat]? = some item ∧
        r.Item = some (some item)) ∧
    (∃ r, ctor.portCollection.Item CMaterialPort.toCAPEOPENBaseObject
        { vt := VARTYPE.VT_BSTR, bstrVal := some "feed 2", changeTypeR8 := none,
          changeTypeI4 := none } (some none) = some r ∧
      r.hr = HRESULT.NOERROR ∧ r.self = ctor.portCollection ∧
      r.Item = some (some (CMaterialPort.CreateMaterialPort "Feed 2"
        "Feed port for CPP Mixer Splitter Unit Operation example"
        CapePortDirection.CAPE_INLET))) := by
  constructor
  · obtain ⟨r, hr, hin, -, -⟩ := (Item_lookup CMaterialPort.toCAPEOPENBaseObject
      ctor.portCollection
      { vt := VARTYPE.VT_I4, bstrVal := none, changeTypeR8 := some (Dbl.fin 3),
        changeTypeI4 := some 3 } none).1 3 (by decide) rfl (by decide)
    exact ⟨r, hr, hin (by decide) (by decide)⟩
  · obtain ⟨r, hr, hin, -⟩ := (Item_lookup CMaterialPort.toCAPEOPENBaseObject
      ctor.portCollection
      { vt := VARTYPE.VT_BSTR, bstrVal := some "feed 2", changeTypeR8 := none,
        changeTypeI4 := none } none).2.1 rfl
    refine ⟨r, hr, hin 1 _ rfl ?_ ?_⟩
    · show lowerW "feed 2" = lowerW "Feed 2"
      decide
    · intro j other hj hother
      have h0 : j = 0 := by omega
      subst h0
      have hfirst : ctor.portCollection.items[0]? = some (CMaterialPort.CreateMaterialPort
          "Feed 1" "Feed port for CPP Mixer Splitter Unit Operation example"
          CapePortDirection.CAPE_INLET) := rfl
      rw [hfirst] at hother
      cases hother
      show ¬ lowerW "feed 2" = lowerW "Feed 1"
      decide

/-- C19, at its failing input.  For the integer identifier -2^31, the least `int`, the
conversion `lVal-1` to the 0-based index overflows: `Item` on the port collection of a
new unit operation has no defined result, and so does not fail with "Requested item
not found", as it does for the next integer, -2^31 + 1. -/
theorem Item_least_integer :
    (ctor.portCollection.Item CMaterialPort.toCAPEOPENBaseObject
      { vt := VARTYPE.VT_I4, bstrVal := none, changeTypeR8 := some (Dbl.fin (-2147483648)),
        changeTypeI4 := some (-2147483648) } (some none)).isNone = true ∧
    (ctor.portCollection.Item CMaterialPort.toCAPEOPENBaseObject
      { vt := VARTYPE.VT_I4, bstrVal := none, changeTypeR8 := some (Dbl.fin (-2147483647)),
        changeTypeI4 := some (-2147483647) } (some none)).map
      (fun r => (r.hr, r.self.errDesc)) =
      some (HRESULT.ECapeUnknownHR, "Requested item not found") := by
  decide

/-! ## The failure texts of the wrappers -/

/-- The unit operation after `Save`: with the dirty flags cleared after a successful
`Save` with `fClearDirty` true, and as before in every other case. -/
theorem Save_self (L : DoubleLayout) (u : CCPPMixerSplitterUnitOperation)
    (pstm : Option IStream) (fClearDirty : Bool) (r : SaveResult)
    (h : u.Save L pstm fClearDirty = some r) :
    r.self = if r.hr = HRESULT.S_OK ∧ fClearDirty = true then
        { u with
          dirty := false
          parameterCollection := { u.parameterCollection with
            items := u.parameterCollection.items.map (fun par => { par with dirty := false }) } }
      else u := by
  unfold Save at h
  cases pstm with
  | none => cases h; simp
  | some pstm =>
    simp only at h
    repeat' (first | split at h | split_ifs at h)
    all_goals first
      | (cases h; simp_all)
      | cases h

/-- C21. A newly constructed unit operation is not dirty.  `IsDirty` returns `S_OK`
if the dirty flag of the unit operation or of one of its parameters is set, and
`S_FALSE` if none is.  After a successful `Save` with `fClearDirty` true, `IsDirty`
returns `S_FALSE`; after a `Save` with `fClearDirty` false, successful or not, and
after a `Save` that fails, `IsDirty` returns what it returned before. -/
theorem dirty_tracking (L : DoubleLayout) (u : CCPPMixerSplitterUnitOperation)
    (pstm : Option IStream) (fClearDirty : Bool) (r : SaveResult)
    (h : u.Save L pstm fClearDirty = some r) :
    ctor.IsDirty.hr = HRESULT.S_FALSE ∧
    (u.IsDirty.hr = HRESULT.S_OK ↔
      (u.dirty = true ∨ ∃ par ∈ u.parameterCollection.items, par.dirty = true)) ∧
    (u.IsDirty.hr ≠ HRESULT.S_OK → u.IsDirty.hr = HRESULT.S_FALSE) ∧
    (r.hr = HRESULT.S_OK → fClearDirty = true → r.self.IsDirty.hr = HRESULT.S_FALSE) ∧
    (fClearDirty = false → r.self.IsDirty.hr = u.IsDirty.hr) ∧
    (r.hr ≠ HRESULT.S_OK → r.self.IsDirty.hr = u.IsDirty.hr) := by
  have hself := Save_self L u pstm fClearDirty r h
  refine ⟨by decide, ?_, ?_, ?_, ?_, ?_⟩
  · unfold IsDirty
    simp only [Bool.or_eq_true, List.any_eq_true]
    split_ifs with hd
    · simp only [true_iff]
      rcases hd with hd | hd
      · exact Or.inr hd
      · exact Or.inl hd
    · simp only [reduceCtorEq, false_iff]
      rintro (hu | hp)
      · exact hd (Or.inr hu)
      · exact hd (Or.inl hp)
  · unfold IsDirty
    simp only
    split_ifs <;> simp
  · intro hok hc
    rw [hself, if_pos ⟨hok, hc⟩]
    simp [IsDirty]
  · intro hc
    rw [hself, if_neg (by simp [hc])]
  · intro hne
    rw [hself, if_neg (by simp [hne])]

set_option maxRecDepth 100000 in
/-- `Save` of the renamed unit operation to an empty stream without limit succeeds. -/
theorem renamed_Save (fClearDirty : Bool) :
    (Sample.renamed.Save binary64.layout (some { written := [], room := none })
      fClearDirty).map (fun r => r.hr) = some HRESULT.S_OK := by
  cases fClearDirty <;> decide!

/-- C21, for the unit operation renamed to "Mixer": it is dirty, and after a `Save`
that clears the dirty flags it is not. -/
theorem dirty_tracking_witness :
    ∃ r, Sample.renamed.Save binary64.layout (some { written := [], room := none }) true =
        some r ∧
      Sample.renamed.IsDirty.hr = HRESULT.S_OK ∧ r.hr = HRESULT.S_OK ∧
      r.self.IsDirty.hr = HRESULT.S_FALSE := by
  have hev := renamed_Save true
  cases h : Sample.renamed.Save binary64.layout (some { written := [], room := none }) true with
  | none =>
    rw [h] at hev
    cases hev
  | some r =>
    rw [h] at hev
    have hok : r.hr = HRESULT.S_OK := by simpa using hev
    exact ⟨r, rfl, by decide, hok,
      (dirty_tracking binary64.layout Sample.renamed _ true r h).2.2.2.1 hok rfl⟩

/-! ## The size of the saved form -/

/-- The number of bytes of the saved form. -/
theorem Save.Spec.bytes_length (L : DoubleLayout) (name description : String) (v0 v1 : Dbl)
    (h0 : (L.toBytes v0).length = 8) (h1 : (L.toBytes v1).length = 8) :
    (Save.Spec.bytes L name description v0 v1).length =
      GetSizeMax.Spec.size name.length description.length := by
  simp only [Save.Spec.bytes, Save.Spec.string, List.length_append, UINT.toBytes_length,
    wstring.c_str_length, h0, h1, GetSizeMax.Spec.size, List.length_cons, List.length_nil]

/-- C22. For a unit operation with a name of `n` and a description of `m` characters,
short enough for the size to be a `UINT`, `GetSizeMax` reports
`4 + (4 + 2*(n+1)) + (4 + 2*(m+1)) + 16` bytes, and a successful `Save` in this state
writes exactly this number of bytes.  A `double` has eight bytes. -/
theorem GetSizeMax_is_size_saved (L : DoubleLayout) (u : CCPPMixerSplitterUnitOperation)
    (pcbSize : Nat) (pstm : IStream) (fClearDirty : Bool) (r : SaveResult)
    (hsize : GetSizeMax.Spec.size u.name.length u.description.length < 2 ^ 32)
    (h8 : ∀ v, (L.toBytes v).length = 8)
    (hsave : u.Save L (some pstm) fClearDirty = some r) (hok : r.hr = HRESULT.S_OK) :
    u.GetSizeMax (some pcbSize) =
      (HRESULT.NOERROR, some (GetSizeMax.Spec.size u.name.length u.description.length)) ∧
    ∃ out, r.pstm = some out ∧
      out.written.length = pstm.written.length +
        GetSizeMax.Spec.size u.name.length u.description.length := by
  unfold GetSizeMax.Spec.size at hsize
  constructor
  · unfold GetSizeMax GetSizeMax.Spec.size
    simp only [Prod.mk.injEq, Option.some.injEq, true_and]
    omega
  · cases hpar : u.parameterCollection.items with
    | nil =>
      unfold Save at hsave
      simp only [hpar] at hsave
      repeat' (first | split at hsave | split_ifs at hsave)
      all_goals first
        | (cases hsave; cases hok)
        | cases hsave
    | cons par0 rest0 =>
      cases rest0 with
      | nil =>
        unfold Save at hsave
        simp only [hpar] at hsave
        repeat' (first | split at hsave | split_ifs at hsave)
        all_goals first
          | (cases hsave; cases hok)
          | cases hsave
      | cons par1 rest =>
        obtain ⟨out, hout, hw⟩ := Save_written L u pstm fClearDirty r par0 par1 rest
          (by omega) (by omega) hpar (h8 _) (h8 _) hsave hok
        refine ⟨out, hout, ?_⟩
        rw [hw, List.length_append, Save.Spec.bytes_length L _ _ _ _ (h8 _) (h8 _)]

/-- A `double` of the binary64 layout has eight bytes. -/
theorem binary64.layout_bytes_length (v : Dbl) : (binary64.layout.toBytes v).length = 8 := by
  simp [binary64.layout, binary64.bytesOf]

/-- C22, for the newly constructed unit operation, with a name of 26 and a description
of 104 characters: 292 bytes. -/
theorem GetSizeMax_is_size_saved_witness :
    ∃ r, ctor.Save binary64.layout (some { written := [], room := none }) true = some r ∧
      r.hr = HRESULT.S_OK ∧
      ctor.GetSizeMax (some 0) = (HRESULT.NOERROR, some 292) ∧
      ∃ out, r.pstm = some out ∧ out.written.length = 0 + 292 := by
  have hev := ctor_Save
  cases h : ctor.Save binary64.layout (some { written := [], room := none }) true with
  | none =>
    rw [h] at hev
    cases hev
  | some r =>
    rw [h] at hev
    have hok : r.hr = HRESULT.S_OK := by simpa using hev
    exact ⟨r, rfl, hok, GetSizeMax_is_size_saved binary64.layout ctor 0
      { written := [], room := none } true r (by decide) binary64.layout_bytes_length h hok⟩

/-! ## Renaming -/

theorem put_ComponentName_canRename (o : CAPEOPENBaseObject) (name : BSTR) :
    (o.put_ComponentName name).self.canRename = o.canRename := by
  unfold CAPEOPENBaseObject.put_ComponentName
  split_ifs
  · rfl
  · cases name with
    | none => rfl
    | some text =>
      simp only
      split_ifs <;> rfl

theorem put_ComponentDescription_canRename (o : CAPEOPENBaseObject) (desc : BSTR) :
    (o.put_ComponentDescription desc).self.canRename = o.canRename := by
  unfold CAPEOPENBaseObject.put_ComponentDescription
  split_ifs
  · rfl
  · cases desc <;> rfl

/-- One call by the host leaves it as it is whether the unit operation and its two
collections can be renamed. -/
theorem step_canRename (L : DoubleLayout) (u : CCPPMixerSplitterUnitOperation) (op : Operation)
    (r : Result) (h : step L u op = some r) :
    r.self.canRename = u.canRename ∧
    r.self.portCollection.canRename = u.portCollection.canRename ∧
    r.self.parameterCollection.canRename = u.parameterCollection.canRename := by
  cases op with
  | Calculate =>
    simp only [step, Option.map_eq_some'] at h
    obtain ⟨c, hc, rfl⟩ := h
    unfold Calculate at hc
    split_ifs at hc with h1 h2
    · cases hc; exact ⟨rfl, rfl, rfl⟩
    · cases hc; exact ⟨rfl, rfl, rfl⟩
    · split at hc
      · split at hc
        · cases hc; exact ⟨rfl, rfl, rfl⟩
        · cases hc; exact ⟨rfl, rfl, rfl⟩
        · cases hc
      · cases hc
  | Validate message isValid =>
    simp only [step, Option.some.injEq] at h
    subst h
    unfold Validate
    cases message with
    | none => exact ⟨rfl, rfl, rfl⟩
    | some m =>
      cases isValid with
      | none => exact ⟨rfl, rfl, rfl⟩
      | some v => exact ⟨rfl, rfl, rfl⟩
  | Terminate =>
    simp only [step, Option.some.injEq] at h
    subst h
    exact ⟨rfl, rfl, rfl⟩
  | Edit edits ending =>
    simp only [step] at h
    unfold Edit at h
    split at h
    · cases h; exact ⟨rfl, rfl, rfl⟩
    · cases h
  | IsDirty =>
    simp only [step, Option.some.injEq] at h
    subst h
    exact ⟨rfl, rfl, rfl⟩
  | Load pstm =>
    simp only [step, Option.map_eq_some'] at h
    obtain ⟨c, hc, rfl⟩ := h
    unfold Load at hc
    cases pstm with
    | none => cases hc; exact ⟨rfl, rfl, rfl⟩
    | some pstm =>
      simp only at hc
      repeat' (first | split at hc | split_ifs at hc)
      all_goals first
        | (cases hc; exact ⟨rfl, rfl, rfl⟩)
        | cases hc
  | Save pstm fClearDirty =>
    simp only [step, Option.map_eq_some'] at h
    obtain ⟨c, hc, rfl⟩ := h
    have hself := Save_self L u pstm fClearDirty c hc
    simp only
    rw [hself]
    split_ifs <;> exact ⟨rfl, rfl, rfl⟩
  | get_selectedReport report =>
    simp only [step, Option.some.injEq] at h
    subst h
    unfold get_selectedReport
    cases report with
    | none => exact ⟨rfl, rfl, rfl⟩
    | some old =>
      simp only
      split_ifs <;> exact ⟨rfl, rfl, rfl⟩
  | put_selectedReport report =>
    simp only [step, Option.some.injEq] at h
    subst h
    unfold put_selectedReport
    split_ifs <;> exact ⟨rfl, rfl, rfl⟩
  | ProduceReport reportContent =>
    simp only [step, Option.some.injEq] at h
    subst h
    unfold ProduceReport
    cases reportContent with
    | none => exact ⟨rfl, rfl, rfl⟩
    | some old =>
      simp only
      split_ifs <;> exact ⟨rfl, rfl, rfl⟩
  | put_ComponentName name =>
    simp only [step, Option.some.injEq] at h
    subst h
    exact ⟨put_ComponentName_canRename _ _, rfl, rfl⟩
  | put_ComponentDescription desc =>
    simp only [step, Option.some.injEq] at h
    subst h
    exact ⟨put_ComponentDescription_canRename _ _, rfl, rfl⟩
  | port i op =>
    simp only [step] at h
    cases hi : u.portCollection.items[i]? with
    | none => simp [hi] at h
    | some port =>
      simp only [hi, Option.some.injEq] at h
      subst h
      exact ⟨rfl, rfl, rfl⟩
  | parameter i op =>
    simp only [step] at h
    cases hi : u.parameterCollection.items[i]? with
    | none => simp [hi] at h
    | some par =>
      simp only [hi, Option.some.injEq] at h
      subst h
      exact ⟨rfl, rfl, rfl⟩
  | ports op =>
    simp only [step, Option.map_eq_some'] at h
    obtain ⟨c, hc, rfl⟩ := h
    refine ⟨rfl, ?_, rfl⟩
    cases op with
    | Item id Item =>
      simp only [CCollection.step, Option.map_eq_some'] at hc
      obtain ⟨a, ha, rfl⟩ := hc
      unfold CCollection.Item at ha
      split at ha
      · cases ha; rfl
      · simp only at ha
        split at ha
        · cases ha
        · split_ifs at ha <;> cases ha <;> rfl
    | put_ComponentName name =>
      cases hc
      exact put_ComponentName_canRename _ _
    | put_ComponentDescription desc =>
      cases hc
      exact put_ComponentDescription_canRename _ _
  | parameters op =>
    simp only [step, Option.map_eq_some'] at h
    obtain ⟨c, hc, rfl⟩ := h
    refine ⟨rfl, rfl, ?_⟩
    cases op with
    | Item id Item =>
      simp only [CCollection.step, Option.map_eq_some'] at hc
      obtain ⟨a, ha, rfl⟩ := hc
      unfold CCollection.Item at ha
      split at ha
      · cases ha; rfl
      · simp only at ha
        split at ha
        · cases ha
        · split_ifs at ha <;> cases ha <;> rfl
    | put_ComponentName name =>
      cases hc
      exact put_ComponentName_canRename _ _
    | put_ComponentDescription desc =>
      cases hc
      exact put_ComponentDescription_canRename _ _

/-- A sequence of calls by the host leaves it as it is whether the unit operation and
its two collections can be renamed. -/
theorem run_canRename (L : DoubleLayout) (ops : List Operation) :
    ∀ u u' : CCPPMixerSplitterUnitOperation, run L u ops = some u' →
      u'.canRename = u.canRename ∧
      u'.portCollection.canRename = u.portCollection.canRename ∧
      u'.parameterCollection.canRename = u.parameterCollection.canRename := by
  induction ops with
  | nil =>
    intro u u' h
    simp only [run, Option.some.injEq] at h
    subst h
    exact ⟨rfl, rfl, rfl⟩
  | cons op rest ih =>
    intro u u' h
    simp only [run] at h
    cases hs : step L u op with
    | none => simp [hs] at h
    | some r =>
      simp only [hs] at h
      obtain ⟨s1, s2, s3⟩ := step_canRename L u op r hs
      obtain ⟨t1, t2, t3⟩ := ih r.self u' h
      exact ⟨t1.trans s1, t2.trans s2, t3.trans s3⟩

theorem String.data_isEmpty (text : String) : text.data.isEmpty = true ↔ text = "" := by
  constructor
  · intro h
    apply String.ext
    cases hd : text.data with
    | nil => rfl
    | cons c rest => simp [hd] at h
  · intro h
    subst h
    rfl

/-- C23. `put_ComponentName` on an object succeeds exactly when the object can be
renamed and the new name is neither NULL nor empty; on success the name is the new
name and the object is dirty; on failure the CAPE-OPEN error code is returned and the
name and the dirty flag are as before.  In every state reached from the newly
constructed unit operation by calls of the host, the unit operation can be renamed and
no port, no parameter and neither collection can. -/
theorem put_ComponentName_succeeds_iff (L : DoubleLayout) (ops : List Operation)
    (u : CCPPMixerSplitterUnitOperation) (h : run L ctor ops = some u)
    (o : CAPEOPENBaseObject) (name : BSTR) :
    ((o.put_ComponentName name).hr = HRESULT.NOERROR ↔
      o.canRename = true ∧ ∃ text, name = some text ∧ text ≠ "") ∧
    (∀ text, (o.put_ComponentName name).hr = HRESULT.NOERROR → name = some text →
      (o.put_ComponentName name).self.name = text ∧
      (o.put_ComponentName name).self.dirty = true) ∧
    ((o.put_ComponentName name).hr ≠ HRESULT.NOERROR →
      (o.put_ComponentName name).hr = HRESULT.ECapeUnknownHR ∧
      (o.put_ComponentName name).self.name = o.name ∧
      (o.put_ComponentName name).self.dirty = o.dirty) ∧
    u.canRename = true ∧
    (∀ port ∈ u.portCollection.items, port.canRename = false) ∧
    (∀ par ∈ u.parameterCollection.items, par.canRename = false) ∧
    u.portCollection.canRename = false ∧
    u.parameterCollection.canRename = false := by
  have hmethod : ((o.put_ComponentName name).hr = HRESULT.NOERROR ↔
        o.canRename = true ∧ ∃ text, name = some text ∧ text ≠ "") ∧
      (∀ text, (o.put_ComponentName name).hr = HRESULT.NOERROR → name = some text →
        (o.put_ComponentName name).self.name = text ∧
        (o.put_ComponentName name).self.dirty = true) ∧
      ((o.put_ComponentName name).hr ≠ HRESULT.NOERROR →
        (o.put_ComponentName name).hr = HRESULT.ECapeUnknownHR ∧
        (o.put_ComponentName name).self.name = o.name ∧
        (o.put_ComponentName name).self.dirty = o.dirty) := by
    unfold CAPEOPENBaseObject.put_ComponentName
    cases hc : o.canRename with
    | false =>
      simp [CAPEOPENBaseObject.SetError]
    | true =>
      cases name with
      | none => simp [CAPEOPENBaseObject.SetError]
      | some text =>
        by_cases he : text.data.isEmpty = true
        · have := (String.data_isEmpty text).1 he
          simp [he, this, CAPEOPENBaseObject.SetError]
        · have hne : text ≠ "" := fun hx => he ((String.data_isEmpty text).2 hx)
          simp only [he, Bool.not_true, Bool.false_eq_true, if_false, true_and,
            Option.some.injEq, exists_eq_left', hne, not_false_eq_true, iff_true,
            ne_eq, not_true_eq_false, false_implies, and_true]
          intro t _ ht
          exact ht
  obtain ⟨c1, c2, c3⟩ := run_canRename L ops ctor u h
  obtain ⟨s1, s2⟩ := run_same L ops ctor u rfl rfl h
  refine ⟨hmethod.1, hmethod.2.1, hmethod.2.2, c1.trans rfl, ?_, ?_, c2.trans rfl, c3.trans rfl⟩
  · intro port hport
    have hmem : (port.name, port.direction, port.canRename) ∈ u.portsOf :=
      List.mem_map.2 ⟨port, hport, rfl⟩
    rw [s1, ctor_items.1] at hmem
    simp only [List.mem_cons, Prod.mk.injEq, List.mem_singleton, List.not_mem_nil,
      or_false] at hmem
    rcases hmem with h | h | h | h <;> exact h.2.2
  · intro par hpar
    have hmem : (par.name, par.minVal, par.maxVal, par.defVal, par.canRename) ∈
        u.parametersOf := List.mem_map.2 ⟨par, hpar, rfl⟩
    rw [s2, ctor_items.2] at hmem
    simp only [List.mem_cons, Prod.mk.injEq, List.mem_singleton, List.not_mem_nil,
      or_false] at hmem
    rcases hmem with h | h <;> exact h.2.2.2.2

/-- C23, for the newly constructed unit operation renamed to "Mixer", and the state
after a disconnection, a reset, an edit without change and a renaming. -/
theorem put_ComponentName_succeeds_iff_witness :
    ∃ u, run binary64.layout ctor Sample.calls = some u ∧
      (ctor.toCAPEOPENBaseObject.put_ComponentName (some "Mixer")).hr = HRESULT.NOERROR ∧
      (ctor.toCAPEOPENBaseObject.put_ComponentName (some "Mixer")).self.name = "Mixer" ∧
      (ctor.toCAPEOPENBaseObject.put_ComponentName (some "Mixer")).self.dirty = true ∧
      u.canRename = true ∧
      (∀ port ∈ u.portCollection.items, port.canRename = false) ∧
      (∀ par ∈ u.parameterCollection.items, par.canRename = false) ∧
      u.portCollection.canRename = false ∧
      u.parameterCollection.canRename = false := by
  refine ⟨_, rfl, ?_⟩
  have hw := put_ComponentName_succeeds_iff binary64.layout Sample.calls _ rfl
    ctor.toCAPEOPENBaseObject (some "Mixer")
  have hok := hw.1.2 ⟨rfl, "Mixer", rfl, by decide⟩
  exact ⟨hok, (hw.2.1 "Mixer" hok rfl).1, (hw.2.1 "Mixer" hok rfl).2, hw.2.2.2⟩


/-! ## Failing requests -/

/-- A computation that stops at a failing request and gives a value has made no
failing request. -/
theorem Traced.Stops.ok {α : Type} {failure : Request → Option String} {x : Traced α}
    (hx : Traced.Stops failure x) (a : α) (ha : x.2 = Except.ok a) :
    ∀ r ∈ x.1, failure r = none := by
  obtain ⟨l, res⟩ := x
  simp only at ha
  subst ha
  obtain ⟨h1, h2⟩ := hx
  intro r hr
  simp only at h1 h2 hr
  rcases List.eq_nil_or_concat l with hl | ⟨l', last, hl⟩
  · subst hl
    cases hr
  · subst hl
    simp only [List.concat_eq_append, List.dropLast_concat, List.getLast?_concat] at h1 h2
    simp only [List.concat_eq_append, List.mem_append, List.mem_singleton] at hr
    rcases hr with hr | hr
    · exact h1 r hr
    · subst hr
      cases hf : failure r with
      | none => rfl
      | some text =>
        have := h2 r text rfl hf
        cases this

theorem Traced.stops_ret {α : Type} (failure : Request → Option String) (a : α) :
    Traced.Stops failure (Traced.ret a) := by
  constructor
  · intro r hr
    simp [Traced.ret] at hr
  · intro r text hr
    simp [Traced.ret] at hr

theorem Traced.stops_fail {α : Type} (failure : Request → Option String) (desc : String) :
    Traced.Stops failure (Traced.fail desc : Traced α) := by
  constructor
  · intro r hr
    simp [Traced.fail] at hr
  · intro r text hr
    simp [Traced.fail] at hr

/-- Sequencing keeps the property: if the first computation stops at a failing request,
and so does the second after every value of the first. -/
theorem Traced.stops_andThen {α β : Type} (failure : Request → Option String)
    (x : Traced α) (f : α → Traced β) (hx : Traced.Stops failure x)
    (hf : ∀ a, x.2 = Except.ok a → Traced.Stops failure (f a)) :
    Traced.Stops failure (Traced.andThen x f) := by
  have hall := fun a ha => Traced.Stops.ok hx a ha
  obtain ⟨l, res⟩ := x
  cases res with
  | error e =>
    refine ⟨hx.1, ?_⟩
    intro r text hr hfail
    have := hx.2 r text hr hfail
    simp only [Except.error.injEq] at this
    subst this
    rfl
  | ok a =>
    have hfa := hf a rfl
    have hl := hall a rfl
    simp only at hl
    simp only [Traced.andThen]
    generalize f a = y at hfa
    obtain ⟨l2, res2⟩ := y
    obtain ⟨h1, h2⟩ := hfa
    simp only at h1 h2
    rcases List.eq_nil_or_concat l2 with hl2 | ⟨l2', last, hl2⟩
    · subst hl2
      constructor
      · intro r hr
        simp only [List.append_nil] at hr
        exact hl r (List.mem_of_mem_dropLast hr)
      · intro r text hr hfail
        simp only [List.append_nil] at hr
        have hmem : r ∈ l := List.mem_of_getLast?_eq_some hr
        rw [hl r hmem] at hfail
        cases hfail
    · subst hl2
      simp only [List.concat_eq_append, List.dropLast_concat, List.getLast?_concat] at h1 h2
      constructor
      · intro r hr
        simp only [List.concat_eq_append, ← List.append_assoc, List.dropLast_concat,
          List.mem_append] at hr
        rcases hr with hr | hr
        · exact hl r hr
        · exact h1 r hr
      · intro r text hr hfail
        simp only [List.concat_eq_append, ← List.append_assoc, List.getLast?_concat] at hr
        exact h2 r text hr hfail

/-- A request followed by the check of its answer: the computation stops at a failing
request if the request fails exactly when the host fails or the check of the value
gives a text, the computation stops with that text, and the rest stops at a failing
request. -/
theorem Traced.stops_call_andThen {α β : Type} (failure : Request → Option String)
    (req : Request) (answer : Except String α) (f : α → Traced β) (check : α → Option String)
    (hS : failure req = Request.textOf answer check)
    (hbad : ∀ a text, answer = Except.ok a → check a = some text →
      f a = ([], Except.error (Abort.error text)))
    (hgood : ∀ a, answer = Except.ok a → check a = none → Traced.Stops failure (f a)) :
    Traced.Stops failure (Traced.andThen (Traced.call req answer) f) := by
  cases answer with
  | error desc =>
    simp only [Traced.call, Traced.andThen]
    constructor
    · intro r hr
      simp at hr
    · intro r text hr hfail
      simp only [List.getLast?_singleton, Option.some.injEq] at hr
      subst hr
      rw [hS] at hfail
      simp only [Request.textOf, Option.some.injEq] at hfail
      subst hfail
      rfl
  | ok a =>
    simp only [Traced.call, Traced.andThen]
    cases hc : check a with
    | some text =>
      rw [hbad a text rfl hc]
      constructor
      · intro r hr
        simp at hr
      · intro r text2 hr hfail
        simp only [List.append_nil, List.getLast?_singleton, Option.some.injEq] at hr
        subst hr
        rw [hS] at hfail
        simp only [Request.textOf, hc, Option.some.injEq] at hfail
        subst hfail
        rfl
    | none =>
      have hreq : failure req = none := by
        rw [hS]
        simp only [Request.textOf, hc]
      obtain ⟨h1, h2⟩ := hgood a rfl hc
      generalize f a = y at h1 h2
      obtain ⟨l2, res2⟩ := y
      simp only at h1 h2
      rcases List.eq_nil_or_concat l2 with hl2 | ⟨l2', last, hl2⟩
      · subst hl2
        constructor
        · intro r hr
          simp at hr
        · intro r text hr hfail
          simp only [List.append_nil, List.getLast?_singleton, Option.some.injEq] at hr
          subst hr
          rw [hreq] at hfail
          cases hfail
      · subst hl2
        simp only [List.concat_eq_append, List.dropLast_concat, List.getLast?_concat] at h1 h2
        constructor
        · intro r hr
          simp only [List.concat_eq_append, ← List.append_assoc, List.dropLast_concat,
            List.mem_append, List.mem_singleton] at hr
          rcases hr with hr | hr
          · subst hr
            exact hreq
          · exact h1 r hr
        · intro r text hr hfail
          simp only [List.concat_eq_append, ← List.append_assoc, List.getLast?_concat] at hr
          exact h2 r text hr hfail

/-- A single request whose answer is not checked. -/
theorem Traced.stops_call {α : Type} (failure : Request → Option String)
    (req : Request) (answer : Except String α)
    (hS : failure req = Request.textOf answer (fun _ => none)) :
    Traced.Stops failure (Traced.call req answer) := by
  cases answer with
  | error desc =>
    simp only [Traced.call]
    constructor
    · intro r hr
      simp at hr
    · intro r text hr hfail
      simp only [List.getLast?_singleton, Option.some.injEq] at hr
      subst hr
      rw [hS] at hfail
      simp only [Request.textOf, Option.some.injEq] at hfail
      subst hfail
      rfl
  | ok a =>
    simp only [Traced.call]
    constructor
    · intro r hr
      simp at hr
    · intro r text hr hfail
      simp only [List.getLast?_singleton, Option.some.injEq] at hr
      subst hr
      rw [hS] at hfail
      simp only [Request.textOf] at hfail
      cases hfail

theorem Request.unexpected_fraction (n : Nat) (value : List Dbl) :
    Request.unexpected n "fraction" value =
      if value.length ≠ n then
        some ("Invalid values for overall fraction from material object: " ++
          "unexpected number of values")
      else none := by
  unfold Request.unexpected
  rw [if_pos rfl]
  rfl

theorem Request.unexpected_pressure (n : Nat) (value : List Dbl) :
    Request.unexpected n "pressure" value =
      if value.length ≠ 1 then
        some "Invalid values for pressure from material object: scalar expected"
      else none := by
  unfold Request.unexpected
  by_cases hlen : value.length = 1
  · simp +decide [hlen]
  · simp +decide [hlen]

theorem Request.unexpected_totalFlow (n : Nat) (value : List Dbl) :
    Request.unexpected n "totalFlow" value =
      if value.length ≠ 1 then
        some "Invalid values for total flow from material object: scalar expected"
      else none := by
  unfold Request.unexpected
  by_cases hlen : value.length = 1
  · simp +decide [hlen]
  · simp +decide [hlen]

theorem Request.unexpected_temperature (n : Nat) (value : List Dbl) :
    Request.unexpected n "temperature" value =
      if value.length ≠ 1 then
        some "Invalid values for temperature from material object: scalar expected"
      else none := by
  unfold Request.unexpected
  by_cases hlen : value.length = 1
  · simp +decide [hlen]
  · simp +decide [hlen]

theorem Request.unexpected_phaseFraction (n : Nat) (value : List Dbl) :
    Request.unexpected n "phaseFraction" value =
      if value.length ≠ 1 then
        some "Invalid values for phase fraction from material object: scalar expected"
      else none := by
  unfold Request.unexpected
  by_cases hlen : value.length = 1
  · simp +decide [hlen]
  · simp +decide [hlen]

theorem Request.unexpected_enthalpy (n : Nat) (value : List Dbl) :
    Request.unexpected n "enthalpy" value =
      if value.length ≠ 1 then
        some "Invalid values for enthalpy from material object: scalar expected"
      else none := by
  unfold Request.unexpected
  by_cases hlen : value.length = 1
  · simp +decide [hlen]
  · simp +decide [hlen]

/-- The phase loop stops at a failing request. -/
theorem phaseLoop_stops (ports : List CMaterialPort) (n i : Nat) (d : MaterialObjectWrapper)
    (hd : Request.duplicate ports i = some d) (flow : Dbl) (phaseList : List BSTR) :
    ∀ enthalpy : Dbl, Traced.Stops (Request.failure ports n)
      (Calculate.phaseLoop i d flow phaseList enthalpy) := by
  induction phaseList with
  | nil =>
    intro enthalpy
    unfold Calculate.phaseLoop
    exact Traced.stops_ret _ _
  | cons phaseName rest ih =>
    intro enthalpy
    unfold Calculate.phaseLoop
    simp only [Traced.bind_eq]
    apply Traced.stops_call_andThen _ _ _ _ (Request.unexpected n "phaseFraction")
    · simp only [Request.failure, hd]
    · intro value text _ hc
      rw [Request.unexpected_phaseFraction] at hc
      split_ifs at hc with hlen
      simp only [Option.some.injEq] at hc
      subst hc
      rw [if_pos hlen]
      rfl
    · intro value _ hc
      rw [Request.unexpected_phaseFraction] at hc
      split_ifs at hc with hlen
      rw [if_neg hlen]
      split_ifs
      · apply Traced.stops_call_andThen _ _ _ _ (fun _ => none)
        · simp only [Request.failure, hd]
        · intro a text _ hc2
          cases hc2
        · intro a _ _
          apply Traced.stops_call_andThen _ _ _ _ (Request.unexpected n "enthalpy")
          · simp only [Request.failure, hd]
          · intro value2 text _ hc2
            rw [Request.unexpected_enthalpy] at hc2
            split_ifs at hc2 with hlen2
            simp only [Option.some.injEq] at hc2
            subst hc2
            rw [if_pos hlen2]
            rfl
          · intro value2 _ hc2
            rw [Request.unexpected_enthalpy] at hc2
            split_ifs at hc2 with hlen2
            rw [if_neg hlen2]
            exact ih _
      · exact ih _

/-- A step of the feed loop stops at a failing request. -/
theorem feedStep_stops (ports : List CMaterialPort) (n i : Nat) (port : CMaterialPort)
    (hport : ports[i]? = some port) (t : FeedTotals) :
    Traced.Stops (Request.failure ports n) (Calculate.feedStep n i port t) := by
  unfold Calculate.feedStep
  split_ifs
  · split
    · rename_i material hmat
      have hm : Request.material ports i = some material := by
        simp only [Request.material, hport, hmat]
      simp only [Traced.bind_eq]
      apply Traced.stops_call_andThen _ _ _ _ (Request.unexpected n "pressure")
      · simp only [Request.failure, hm]
      · intro value text _ hc
        rw [Request.unexpected_pressure] at hc
        split_ifs at hc with hlen
        simp only [Option.some.injEq] at hc
        subst hc
        rw [if_pos hlen]
        rfl
      · intro value _ hc
        rw [Request.unexpected_pressure] at hc
        split_ifs at hc with hlen
        rw [if_neg hlen]
        apply Traced.stops_call_andThen _ _ _ _ (Request.unexpected n "totalFlow")
        · simp only [Request.failure, hm]
        · intro value2 text _ hc2
          rw [Request.unexpected_totalFlow] at hc2
          split_ifs at hc2 with hlen2
          simp only [Option.some.injEq] at hc2
          subst hc2
          rw [if_pos hlen2]
          rfl
        · intro value2 _ hc2
          rw [Request.unexpected_totalFlow] at hc2
          split_ifs at hc2 with hlen2
          rw [if_neg hlen2]
          split_ifs
          · apply Traced.stops_call_andThen _ _ _ _ (Request.unexpected n "fraction")
            · simp only [Request.failure, hm]
            · intro value3 text _ hc3
              rw [Request.unexpected_fraction] at hc3
              split_ifs at hc3 with hlen3
              simp only [Option.some.injEq] at hc3
              subst hc3
              rw [if_pos hlen3]
              rfl
            · intro value3 _ hc3
              rw [Request.unexpected_fraction] at hc3
              split_ifs at hc3 with hlen3
              rw [if_neg hlen3]
              apply Traced.stops_call_andThen _ _ _ _ (fun _ => none)
              · simp only [Request.failure, hm]
              · intro a text _ hc4
                cases hc4
              · intro d hd _
                have hdup : Request.duplicate ports i = some d := by
                  simp only [Request.duplicate, hm, hd]
                apply Traced.stops_call_andThen _ _ _ _ (fun _ => none)
                · simp only [Request.failure, hdup]
                · intro a text _ hc5
                  cases hc5
                · intro phaseList _ _
                  apply Traced.stops_andThen
                  · exact phaseLoop_stops ports n i d hdup _ _ _
                  · intro e _
                    exact Traced.stops_ret _ _
          · exact Traced.stops_ret _ _
    · exact Traced.stops_ret _ _
  · exact Traced.stops_ret _ _

/-- A step of the averaging loop stops at a failing request. -/
theorem averageStep_stops (ports : List CMaterialPort) (n i : Nat) (port : CMaterialPort)
    (hport : ports[i]? = some port) (a : Average) :
    Traced.Stops (Request.failure ports n) (Calculate.averageStep n i port a) := by
  unfold Calculate.averageStep
  split_ifs
  · split
    · rename_i material hmat
      have hm : Request.material ports i = some material := by
        simp only [Request.material, hport, hmat]
      simp only [Traced.bind_eq]
      apply Traced.stops_call_andThen _ _ _ _ (Request.unexpected n "temperature")
      · simp only [Request.failure, hm]
      · intro value text _ hc
        rw [Request.unexpected_temperature] at hc
        split_ifs at hc with hlen
        simp only [Option.some.injEq] at hc
        subst hc
        rw [if_pos hlen]
        rfl
      · intro value _ hc
        rw [Request.unexpected_temperature] at hc
        split_ifs at hc with hlen
        rw [if_neg hlen]
        apply Traced.stops_call_andThen _ _ _ _ (Request.unexpected n "fraction")
        · simp only [Request.failure, hm]
        · intro value3 text _ hc3
          rw [Request.unexpected_fraction] at hc3
          split_ifs at hc3 with hlen3
          simp only [Option.some.injEq] at hc3
          subst hc3
          rw [if_pos hlen3]
          rfl
        · intro value3 _ hc3
          rw [Request.unexpected_fraction] at hc3
          split_ifs at hc3 with hlen3
          rw [if_neg hlen3]
          exact Traced.stops_ret _ _
    · exact Traced.stops_ret _ _
  · exact Traced.stops_ret _ _

/-- The duplicate the feed loop holds after a step is the duplicate of the material of
the port it comes from. -/
theorem feedStep_duplicate_of (ports : List CMaterialPort) (n i : Nat) (port : CMaterialPort)
    (hport : ports[i]? = some port) (t t2 : FeedTotals) (l : List Request)
    (ht : ∀ j d, t.duplicateMaterial = some (j, d) → Request.duplicate ports j = some d)
    (h : Calculate.feedStep n i port t = (l, Except.ok t2)) :
    ∀ j d, t2.duplicateMaterial = some (j, d) → Request.duplicate ports j = some d := by
  rcases feedStep_ok n i port t l t2 h with ⟨_, h2⟩ | ⟨m, _, hm, _, h2⟩
  · subst h2
    exact ht
  · rcases h2 with ⟨_, _, _, _, hd⟩ | ⟨_, _, _, _, _, d, hdup, hd⟩
    · rw [hd]
      exact ht
    · intro j d2 hj
      rw [hd] at hj
      simp only [Option.some.injEq, Prod.mk.injEq] at hj
      obtain ⟨rfl, rfl⟩ := hj
      simp only [Request.duplicate, Request.material, hport, hm, hdup]

/-- The mixing stage stops at a failing request. -/
theorem mix_stops (ports : List CMaterialPort) (n : Nat) (feed1 feed2 : CMaterialPort)
    (h0 : ports[0]? = some feed1) (h1 : ports[1]? = some feed2) (t : FeedTotals)
    (ht : ∀ j d, t.duplicateMaterial = some (j, d) → Request.duplicate ports j = some d)
    (heatInput : Dbl) :
    Traced.Stops (Request.failure ports n) (Calculate.mix n feed1 feed2 t heatInput) := by
  unfold Calculate.mix
  split_ifs
  · exact Traced.stops_fail _ _
  · simp only [Traced.bind_eq]
    apply Traced.stops_andThen
    · exact averageStep_stops ports n 0 feed1 h0 _
    · intro a _
      apply Traced.stops_andThen
      · exact averageStep_stops ports n 1 feed2 h1 _
      · intro a2 _
        split_ifs
        · exact Traced.stops_ret _ _
        · exact Traced.stops_ret _ _
  · split
    · rename_i i d hd
      have hdup := ht i d hd
      simp only [Traced.bind_eq]
      apply Traced.stops_call_andThen _ _ _ _ (fun _ => none)
      · simp only [Request.failure, hdup]
      · intro a text _ hc
        cases hc
      · intro T _ _
        exact Traced.stops_ret _ _
    · constructor
      · intro r hr
        simp at hr
      · intro r text hr
        simp at hr

/-- A step of the product loop stops at a failing request. -/
theorem productStep_stops (ports : List CMaterialPort) (n : Nat) (k : Nat)
    (totalFlow splitFactor : Dbl) (composition : List Dbl) (temperature pressure : Dbl)
    (i : Nat) (port : CMaterialPort) (hport : ports[i]? = some port) :
    Traced.Stops (Request.failure ports n)
      (Calculate.productStep k totalFlow splitFactor composition temperature pressure i port) := by
  unfold Calculate.productStep
  split_ifs
  · split
    · rename_i material hmat
      have hm : Request.material ports i = some material := by
        simp only [Request.material, hport, hmat]
      apply Traced.stops_call
      simp only [Request.failure, hm]
    · exact Traced.stops_ret _ _
  · exact Traced.stops_ret _ _

/-- The part of `Calculate` after the check of the validation status stops at a failing
request. -/
theorem body_stops (ports : List CMaterialPort) (n : Nat)
    (feed1 feed2 product1 product2 : CMaterialPort)
    (h0 : ports[0]? = some feed1) (h1 : ports[1]? = some feed2)
    (h2 : ports[2]? = some product1) (h3 : ports[3]? = some product2)
    (splitFactor heatInput : Dbl) :
    Traced.Stops (Request.failure ports n)
      (Calculate.body n feed1 feed2 product1 product2 splitFactor heatInput) := by
  unfold Calculate.body
  simp only [Traced.bind_eq]
  apply Traced.stops_andThen
  · unfold Calculate.feedLoop
    simp only [Traced.bind_eq]
    apply Traced.stops_andThen
    · exact feedStep_stops ports n 0 feed1 h0 _
    · intro t _
      exact feedStep_stops ports n 1 feed2 h1 _
  · intro t ht
    have hdup : ∀ j d, t.duplicateMaterial = some (j, d) →
        Request.duplicate ports j = some d := by
      have hpair : Calculate.feedLoop n feed1 feed2 =
          ((Calculate.feedLoop n feed1 feed2).1, Except.ok t) := Prod.ext rfl ht
      unfold Calculate.feedLoop at hpair
      simp only [Traced.bind_eq] at hpair
      obtain ⟨l1, t1, l2, hs1, hs2, _⟩ := Traced.andThen_ok _ _ _ _ hpair
      have hinit : ∀ j d, (Calculate.init n).duplicateMaterial = some (j, d) →
          Request.duplicate ports j = some d := by
        intro j d hj
        simp [Calculate.init] at hj
      exact feedStep_duplicate_of ports n 1 feed2 h1 t1 t l2
        (feedStep_duplicate_of ports n 0 feed1 h0 _ t1 l1 hinit hs1) hs2
    apply Traced.stops_andThen
    · exact mix_stops ports n feed1 feed2 h0 h1 t hdup heatInput
    · intro ct _
      obtain ⟨composition, temperature⟩ := ct
      simp only
      apply Traced.stops_andThen
      · exact productStep_stops ports n _ _ _ _ _ _ 2 product1 h2
      · intro _ _
        exact productStep_stops ports n _ _ _ _ _ _ 3 product2 h3

/-! ## `Calculate` returns -/

theorem phaseLoop_defined (i : Nat) (d : MaterialObjectWrapper) (flow : Dbl)
    (phaseList : List BSTR) : ∀ enthalpy : Dbl,
    (Calculate.phaseLoop i d flow phaseList enthalpy).2 ≠ Except.error Abort.undefined := by
  induction phaseList with
  | nil =>
    intro enthalpy
    unfold Calculate.phaseLoop
    exact Traced.ret_defined _
  | cons phaseName rest ih =>
    intro enthalpy
    unfold Calculate.phaseLoop
    simp only [Traced.bind_eq]
    apply Traced.andThen_defined _ _ (Traced.call_defined _ _)
    intro value
    split_ifs
    · exact Traced.fail_defined _
    · apply Traced.andThen_defined _ _ (Traced.call_defined _ _)
      intro _
      apply Traced.andThen_defined _ _ (Traced.call_defined _ _)
      intro value2
      split_ifs
      · exact Traced.fail_defined _
      · exact ih _
    · exact ih _

theorem feedStep_defined (n i : Nat) (port : CMaterialPort) (t : FeedTotals) :
    (Calculate.feedStep n i port t).2 ≠ Except.error Abort.undefined := by
  unfold Calculate.feedStep
  split_ifs
  · split
    · simp only [Traced.bind_eq]
      apply Traced.andThen_defined _ _ (Traced.call_defined _ _)
      intro v1
      split_ifs
      · exact Traced.fail_defined _
      · apply Traced.andThen_defined _ _ (Traced.call_defined _ _)
        intro v2
        split_ifs
        · exact Traced.fail_defined _
        · apply Traced.andThen_defined _ _ (Traced.call_defined _ _)
          intro v3
          split_ifs
          · exact Traced.fail_defined _
          · apply Traced.andThen_defined _ _ (Traced.call_defined _ _)
            intro d
            apply Traced.andThen_defined _ _ (Traced.call_defined _ _)
            intro phaseList
            apply Traced.andThen_defined _ _ (phaseLoop_defined _ _ _ _ _)
            intro e
            exact Traced.ret_defined _
        · exact Traced.ret_defined _
    · exact Traced.ret_defined _
  · exact Traced.ret_defined _

/-- The mixing stage after a feed loop that gave a value ends with a value or with an
error description: with a total flow that is not zero, a duplicate material is
there. -/
theorem mix_defined (n : Nat) (feed1 feed2 : CMaterialPort) (l : List Request)
    (t : FeedTotals) (h : Calculate.feedLoop n feed1 feed2 = (l, Except.ok t))
    (heatInput : Dbl) :
    (Calculate.mix n feed1 feed2 t heatInput).2 ≠ Except.error Abort.undefined := by
  obtain ⟨_, hF, _, _, _, _, _, hD⟩ := feedLoop_ok n feed1 feed2 l t h
  unfold Calculate.mix
  split_ifs with hz
  · exact Traced.fail_defined _
  · simp only [Traced.bind_eq]
    apply Traced.andThen_defined _ _ (averageStep_defined _ _ _ _).1
    intro a
    apply Traced.andThen_defined _ _ (averageStep_defined _ _ _ _).1
    intro a2
    split_ifs
    · exact Traced.ret_defined _
    · exact Traced.ret_defined _
  · have hflow : Calculate.flowingFeeds feed1 feed2 ≠ [] := by
      intro hnil
      obtain ⟨q, hq, _, hq0⟩ := totalFlow_fin feed1 feed2
      apply hz
      rw [hF, hq, hq0.2 hnil]
      rfl
    obtain ⟨i, d, m, _, _, hdup⟩ := hD hflow
    rw [hdup]
    simp only [Traced.bind_eq]
    apply Traced.andThen_defined _ _ (Traced.call_defined _ _)
    intro T
    exact Traced.ret_defined _

/-- The part of `Calculate` after the check of the validation status ends with a value
or with an error description. -/
theorem body_defined (n : Nat) (feed1 feed2 product1 product2 : CMaterialPort)
    (splitFactor heatInput : Dbl) :
    (Calculate.body n feed1 feed2 product1 product2 splitFactor heatInput).2 ≠
      Except.error Abort.undefined := by
  unfold Calculate.body
  simp only [Traced.bind_eq]
  cases hloop : Calculate.feedLoop n feed1 feed2 with
  | mk l res =>
    cases res with
    | error e =>
      have hdef : (Calculate.feedLoop n feed1 feed2).2 ≠ Except.error Abort.undefined := by
        unfold Calculate.feedLoop
        simp only [Traced.bind_eq]
        apply Traced.andThen_defined _ _ (feedStep_defined _ _ _ _)
        intro t
        exact feedStep_defined _ _ _ _
      rw [hloop] at hdef
      simpa [Traced.andThen] using hdef
    | ok t =>
      simp only [Traced.andThen]
      have hmix := mix_defined n feed1 feed2 l t hloop heatInput
      generalize Calculate.mix n feed1 feed2 t heatInput = y at hmix
      obtain ⟨l2, res2⟩ := y
      cases res2 with
      | error e => simpa using hmix
      | ok ct =>
        obtain ⟨composition, temperature⟩ := ct
        simp only
        apply Traced.andThen_defined _ _ (productStep_defined _ _ _ _ _ _ _ _)
        intro _
        exact productStep_defined _ _ _ _ _ _ _ _


/-! ## How often a request is made -/

/-- The requests of a sequence are the requests of the first computation, followed by
those of the second if the first gave a value. -/
theorem Traced.sublist_andThen {α β : Type} (x : Traced α) (f : α → Traced β)
    (p1 p2 : List Request) (hx : x.1.Sublist p1)
    (hf : ∀ a, x.2 = Except.ok a → (f a).1.Sublist p2) :
    (Traced.andThen x f).1.Sublist (p1 ++ p2) := by
  obtain ⟨l, res⟩ := x
  cases res with
  | error e =>
    simp only [Traced.andThen]
    exact hx.trans (List.sublist_append_left _ _)
  | ok a =>
    simp only [Traced.andThen]
    exact List.Sublist.append hx (hf a rfl)

theorem Traced.sublist_andThen_nil {α β : Type} (x : Traced α) (f : α → Traced β)
    (p : List Request) (hx : x.1.Sublist p) (hf : ∀ a, x.2 = Except.ok a → (f a).1 = []) :
    (Traced.andThen x f).1.Sublist p := by
  obtain ⟨l, res⟩ := x
  cases res with
  | error e =>
    simp only [Traced.andThen]
    exact hx
  | ok a =>
    simp only [Traced.andThen, hf a rfl, List.append_nil]
    exact hx

theorem Traced.sublist_call_andThen {α β : Type} (req : Request) (answer : Except String α)
    (f : α → Traced β) (p : List Request)
    (hf : ∀ a, answer = Except.ok a → (f a).1.Sublist p) :
    (Traced.andThen (Traced.call req answer) f).1.Sublist (req :: p) := by
  cases answer with
  | error desc =>
    simp only [Traced.call, Traced.andThen]
    exact List.Sublist.cons₂ _ (List.nil_sublist _)
  | ok a =>
    simp only [Traced.call, Traced.andThen, List.singleton_append]
    exact List.Sublist.cons₂ _ (hf a rfl)

theorem Traced.sublist_call {α : Type} (req : Request) (answer : Except String α) :
    (Traced.call req answer).1.Sublist [req] := by
  cases answer <;> exact List.Sublist.refl _

/-- The requests of the phase loop are among those for the phases of the list, in
order. -/
theorem phaseLoop_sublist (i : Nat) (d : MaterialObjectWrapper) (flow : Dbl)
    (phaseList : List BSTR) : ∀ enthalpy : Dbl,
    (Calculate.phaseLoop i d flow phaseList enthalpy).1.Sublist
      (Calculate.Plan.phases i phaseList) := by
  induction phaseList with
  | nil =>
    intro enthalpy
    unfold Calculate.phaseLoop
    exact List.Sublist.refl _
  | cons phaseName rest ih =>
    intro enthalpy
    unfold Calculate.phaseLoop
    simp only [Traced.bind_eq, Calculate.Plan.phases, List.flatMap_cons, Calculate.Plan.phase,
      List.cons_append, List.nil_append]
    apply Traced.sublist_call_andThen
    intro value _
    split_ifs
    · exact List.nil_sublist _
    · apply Traced.sublist_call_andThen
      intro _ _
      apply Traced.sublist_call_andThen
      intro value2 _
      split_ifs
      · exact List.nil_sublist _
      · exact ih _
    · exact (ih _).trans ((List.sublist_cons_self _ _).trans (List.sublist_cons_self _ _))

/-- The requests of a step of the feed loop are among those for a feed with a positive
flow, in order. -/
theorem feedStep_sublist (ports : List CMaterialPort) (n i : Nat) (port : CMaterialPort)
    (hport : ports[i]? = some port) (t : FeedTotals) :
    (Calculate.feedStep n i port t).1.Sublist
      (Calculate.Plan.flowing i ++ Calculate.Plan.phases i (Request.phases ports i)) := by
  unfold Calculate.feedStep
  split_ifs
  · split
    · rename_i material hmat
      simp only [Traced.bind_eq, Calculate.Plan.flowing, List.cons_append, List.nil_append]
      apply Traced.sublist_call_andThen
      intro v1 _
      split_ifs
      · exact List.nil_sublist _
      · apply Traced.sublist_call_andThen
        intro v2 _
        split_ifs
        · exact List.nil_sublist _
        · apply Traced.sublist_call_andThen
          intro v3 _
          split_ifs
          · exact List.nil_sublist _
          · apply Traced.sublist_call_andThen
            intro d hd
            apply Traced.sublist_call_andThen
            intro phaseList hl
            have hphases : Request.phases ports i = phaseList := by
              simp only [Request.phases, Request.duplicate, Request.material, hport, hmat, hd, hl]
            rw [hphases]
            apply Traced.sublist_andThen_nil _ _ _ (phaseLoop_sublist _ _ _ _ _)
            intro _ _
            rfl
        · exact List.nil_sublist _
    · exact List.nil_sublist _
  · exact List.nil_sublist _

/-- The requests of a step of the feed loop for a feed without a positive flow are
among the requests for its pressure and its flow. -/
theorem feedStep_idle (n i : Nat) (port : CMaterialPort) (t : FeedTotals)
    (hflow : ∀ m, port.GetMaterial = some m → Dbl.gt m.totalFlow (Dbl.fin 0) = false) :
    (Calculate.feedStep n i port t).1.Sublist (Calculate.Plan.idle i) := by
  unfold Calculate.feedStep
  split_ifs
  · split
    · rename_i material hmat
      have hf := hflow material hmat
      simp only [Traced.bind_eq, Calculate.Plan.idle]
      apply Traced.sublist_call_andThen
      intro v1 _
      split_ifs
      · exact List.nil_sublist _
      · apply Traced.sublist_call_andThen
        intro v2 hv2
        have hgt : Dbl.gt (GetDoubleAt v2 0) (Dbl.fin 0) = false := by
          have : material.totalFlow = GetDoubleAt v2 0 := by
            unfold Material.totalFlow
            rw [hv2]
            rfl
          rw [← this]
          exact hf
        split_ifs with h1 h2
        · exact List.nil_sublist _
        · rw [hgt] at h2
          cases h2
        · exact List.Sublist.refl _
    · exact List.nil_sublist _
  · exact List.nil_sublist _

/-- The requests of a step of the averaging loop are among the requests for the
temperature and the fractions of the feed. -/
theorem averageStep_sublist (n i : Nat) (port : CMaterialPort) (a : Average) :
    (Calculate.averageStep n i port a).1.Sublist (Calculate.Plan.average i) := by
  unfold Calculate.averageStep
  split_ifs
  · split
    · simp only [Traced.bind_eq, Calculate.Plan.average]
      apply Traced.sublist_call_andThen
      intro v1 _
      split_ifs
      · exact List.nil_sublist _
      · apply Traced.sublist_call_andThen
        intro v2 _
        split_ifs
        · exact List.nil_sublist _
        · exact List.Sublist.refl _
    · exact List.nil_sublist _
  · exact List.nil_sublist _

/-- The requests of the mixing stage: those of the averaging loop when the total flow
is zero, else at most one flash. -/
theorem mix_sublist (n : Nat) (feed1 feed2 : CMaterialPort) (t : FeedTotals)
    (heatInput : Dbl) :
    (Dbl.eq t.totalFlow (Dbl.fin 0) = true →
      (Calculate.mix n feed1 feed2 t heatInput).1.Sublist
        (Calculate.Plan.average 0 ++ Calculate.Plan.average 1)) ∧
    (Dbl.eq t.totalFlow (Dbl.fin 0) ≠ true →
      ∃ i composition P H, (Calculate.mix n feed1 feed2 t heatInput).1.Sublist
        [Request.GetTemperatureFromPHFlash i composition P H]) := by
  unfold Calculate.mix
  constructor
  · intro hz
    simp only [hz, if_true]
    split_ifs
    · exact List.nil_sublist _
    · simp only [Traced.bind_eq]
      apply Traced.sublist_andThen _ _ _ _ (averageStep_sublist _ _ _ _)
      intro a _
      apply Traced.sublist_andThen_nil _ _ _ (averageStep_sublist _ _ _ _)
      intro a2 _
      split_ifs <;> rfl
  · intro hz
    simp only [hz, if_false]
    cases hd : t.duplicateMaterial with
    | none => exact ⟨0, [], Dbl.nan, Dbl.nan, List.nil_sublist _⟩
    | some id =>
      obtain ⟨i, d⟩ := id
      refine ⟨i, (List.range n).map (fun j => GetDoubleAt t.componentFlows j / t.totalFlow),
        t.pressure, (t.enthalpy + heatInput) / t.totalFlow, ?_⟩
      simp only [Bool.false_eq_true, if_false, Traced.bind_eq]
      apply Traced.sublist_call_andThen
      intro _ _
      exact List.Sublist.refl _

theorem productStep_sublist (k : Nat) (totalFlow splitFactor : Dbl) (composition : List Dbl)
    (temperature pressure : Dbl) (i : Nat) (port : CMaterialPort) :
    (Calculate.productStep k totalFlow splitFactor composition temperature pressure i port).1.Sublist
      [Request.SetFromFlowTPX i composition (Calculate.productFlow k totalFlow splitFactor i)
        temperature pressure] := by
  rw [productStep_requests]
  split_ifs
  · exact List.Sublist.refl _
  · exact List.nil_sublist _

/-- A feed loop that gives a total flow of zero has found no feed with a positive
flow. -/
theorem feedLoop_zero (n : Nat) (feed1 feed2 : CMaterialPort) (l : List Request)
    (t : FeedTotals) (h : Calculate.feedLoop n feed1 feed2 = (l, Except.ok t))
    (hz : Dbl.eq t.totalFlow (Dbl.fin 0) = true) :
    (∀ m, feed1.GetMaterial = some m → Dbl.gt m.totalFlow (Dbl.fin 0) = false) ∧
    (∀ m, feed2.GetMaterial = some m → Dbl.gt m.totalFlow (Dbl.fin 0) = false) := by
  obtain ⟨_, hF, _⟩ := feedLoop_ok n feed1 feed2 l t h
  obtain ⟨q, hq, _, hq0⟩ := totalFlow_fin feed1 feed2
  rw [hF] at hz
  have hzero := (totalFlow_eq_zero feed1 feed2).1 hz
  rw [hq] at hzero
  have hnil : Calculate.flowingFeeds feed1 feed2 = [] := by
    apply hq0.1
    simpa using hzero
  have hall : ∀ m ∈ Calculate.connectedFeeds feed1 feed2,
      Dbl.gt m.totalFlow (Dbl.fin 0) = false := by
    intro m hm
    by_contra hgt
    have : m ∈ Calculate.flowingFeeds feed1 feed2 := by
      unfold Calculate.flowingFeeds
      exact List.mem_filter.2 ⟨hm, by simpa using hgt⟩
    rw [hnil] at this
    cases this
  have hconn : ∀ (port : CMaterialPort) (m : Material), port.GetMaterial = some m →
      m ∈ Calculate.materialOf port := by
    intro port m hm
    unfold Calculate.materialOf
    have hc : port.IsConnected = true := by
      unfold CMaterialPort.IsConnected
      unfold CMaterialPort.GetMaterial at hm
      cases h11 : port.mat11 with
      | some x => simp
      | none =>
        simp only [h11] at hm
        simp [hm]
    simp [hc, hm]
  constructor
  · intro m hm
    apply hall
    unfold Calculate.connectedFeeds
    exact List.mem_append.2 (Or.inl (hconn feed1 m hm))
  · intro m hm
    apply hall
    unfold Calculate.connectedFeeds
    exact List.mem_append.2 (Or.inr (hconn feed2 m hm))

/-- The requests of the part of `Calculate` after the check of the validation status
are, in order, among the requests of one of two runs in which every request is made:
the run with a total flow of zero and the run with a total flow that is not zero. -/
theorem body_sublist (ports : List CMaterialPort) (n : Nat)
    (feed1 feed2 product1 product2 : CMaterialPort)
    (h0 : ports[0]? = some feed1) (h1 : ports[1]? = some feed2)
    (splitFactor heatInput : Dbl) :
    ∃ composition flow2 flow3 T P,
      (Calculate.body n feed1 feed2 product1 product2 splitFactor heatInput).1.Sublist
        ((Calculate.Plan.idle 0 ++ Calculate.Plan.idle 1) ++
          ((Calculate.Plan.average 0 ++ Calculate.Plan.average 1) ++
            ([Request.SetFromFlowTPX 2 composition flow2 T P] ++
              [Request.SetFromFlowTPX 3 composition flow3 T P]))) ∨
      ∃ i x P2 H,
        (Calculate.body n feed1 feed2 product1 product2 splitFactor heatInput).1.Sublist
          (((Calculate.Plan.flowing 0 ++ Calculate.Plan.phases 0 (Request.phases ports 0)) ++
            (Calculate.Plan.flowing 1 ++ Calculate.Plan.phases 1 (Request.phases ports 1))) ++
            ([Request.GetTemperatureFromPHFlash i x P2 H] ++
              ([Request.SetFromFlowTPX 2 composition flow2 T P] ++
                [Request.SetFromFlowTPX 3 composition flow3 T P]))) := by
  have hfeed : (Calculate.feedLoop n feed1 feed2).1.Sublist
      ((Calculate.Plan.flowing 0 ++ Calculate.Plan.phases 0 (Request.phases ports 0)) ++
        (Calculate.Plan.flowing 1 ++ Calculate.Plan.phases 1 (Request.phases ports 1))) := by
    unfold Calculate.feedLoop
    simp only [Traced.bind_eq]
    apply Traced.sublist_andThen _ _ _ _ (feedStep_sublist ports n 0 feed1 h0 _)
    intro t _
    exact feedStep_sublist ports n 1 feed2 h1 _
  unfold Calculate.body
  simp only [Traced.bind_eq]
  cases hloop : Calculate.feedLoop n feed1 feed2 with
  | mk l res =>
    rw [hloop] at hfeed
    cases res with
    | error e =>
      refine ⟨[], Dbl.nan, Dbl.nan, Dbl.nan, Dbl.nan, Or.inr ⟨0, [], Dbl.nan, Dbl.nan, ?_⟩⟩
      simp only [Traced.andThen]
      exact hfeed.trans (List.sublist_append_left _ _)
    | ok t =>
      simp only [Traced.andThen]
      obtain ⟨hm0, hm1⟩ := mix_sublist n feed1 feed2 t heatInput
      cases hmix : Calculate.mix n feed1 feed2 t heatInput with
      | mk l2 res2 =>
        rw [hmix] at hm0 hm1
        simp only at hm0 hm1
        have hprod : ∀ (composition : List Dbl) (temperature : Dbl),
            (Traced.andThen
              (Calculate.productStep
                ((if product1.IsConnected then 1 else 0) + (if product2.IsConnected then 1 else 0))
                t.totalFlow splitFactor composition temperature t.pressure 2 product1)
              (fun _ => Calculate.productStep
                ((if product1.IsConnected then 1 else 0) + (if product2.IsConnected then 1 else 0))
                t.totalFlow splitFactor composition temperature t.pressure 3 product2)).1.Sublist
              ([Request.SetFromFlowTPX 2 composition
                  (Calculate.productFlow
                    ((if product1.IsConnected then 1 else 0) +
                      (if product2.IsConnected then 1 else 0)) t.totalFlow splitFactor 2)
                  temperature t.pressure] ++
                [Request.SetFromFlowTPX 3 composition
                  (Calculate.productFlow
                    ((if product1.IsConnected then 1 else 0) +
                      (if product2.IsConnected then 1 else 0)) t.totalFlow splitFactor 3)
                  temperature t.pressure]) := by
          intro composition temperature
          apply Traced.sublist_andThen _ _ _ _ (productStep_sublist _ _ _ _ _ _ _ _)
          intro _ _
          exact productStep_sublist _ _ _ _ _ _ _ _
        by_cases hz : Dbl.eq t.totalFlow (Dbl.fin 0) = true
        · have hidle : l.Sublist (Calculate.Plan.idle 0 ++ Calculate.Plan.idle 1) := by
            obtain ⟨z0, z1⟩ := feedLoop_zero n feed1 feed2 l t hloop hz
            have : (Calculate.feedLoop n feed1 feed2).1.Sublist
                (Calculate.Plan.idle 0 ++ Calculate.Plan.idle 1) := by
              unfold Calculate.feedLoop
              simp only [Traced.bind_eq]
              apply Traced.sublist_andThen _ _ _ _ (feedStep_idle n 0 feed1 _ z0)
              intro t1 _
              exact feedStep_idle n 1 feed2 _ z1
            rw [hloop] at this
            exact this
          cases res2 with
          | error e =>
            refine ⟨[], Dbl.nan, Dbl.nan, Dbl.nan, Dbl.nan, Or.inl ?_⟩
            simp only
            exact List.Sublist.append hidle
              ((hm0 hz).trans (List.sublist_append_left _ _))
          | ok ct =>
            obtain ⟨composition, temperature⟩ := ct
            refine ⟨composition, (Calculate.productFlow ((if product1.IsConnected then 1 else 0) + (if product2.IsConnected then 1 else 0)) t.totalFlow splitFactor 2),
              (Calculate.productFlow ((if product1.IsConnected then 1 else 0) + (if product2.IsConnected then 1 else 0)) t.totalFlow splitFactor 3), temperature, t.pressure, Or.inl ?_⟩
            simp only
            exact List.Sublist.append hidle
              (List.Sublist.append (hm0 hz) (hprod composition temperature))
        · obtain ⟨i, x, P2, H, hflash⟩ := hm1 hz
          cases res2 with
          | error e =>
            refine ⟨[], Dbl.nan, Dbl.nan, Dbl.nan, Dbl.nan, Or.inr ⟨i, x, P2, H, ?_⟩⟩
            simp only
            exact List.Sublist.append hfeed (hflash.trans (List.sublist_append_left _ _))
          | ok ct =>
            obtain ⟨composition, temperature⟩ := ct
            refine ⟨composition, (Calculate.productFlow ((if product1.IsConnected then 1 else 0) + (if product2.IsConnected then 1 else 0)) t.totalFlow splitFactor 2),
              (Calculate.productFlow ((if product1.IsConnected then 1 else 0) + (if product2.IsConnected then 1 else 0)) t.totalFlow splitFactor 3), temperature, t.pressure, Or.inr ⟨i, x, P2, H, ?_⟩⟩
            simp only
            exact List.Sublist.append hfeed
              (List.Sublist.append hflash (hprod composition temperature))

/-! ## How often a request is made -/

theorem Request.listed_phase (ports : List CMaterialPort) (r : Request) (i : Nat)
    (phaseName : BSTR) (h : r.phase = some (i, phaseName)) :
    Request.listed ports r = (Request.phases ports i).count phaseName := by
  cases r with
  | GetSinglePhaseProperty j pn ph ct b =>
    simp only [Request.phase, Option.some.injEq, Prod.mk.injEq] at h
    obtain ⟨h1, h2⟩ := h
    subst h1
    subst h2
    rfl
  | CalcSinglePhaseProperty j pn ph =>
    simp only [Request.phase, Option.some.injEq, Prod.mk.injEq] at h
    obtain ⟨h1, h2⟩ := h
    subst h1
    subst h2
    rfl
  | _ => simp [Request.phase] at h

theorem Request.listed_other (ports : List CMaterialPort) (r : Request)
    (h : r.phase = none) : Request.listed ports r = 1 := by
  cases r <;> simp only [Request.phase] at h <;> first | rfl | cases h

theorem Calculate.Plan.phase_nodup (i : Nat) (phaseName : BSTR) :
    (Calculate.Plan.phase i phaseName).Nodup := by
  unfold Calculate.Plan.phase
  simp +decide

theorem Calculate.Plan.phase_mem (i : Nat) (phaseName : BSTR) (r : Request)
    (h : r ∈ Calculate.Plan.phase i phaseName) : r.phase = some (i, phaseName) := by
  unfold Calculate.Plan.phase at h
  simp only [List.mem_cons, List.mem_singleton, List.not_mem_nil, or_false] at h
  rcases h with h | h | h <;> subst h <;> rfl

theorem Calculate.Plan.count_phase (i : Nat) (phaseName : BSTR) (r : Request) :
    (Calculate.Plan.phase i phaseName).count r ≤
      if r.phase = some (i, phaseName) then 1 else 0 := by
  split_ifs with h
  · exact List.nodup_iff_count_le_one.1 (Calculate.Plan.phase_nodup i phaseName) r
  · rw [List.count_eq_zero_of_not_mem]
    intro hmem
    exact h (Calculate.Plan.phase_mem i phaseName r hmem)

theorem Calculate.Plan.count_phases (i : Nat) (phaseList : List BSTR) (r : Request) :
    (Calculate.Plan.phases i phaseList).count r ≤
      match r.phase with
      | some (j, phaseName) => if j = i then phaseList.count phaseName else 0
      | none => 0 := by
  induction phaseList with
  | nil => simp [Calculate.Plan.phases]
  | cons p l ih =>
    have hcons : Calculate.Plan.phases i (p :: l) =
        Calculate.Plan.phase i p ++ Calculate.Plan.phases i l := by
      simp [Calculate.Plan.phases, List.flatMap_cons]
    rw [hcons, List.count_append]
    have h1 := Calculate.Plan.count_phase i p r
    cases hr : r.phase with
    | none =>
      rw [hr] at ih h1
      simp only at ih
      simp only [reduceCtorEq, if_false] at h1
      simp only
      omega
    | some jp =>
      obtain ⟨j, q⟩ := jp
      rw [hr] at ih h1
      simp only at ih
      simp only [Option.some.injEq, Prod.mk.injEq] at h1
      simp only
      by_cases hj : j = i
      · subst hj
        simp only [if_true, true_and] at ih h1 ⊢
        rw [List.count_cons]
        by_cases hq : q = p
        · subst hq
          simp only [if_true, beq_self_eq_true] at h1 ⊢
          omega
        · rw [if_neg hq] at h1
          omega
      · simp only [hj, if_false, false_and] at ih h1 ⊢
        omega

theorem Request.count_plain (l : List Request) (hnodup : l.Nodup)
    (hmem : ∀ r ∈ l, r.phase = none) (r : Request) :
    l.count r ≤ if r.phase = none then 1 else 0 := by
  split_ifs with h
  · exact List.nodup_iff_count_le_one.1 hnodup r
  · rw [List.count_eq_zero_of_not_mem]
    intro hr
    exact h (hmem r hr)

theorem Calculate.Plan.count_phases_listed (ports : List CMaterialPort) (r : Request) :
    (if r.phase = none then 1 else 0) +
      ((Calculate.Plan.phases 0 (Request.phases ports 0)).count r +
        (Calculate.Plan.phases 1 (Request.phases ports 1)).count r) ≤
      Request.listed ports r := by
  have h0 := Calculate.Plan.count_phases 0 (Request.phases ports 0) r
  have h1 := Calculate.Plan.count_phases 1 (Request.phases ports 1) r
  cases hr : r.phase with
  | none =>
    rw [hr] at h0 h1
    simp only at h0 h1
    rw [Request.listed_other ports r hr]
    simp only [if_true]
    omega
  | some jp =>
    obtain ⟨j, q⟩ := jp
    rw [hr] at h0 h1
    simp only at h0 h1
    rw [Request.listed_phase ports r j q hr]
    simp only [reduceCtorEq, if_false]
    by_cases hj0 : j = 0
    · subst hj0
      simp only [if_true, zero_ne_one, if_false] at h0 h1
      omega
    · by_cases hj1 : j = 1
      · subst hj1
        simp only [if_true, one_ne_zero, if_false] at h0 h1
        omega
      · simp only [hj0, hj1, if_false] at h0 h1
        omega

/-- No request of the part of `Calculate` after the check of the validation status is
made more often than listed: a request about a phase once for every time the host
lists the phase, every other request once. -/
theorem body_count (ports : List CMaterialPort) (n : Nat)
    (feed1 feed2 product1 product2 : CMaterialPort)
    (h0 : ports[0]? = some feed1) (h1 : ports[1]? = some feed2)
    (splitFactor heatInput : Dbl) (r : Request) :
    (Calculate.body n feed1 feed2 product1 product2 splitFactor heatInput).1.count r ≤
      Request.listed ports r := by
  obtain ⟨composition, flow2, flow3, T, P, h⟩ :=
    body_sublist ports n feed1 feed2 product1 product2 h0 h1 splitFactor heatInput
  have hlisted := Calculate.Plan.count_phases_listed ports r
  rcases h with h | ⟨i, x, P2, H, h⟩
  · have hc := h.count_le r
    have hplain := Request.count_plain
      ((Calculate.Plan.idle 0 ++ Calculate.Plan.idle 1) ++
        ((Calculate.Plan.average 0 ++ Calculate.Plan.average 1) ++
          ([Request.SetFromFlowTPX 2 composition flow2 T P] ++
            [Request.SetFromFlowTPX 3 composition flow3 T P])))
      (by simp +decide [Calculate.Plan.idle, Calculate.Plan.average])
      (by
        intro q hq
        simp only [Calculate.Plan.idle, Calculate.Plan.average, List.mem_append,
          List.mem_cons, List.mem_singleton, List.not_mem_nil, or_false] at hq
        rcases hq with (((hq | hq) | (hq | hq)) | (((hq | hq) | (hq | hq)) | (hq | hq))) <;>
          subst hq <;> rfl) r
    omega
  · have hc := h.count_le r
    have hplain := Request.count_plain
      ((Calculate.Plan.flowing 0 ++ Calculate.Plan.flowing 1) ++
        ([Request.GetTemperatureFromPHFlash i x P2 H] ++
          ([Request.SetFromFlowTPX 2 composition flow2 T P] ++
            [Request.SetFromFlowTPX 3 composition flow3 T P])))
      (by simp +decide [Calculate.Plan.flowing])
      (by
        intro q hq
        simp only [Calculate.Plan.flowing, List.mem_append,
          List.mem_cons, List.mem_singleton, List.not_mem_nil, or_false] at hq
        rcases hq with ((hq | hq | hq | hq | hq) | (hq | hq | hq | hq | hq)) |
          (hq | (hq | hq)) <;> subst hq <;> rfl) r
    simp only [List.count_append] at hc hplain
    omega

/-! ## A failing request is the last request -/

/-- In a computation that stops at a failing request, nothing follows a failing
request, and the computation stops with the text produced for the failure. -/
theorem Traced.stops_at {α : Type} (failure : Request → Option String) (x : Traced α)
    (hS : Traced.Stops failure x) (l1 : List Request) (r : Request) (l2 : List Request)
    (text : String) (h : x.1 = l1 ++ r :: l2) (hf : failure r = some text) :
    l2 = [] ∧ x.2 = Except.error (Abort.error text) := by
  have hl2 : l2 = [] := by
    by_contra hne
    have hdrop : (l1 ++ r :: l2).dropLast = l1 ++ r :: l2.dropLast := by
      rw [List.dropLast_append_of_ne_nil _ (by simp)]
      cases l2 with
      | nil => exact absurd rfl hne
      | cons a l => rfl
    have := hS.1 r (by rw [h, hdrop]; simp)
    rw [hf] at this
    cases this
  subst hl2
  refine ⟨rfl, hS.2 r text ?_ hf⟩
  rw [h]
  simp

theorem List.sublist_pair {α : Type} (l : List α) (a b : α) (h : l.Sublist [a, b]) :
    l = [] ∨ l = [a] ∨ l = [b] ∨ l = [a, b] := by
  cases h with
  | cons _ h1 =>
    cases h1 with
    | cons _ h2 =>
      cases h2
      exact Or.inl rfl
    | cons₂ _ h2 =>
      cases h2
      exact Or.inr (Or.inr (Or.inl rfl))
  | cons₂ _ h1 =>
    cases h1 with
    | cons _ h2 =>
      cases h2
      exact Or.inr (Or.inl rfl)
    | cons₂ _ h2 =>
      cases h2
      exact Or.inr (Or.inr (Or.inr rfl))

theorem Calculate.Plan.phases_phase (i : Nat) (phaseList : List BSTR) (r : Request)
    (h : r ∈ Calculate.Plan.phases i phaseList) : r.phase ≠ none := by
  unfold Calculate.Plan.phases at h
  obtain ⟨p, _, hp⟩ := List.mem_flatMap.1 h
  rw [Calculate.Plan.phase_mem i p r hp]
  simp

/-- The requests of the part of `Calculate` after the check of the validation status
are requests that set no product, followed by at most one request to set Product 1 and
then at most one to set Product 2. -/
theorem body_products (ports : List CMaterialPort) (n : Nat)
    (feed1 feed2 product1 product2 : CMaterialPort)
    (h0 : ports[0]? = some feed1) (h1 : ports[1]? = some feed2)
    (splitFactor heatInput : Dbl) :
    ∃ before after composition flow2 flow3 T P,
      (Calculate.body n feed1 feed2 product1 product2 splitFactor heatInput).1 =
        before ++ after ∧
      (∀ r ∈ before, ∀ i x f T2 P2, r ≠ Request.SetFromFlowTPX i x f T2 P2) ∧
      after.Sublist [Request.SetFromFlowTPX 2 composition flow2 T P,
        Request.SetFromFlowTPX 3 composition flow3 T P] := by
  obtain ⟨composition, flow2, flow3, T, P, h⟩ :=
    body_sublist ports n feed1 feed2 product1 product2 h0 h1 splitFactor heatInput
  have hphase : ∀ (i : Nat) (l : List BSTR), ∀ r ∈ Calculate.Plan.phases i l,
      ∀ j x f T2 P2, r ≠ Request.SetFromFlowTPX j x f T2 P2 := by
    intro i l r hr j x f T2 P2 heq
    apply Calculate.Plan.phases_phase i l r hr
    rw [heq]
    rfl
  rcases h with h | ⟨i, x, P2, H, h⟩
  · rw [← List.append_assoc] at h
    obtain ⟨before, after, hsplit, hb, ha⟩ := List.sublist_append_iff.1 h
    refine ⟨before, after, composition, flow2, flow3, T, P, hsplit, ?_, ha⟩
    intro r hr j y f T2 P3 heq
    have hmem := hb.subset hr
    subst heq
    simp [Calculate.Plan.idle, Calculate.Plan.average] at hmem
  · rw [← List.append_assoc] at h
    obtain ⟨before, after, hsplit, hb, ha⟩ := List.sublist_append_iff.1 h
    refine ⟨before, after, composition, flow2, flow3, T, P, hsplit, ?_, ha⟩
    intro r hr j y f T2 P3 heq
    have hmem := hb.subset hr
    simp only [List.mem_append] at hmem
    rcases hmem with ((hm | hm) | (hm | hm)) | hm
    · subst heq
      simp [Calculate.Plan.flowing] at hm
    · exact hphase _ _ r hm j y f T2 P3 heq
    · subst heq
      simp [Calculate.Plan.flowing] at hm
    · exact hphase _ _ r hm j y f T2 P3 heq
    · subst heq
      simp at hm

/-- When the request to set Product 1 fails, no request to set Product 2 is made. -/
theorem body_product2 (ports : List CMaterialPort) (n : Nat)
    (feed1 feed2 product1 product2 : CMaterialPort)
    (h0 : ports[0]? = some feed1) (h1 : ports[1]? = some feed2)
    (h2 : ports[2]? = some product1) (h3 : ports[3]? = some product2)
    (splitFactor heatInput : Dbl) (composition : List Dbl) (flow T P : Dbl) (text : String)
    (hmem : Request.SetFromFlowTPX 2 composition flow T P ∈
      (Calculate.body n feed1 feed2 product1 product2 splitFactor heatInput).1)
    (hfail : Request.failure ports n (Request.SetFromFlowTPX 2 composition flow T P) =
      some text) (x : List Dbl) (f T2 P2 : Dbl) :
    Request.SetFromFlowTPX 3 x f T2 P2 ∉
      (Calculate.body n feed1 feed2 product1 product2 splitFactor heatInput).1 := by
  have hS := body_stops ports n feed1 feed2 product1 product2 h0 h1 h2 h3 splitFactor heatInput
  obtain ⟨before, after, c0, flow2, flow3, T0, P0, hsplit, hb, ha⟩ :=
    body_products ports n feed1 feed2 product1 product2 h0 h1 splitFactor heatInput
  intro hmem3
  rw [hsplit] at hmem hmem3
  have hnot2 : Request.SetFromFlowTPX 2 composition flow T P ∉ before :=
    fun hm => hb _ hm _ _ _ _ _ rfl
  have hnot3 : Request.SetFromFlowTPX 3 x f T2 P2 ∉ before :=
    fun hm => hb _ hm _ _ _ _ _ rfl
  rcases List.sublist_pair after _ _ ha with ha | ha | ha | ha
  · subst ha
    simp only [List.append_nil] at hmem
    exact hnot2 hmem
  · subst ha
    rcases List.mem_append.1 hmem3 with hm | hm
    · exact hnot3 hm
    · simp at hm
  · subst ha
    rcases List.mem_append.1 hmem with hm | hm
    · exact hnot2 hm
    · simp at hm
  · subst ha
    rcases List.mem_append.1 hmem with hm | hm
    · exact hnot2 hm
    · simp only [List.mem_cons, Request.SetFromFlowTPX.injEq, List.mem_singleton,
        List.not_mem_nil, or_false] at hm
      rcases hm with hm | hm
      · obtain ⟨_, hc, hf, hT, hP⟩ := hm
        subst hc
        subst hf
        subst hT
        subst hP
        have := (Traced.stops_at _ _ hS before _ _ text hsplit hfail).1
        cases this
      · exact absurd hm.1 (by decide)

theorem List.count_le_one_of_nodup {α : Type} [BEq α] [LawfulBEq α] (l : List α)
    (h : l.Nodup) (a : α) : l.count a ≤ 1 := by
  induction l with
  | nil => simp
  | cons b l ih =>
    obtain ⟨hnot, hl⟩ := List.nodup_cons.1 h
    rw [List.count_cons]
    by_cases hb : (b == a) = true
    · have hba : b = a := eq_of_beq hb
      subst hba
      rw [List.count_eq_zero_of_not_mem hnot]
      simp
    · rw [if_neg hb]
      exact ih hl

theorem Request.listed_le_one (ports : List CMaterialPort)
    (hphases : ∀ i, (Request.phases ports i).Nodup) (r : Request) :
    Request.listed ports r ≤ 1 := by
  cases hr : r.phase with
  | none => rw [Request.listed_other ports r hr]
  | some jp =>
    obtain ⟨j, q⟩ := jp
    rw [Request.listed_phase ports r j q hr]
    exact List.count_le_one_of_nodup _ (hphases j) q

/-- C24. Every `Calculate` of a unit operation with its four ports and two parameters
returns, and what follows holds of its requests to the material objects.  When a
request fails (the host fails, or the value has an unexpected number of elements),
nothing is requested after it, `Calculate` returns `ECapeUnknownHR` and the error
description is the text produced for that failure.  No request is made more often than
listed: a request about a phase of a feed once for every time the host lists the phase
among the present phases of the feed, every other request once; so no request is made
twice if the host lists no phase twice.  When the request to set Product 1 fails, no
request to set Product 2 is made. -/
theorem failures_stop_Calculate (u : CCPPMixerSplitterUnitOperation)
    (feed1 feed2 product1 product2 : CMaterialPort) (restPorts : List CMaterialPort)
    (par0 par1 : CRealParameter) (restPars : List CRealParameter)
    (hitems : u.portCollection.items = feed1 :: feed2 :: product1 :: product2 :: restPorts)
    (hpars : u.parameterCollection.items = par0 :: par1 :: restPars) :
    ∃ c, u.Calculate = some c ∧
      (∀ l1 r l2 text, c.requests = l1 ++ r :: l2 →
        Request.failure u.portCollection.items u.nCompounds r = some text →
        l2 = [] ∧ c.hr = HRESULT.ECapeUnknownHR ∧ c.self.errDesc = text) ∧
      (∀ r, c.requests.count r ≤ Request.listed u.portCollection.items r) ∧
      ((∀ i, (Request.phases u.portCollection.items i).Nodup) → c.requests.Nodup) ∧
      (∀ composition flow T P text,
        Request.SetFromFlowTPX 2 composition flow T P ∈ c.requests →
        Request.failure u.portCollection.items u.nCompounds
          (Request.SetFromFlowTPX 2 composition flow T P) = some text →
        ∀ x f T2 P2, Request.SetFromFlowTPX 3 x f T2 P2 ∉ c.requests) := by
  by_cases hvalid : u.valStatus = CapeValidationStatus.CAPE_VALID
  · have h0 : u.portCollection.items[0]? = some feed1 := by rw [hitems]; rfl
    have h1 : u.portCollection.items[1]? = some feed2 := by rw [hitems]; rfl
    have h2 : u.portCollection.items[2]? = some product1 := by rw [hitems]; rfl
    have h3 : u.portCollection.items[3]? = some product2 := by rw [hitems]; simp
    have hS := body_stops u.portCollection.items u.nCompounds feed1 feed2 product1 product2
      h0 h1 h2 h3 par0.value par1.value
    have hcount := body_count u.portCollection.items u.nCompounds feed1 feed2 product1
      product2 h0 h1 par0.value par1.value
    have hprod := body_product2 u.portCollection.items u.nCompounds feed1 feed2 product1
      product2 h0 h1 h2 h3 par0.value par1.value
    have hdef := body_defined u.nCompounds feed1 feed2 product1 product2 par0.value par1.value
    obtain ⟨c, hc, hreq, _, herr⟩ := Calculate_of_body u feed1 feed2 product1 product2
      restPorts par0 par1 restPars hitems hpars hvalid _ _ rfl hdef
    refine ⟨c, hc, ?_, ?_, ?_, ?_⟩
    · intro l1 r l2 text hl hf
      rw [hreq] at hl
      obtain ⟨hl2, hres⟩ := Traced.stops_at _ _ hS l1 r l2 text hl hf
      obtain ⟨hhr, hdesc, _⟩ := herr text hres
      exact ⟨hl2, hhr, hdesc⟩
    · intro r
      rw [hreq]
      exact hcount r
    · intro hphases
      rw [hreq]
      apply List.nodup_iff_count_le_one.2
      intro r
      exact (hcount r).trans (Request.listed_le_one _ hphases r)
    · intro composition flow T P text hmem hf x f T2 P2
      rw [hreq] at hmem ⊢
      exact hprod composition flow T P text hmem hf x f T2 P2
  · have hnone : ∃ c, u.Calculate = some c ∧ c.requests = [] := by
      unfold Calculate
      cases hv : u.valStatus with
      | CAPE_VALID => exact absurd hv hvalid
      | CAPE_INVALID => simp
      | CAPE_NOT_VALIDATED => simp
    obtain ⟨c, hc, hreq⟩ := hnone
    refine ⟨c, hc, ?_, ?_, ?_, ?_⟩
    · intro l1 r l2 text hl
      rw [hreq] at hl
      simp at hl
    · intro r
      rw [hreq]
      simp
    · intro _
      rw [hreq]
      exact List.nodup_nil
    · intro composition flow T P text hmem
      rw [hreq] at hmem
      cases hmem

/-- C24, as stated, fails for a feed whose host lists the phase "Vapor" twice among
the present phases: `Calculate` succeeds and has requested the phase fraction of
"Vapor" from the duplicate of the feed twice. -/
theorem Calculate_repeats_phase_request :
    ∃ c, Sample.twice.Calculate = some c ∧ c.hr = HRESULT.NOERROR ∧
      c.requests.count
        (Request.GetSinglePhaseProperty 0 "phaseFraction" (some "Vapor") none (some "mole")) =
        2 ∧
      ¬ c.requests.Nodup := by
  refine ⟨_, by with_unfolding_all rfl, ?_, ?_, ?_⟩ <;> decide!

/-- The unit operation whose Product 1 refuses what is set: `Calculate` fails with the
text of the refusal, the request to set Product 1 is the last one, and nothing is set
on Product 2. -/
theorem Calculate_blocked :
    Sample.blocked.Calculate.map (fun c => (c.hr, c.self.errDesc, c.requests.getLast?)) =
      some (HRESULT.ECapeUnknownHR, "cannot set",
        some (Request.SetFromFlowTPX 2 [Dbl.fin (1 / 2), Dbl.fin (1 / 2)] (Dbl.fin 1)
          (Dbl.fin (55 / 4)) (Dbl.fin 100))) ∧
    Request.failure Sample.blocked.portCollection.items Sample.blocked.nCompounds
      (Request.SetFromFlowTPX 2 [Dbl.fin (1 / 2), Dbl.fin (1 / 2)] (Dbl.fin 1)
        (Dbl.fin (55 / 4)) (Dbl.fin 100)) = some "cannot set" := by
  decide!

/-- C24, for the unit operation whose Product 1 refuses what is set. -/
theorem failures_stop_Calculate_witness :
    ∃ c, Sample.blocked.Calculate = some c ∧
      (∀ l1 r l2 text, c.requests = l1 ++ r :: l2 →
        Request.failure Sample.blocked.portCollection.items Sample.blocked.nCompounds r =
          some text →
        l2 = [] ∧ c.hr = HRESULT.ECapeUnknownHR ∧ c.self.errDesc = text) ∧
      (∀ r, c.requests.count r ≤ Request.listed Sample.blocked.portCollection.items r) ∧
      ((∀ i, (Request.phases Sample.blocked.portCollection.items i).Nodup) →
        c.requests.Nodup) ∧
      (∀ composition flow T P text,
        Request.SetFromFlowTPX 2 composition flow T P ∈ c.requests →
        Request.failure Sample.blocked.portCollection.items Sample.blocked.nCompounds
          (Request.SetFromFlowTPX 2 composition flow T P) = some text →
        ∀ x f T2 P2, Request.SetFromFlowTPX 3 x f T2 P2 ∉ c.requests) :=
  failures_stop_Calculate Sample.blocked (Sample.feed1 (some Sample.feedA))
    (Sample.feed2 (some Sample.feedB)) (Sample.product1 (some Sample.refusing))
    (Sample.product2 (some Sample.product)) [] (Sample.splitFactor (Dbl.fin (1 / 4)))
    (Sample.heatInput (Dbl.fin 500)) [] rfl rfl


/-! ## The split in the arithmetic of the machine -/

/-- The numbers of the counterexample are rounded as the machine rounds them: 0.2 is
3602879701896397 / 2^54, and 3.0 * 0.2 is 0.6000000000000001. -/
theorem Binary64.sample_products :
    Binary64.ofRat (1 / 5) = ⟨Dbl.fin (3602879701896397 / 18014398509481984)⟩ ∧
    Binary64.ofRat 3 * Binary64.ofRat (1 / 5) =
      ⟨Dbl.fin (5404319552844596 / 9007199254740992)⟩ ∧
    (1 : Binary64) - Binary64.ofRat (1 / 5) =
      ⟨Dbl.fin (7205759403792794 / 9007199254740992)⟩ ∧
    Binary64.ofRat 3 * ((1 : Binary64) - Binary64.ofRat (1 / 5)) =
      ⟨Dbl.fin (5404319552844596 / 2251799813685248)⟩ := by
  decide!

/-- C8, as stated, fails in the arithmetic of `double`: with both product ports
connected, a total flow of 3.0 and a split factor of 0.2, the flows `Calculate`
computes for Product 1 and Product 2, `total*s` and `total*(1-s)`, are
0.6000000000000001 and 2.4000000000000004; they add up to 3.0000000000000004
(6755399441055745 / 2^51), not to the total flow 3.0. -/
theorem productFlow_sum_rounded :
    Calculate.productFlow 2 (Binary64.ofRat 3) (Binary64.ofRat (1 / 5)) 2 +
      Calculate.productFlow 2 (Binary64.ofRat 3) (Binary64.ofRat (1 / 5)) 3 =
      ⟨Dbl.fin (6755399441055745 / 2251799813685248)⟩ ∧
    Calculate.productFlow 2 (Binary64.ofRat 3) (Binary64.ofRat (1 / 5)) 2 +
      Calculate.productFlow 2 (Binary64.ofRat 3) (Binary64.ofRat (1 / 5)) 3 ≠
      Binary64.ofRat 3 := by
  decide!

/-! ## A split factor that is not a number -/

/-- C9, at its failing input.  The idle sample unit (valid, two connected feeds
without flow, both products connected, heat input zero) is loaded from a well-formed
stream that carries a not-a-number as the split factor: `Load` returns `S_OK` and
stores it, the unit operation stays valid, and `Calculate` then succeeds and sets on
both products the flow `0 * NaN`, which is not-a-number and not zero. -/
theorem Calculate_zero_flow_nan_split :
    ((Load binary64.layout (Sample.idle (Dbl.fin 0)) (some Sample.streamNaN)).bind
      (fun l => l.self.Calculate.map (fun c =>
        (l.hr, l.self.valStatus, l.self.parameterCollection.items.map CRealParameter.value,
          c.hr, (Request.writes c.requests).map Request.flow)))) =
      some (HRESULT.S_OK, CapeValidationStatus.CAPE_VALID, [Dbl.nan, Dbl.fin 0],
        HRESULT.NOERROR, [Dbl.nan, Dbl.nan]) := by
  decide!

/-! ## The failure texts of the other methods of the wrappers -/

end MixerSplitter
